import Mathlib

/-!
# HDTN LTP core: SDNV codec, fragment set, segment parser

A shallow embedding of the parts of `common/util/src/Sdnv.cpp`,
`common/util/src/FragmentSet.cpp` and `common/ltp/src/Ltp.cpp` that the
properties below talk about.

Conventions of the embedding:
* a `uint64_t` is a `Nat` below `2 ^ 64`; every operation that can wrap in C
  is written with an explicit `% 2 ^ 64`;
* a `uint8_t` is a `Nat` below `256`; a byte buffer is a `List Nat`;
* a function that writes into a caller supplied buffer returns the list of
  the bytes it wrote (its C return value is the length of that list);
* the build modelled is the portable one (`USE_SDNV_FAST` undefined), where
  `SdnvDecodeU64` is `SdnvDecodeU64Classic`, `SdnvEncodeU64BufSize10` is
  `SdnvEncodeU64ClassicBufSize10` and `SdnvDecodeArrayU64` is
  `SdnvDecodeArrayU64Classic`.
-/

namespace HDTN

/-! ## Machine integers -/

/-- The modulus of `uint64_t` arithmetic. -/
def U64 : Nat := 2 ^ 64

/-- The cast `(uint8_t) x`. -/
def toU8 (x : Nat) : Nat := x % 256

/-- The cast `static_cast<unsigned int>(x)`. -/
def toU32 (x : Nat) : Nat := x % 2 ^ 32

/-! ## Sdnv.cpp -/

/-- The macro `SDNV64_MAX_1_BYTE`, `((ONE_U64 << 7U) - 1U)`. -/
def SDNV64_MAX_1_BYTE : Nat := (1 <<< 7) - 1
/-- The macro `SDNV64_MAX_2_BYTE`. -/
def SDNV64_MAX_2_BYTE : Nat := (1 <<< 14) - 1
/-- The macro `SDNV64_MAX_3_BYTE`. -/
def SDNV64_MAX_3_BYTE : Nat := (1 <<< 21) - 1
/-- The macro `SDNV64_MAX_4_BYTE`. -/
def SDNV64_MAX_4_BYTE : Nat := (1 <<< 28) - 1
/-- The macro `SDNV64_MAX_5_BYTE`. -/
def SDNV64_MAX_5_BYTE : Nat := (1 <<< 35) - 1
/-- The macro `SDNV64_MAX_6_BYTE`. -/
def SDNV64_MAX_6_BYTE : Nat := (1 <<< 42) - 1
/-- The macro `SDNV64_MAX_7_BYTE`. -/
def SDNV64_MAX_7_BYTE : Nat := (1 <<< 49) - 1
/-- The macro `SDNV64_MAX_8_BYTE`. -/
def SDNV64_MAX_8_BYTE : Nat := (1 <<< 56) - 1
/-- The macro `SDNV64_MAX_9_BYTE`. -/
def SDNV64_MAX_9_BYTE : Nat := (1 <<< 63) - 1

/-- The last byte of an encoding, `(uint8_t)(v & 0x7f)`. -/
def sdnvLastByte (v : Nat) : Nat := toU8 (v &&& 0x7f)

/-- A leading byte of an encoding, `(uint8_t)(((v >> s) & 0x7f) | 0x80)`. -/
def sdnvContByte (v s : Nat) : Nat := toU8 (((v >>> s) &&& 0x7f) ||| 0x80)

/-- `SdnvEncodeU64Classic(outputEncoded, valToEncodeU64, bufferSize)`: the bytes
written to `outputEncoded[0 ..]`; the C return value is the length of the
list, `0` (nothing written) when the buffer is too small. -/
def SdnvEncodeU64Classic (valToEncodeU64 bufferSize : Nat) : List Nat :=
  let v := valToEncodeU64
  if v ≤ SDNV64_MAX_1_BYTE then
    if bufferSize < 1 then [] else
    [sdnvLastByte v]
  else if v ≤ SDNV64_MAX_2_BYTE then
    if bufferSize < 2 then [] else
    [sdnvContByte v 7, sdnvLastByte v]
  else if v ≤ SDNV64_MAX_3_BYTE then
    if bufferSize < 3 then [] else
    [sdnvContByte v 14, sdnvContByte v 7, sdnvLastByte v]
  else if v ≤ SDNV64_MAX_4_BYTE then
    if bufferSize < 4 then [] else
    [sdnvContByte v 21, sdnvContByte v 14, sdnvContByte v 7, sdnvLastByte v]
  else if v ≤ SDNV64_MAX_5_BYTE then
    if bufferSize < 5 then [] else
    [sdnvContByte v 28, sdnvContByte v 21, sdnvContByte v 14, sdnvContByte v 7, sdnvLastByte v]
  else if v ≤ SDNV64_MAX_6_BYTE then
    if bufferSize < 6 then [] else
    [sdnvContByte v 35, sdnvContByte v 28, sdnvContByte v 21, sdnvContByte v 14,
      sdnvContByte v 7, sdnvLastByte v]
  else if v ≤ SDNV64_MAX_7_BYTE then
    if bufferSize < 7 then [] else
    [sdnvContByte v 42, sdnvContByte v 35, sdnvContByte v 28, sdnvContByte v 21,
      sdnvContByte v 14, sdnvContByte v 7, sdnvLastByte v]
  else if v ≤ SDNV64_MAX_8_BYTE then
    if bufferSize < 8 then [] else
    [sdnvContByte v 49, sdnvContByte v 42, sdnvContByte v 35, sdnvContByte v 28,
      sdnvContByte v 21, sdnvContByte v 14, sdnvContByte v 7, sdnvLastByte v]
  else if v ≤ SDNV64_MAX_9_BYTE then
    if bufferSize < 9 then [] else
    [sdnvContByte v 56, sdnvContByte v 49, sdnvContByte v 42, sdnvContByte v 35,
      sdnvContByte v 28, sdnvContByte v 21, sdnvContByte v 14, sdnvContByte v 7, sdnvLastByte v]
  else
    if bufferSize < 10 then [] else
    [sdnvContByte v 63, sdnvContByte v 56, sdnvContByte v 49, sdnvContByte v 42,
      sdnvContByte v 35, sdnvContByte v 28, sdnvContByte v 21, sdnvContByte v 14,
      sdnvContByte v 7, sdnvLastByte v]

/-- `SdnvEncodeU64ClassicBufSize10(outputEncoded, valToEncodeU64)`: the bytes
written; the C return value is the length of the list. -/
def SdnvEncodeU64ClassicBufSize10 (valToEncodeU64 : Nat) : List Nat :=
  let v := valToEncodeU64
  if v ≤ SDNV64_MAX_1_BYTE then
    [sdnvLastByte v]
  else if v ≤ SDNV64_MAX_2_BYTE then
    [sdnvContByte v 7, sdnvLastByte v]
  else if v ≤ SDNV64_MAX_3_BYTE then
    [sdnvContByte v 14, sdnvContByte v 7, sdnvLastByte v]
  else if v ≤ SDNV64_MAX_4_BYTE then
    [sdnvContByte v 21, sdnvContByte v 14, sdnvContByte v 7, sdnvLastByte v]
  else if v ≤ SDNV64_MAX_5_BYTE then
    [sdnvContByte v 28, sdnvContByte v 21, sdnvContByte v 14, sdnvContByte v 7, sdnvLastByte v]
  else if v ≤ SDNV64_MAX_6_BYTE then
    [sdnvContByte v 35, sdnvContByte v 28, sdnvContByte v 21, sdnvContByte v 14,
      sdnvContByte v 7, sdnvLastByte v]
  else if v ≤ SDNV64_MAX_7_BYTE then
    [sdnvContByte v 42, sdnvContByte v 35, sdnvContByte v 28, sdnvContByte v 21,
      sdnvContByte v 14, sdnvContByte v 7, sdnvLastByte v]
  else if v ≤ SDNV64_MAX_8_BYTE then
    [sdnvContByte v 49, sdnvContByte v 42, sdnvContByte v 35, sdnvContByte v 28,
      sdnvContByte v 21, sdnvContByte v 14, sdnvContByte v 7, sdnvLastByte v]
  else if v ≤ SDNV64_MAX_9_BYTE then
    [sdnvContByte v 56, sdnvContByte v 49, sdnvContByte v 42, sdnvContByte v 35,
      sdnvContByte v 28, sdnvContByte v 21, sdnvContByte v 14, sdnvContByte v 7, sdnvLastByte v]
  else
    [sdnvContByte v 63, sdnvContByte v 56, sdnvContByte v 49, sdnvContByte v 42,
      sdnvContByte v 35, sdnvContByte v 28, sdnvContByte v 21, sdnvContByte v 14,
      sdnvContByte v 7, sdnvLastByte v]

/-- Modelled from the spec: the return values
`DECODE_FAILURE_INVALID_SDNV_RETURN_VALUE` and
`DECODE_FAILURE_NOT_ENOUGH_ENCODED_BYTES_RETURN_VALUE` are macros of `Sdnv.h`,
which is not among the sources. The spec names the two failures `INVALID` and
`NEED_MORE`; the return value of a decode is therefore one of: a decoded
value, the invalid-SDNV marker, the not-enough-bytes marker. -/
inductive SdnvDecodeReturn where
  | value (v : Nat)
  | DECODE_FAILURE_INVALID_SDNV_RETURN_VALUE
  | DECODE_FAILURE_NOT_ENOUGH_ENCODED_BYTES_RETURN_VALUE
  deriving DecidableEq, Repr

/-- What a single decode hands back: its return value and `*numBytes`. -/
structure SdnvDecodeResult where
  ret : SdnvDecodeReturn
  numBytes : Nat
  deriving DecidableEq, Repr

/-- The `for (byteCount = 1; byteCount <= byteCountMax; ++byteCount)` loop of
`SdnvDecodeU64Classic` together with the code after it. `iters` is the number
of iterations still allowed, `byteCountMax + 1 - byteCount`; the byte read by
`*inputEncoded++` in iteration `byteCount` is `inputEncoded[byteCount - 1]`. -/
def SdnvDecodeU64Classic.loop (inputEncoded : List Nat) :
    (iters : Nat) → (byteCount : Nat) → (result : Nat) → SdnvDecodeResult
  | 0, byteCount, _ =>
    if byteCount = 11 then ⟨.DECODE_FAILURE_INVALID_SDNV_RETURN_VALUE, 0⟩
    else ⟨.DECODE_FAILURE_NOT_ENOUGH_ENCODED_BYTES_RETURN_VALUE, 0⟩
  | iters + 1, byteCount, result =>
    let result := (result <<< 7) % U64
    let currentByte := inputEncoded.getD (byteCount - 1) 0
    let result := (result + (currentByte &&& 0x7f)) % U64
    if currentByte &&& 0x80 = 0 then
      if byteCount = 10 ∧ inputEncoded.getD 0 0 > 0x81 then
        ⟨.DECODE_FAILURE_INVALID_SDNV_RETURN_VALUE, 0⟩
      else
        ⟨.value result, byteCount⟩
    else
      SdnvDecodeU64Classic.loop inputEncoded iters (byteCount + 1) result

/-- `SdnvDecodeU64Classic(inputEncoded, numBytes, bufferSize)`. The caller
guarantees `bufferSize` readable bytes at `inputEncoded`. -/
def SdnvDecodeU64Classic (inputEncoded : List Nat) (bufferSize : Nat) : SdnvDecodeResult :=
  let byteCountMax := min 10 bufferSize
  SdnvDecodeU64Classic.loop inputEncoded byteCountMax 1 0

/-- What `SdnvDecodeArrayU64Classic` hands back: its return value, the values
it stored to `decodedValues[0 ..]` in order, `numBytesTakenToDecode` and
`decodeErrorDetected`. -/
structure SdnvDecodeArrayResult where
  numDecoded : Nat
  decodedValues : List Nat
  numBytesTakenToDecode : Nat
  decodeErrorDetected : Bool
  deriving DecidableEq, Repr

/-- The `while (decodedRemaining)` loop of `SdnvDecodeArrayU64Classic` and the
two statements after it. `serialization` is the not yet consumed input (the
pointer `serialization`), `taken` is `serialization - serializationBase` and
`stored` the values written so far. -/
def SdnvDecodeArrayU64Classic.loop :
    (decodedRemaining : Nat) → (serialization : List Nat) → (bufferSize : Nat) →
    (taken : Nat) → (stored : List Nat) → SdnvDecodeArrayResult
  | 0, _, _, taken, stored => ⟨toU32 stored.length, stored, taken, false⟩
  | decodedRemaining + 1, serialization, bufferSize, taken, stored =>
    let r := SdnvDecodeU64Classic serialization bufferSize
    if r.numBytes = 0 then
      if r.ret = .DECODE_FAILURE_INVALID_SDNV_RETURN_VALUE then
        ⟨0, stored, 0, true⟩
      else
        ⟨toU32 stored.length, stored, taken, false⟩
    else
      match r.ret with
      | .value decodedValue =>
        SdnvDecodeArrayU64Classic.loop decodedRemaining (serialization.drop r.numBytes)
          ((bufferSize + U64 - r.numBytes) % U64) (taken + r.numBytes) (stored ++ [decodedValue])
      | _ => ⟨toU32 stored.length, stored, taken, false⟩

/-- `SdnvDecodeArrayU64Classic(serialization, numBytesTakenToDecode,
decodedValues, decodedRemaining, bufferSize, decodeErrorDetected)`. -/
def SdnvDecodeArrayU64Classic (serialization : List Nat) (decodedRemaining bufferSize : Nat) :
    SdnvDecodeArrayResult :=
  SdnvDecodeArrayU64Classic.loop decodedRemaining serialization bufferSize 0 []

/-- A run of assignments `outputEncoded[i] = b`, in program order, applied to
the memory at `outputEncoded` (a map from index to byte). -/
def storeBytes (outputEncoded : Nat → Nat) (assignments : List (Nat × Nat)) : Nat → Nat :=
  assignments.foldl (fun m a => Function.update m a.1 a.2) outputEncoded

/-- `SdnvEncodeU64Classic(outputEncoded, valToEncodeU64, bufferSize)` with the
output buffer explicit: the C return value and the memory at `outputEncoded`
after the call. `SdnvEncodeU64Classic` above is the list of the bytes this
function leaves at `outputEncoded[0 .. return value - 1]`. -/
def SdnvEncodeU64Classic.store (outputEncoded : Nat → Nat) (valToEncodeU64 bufferSize : Nat) :
    Nat × (Nat → Nat) :=
  let v := valToEncodeU64
  if v ≤ SDNV64_MAX_1_BYTE then
    if bufferSize < 1 then (0, outputEncoded) else
    (1, storeBytes outputEncoded
      [(0, sdnvLastByte v)])
  else if v ≤ SDNV64_MAX_2_BYTE then
    if bufferSize < 2 then (0, outputEncoded) else
    (2, storeBytes outputEncoded
      [(1, sdnvLastByte v), (0, sdnvContByte v 7)])
  else if v ≤ SDNV64_MAX_3_BYTE then
    if bufferSize < 3 then (0, outputEncoded) else
    (3, storeBytes outputEncoded
      [(2, sdnvLastByte v), (1, sdnvContByte v 7), (0, sdnvContByte v 14)])
  else if v ≤ SDNV64_MAX_4_BYTE then
    if bufferSize < 4 then (0, outputEncoded) else
    (4, storeBytes outputEncoded
      [(3, sdnvLastByte v), (2, sdnvContByte v 7), (1, sdnvContByte v 14),
       (0, sdnvContByte v 21)])
  else if v ≤ SDNV64_MAX_5_BYTE then
    if bufferSize < 5 then (0, outputEncoded) else
    (5, storeBytes outputEncoded
      [(4, sdnvLastByte v), (3, sdnvContByte v 7), (2, sdnvContByte v 14),
       (1, sdnvContByte v 21), (0, sdnvContByte v 28)])
  else if v ≤ SDNV64_MAX_6_BYTE then
    if bufferSize < 6 then (0, outputEncoded) else
    (6, storeBytes outputEncoded
      [(5, sdnvLastByte v), (4, sdnvContByte v 7), (3, sdnvContByte v 14),
       (2, sdnvContByte v 21), (1, sdnvContByte v 28), (0, sdnvContByte v 35)])
  else if v ≤ SDNV64_MAX_7_BYTE then
    if bufferSize < 7 then (0, outputEncoded) else
    (7, storeBytes outputEncoded
      [(6, sdnvLastByte v), (5, sdnvContByte v 7), (4, sdnvContByte v 14),
       (3, sdnvContByte v 21), (2, sdnvContByte v 28), (1, sdnvContByte v 35),
       (0, sdnvContByte v 42)])
  else if v ≤ SDNV64_MAX_8_BYTE then
    if bufferSize < 8 then (0, outputEncoded) else
    (8, storeBytes outputEncoded
      [(7, sdnvLastByte v), (6, sdnvContByte v 7), (5, sdnvContByte v 14),
       (4, sdnvContByte v 21), (3, sdnvContByte v 28), (2, sdnvContByte v 35),
       (1, sdnvContByte v 42), (0, sdnvContByte v 49)])
  else if v ≤ SDNV64_MAX_9_BYTE then
    if bufferSize < 9 then (0, outputEncoded) else
    (9, storeBytes outputEncoded
      [(8, sdnvLastByte v), (7, sdnvContByte v 7), (6, sdnvContByte v 14),
       (5, sdnvContByte v 21), (4, sdnvContByte v 28), (3, sdnvContByte v 35),
       (2, sdnvContByte v 42), (1, sdnvContByte v 49), (0, sdnvContByte v 56)])
  else
    if bufferSize < 10 then (0, outputEncoded) else
    (10, storeBytes outputEncoded
      [(9, sdnvLastByte v), (8, sdnvContByte v 7), (7, sdnvContByte v 14),
       (6, sdnvContByte v 21), (5, sdnvContByte v 28), (4, sdnvContByte v 35),
       (3, sdnvContByte v 42), (2, sdnvContByte v 49), (1, sdnvContByte v 56),
       (0, sdnvContByte v 63)])

/-- The macro `SDNV32_MAX_1_BYTE`, `((ONE_U32 << 7U) - 1U)`. -/
def SDNV32_MAX_1_BYTE : Nat := (1 <<< 7) - 1
/-- The macro `SDNV32_MAX_2_BYTE`. -/
def SDNV32_MAX_2_BYTE : Nat := (1 <<< 14) - 1
/-- The macro `SDNV32_MAX_3_BYTE`. -/
def SDNV32_MAX_3_BYTE : Nat := (1 <<< 21) - 1
/-- The macro `SDNV32_MAX_4_BYTE`. -/
def SDNV32_MAX_4_BYTE : Nat := (1 <<< 28) - 1

/-- `SdnvEncodeU32Classic(outputEncoded, valToEncodeU32, bufferSize)`: the bytes
written to `outputEncoded[0 ..]`; the C return value is the length of the
list, `0` (nothing written) when the buffer is too small. -/
def SdnvEncodeU32Classic (valToEncodeU32 bufferSize : Nat) : List Nat :=
  let v := valToEncodeU32
  if v ≤ SDNV32_MAX_1_BYTE then
    if bufferSize < 1 then [] else
    [sdnvLastByte v]
  else if v ≤ SDNV32_MAX_2_BYTE then
    if bufferSize < 2 then [] else
    [sdnvContByte v 7, sdnvLastByte v]
  else if v ≤ SDNV32_MAX_3_BYTE then
    if bufferSize < 3 then [] else
    [sdnvContByte v 14, sdnvContByte v 7, sdnvLastByte v]
  else if v ≤ SDNV32_MAX_4_BYTE then
    if bufferSize < 4 then [] else
    [sdnvContByte v 21, sdnvContByte v 14, sdnvContByte v 7, sdnvLastByte v]
  else
    if bufferSize < 5 then [] else
    [sdnvContByte v 28, sdnvContByte v 21, sdnvContByte v 14, sdnvContByte v 7, sdnvLastByte v]

/-- The table `mask0x80Indices[70]`. -/
def mask0x80Indices : List Nat :=
  [0, 0, 0, 0, 0, 0, 0,
   1, 1, 1, 1, 1, 1, 1,
   2, 2, 2, 2, 2, 2, 2,
   3, 3, 3, 3, 3, 3, 3,
   4, 4, 4, 4, 4, 4, 4,
   5, 5, 5, 5, 5, 5, 5,
   6, 6, 6, 6, 6, 6, 6,
   7, 7, 7, 7, 7, 7, 7,
   8, 8, 8, 8, 8, 8, 8,
   9, 9, 9, 9, 9, 9, 9]

/-- The library function `boost::multiprecision::detail::find_msb<uint64_t>`:
the index of the most significant set bit of a non-zero value. -/
def find_msb (x : Nat) : Nat := Nat.log2 x

/-- `SdnvGetNumBytesRequiredToEncode(valToEncodeU64)` (the `#else` branch, the one
compiled): `valToEncodeU64 == 0` is `1` when the value is zero and `0`
otherwise. -/
def SdnvGetNumBytesRequiredToEncode (valToEncodeU64 : Nat) : Nat :=
  let msb := find_msb (valToEncodeU64 ||| (if valToEncodeU64 = 0 then 1 else 0))
  mask0x80Indices.getD msb 0 + 1

/-! ### Proof devices for the SDNV codec -/

/-- The accumulation `result = (result << 7) + (byte & 0x7f)` of the decoder over
a run of bytes, starting from `r`. -/
def accum (r : Nat) (bs : List Nat) : Nat :=
  bs.foldl (fun r b => (r * 128 % U64 + b % 128) % U64) r

/-- The leading bytes of the encoding of `v` that carry the 7-bit groups
`k, k-1, .., 1`, each with the continuation bit set. -/
def contGroups (v : Nat) : Nat → List Nat
  | 0 => []
  | k + 1 => (v / 2 ^ (7 * (k + 1)) % 128 + 128) :: contGroups v k

/-- The concatenation of the encodings of a list of values. -/
def sdnvConcat : List Nat → List Nat
  | [] => []
  | v :: vs => SdnvEncodeU64Classic v 10 ++ sdnvConcat vs

/-- The outcome of decoding several SDNVs one after the other, as the
specification words it: either an invalid SDNV was met, or decoding stopped
with the values read so far and the number of bytes they occupy. -/
inductive RepeatedDecodeOutcome where
  | invalid
  | stopped (values : List Nat) (numBytes : Nat)
  deriving DecidableEq, Repr

/-- Specification of the bulk decoder: call the single-value decoder at the
advancing offset `offset` of the buffer, at most `n` times; stop at the first
not-enough-bytes answer; report an invalid SDNV as such. -/
def repeatedSingleDecodes (buffer : List Nat) (bufferSize : Nat) :
    (n : Nat) → (offset : Nat) → RepeatedDecodeOutcome
  | 0, offset => .stopped [] offset
  | n + 1, offset =>
    match (SdnvDecodeU64Classic (buffer.drop offset) (bufferSize - offset)) with
    | ⟨.value v, numBytes⟩ =>
      match repeatedSingleDecodes buffer bufferSize n (offset + numBytes) with
      | .invalid => .invalid
      | .stopped values total => .stopped (v :: values) total
    | ⟨.DECODE_FAILURE_INVALID_SDNV_RETURN_VALUE, _⟩ => .invalid
    | ⟨.DECODE_FAILURE_NOT_ENOUGH_ENCODED_BYTES_RETURN_VALUE, _⟩ => .stopped [] offset

/-- The sum over `i` of `(b[i] AND 0x7f) * 128 ^ (n - 1 - i)` for the bytes
`b[0 .. n-1]`: the 7-bit groups read most significant group first. -/
def sdnvGroupsValue : List Nat → Nat
  | [] => 0
  | b :: bs => (b &&& 0x7f) * 128 ^ bs.length + sdnvGroupsValue bs

/-! ## FragmentSet.cpp

A `std::set<data_fragment_t>` is modelled by the list of its elements in
iteration order. `lower_bound`, `insert` and `erase` are the operations of
`std::set` on that list, driven by `data_fragment_t::operator<` only, as in
the C++ container. -/

namespace FragmentSet

/-- `FragmentSet::data_fragment_t`, the closed range `[beginIndex, endIndex]`
of two `uint64_t`. -/
structure data_fragment_t where
  beginIndex : Nat
  endIndex : Nat
  deriving DecidableEq, Repr

/-- `data_fragment_t::operator<` (no overlap no abut),
`return ((endIndex+1) < o.beginIndex);` with the addition in `uint64_t`. -/
def data_fragment_t.lt (a o : data_fragment_t) : Bool :=
  decide ((a.endIndex + 1) % U64 < o.beginIndex)

/-- `std::set::lower_bound(key)`: the elements of the set from the first one
that is not less than `key` on (the empty list is `end()`). -/
def set_lower_bound (fragmentSet : List data_fragment_t) (key : data_fragment_t) :
    List data_fragment_t :=
  fragmentSet.dropWhile (fun e => e.lt key)

/-- The `std::pair<iterator, bool>` that `std::set::insert` returns, with the
set after the call: `first` is the element the iterator points to. -/
structure set_insert_result where
  set : List data_fragment_t
  first : data_fragment_t
  second : Bool
  deriving DecidableEq, Repr

/-- `std::set::insert(key)` (a hint, when given, does not change the result).
The elements less than `key` are skipped; if the first element that is not
less than `key` is not greater than it either, it is equivalent to `key`:
nothing is inserted and the iterator points to it; otherwise `key` is
inserted in front of it. -/
def set_insert : List data_fragment_t → data_fragment_t → set_insert_result
  | [], key => ⟨[key], key, true⟩
  | e :: rest, key =>
    if e.lt key then
      let res := set_insert rest key
      ⟨e :: res.set, res.first, res.second⟩
    else if key.lt e then ⟨key :: e :: rest, key, true⟩
    else ⟨e :: rest, e, false⟩

/-- `std::set::erase(iterator)`, the iterator pointing to the element `e`. -/
def set_erase (fragmentSet : List data_fragment_t) (e : data_fragment_t) : List data_fragment_t :=
  fragmentSet.erase e

/-- The `while (true)` loop of `FragmentSet::InsertFragment`; every iteration
that does not return erases an element, `fuel` bounds their number. The
result is the set after the call and the returned flag. -/
def InsertFragment.loop :
    Nat → List data_fragment_t → data_fragment_t → Bool → Option (List data_fragment_t × Bool)
  | 0, _, _, _ => none
  | fuel + 1, fragmentSet, key, modified =>
    let res := set_insert fragmentSet key
    if res.second = true then
      some (res.set, true)
    else
      let keyInMapBeginIndex := res.first.beginIndex
      let keyInMapEndIndex := res.first.endIndex
      if key.beginIndex ≥ keyInMapBeginIndex ∧ key.endIndex ≤ keyInMapEndIndex then
        some (fragmentSet, modified)
      else
        InsertFragment.loop fuel (set_erase fragmentSet res.first)
          ⟨min key.beginIndex keyInMapBeginIndex, max key.endIndex keyInMapEndIndex⟩ true

/-- `FragmentSet::InsertFragment(fragmentSet, key)`: the set after the call and
the returned flag (`none` only if the loop did not finish within one more
iteration than the set has elements, which `InsertFragment_total` excludes). -/
def InsertFragment (fragmentSet : List data_fragment_t) (key : data_fragment_t) :
    Option (List data_fragment_t × Bool) :=
  InsertFragment.loop (fragmentSet.length + 1) fragmentSet key false

/-- The `for` loop of `FragmentSet::RemoveFragment`. `it` lists the elements
from the iterator `it` to `end()`, `fragmentSet` is the whole set. Each
replacement range is a part of the element just erased, so it is inserted in
front of the element the already advanced iterator points to. -/
def RemoveFragment.loop (deleteBegin deleteEnd : Nat) :
    (it : List data_fragment_t) → (fragmentSet : List data_fragment_t) → (modified : Bool) →
    List data_fragment_t × Bool
  | [], fragmentSet, modified => (fragmentSet, modified)
  | e :: it, fragmentSet, modified =>
    let keyInMapBeginIndex := e.beginIndex
    let keyInMapEndIndex := e.endIndex
    if deleteBegin > keyInMapEndIndex then
      (fragmentSet, modified)
    else if deleteEnd < keyInMapBeginIndex then
      RemoveFragment.loop deleteBegin deleteEnd it fragmentSet modified
    else if deleteBegin ≤ keyInMapBeginIndex ∧ deleteEnd ≥ keyInMapEndIndex then
      RemoveFragment.loop deleteBegin deleteEnd it (set_erase fragmentSet e) true
    else if deleteBegin > keyInMapBeginIndex ∧ deleteEnd < keyInMapEndIndex then
      let replacementKeyLeft : data_fragment_t := ⟨keyInMapBeginIndex, (deleteBegin + U64 - 1) % U64⟩
      let replacementKeyRight : data_fragment_t := ⟨(deleteEnd + 1) % U64, keyInMapEndIndex⟩
      if fragmentSet.head? ≠ some e then
        let s := set_erase fragmentSet e
        let s := (set_insert s replacementKeyRight).set
        let s := (set_insert s replacementKeyLeft).set
        RemoveFragment.loop deleteBegin deleteEnd it s true
      else
        let s := set_erase fragmentSet e
        let s := (set_insert s replacementKeyLeft).set
        let s := (set_insert s replacementKeyRight).set
        RemoveFragment.loop deleteBegin deleteEnd it s true
    else if deleteBegin ≤ keyInMapBeginIndex ∧ deleteEnd ≥ keyInMapBeginIndex then
      let replacementKey : data_fragment_t := ⟨(deleteEnd + 1) % U64, keyInMapEndIndex⟩
      let s := set_erase fragmentSet e
      let s := (set_insert s replacementKey).set
      RemoveFragment.loop deleteBegin deleteEnd it s true
    else if deleteBegin ≤ keyInMapEndIndex ∧ deleteEnd ≥ keyInMapEndIndex then
      let replacementKey : data_fragment_t := ⟨keyInMapBeginIndex, (deleteBegin + U64 - 1) % U64⟩
      let s := set_erase fragmentSet e
      let s := (set_insert s replacementKey).set
      RemoveFragment.loop deleteBegin deleteEnd it s true
    else
      RemoveFragment.loop deleteBegin deleteEnd it fragmentSet modified

/-- `FragmentSet::RemoveFragment(fragmentSet, key)`: the set after the call and
the returned flag. -/
def RemoveFragment (fragmentSet : List data_fragment_t) (key : data_fragment_t) :
    List data_fragment_t × Bool :=
  let deleteBegin := key.beginIndex
  let deleteEnd := key.endIndex
  if deleteBegin > deleteEnd then
    (fragmentSet, false)
  else
    RemoveFragment.loop deleteBegin deleteEnd (set_lower_bound fragmentSet key) fragmentSet false

/-- `FragmentSet::GetBoundsMinusFragments(bounds, fragmentSet,
boundsMinusFragmentsSet)`: the contents of `boundsMinusFragmentsSet` after the
call. -/
def GetBoundsMinusFragments (bounds : data_fragment_t) (fragmentSet : List data_fragment_t)
    (_boundsMinusFragmentsSet : List data_fragment_t) : Option (List data_fragment_t) :=
  match InsertFragment [] bounds with
  | none => none
  | some (boundsMinusFragmentsSet, _) =>
    some (fragmentSet.foldl (fun s it => (RemoveFragment s it).1) boundsMinusFragmentsSet)

/-! ### `find` and `ContainsFragmentEntirely` -/

/-- `std::set::find(key)`: the first element that is not less than `key`, if
`key` is not less than it either; `none` is `end()`. -/
def set_find (fragmentSet : List data_fragment_t) (key : data_fragment_t) :
    Option data_fragment_t :=
  match set_lower_bound fragmentSet key with
  | [] => none
  | e :: _ => if key.lt e then none else some e

/-- `FragmentSet::ContainsFragmentEntirely(fragmentSet, key)`. -/
def ContainsFragmentEntirely (fragmentSet : List data_fragment_t) (key : data_fragment_t) : Bool :=
  match set_find fragmentSet key with
  | none => false
  | some res =>
    let keyInMapBeginIndex := res.beginIndex
    let keyInMapEndIndex := res.endIndex
    decide (key.beginIndex ≥ keyInMapBeginIndex ∧ key.endIndex ≤ keyInMapEndIndex)

/-! ### Properties of fragment sets -/

/-- The byte index `x` lies in the range `f`. -/
def data_fragment_t.covers (f : data_fragment_t) (x : Nat) : Prop :=
  f.beginIndex ≤ x ∧ x ≤ f.endIndex

instance data_fragment_t.decidableCovers (f : data_fragment_t) (x : Nat) :
    Decidable (f.covers x) :=
  inferInstanceAs (Decidable (f.beginIndex ≤ x ∧ x ≤ f.endIndex))

/-- The byte index `x` is covered by some stored range. -/
def covers (fragmentSet : List data_fragment_t) (x : Nat) : Prop :=
  ∃ e ∈ fragmentSet, e.covers x

instance decidableCovers (fragmentSet : List data_fragment_t) (x : Nat) :
    Decidable (covers fragmentSet x) :=
  inferInstanceAs (Decidable (∃ e ∈ fragmentSet, e.covers x))

/-- Any two consecutive stored ranges `a` then `b` satisfy
`a.endIndex + 1 < b.beginIndex`: they neither overlap nor abut, and `b` comes
after `a`. -/
def consecutiveGaps : List data_fragment_t → Prop
  | [] => True
  | [_] => True
  | a :: b :: rest => a.endIndex + 1 < b.beginIndex ∧ consecutiveGaps (b :: rest)

instance decidableConsecutiveGaps : (s : List data_fragment_t) → Decidable (consecutiveGaps s)
  | [] => isTrue trivial
  | [_] => isTrue trivial
  | a :: b :: rest =>
    @instDecidableAnd (a.endIndex + 1 < b.beginIndex) (consecutiveGaps (b :: rest)) _
      (decidableConsecutiveGaps (b :: rest))

/-- The stored ranges are in strictly increasing order: each one lies
entirely before every later one. -/
def strictlyIncreasing (fragmentSet : List data_fragment_t) : Prop :=
  fragmentSet.Pairwise (fun a b => a.beginIndex < b.beginIndex ∧ a.endIndex < b.beginIndex)

/-- The fragment set invariant: every stored range is a range of `uint64_t`
indices with `beginIndex <= endIndex`, and consecutive stored ranges `a`, `b`
satisfy `a.endIndex + 1 < b.beginIndex` (no overlap, no abut, increasing). -/
def Invariant (fragmentSet : List data_fragment_t) : Prop :=
  (∀ e ∈ fragmentSet, e.beginIndex ≤ e.endIndex ∧ e.endIndex < U64) ∧
  consecutiveGaps fragmentSet

instance decidableInvariant (fragmentSet : List data_fragment_t) :
    Decidable (Invariant fragmentSet) :=
  inferInstanceAs (Decidable ((∀ e ∈ fragmentSet, e.beginIndex ≤ e.endIndex ∧ e.endIndex < U64) ∧
    consecutiveGaps fragmentSet))

/-- An argument of the operations as the properties restrict it:
`beginIndex <= endIndex <= 2^64 - 2`. -/
def data_fragment_t.inRange (f : data_fragment_t) : Prop :=
  f.beginIndex ≤ f.endIndex ∧ f.endIndex ≤ U64 - 2

instance data_fragment_t.decidableInRange (f : data_fragment_t) : Decidable f.inRange :=
  inferInstanceAs (Decidable (f.beginIndex ≤ f.endIndex ∧ f.endIndex ≤ U64 - 2))

/-- The invariant, with every stored `endIndex` at most `2^64 - 2` and the
gaps between any two stored ranges, not only consecutive ones: what holds of
every set built from the empty set with arguments in range. -/
def StrongInvariant (fragmentSet : List data_fragment_t) : Prop :=
  (∀ e ∈ fragmentSet, e.inRange) ∧
  fragmentSet.Pairwise (fun a b => a.endIndex + 1 < b.beginIndex)

/-- A call of `InsertFragment` or of `RemoveFragment`. -/
inductive Call where
  | insert (key : data_fragment_t)
  | remove (key : data_fragment_t)
  deriving DecidableEq, Repr

/-- The argument of a call. -/
def Call.key : Call → data_fragment_t
  | .insert key => key
  | .remove key => key

/-- The set after a sequence of calls, made one after the other. -/
def runCalls : List Call → List data_fragment_t → Option (List data_fragment_t)
  | [], s => some s
  | .insert key :: calls, s =>
    match InsertFragment s key with
    | none => none
    | some (s, _) => runCalls calls s
  | .remove key :: calls, s => runCalls calls (RemoveFragment s key).1

/-- What the loop of `RemoveFragment` leaves of the elements it walks over, in
order, with the flag telling whether it changed any: the loop written as a
function of the walked elements alone. -/
def removeTail (deleteBegin deleteEnd : Nat) : List data_fragment_t → List data_fragment_t × Bool
  | [] => ([], false)
  | e :: it =>
    if deleteBegin > e.endIndex then
      (e :: it, false)
    else if deleteEnd < e.beginIndex then
      (e :: (removeTail deleteBegin deleteEnd it).1, (removeTail deleteBegin deleteEnd it).2)
    else if deleteBegin ≤ e.beginIndex ∧ deleteEnd ≥ e.endIndex then
      ((removeTail deleteBegin deleteEnd it).1, true)
    else if deleteBegin > e.beginIndex ∧ deleteEnd < e.endIndex then
      (⟨e.beginIndex, deleteBegin - 1⟩ :: ⟨deleteEnd + 1, e.endIndex⟩ ::
        (removeTail deleteBegin deleteEnd it).1, true)
    else if deleteBegin ≤ e.beginIndex ∧ deleteEnd ≥ e.beginIndex then
      (⟨deleteEnd + 1, e.endIndex⟩ :: (removeTail deleteBegin deleteEnd it).1, true)
    else if deleteBegin ≤ e.endIndex ∧ deleteEnd ≥ e.endIndex then
      (⟨e.beginIndex, deleteBegin - 1⟩ :: (removeTail deleteBegin deleteEnd it).1, true)
    else
      (e :: (removeTail deleteBegin deleteEnd it).1, (removeTail deleteBegin deleteEnd it).2)

end FragmentSet

/-! ## Ltp.cpp: the segment parser

The receiving side of the class `Ltp`. The callbacks are modelled by a log:
every call of a segment callback appends an entry to `callbacks` (all five
callbacks are taken to be set, and a callback does not touch the parser).
`HandleReceivedChars` is called without the optional
`sessionOriginatorEngineIdDecodedCallbackPtr`. The buffer `rxVals` of a call
is the list of its bytes and `numChars` is its length. -/

namespace Ltp

/-- `enum class LTP_MAIN_RX_STATE`. -/
inductive LTP_MAIN_RX_STATE where
  | READ_HEADER
  | READ_DATA_SEGMENT_CONTENT
  | READ_REPORT_SEGMENT_CONTENT
  | READ_REPORT_ACKNOWLEDGEMENT_SEGMENT_CONTENT
  | READ_CANCEL_SEGMENT_CONTENT_BYTE
  | READ_TRAILER
  deriving DecidableEq, Repr

/-- `enum class LTP_HEADER_RX_STATE`. -/
inductive LTP_HEADER_RX_STATE where
  | READ_CONTROL_BYTE
  | READ_SESSION_ORIGINATOR_ENGINE_ID_SDNV
  | READ_SESSION_NUMBER_SDNV
  | READ_NUM_EXTENSIONS_BYTE
  | READ_ONE_HEADER_EXTENSION_TAG_BYTE
  | READ_ONE_HEADER_EXTENSION_LENGTH_SDNV
  | READ_ONE_HEADER_EXTENSION_VALUE
  deriving DecidableEq, Repr

/-- `enum class LTP_TRAILER_RX_STATE`. -/
inductive LTP_TRAILER_RX_STATE where
  | READ_ONE_TRAILER_EXTENSION_TAG_BYTE
  | READ_ONE_TRAILER_EXTENSION_LENGTH_SDNV
  | READ_ONE_TRAILER_EXTENSION_VALUE
  deriving DecidableEq, Repr

/-- `enum class LTP_DATA_SEGMENT_RX_STATE`. -/
inductive LTP_DATA_SEGMENT_RX_STATE where
  | READ_CLIENT_SERVICE_ID_SDNV
  | READ_OFFSET_SDNV
  | READ_LENGTH_SDNV
  | READ_CHECKPOINT_SERIAL_NUMBER_SDNV
  | READ_REPORT_SERIAL_NUMBER_SDNV
  | READ_CLIENT_SERVICE_DATA
  deriving DecidableEq, Repr

/-- `enum class LTP_REPORT_SEGMENT_RX_STATE`. -/
inductive LTP_REPORT_SEGMENT_RX_STATE where
  | READ_REPORT_SERIAL_NUMBER_SDNV
  | READ_CHECKPOINT_SERIAL_NUMBER_SDNV
  | READ_UPPER_BOUND_SDNV
  | READ_LOWER_BOUND_SDNV
  | READ_RECEPTION_CLAIM_COUNT_SDNV
  | READ_ONE_RECEPTION_CLAIM_OFFSET_SDNV
  | READ_ONE_RECEPTION_CLAIM_LENGTH_SDNV
  deriving DecidableEq, Repr

/-- `static_cast<LTP_HEADER_RX_STATE>(n)` for the enumerator values `0 .. 6`
(the code only casts `1`, `2` and `3`). -/
def LTP_HEADER_RX_STATE.fromValue : Nat → LTP_HEADER_RX_STATE
  | 0 => .READ_CONTROL_BYTE
  | 1 => .READ_SESSION_ORIGINATOR_ENGINE_ID_SDNV
  | 2 => .READ_SESSION_NUMBER_SDNV
  | 3 => .READ_NUM_EXTENSIONS_BYTE
  | 4 => .READ_ONE_HEADER_EXTENSION_TAG_BYTE
  | 5 => .READ_ONE_HEADER_EXTENSION_LENGTH_SDNV
  | _ => .READ_ONE_HEADER_EXTENSION_VALUE

/-- `static_cast<LTP_DATA_SEGMENT_RX_STATE>(n)` for the enumerator values
`0 .. 5` (the code only casts `1 .. 5`). -/
def LTP_DATA_SEGMENT_RX_STATE.fromValue : Nat → LTP_DATA_SEGMENT_RX_STATE
  | 0 => .READ_CLIENT_SERVICE_ID_SDNV
  | 1 => .READ_OFFSET_SDNV
  | 2 => .READ_LENGTH_SDNV
  | 3 => .READ_CHECKPOINT_SERIAL_NUMBER_SDNV
  | 4 => .READ_REPORT_SERIAL_NUMBER_SDNV
  | _ => .READ_CLIENT_SERVICE_DATA

/-- `static_cast<LTP_REPORT_SEGMENT_RX_STATE>(n)` for the enumerator values
`0 .. 6` (the code only casts `1 .. 6`). -/
def LTP_REPORT_SEGMENT_RX_STATE.fromValue : Nat → LTP_REPORT_SEGMENT_RX_STATE
  | 0 => .READ_REPORT_SERIAL_NUMBER_SDNV
  | 1 => .READ_CHECKPOINT_SERIAL_NUMBER_SDNV
  | 2 => .READ_UPPER_BOUND_SDNV
  | 3 => .READ_LOWER_BOUND_SDNV
  | 4 => .READ_RECEPTION_CLAIM_COUNT_SDNV
  | 5 => .READ_ONE_RECEPTION_CLAIM_OFFSET_SDNV
  | _ => .READ_ONE_RECEPTION_CLAIM_LENGTH_SDNV

/-- `Ltp::session_id_t`. -/
structure session_id_t where
  sessionOriginatorEngineId : Nat
  sessionNumber : Nat
  deriving DecidableEq, Repr

/-- `Ltp::reception_claim_t`. -/
structure reception_claim_t where
  offset : Nat
  length : Nat
  deriving DecidableEq, Repr

/-- `Ltp::report_segment_t`. -/
structure report_segment_t where
  reportSerialNumber : Nat
  checkpointSerialNumber : Nat
  upperBound : Nat
  lowerBound : Nat
  tmpReceptionClaimCount : Nat
  receptionClaims : List reception_claim_t
  deriving DecidableEq, Repr

/-- `Ltp::ltp_extension_t`. -/
structure ltp_extension_t where
  tag : Nat
  valueVec : List Nat
  deriving DecidableEq, Repr

/-- `Ltp::ltp_extensions_t`, that is its only member `extensionsVec`. -/
abbrev ltp_extensions_t := List ltp_extension_t

/-- `Ltp::data_segment_metadata_t` as the parser holds it. The two pointer
members are either `NULL` or point to the `tmp` member of the same name: they
are modelled by the flag "is not `NULL`". -/
structure data_segment_metadata_t where
  clientServiceId : Nat
  offset : Nat
  length : Nat
  tmpCheckpointSerialNumber : Nat
  tmpReportSerialNumber : Nat
  checkpointSerialNumber : Bool
  reportSerialNumber : Bool
  deriving DecidableEq, Repr

/-- A call of one of the five segment callbacks, with its arguments. -/
inductive Callback where
  | DataSegmentContentsRead (segmentTypeFlags : Nat) (sessionId : session_id_t)
      (clientServiceDataVec : List Nat) (dataSegmentMetadata : data_segment_metadata_t)
      (headerExtensions trailerExtensions : ltp_extensions_t)
  | ReportSegmentContentsRead (sessionId : session_id_t) (reportSegment : report_segment_t)
      (headerExtensions trailerExtensions : ltp_extensions_t)
  | ReportAcknowledgementSegmentContentsRead (sessionId : session_id_t)
      (reportSerialNumberBeingAcknowledged : Nat)
      (headerExtensions trailerExtensions : ltp_extensions_t)
  | CancelSegmentContentsRead (sessionId : session_id_t) (reasonCode : Nat) (isFromSender : Bool)
      (headerExtensions trailerExtensions : ltp_extensions_t)
  | CancelAcknowledgementSegmentContentsRead (sessionId : session_id_t) (isToSender : Bool)
      (headerExtensions trailerExtensions : ltp_extensions_t)
  deriving DecidableEq, Repr

end Ltp

/-- The data members of the class `Ltp` that the parser uses, and the log of
the callbacks made so far. -/
structure Ltp where
  m_sdnvTempVec : List Nat
  m_mainRxState : Ltp.LTP_MAIN_RX_STATE
  m_headerRxState : Ltp.LTP_HEADER_RX_STATE
  m_trailerRxState : Ltp.LTP_TRAILER_RX_STATE
  m_dataSegmentRxState : Ltp.LTP_DATA_SEGMENT_RX_STATE
  m_reportSegmentRxState : Ltp.LTP_REPORT_SEGMENT_RX_STATE
  m_segmentTypeFlags : Nat
  m_sessionId : Ltp.session_id_t
  m_numHeaderExtensionTlvs : Nat
  m_numTrailerExtensionTlvs : Nat
  m_headerExtensions : Ltp.ltp_extensions_t
  m_trailerExtensions : Ltp.ltp_extensions_t
  m_currentHeaderExtensionLength : Nat
  m_currentTrailerExtensionLength : Nat
  m_dataSegmentMetadata : Ltp.data_segment_metadata_t
  m_dataSegment_clientServiceData : List Nat
  m_reportSegment : Ltp.report_segment_t
  m_reportAcknowledgementSegment_reportSerialNumber : Nat
  m_cancelSegment_reasonCode : Nat
  callbacks : List Ltp.Callback
  deriving DecidableEq, Repr

namespace Ltp

/-- The values of `LTP_SEGMENT_TYPE_FLAGS` that the parser names. -/
def CANCEL_SEGMENT_FROM_BLOCK_SENDER : Nat := 12
/-- `LTP_SEGMENT_TYPE_FLAGS::CANCEL_ACK_SEGMENT_TO_BLOCK_SENDER`. -/
def CANCEL_ACK_SEGMENT_TO_BLOCK_SENDER : Nat := 13

/-- The capacity of `m_sdnvTempVec`: `InitRx` reserves 32 bytes and the vector
never holds more than 11. -/
def sdnvTempVecCapacity : Nat := 32

/-- A freshly constructed parser: `Ltp::Ltp()` calls `InitRx()`; the members
that the constructor leaves unset are zero or empty. -/
def InitRx : Ltp where
  m_sdnvTempVec := []
  m_mainRxState := .READ_HEADER
  m_headerRxState := .READ_CONTROL_BYTE
  m_trailerRxState := .READ_ONE_TRAILER_EXTENSION_TAG_BYTE
  m_dataSegmentRxState := .READ_CLIENT_SERVICE_ID_SDNV
  m_reportSegmentRxState := .READ_REPORT_SERIAL_NUMBER_SDNV
  m_segmentTypeFlags := 0
  m_sessionId := ⟨0, 0⟩
  m_numHeaderExtensionTlvs := 0
  m_numTrailerExtensionTlvs := 0
  m_headerExtensions := []
  m_trailerExtensions := []
  m_currentHeaderExtensionLength := 0
  m_currentTrailerExtensionLength := 0
  m_dataSegmentMetadata := ⟨0, 0, 0, 0, 0, false, false⟩
  m_dataSegment_clientServiceData := []
  m_reportSegment := ⟨0, 0, 0, 0, 0, []⟩
  m_reportAcknowledgementSegment_reportSerialNumber := 0
  m_cancelSegment_reasonCode := 0
  callbacks := []

/-- `Ltp::IsAtBeginningState()`. -/
def IsAtBeginningState (s : Ltp) : Bool :=
  s.m_mainRxState = .READ_HEADER ∧ s.m_headerRxState = .READ_CONTROL_BYTE

/-- `Ltp::SetBeginningState()`. -/
def SetBeginningState (s : Ltp) : Ltp :=
  { s with m_mainRxState := .READ_HEADER, m_headerRxState := .READ_CONTROL_BYTE }

/-- The call of `m_dataSegmentContentsReadCallback`. -/
def callbackDataSegment (s : Ltp) : Ltp :=
  { s with callbacks := s.callbacks ++ [.DataSegmentContentsRead s.m_segmentTypeFlags s.m_sessionId
      s.m_dataSegment_clientServiceData s.m_dataSegmentMetadata s.m_headerExtensions
      s.m_trailerExtensions] }

/-- The call of `m_reportSegmentContentsReadCallback`. -/
def callbackReportSegment (s : Ltp) : Ltp :=
  { s with callbacks := s.callbacks ++ [.ReportSegmentContentsRead s.m_sessionId s.m_reportSegment
      s.m_headerExtensions s.m_trailerExtensions] }

/-- The call of `m_reportAcknowledgementSegmentContentsReadCallback`. -/
def callbackReportAcknowledgementSegment (s : Ltp) : Ltp :=
  { s with callbacks := s.callbacks ++ [.ReportAcknowledgementSegmentContentsRead s.m_sessionId
      s.m_reportAcknowledgementSegment_reportSerialNumber s.m_headerExtensions
      s.m_trailerExtensions] }

/-- The call of `m_cancelSegmentContentsReadCallback`. -/
def callbackCancelSegment (s : Ltp) : Ltp :=
  { s with callbacks := s.callbacks ++ [.CancelSegmentContentsRead s.m_sessionId
      s.m_cancelSegment_reasonCode
      (decide (s.m_segmentTypeFlags = CANCEL_SEGMENT_FROM_BLOCK_SENDER))
      s.m_headerExtensions s.m_trailerExtensions] }

/-- The call of `m_cancelAcknowledgementSegmentContentsReadCallback`. -/
def callbackCancelAcknowledgementSegment (s : Ltp) : Ltp :=
  { s with callbacks := s.callbacks ++ [.CancelAcknowledgementSegmentContentsRead s.m_sessionId
      (decide (s.m_segmentTypeFlags = CANCEL_ACK_SEGMENT_TO_BLOCK_SENDER))
      s.m_headerExtensions s.m_trailerExtensions] }

/-- What a part of `HandleReceivedChars` that can fail hands back: `failure` is
the `NULL` or `false` that makes `HandleReceivedChars` return `false`; `ok`
carries the bytes of the call not yet consumed (the new `rxVals`, `numChars`
being their number). Both carry the members as the statements executed so
far left them (the value a failed decode returned is not assigned). -/
inductive RxResult where
  | failure (s : Ltp)
  | ok (s : Ltp) (rxVals : List Nat)
  deriving DecidableEq, Repr

/-- The outcome of the statements that every byte-wise SDNV state shares. -/
inductive SdnvByteResult where
  | failure
  | incomplete
  | complete (value : Nat)
  deriving DecidableEq, Repr

/-- The statements that every state reading an SDNV byte by byte starts with:
`m_sdnvTempVec.push_back(rxVal)`, the test `size() > 10`, the test of the top
bit of `rxVal`, the decode of `m_sdnvTempVec` and the test
`sdnvSize != m_sdnvTempVec.size()`. The result is the new `m_sdnvTempVec` and
what happened. -/
def pushSdnvByte (m_sdnvTempVec : List Nat) (rxVal : Nat) : List Nat × SdnvByteResult :=
  let m_sdnvTempVec := m_sdnvTempVec ++ [rxVal]
  if m_sdnvTempVec.length > 10 then
    (m_sdnvTempVec, .failure)
  else if rxVal &&& 0x80 = 0 then
    let r := SdnvDecodeU64Classic m_sdnvTempVec sdnvTempVecCapacity
    if r.numBytes ≠ m_sdnvTempVec.length then
      (m_sdnvTempVec, .failure)
    else
      match r.ret with
      | .value v => (m_sdnvTempVec, .complete v)
      | _ => (m_sdnvTempVec, .failure)
  else
    (m_sdnvTempVec, .incomplete)

/-- `extensionsVec.back().valueVec.push_back(rxVal)`. -/
def pushToLastValueVec : ltp_extensions_t → Nat → ltp_extensions_t
  | [], _ => []
  | [e], rxVal => [{ e with valueVec := e.valueVec ++ [rxVal] }]
  | e :: f :: rest, rxVal => e :: pushToLastValueVec (f :: rest) rxVal

/-- `receptionClaims.back().length = claimLength`. -/
def setLastClaimLength : List reception_claim_t → Nat → List reception_claim_t
  | [], _ => []
  | [c], claimLength => [{ c with length := claimLength }]
  | c :: d :: rest, claimLength => c :: setLastClaimLength (d :: rest) claimLength

/-- `std::vector::resize(n)` of a vector of reception claims, where the call
returns, that is for `n` up to `max_size()` with the memory at hand; new
elements are `reception_claim_t()`, offset and length zero. The vectors of the
model grow without limit: a call that throws (`std::length_error` above
`max_size()`, `std::bad_alloc`) has no outcome here. -/
def resizeClaims (v : List reception_claim_t) (n : Nat) : List reception_claim_t :=
  v.take n ++ List.replicate (n - v.length) ⟨0, 0⟩

/-- The vector of reception claims read as an array of `uint64_t` (offset,
length, offset, ..), after the decoded values were stored to its first
slots. -/
def storeClaimSdnvs : List reception_claim_t → List Nat → List reception_claim_t
  | [], _ => []
  | claims, [] => claims
  | c :: claims, [offset] => ⟨offset, c.length⟩ :: claims
  | _ :: claims, offset :: length :: decodedValues =>
    ⟨offset, length⟩ :: storeClaimSdnvs claims decodedValues

/-- The array of five `uint64_t` that starts at
`m_dataSegmentMetadata.clientServiceId`, after the decoded values were stored
to its first slots. -/
def storeDataSegmentSdnvs (m : data_segment_metadata_t) (decodedValues : List Nat) :
    data_segment_metadata_t :=
  { m with
    clientServiceId := decodedValues.getD 0 m.clientServiceId
    offset := decodedValues.getD 1 m.offset
    length := decodedValues.getD 2 m.length
    tmpCheckpointSerialNumber := decodedValues.getD 3 m.tmpCheckpointSerialNumber
    tmpReportSerialNumber := decodedValues.getD 4 m.tmpReportSerialNumber }

/-- The array of five `uint64_t` that starts at
`m_reportSegment.reportSerialNumber`, after the decoded values were stored to
its first slots. -/
def storeReportSegmentSdnvs (r : report_segment_t) (decodedValues : List Nat) : report_segment_t :=
  { r with
    reportSerialNumber := decodedValues.getD 0 r.reportSerialNumber
    checkpointSerialNumber := decodedValues.getD 1 r.checkpointSerialNumber
    upperBound := decodedValues.getD 2 r.upperBound
    lowerBound := decodedValues.getD 3 r.lowerBound
    tmpReceptionClaimCount := decodedValues.getD 4 r.tmpReceptionClaimCount }

/-- `Ltp::TryShortcutReadDataSegmentSdnvs(rxVals, numChars, errorMessage)`. -/
def TryShortcutReadDataSegmentSdnvs (s : Ltp) (rxVals : List Nat) : RxResult :=
  let CHECKPOINT_TYPE_MESSAGES : Nat := (1 <<< 1) ||| (1 <<< 2) ||| (1 <<< 3)
  let mask : Nat := (1 <<< s.m_segmentTypeFlags) % 2 ^ 16
  let isCheckPoint : Bool := decide (mask &&& CHECKPOINT_TYPE_MESSAGES ≠ 0)
  let numSdnvsToDecode : Nat := if isCheckPoint then 5 else 3
  let d := SdnvDecodeArrayU64Classic rxVals numSdnvsToDecode rxVals.length
  let s := { s with
    m_dataSegmentMetadata := (storeDataSegmentSdnvs s.m_dataSegmentMetadata d.decodedValues) }
  if d.decodeErrorDetected then
    .failure s
  else if d.numDecoded = 0 then
    .ok s rxVals
  else
    let s := { s with m_dataSegmentRxState := LTP_DATA_SEGMENT_RX_STATE.fromValue d.numDecoded }
    if d.numDecoded ≥ 3 then
      if s.m_dataSegmentMetadata.length = 0 then
        .failure s
      else
        let s := { s with m_dataSegment_clientServiceData := [] }
        if isCheckPoint then
          let s := { s with m_dataSegmentMetadata :=
            { s.m_dataSegmentMetadata with checkpointSerialNumber := true
                                           reportSerialNumber := true } }
          .ok s (rxVals.drop d.numBytesTakenToDecode)
        else
          let s := { s with
            m_dataSegmentRxState := .READ_CLIENT_SERVICE_DATA
            m_dataSegmentMetadata :=
              { s.m_dataSegmentMetadata with checkpointSerialNumber := false
                                             reportSerialNumber := false } }
          .ok s (rxVals.drop d.numBytesTakenToDecode)
    else
      .ok s (rxVals.drop d.numBytesTakenToDecode)

/-- `Ltp::TryShortcutReadReportSegmentSdnvs(rxVals, numChars, errorMessage)`. -/
def TryShortcutReadReportSegmentSdnvs (s : Ltp) (rxVals : List Nat) : RxResult :=
  let numSdnvsToDecode : Nat := 5
  let d := SdnvDecodeArrayU64Classic rxVals numSdnvsToDecode rxVals.length
  let s := { s with m_reportSegment := storeReportSegmentSdnvs s.m_reportSegment d.decodedValues }
  if d.decodeErrorDetected then
    .failure s
  else if d.numDecoded = 0 then
    .ok s rxVals
  else
    let s := { s with m_reportSegmentRxState := LTP_REPORT_SEGMENT_RX_STATE.fromValue d.numDecoded }
    let rxVals := rxVals.drop d.numBytesTakenToDecode
    if d.numDecoded < numSdnvsToDecode then
      .ok s rxVals
    else if s.m_reportSegment.tmpReceptionClaimCount = 0 then
      .failure s
    else
      let numReceptionClaimSdnvsToDecode : Nat :=
        toU32 ((s.m_reportSegment.tmpReceptionClaimCount <<< 1) % U64)
      let c := SdnvDecodeArrayU64Classic rxVals numReceptionClaimSdnvsToDecode rxVals.length
      let s := { s with m_reportSegment :=
        { s.m_reportSegment with receptionClaims :=
            (storeClaimSdnvs (resizeClaims [] s.m_reportSegment.tmpReceptionClaimCount)
              c.decodedValues) } }
      if c.decodeErrorDetected then
        .failure s
      else
        let numReceptionClaimSdnvsActuallyDecoded := c.numDecoded
        let isOddAsInt : Nat := numReceptionClaimSdnvsActuallyDecoded &&& 1
        let s := { s with
          m_reportSegmentRxState := LTP_REPORT_SEGMENT_RX_STATE.fromValue (5 + isOddAsInt)
          m_reportSegment :=
            { s.m_reportSegment with receptionClaims :=
                (resizeClaims s.m_reportSegment.receptionClaims
                  ((numReceptionClaimSdnvsActuallyDecoded + 1) >>> 1)) } }
        let numLengthsRead : Nat := numReceptionClaimSdnvsActuallyDecoded >>> 1
        if (s.m_reportSegment.receptionClaims.take numLengthsRead).any (fun c => c.length = 0) then
          .failure s
        else
          let s :=
            if numReceptionClaimSdnvsToDecode = numReceptionClaimSdnvsActuallyDecoded then
              if s.m_numTrailerExtensionTlvs ≠ 0 then
                { s with m_trailerRxState := .READ_ONE_TRAILER_EXTENSION_TAG_BYTE
                         m_mainRxState := .READ_TRAILER }
              else
                SetBeginningState (callbackReportSegment s)
            else s
          .ok s (rxVals.drop c.numBytesTakenToDecode)

/-- `Ltp::NextStateAfterHeaderExtensions(rxVals, numChars, errorMessage)`. -/
def NextStateAfterHeaderExtensions (s : Ltp) (rxVals : List Nat) : RxResult :=
  if s.m_segmentTypeFlags &&& 0xd = 0xd then
    if s.m_numTrailerExtensionTlvs ≠ 0 then
      .ok { s with m_trailerRxState := .READ_ONE_TRAILER_EXTENSION_TAG_BYTE
                   m_mainRxState := .READ_TRAILER } rxVals
    else
      .ok (SetBeginningState (callbackCancelAcknowledgementSegment s)) rxVals
  else if s.m_segmentTypeFlags = 5 ∨ s.m_segmentTypeFlags = 6 ∨ s.m_segmentTypeFlags = 10 ∨
      s.m_segmentTypeFlags = 11 then
    .failure s
  else if s.m_segmentTypeFlags ≤ 7 then
    TryShortcutReadDataSegmentSdnvs
      { s with m_sdnvTempVec := []
               m_dataSegmentRxState := .READ_CLIENT_SERVICE_ID_SDNV
               m_mainRxState := .READ_DATA_SEGMENT_CONTENT } rxVals
  else if s.m_segmentTypeFlags = 8 then
    TryShortcutReadReportSegmentSdnvs
      { s with m_sdnvTempVec := []
               m_reportSegmentRxState := .READ_REPORT_SERIAL_NUMBER_SDNV
               m_mainRxState := .READ_REPORT_SEGMENT_CONTENT } rxVals
  else if s.m_segmentTypeFlags = 9 then
    .ok { s with m_sdnvTempVec := []
                 m_mainRxState := .READ_REPORT_ACKNOWLEDGEMENT_SEGMENT_CONTENT } rxVals
  else
    .ok { s with m_mainRxState := .READ_CANCEL_SEGMENT_CONTENT_BYTE } rxVals

/-- `Ltp::NextStateAfterTrailerExtensions(errorMessage)`: `none` is the return
value `false`. -/
def NextStateAfterTrailerExtensions (s : Ltp) : Option Ltp :=
  if s.m_segmentTypeFlags &&& 0xd = 0xd then
    some (SetBeginningState (callbackCancelAcknowledgementSegment s))
  else if s.m_segmentTypeFlags = 5 ∨ s.m_segmentTypeFlags = 6 ∨ s.m_segmentTypeFlags = 10 ∨
      s.m_segmentTypeFlags = 11 then
    none
  else if s.m_segmentTypeFlags ≤ 7 then
    some (SetBeginningState (callbackDataSegment s))
  else if s.m_segmentTypeFlags = 8 then
    some (SetBeginningState (callbackReportSegment s))
  else if s.m_segmentTypeFlags = 9 then
    some (SetBeginningState (callbackReportAcknowledgementSegment s))
  else
    some (SetBeginningState (callbackCancelSegment s))

/-- The statements shared by the three places where a segment body is
complete: go on to the trailer extensions if any were announced, otherwise
make the callback and return to the beginning state. -/
def trailerOrCallback (s : Ltp) (callback : Ltp → Ltp) : Ltp :=
  if s.m_numTrailerExtensionTlvs ≠ 0 then
    { s with m_trailerRxState := .READ_ONE_TRAILER_EXTENSION_TAG_BYTE
             m_mainRxState := .READ_TRAILER }
  else
    SetBeginningState (callback s)

/-- One iteration of the `while (numChars)` loop of `Ltp::HandleReceivedChars`:
`rxVal` is the byte taken by `*rxVals++` and `rxVals` the bytes after it. -/
def HandleReceivedChars.step (s : Ltp) (rxVal : Nat) (rxVals : List Nat) : RxResult :=
  match s.m_mainRxState with
  | .READ_HEADER =>
    match s.m_headerRxState with
    | .READ_CONTROL_BYTE =>
      let ltpVersion := rxVal >>> 4
      if ltpVersion ≠ 0 then
        .failure s
      else
        let s := { s with m_segmentTypeFlags := rxVal &&& 0x0f, m_sdnvTempVec := [] }
        let d := SdnvDecodeArrayU64Classic rxVals 2 rxVals.length
        let s := { s with m_sessionId :=
          { sessionOriginatorEngineId :=
              (d.decodedValues.getD 0 s.m_sessionId.sessionOriginatorEngineId)
            sessionNumber := (d.decodedValues.getD 1 s.m_sessionId.sessionNumber) } }
        if d.decodeErrorDetected then
          .failure s
        else
          .ok { s with m_headerRxState := LTP_HEADER_RX_STATE.fromValue (1 + d.numDecoded) }
            (rxVals.drop d.numBytesTakenToDecode)
    | .READ_SESSION_ORIGINATOR_ENGINE_ID_SDNV =>
      match pushSdnvByte s.m_sdnvTempVec rxVal with
      | (v, .failure) => .failure { s with m_sdnvTempVec := v }
      | (v, .incomplete) => .ok { s with m_sdnvTempVec := v } rxVals
      | (_, .complete value) =>
        .ok { s with m_sessionId := { s.m_sessionId with sessionOriginatorEngineId := value }
                     m_sdnvTempVec := []
                     m_headerRxState := .READ_SESSION_NUMBER_SDNV } rxVals
    | .READ_SESSION_NUMBER_SDNV =>
      match pushSdnvByte s.m_sdnvTempVec rxVal with
      | (v, .failure) => .failure { s with m_sdnvTempVec := v }
      | (v, .incomplete) => .ok { s with m_sdnvTempVec := v } rxVals
      | (v, .complete value) =>
        .ok { s with m_sessionId := { s.m_sessionId with sessionNumber := value }
                     m_sdnvTempVec := v
                     m_headerRxState := .READ_NUM_EXTENSIONS_BYTE } rxVals
    | .READ_NUM_EXTENSIONS_BYTE =>
      let s := { s with m_numHeaderExtensionTlvs := rxVal >>> 4
                        m_numTrailerExtensionTlvs := rxVal &&& 0x0f
                        m_headerExtensions := []
                        m_trailerExtensions := [] }
      if s.m_numHeaderExtensionTlvs ≠ 0 then
        .ok { s with m_headerRxState := .READ_ONE_HEADER_EXTENSION_TAG_BYTE } rxVals
      else
        NextStateAfterHeaderExtensions s rxVals
    | .READ_ONE_HEADER_EXTENSION_TAG_BYTE =>
      .ok { s with m_headerExtensions := s.m_headerExtensions ++ [⟨rxVal, []⟩]
                   m_sdnvTempVec := []
                   m_headerRxState := .READ_ONE_HEADER_EXTENSION_LENGTH_SDNV } rxVals
    | .READ_ONE_HEADER_EXTENSION_LENGTH_SDNV =>
      match pushSdnvByte s.m_sdnvTempVec rxVal with
      | (v, .failure) => .failure { s with m_sdnvTempVec := v }
      | (v, .incomplete) => .ok { s with m_sdnvTempVec := v } rxVals
      | (v, .complete value) =>
        let s := { s with m_sdnvTempVec := v, m_currentHeaderExtensionLength := value }
        if s.m_currentHeaderExtensionLength = 0 then
          if s.m_headerExtensions.length = s.m_numHeaderExtensionTlvs then
            NextStateAfterHeaderExtensions s rxVals
          else
            .ok { s with m_headerRxState := .READ_ONE_HEADER_EXTENSION_TAG_BYTE } rxVals
        else
          .ok { s with m_headerRxState := .READ_ONE_HEADER_EXTENSION_VALUE } rxVals
    | .READ_ONE_HEADER_EXTENSION_VALUE =>
      let s := { s with m_headerExtensions := pushToLastValueVec s.m_headerExtensions rxVal }
      if (s.m_headerExtensions.getLastD ⟨0, []⟩).valueVec.length
          = s.m_currentHeaderExtensionLength then
        if s.m_headerExtensions.length = s.m_numHeaderExtensionTlvs then
          NextStateAfterHeaderExtensions s rxVals
        else
          .ok { s with m_headerRxState := .READ_ONE_HEADER_EXTENSION_TAG_BYTE } rxVals
      else
        .ok s rxVals
  | .READ_DATA_SEGMENT_CONTENT =>
    match s.m_dataSegmentRxState with
    | .READ_CLIENT_SERVICE_ID_SDNV =>
      match pushSdnvByte s.m_sdnvTempVec rxVal with
      | (v, .failure) => .failure { s with m_sdnvTempVec := v }
      | (v, .incomplete) => .ok { s with m_sdnvTempVec := v } rxVals
      | (_, .complete value) =>
        .ok { s with m_dataSegmentMetadata := { s.m_dataSegmentMetadata with clientServiceId := value }
                     m_sdnvTempVec := []
                     m_dataSegmentRxState := .READ_OFFSET_SDNV } rxVals
    | .READ_OFFSET_SDNV =>
      match pushSdnvByte s.m_sdnvTempVec rxVal with
      | (v, .failure) => .failure { s with m_sdnvTempVec := v }
      | (v, .incomplete) => .ok { s with m_sdnvTempVec := v } rxVals
      | (_, .complete value) =>
        .ok { s with m_dataSegmentMetadata := { s.m_dataSegmentMetadata with offset := value }
                     m_sdnvTempVec := []
                     m_dataSegmentRxState := .READ_LENGTH_SDNV } rxVals
    | .READ_LENGTH_SDNV =>
      match pushSdnvByte s.m_sdnvTempVec rxVal with
      | (v, .failure) => .failure { s with m_sdnvTempVec := v }
      | (v, .incomplete) => .ok { s with m_sdnvTempVec := v } rxVals
      | (v, .complete value) =>
        let s := { s with m_sdnvTempVec := v
                          m_dataSegmentMetadata := { s.m_dataSegmentMetadata with length := value } }
        if s.m_dataSegmentMetadata.length = 0 then
          .failure s
        else if s.m_segmentTypeFlags ≥ 1 ∧ s.m_segmentTypeFlags ≤ 3 then
          .ok { s with m_sdnvTempVec := []
                       m_dataSegmentRxState := .READ_CHECKPOINT_SERIAL_NUMBER_SDNV
                       m_dataSegmentMetadata :=
                         { s.m_dataSegmentMetadata with checkpointSerialNumber := true
                                                        reportSerialNumber := true } } rxVals
        else
          .ok { s with m_dataSegment_clientServiceData := []
                       m_dataSegmentRxState := .READ_CLIENT_SERVICE_DATA
                       m_dataSegmentMetadata :=
                         { s.m_dataSegmentMetadata with checkpointSerialNumber := false
                                                        reportSerialNumber := false } } rxVals
    | .READ_CHECKPOINT_SERIAL_NUMBER_SDNV =>
      match pushSdnvByte s.m_sdnvTempVec rxVal with
      | (v, .failure) => .failure { s with m_sdnvTempVec := v }
      | (v, .incomplete) => .ok { s with m_sdnvTempVec := v } rxVals
      | (_, .complete value) =>
        .ok { s with m_dataSegmentMetadata :=
                       { s.m_dataSegmentMetadata with tmpCheckpointSerialNumber := value }
                     m_sdnvTempVec := []
                     m_dataSegmentRxState := .READ_REPORT_SERIAL_NUMBER_SDNV } rxVals
    | .READ_REPORT_SERIAL_NUMBER_SDNV =>
      match pushSdnvByte s.m_sdnvTempVec rxVal with
      | (v, .failure) => .failure { s with m_sdnvTempVec := v }
      | (v, .incomplete) => .ok { s with m_sdnvTempVec := v } rxVals
      | (v, .complete value) =>
        .ok { s with m_dataSegmentMetadata :=
                       { s.m_dataSegmentMetadata with tmpReportSerialNumber := value }
                     m_sdnvTempVec := v
                     m_dataSegment_clientServiceData := []
                     m_dataSegmentRxState := .READ_CLIENT_SERVICE_DATA } rxVals
    | .READ_CLIENT_SERVICE_DATA =>
      let s := { s with m_dataSegment_clientServiceData := s.m_dataSegment_clientServiceData ++ [rxVal] }
      if s.m_dataSegment_clientServiceData.length = s.m_dataSegmentMetadata.length then
        .ok (trailerOrCallback s callbackDataSegment) rxVals
      else
        let bytesRemainingToCopy :=
          (s.m_dataSegmentMetadata.length + U64 - s.m_dataSegment_clientServiceData.length) % U64
        let bytesToCopy := min rxVals.length ((bytesRemainingToCopy + U64 - 1) % U64)
        if bytesToCopy ≠ 0 then
          .ok { s with m_dataSegment_clientServiceData :=
                  (s.m_dataSegment_clientServiceData ++ rxVals.take bytesToCopy) }
            (rxVals.drop bytesToCopy)
        else
          .ok s rxVals
  | .READ_REPORT_SEGMENT_CONTENT =>
    match s.m_reportSegmentRxState with
    | .READ_REPORT_SERIAL_NUMBER_SDNV =>
      match pushSdnvByte s.m_sdnvTempVec rxVal with
      | (v, .failure) => .failure { s with m_sdnvTempVec := v }
      | (v, .incomplete) => .ok { s with m_sdnvTempVec := v } rxVals
      | (_, .complete value) =>
        .ok { s with m_reportSegment := { s.m_reportSegment with reportSerialNumber := value }
                     m_sdnvTempVec := []
                     m_reportSegmentRxState := .READ_CHECKPOINT_SERIAL_NUMBER_SDNV } rxVals
    | .READ_CHECKPOINT_SERIAL_NUMBER_SDNV =>
      match pushSdnvByte s.m_sdnvTempVec rxVal with
      | (v, .failure) => .failure { s with m_sdnvTempVec := v }
      | (v, .incomplete) => .ok { s with m_sdnvTempVec := v } rxVals
      | (_, .complete value) =>
        .ok { s with m_reportSegment := { s.m_reportSegment with checkpointSerialNumber := value }
                     m_sdnvTempVec := []
                     m_reportSegmentRxState := .READ_UPPER_BOUND_SDNV } rxVals
    | .READ_UPPER_BOUND_SDNV =>
      match pushSdnvByte s.m_sdnvTempVec rxVal with
      | (v, .failure) => .failure { s with m_sdnvTempVec := v }
      | (v, .incomplete) => .ok { s with m_sdnvTempVec := v } rxVals
      | (_, .complete value) =>
        .ok { s with m_reportSegment := { s.m_reportSegment with upperBound := value }
                     m_sdnvTempVec := []
                     m_reportSegmentRxState := .READ_LOWER_BOUND_SDNV } rxVals
    | .READ_LOWER_BOUND_SDNV =>
      match pushSdnvByte s.m_sdnvTempVec rxVal with
      | (v, .failure) => .failure { s with m_sdnvTempVec := v }
      | (v, .incomplete) => .ok { s with m_sdnvTempVec := v } rxVals
      | (_, .complete value) =>
        .ok { s with m_reportSegment := { s.m_reportSegment with lowerBound := value }
                     m_sdnvTempVec := []
                     m_reportSegmentRxState := .READ_RECEPTION_CLAIM_COUNT_SDNV } rxVals
    | .READ_RECEPTION_CLAIM_COUNT_SDNV =>
      match pushSdnvByte s.m_sdnvTempVec rxVal with
      | (v, .failure) => .failure { s with m_sdnvTempVec := v }
      | (v, .incomplete) => .ok { s with m_sdnvTempVec := v } rxVals
      | (v, .complete value) =>
        let s := { s with m_sdnvTempVec := v
                          m_reportSegment := { s.m_reportSegment with tmpReceptionClaimCount := value } }
        if s.m_reportSegment.tmpReceptionClaimCount = 0 then
          .failure s
        else
          .ok { s with m_sdnvTempVec := []
                       m_reportSegment := { s.m_reportSegment with receptionClaims := [] }
                       m_reportSegmentRxState := .READ_ONE_RECEPTION_CLAIM_OFFSET_SDNV } rxVals
    | .READ_ONE_RECEPTION_CLAIM_OFFSET_SDNV =>
      match pushSdnvByte s.m_sdnvTempVec rxVal with
      | (v, .failure) => .failure { s with m_sdnvTempVec := v }
      | (v, .incomplete) => .ok { s with m_sdnvTempVec := v } rxVals
      | (_, .complete claimOffset) =>
        .ok { s with m_reportSegment :=
                       { s.m_reportSegment with receptionClaims :=
                           (s.m_reportSegment.receptionClaims ++ [⟨claimOffset, 0⟩]) }
                     m_sdnvTempVec := []
                     m_reportSegmentRxState := .READ_ONE_RECEPTION_CLAIM_LENGTH_SDNV } rxVals
    | .READ_ONE_RECEPTION_CLAIM_LENGTH_SDNV =>
      match pushSdnvByte s.m_sdnvTempVec rxVal with
      | (v, .failure) => .failure { s with m_sdnvTempVec := v }
      | (v, .incomplete) => .ok { s with m_sdnvTempVec := v } rxVals
      | (v, .complete claimLength) =>
        if claimLength = 0 then
          .failure { s with m_sdnvTempVec := v }
        else
          let s := { s with m_reportSegment :=
                              { s.m_reportSegment with receptionClaims :=
                                  (setLastClaimLength s.m_reportSegment.receptionClaims
                                    claimLength) }
                            m_sdnvTempVec := [] }
          if s.m_reportSegment.receptionClaims.length < s.m_reportSegment.tmpReceptionClaimCount then
            .ok { s with m_reportSegmentRxState := .READ_ONE_RECEPTION_CLAIM_OFFSET_SDNV } rxVals
          else
            .ok (trailerOrCallback s callbackReportSegment) rxVals
  | .READ_REPORT_ACKNOWLEDGEMENT_SEGMENT_CONTENT =>
    match pushSdnvByte s.m_sdnvTempVec rxVal with
    | (v, .failure) => .failure { s with m_sdnvTempVec := v }
    | (v, .incomplete) => .ok { s with m_sdnvTempVec := v } rxVals
    | (v, .complete value) =>
      let s := { s with m_sdnvTempVec := v
                        m_reportAcknowledgementSegment_reportSerialNumber := value }
      .ok (trailerOrCallback s callbackReportAcknowledgementSegment) rxVals
  | .READ_CANCEL_SEGMENT_CONTENT_BYTE =>
    let s := { s with m_cancelSegment_reasonCode := rxVal }
    .ok (trailerOrCallback s callbackCancelSegment) rxVals
  | .READ_TRAILER =>
    match s.m_trailerRxState with
    | .READ_ONE_TRAILER_EXTENSION_TAG_BYTE =>
      .ok { s with m_trailerExtensions := s.m_trailerExtensions ++ [⟨rxVal, []⟩]
                   m_sdnvTempVec := []
                   m_trailerRxState := .READ_ONE_TRAILER_EXTENSION_LENGTH_SDNV } rxVals
    | .READ_ONE_TRAILER_EXTENSION_LENGTH_SDNV =>
      match pushSdnvByte s.m_sdnvTempVec rxVal with
      | (v, .failure) => .failure { s with m_sdnvTempVec := v }
      | (v, .incomplete) => .ok { s with m_sdnvTempVec := v } rxVals
      | (v, .complete value) =>
        let s := { s with m_sdnvTempVec := v, m_currentTrailerExtensionLength := value }
        if s.m_currentTrailerExtensionLength = 0 then
          if s.m_trailerExtensions.length = s.m_numTrailerExtensionTlvs then
            match NextStateAfterTrailerExtensions s with
            | none => .failure s
            | some s => .ok s rxVals
          else
            .ok { s with m_trailerRxState := .READ_ONE_TRAILER_EXTENSION_TAG_BYTE } rxVals
        else
          .ok { s with m_trailerRxState := .READ_ONE_TRAILER_EXTENSION_VALUE } rxVals
    | .READ_ONE_TRAILER_EXTENSION_VALUE =>
      let s := { s with m_trailerExtensions := pushToLastValueVec s.m_trailerExtensions rxVal }
      if (s.m_trailerExtensions.getLastD ⟨0, []⟩).valueVec.length
          = s.m_currentTrailerExtensionLength then
        if s.m_trailerExtensions.length = s.m_numTrailerExtensionTlvs then
          match NextStateAfterTrailerExtensions s with
          | none => .failure s
          | some s => .ok s rxVals
        else
          .ok { s with m_trailerRxState := .READ_ONE_TRAILER_EXTENSION_TAG_BYTE } rxVals
      else
        .ok s rxVals

/-- The `while (numChars)` loop of `Ltp::HandleReceivedChars`. Every iteration
takes at least one byte, so as many iterations as there are bytes are enough;
`fuel` counts them. -/
def HandleReceivedChars.loop : Nat → Ltp → List Nat → Option (Bool × Ltp)
  | _, s, [] => some (true, s)
  | 0, _, _ :: _ => none
  | fuel + 1, s, rxVal :: rxVals =>
    match HandleReceivedChars.step s rxVal rxVals with
    | .failure s => some (false, s)
    | .ok s rxVals => HandleReceivedChars.loop fuel s rxVals

/-- `Ltp::HandleReceivedChars(rxVals, numChars, errorMessage)`: the returned
flag and the parser after the call (`none` only if the loop needed more
iterations than there are bytes, which `HandleReceivedChars_total`
excludes). -/
def HandleReceivedChars (s : Ltp) (rxVals : List Nat) : Option (Bool × Ltp) :=
  HandleReceivedChars.loop rxVals.length s rxVals

end Ltp

/-! ## Ltp.cpp: serialization -/

namespace Ltp

/-- `Ltp::session_id_t::Serialize`: the bytes written. -/
def session_id_t.Serialize (o : session_id_t) : List Nat :=
  SdnvEncodeU64ClassicBufSize10 o.sessionOriginatorEngineId ++
  SdnvEncodeU64ClassicBufSize10 o.sessionNumber

/-- `Ltp::reception_claim_t::Serialize`: the bytes written. -/
def reception_claim_t.Serialize (o : reception_claim_t) : List Nat :=
  SdnvEncodeU64ClassicBufSize10 o.offset ++ SdnvEncodeU64ClassicBufSize10 o.length

/-- The `for` loop of `Ltp::report_segment_t::Serialize` over the reception
claims. -/
def serializeReceptionClaims : List reception_claim_t → List Nat
  | [] => []
  | c :: claims => c.Serialize ++ serializeReceptionClaims claims

/-- `Ltp::report_segment_t::Serialize`: the bytes written. -/
def report_segment_t.Serialize (o : report_segment_t) : List Nat :=
  SdnvEncodeU64ClassicBufSize10 o.reportSerialNumber ++
  SdnvEncodeU64ClassicBufSize10 o.checkpointSerialNumber ++
  SdnvEncodeU64ClassicBufSize10 o.upperBound ++
  SdnvEncodeU64ClassicBufSize10 o.lowerBound ++
  SdnvEncodeU64ClassicBufSize10 o.receptionClaims.length ++
  serializeReceptionClaims o.receptionClaims

/-- `Ltp::ltp_extension_t::Serialize`: the bytes written. -/
def ltp_extension_t.Serialize (o : ltp_extension_t) : List Nat :=
  o.tag :: (SdnvEncodeU64ClassicBufSize10 o.valueVec.length ++ o.valueVec)

/-- `Ltp::ltp_extensions_t::Serialize`: the bytes written. -/
def ltp_extensions_t.Serialize : ltp_extensions_t → List Nat
  | [] => []
  | e :: extensionsVec => e.Serialize ++ ltp_extensions_t.Serialize extensionsVec

/-- `LTP_SEGMENT_TYPE_FLAGS::REPORT_SEGMENT`. -/
def REPORT_SEGMENT : Nat := 8

/-- `Ltp::GenerateReportSegmentLtpPacket`: the contents of
`ltpReportSegmentPacket` after the call. The two extension arguments are
pointers, `none` being `NULL`. -/
def GenerateReportSegmentLtpPacket (sessionId : session_id_t) (reportSegmentStruct : report_segment_t)
    (headerExtensions trailerExtensions : Option ltp_extensions_t) : List Nat :=
  let numHeaderExtensions : Nat :=
    match headerExtensions with
    | some h => toU8 h.length
    | none => 0
  let numTrailerExtensions : Nat :=
    match trailerExtensions with
    | some t => toU8 t.length
    | none => 0
  [toU8 REPORT_SEGMENT] ++
  sessionId.Serialize ++
  [toU8 ((numHeaderExtensions <<< 4) ||| numTrailerExtensions)] ++
  (match headerExtensions with
    | some h => ltp_extensions_t.Serialize h
    | none => []) ++
  reportSegmentStruct.Serialize ++
  (match trailerExtensions with
    | some t => ltp_extensions_t.Serialize t
    | none => [])

/-- Feeding the chunks of a partition one after the other, each by a call of
`HandleReceivedChars`: the flags the calls returned and the parser after the
last call. -/
def feedChunks : Ltp → List (List Nat) → Option (List Bool × Ltp)
  | s, [] => some ([], s)
  | s, chunk :: chunks =>
    match HandleReceivedChars s chunk with
    | none => none
    | some (ok, s) =>
      match feedChunks s chunks with
      | none => none
      | some (oks, s) => some (ok :: oks, s)

/-- `Ltp::data_segment_metadata_t::Serialize`: the bytes written. The function
reads `*checkpointSerialNumber` and `*reportSerialNumber` only when both
pointers are not `NULL`; the values found there are the arguments
`checkpointSerialNumberPointee` and `reportSerialNumberPointee`. -/
def data_segment_metadata_t.Serialize (o : data_segment_metadata_t)
    (checkpointSerialNumberPointee reportSerialNumberPointee : Nat) : List Nat :=
  SdnvEncodeU64ClassicBufSize10 o.clientServiceId ++
  SdnvEncodeU64ClassicBufSize10 o.offset ++
  SdnvEncodeU64ClassicBufSize10 o.length ++
  (if o.checkpointSerialNumber ∧ o.reportSerialNumber then
    SdnvEncodeU64ClassicBufSize10 checkpointSerialNumberPointee ++
    SdnvEncodeU64ClassicBufSize10 reportSerialNumberPointee
  else [])

/-- `Ltp::GenerateLtpHeaderPlusDataSegmentMetadata`: the contents of
`ltpHeaderPlusDataSegmentMetadata` after the call. `headerExtensions` is a
pointer, `none` being `NULL`; the two pointee arguments are those of
`data_segment_metadata_t.Serialize`. -/
def GenerateLtpHeaderPlusDataSegmentMetadata (dataSegmentTypeFlags : Nat)
    (sessionId : session_id_t) (dataSegmentMetadata : data_segment_metadata_t)
    (checkpointSerialNumberPointee reportSerialNumberPointee : Nat)
    (headerExtensions : Option ltp_extensions_t) (numTrailerExtensions : Nat) : List Nat :=
  let numHeaderExtensions : Nat :=
    match headerExtensions with
    | some h => toU8 h.length
    | none => 0
  [toU8 dataSegmentTypeFlags] ++
  sessionId.Serialize ++
  [toU8 ((numHeaderExtensions <<< 4) ||| numTrailerExtensions)] ++
  (match headerExtensions with
    | some h => ltp_extensions_t.Serialize h
    | none => []) ++
  dataSegmentMetadata.Serialize checkpointSerialNumberPointee reportSerialNumberPointee

/-! ### Proof devices for the parser -/

/-- The parser while it reads, byte by byte, the reception claims of a report
segment of session `(1, 1)` without extensions whose first five fields were
`1, 1, 1, 0, count`: `claims` are the claims read so far. -/
def readingClaims (count : Nat) (claims : List reception_claim_t) : Ltp :=
  { InitRx with
    m_mainRxState := .READ_REPORT_SEGMENT_CONTENT
    m_headerRxState := .READ_NUM_EXTENSIONS_BYTE
    m_reportSegmentRxState := .READ_ONE_RECEPTION_CLAIM_OFFSET_SDNV
    m_segmentTypeFlags := 8
    m_sessionId := ⟨1, 1⟩
    m_reportSegment := ⟨1, 1, 1, 0, count, claims⟩ }

/-- A part of `HandleReceivedChars` handed back no more bytes than it was
given: the pointer `rxVals` only moves forward. -/
def RxResult.consumes (r : RxResult) (rxVals : List Nat) : Prop :=
  match r with
  | .failure _ => True
  | .ok _ rest => rest.length ≤ rxVals.length

/-! ### The wire format as the specification words it -/

/-- The leading 7-bit groups of `w`, most significant first, each with the high
bit ("more follows") set; there is none for `w = 0`. -/
def sdnvLeadingGroups (w : Nat) : List Nat :=
  if w = 0 then [] else sdnvLeadingGroups (w / 128) ++ [w % 128 + 128]
decreasing_by omega

/-- `SDNV(v)`: the 7-bit groups of `v` in big-endian order, the high bit of a
byte telling that more follows, no leading zero group. -/
def SDNV (v : Nat) : List Nat :=
  sdnvLeadingGroups (v / 128) ++ [v % 128]

/-- A list of extensions on the wire: for each one its tag byte, `SDNV(value
length)` and the value bytes. -/
def extensionsLayout : ltp_extensions_t → List Nat
  | [] => []
  | e :: extensions => [e.tag] ++ SDNV e.valueVec.length ++ e.valueVec ++ extensionsLayout extensions

/-- The reception claims on the wire: for each claim `SDNV(offset)` and
`SDNV(length)`. -/
def claimsLayout : List reception_claim_t → List Nat
  | [] => []
  | c :: claims => SDNV c.offset ++ SDNV c.length ++ claimsLayout claims

/-- The bytes of a report segment as the specification lists them. -/
def reportSegmentLayout (sessionId : session_id_t) (report : report_segment_t)
    (headerExtensions trailerExtensions : ltp_extensions_t) : List Nat :=
  [0x08] ++ SDNV sessionId.sessionOriginatorEngineId ++ SDNV sessionId.sessionNumber ++
  [(headerExtensions.length <<< 4) ||| trailerExtensions.length] ++
  extensionsLayout headerExtensions ++
  SDNV report.reportSerialNumber ++ SDNV report.checkpointSerialNumber ++
  SDNV report.upperBound ++ SDNV report.lowerBound ++
  SDNV report.receptionClaims.length ++ claimsLayout report.receptionClaims ++
  extensionsLayout trailerExtensions

/-- The bytes of the header and metadata of a data segment as the
specification lists them; `withSerials` tells whether the checkpoint serial
number and the report serial number follow the length. -/
def dataSegmentHeaderLayout (typeFlags : Nat) (sessionId : session_id_t)
    (clientServiceId offset length checkpointSerialNumber reportSerialNumber : Nat)
    (headerExtensions : ltp_extensions_t) (numTrailerExtensions : Nat) (withSerials : Bool) :
    List Nat :=
  [typeFlags] ++ SDNV sessionId.sessionOriginatorEngineId ++ SDNV sessionId.sessionNumber ++
  [(headerExtensions.length <<< 4) ||| numTrailerExtensions] ++
  extensionsLayout headerExtensions ++
  SDNV clientServiceId ++ SDNV offset ++ SDNV length ++
  (if withSerials then SDNV checkpointSerialNumber ++ SDNV reportSerialNumber else [])

/-! ### Proof devices for byte-wise parsing -/

/-! ### Well-formed input, and runs of the parser -/

/-- The bytes `bs` are one complete SDNV with value `v`: between one and ten
bytes, the high bit set on all but the last, a first byte of at most `0x81` when
there are ten, and `v` the accumulation of the 7-bit groups. -/
def IsSdnv (bs : List Nat) (v : Nat) : Prop :=
  1 ≤ bs.length ∧ bs.length ≤ 10 ∧ (∀ b ∈ bs.dropLast, b / 128 % 2 = 1) ∧
    bs.getLastD 0 / 128 % 2 = 0 ∧ ¬ (bs.length = 10 ∧ bs.getD 0 0 > 0x81) ∧ accum 0 bs = v

instance IsSdnv.decidable (bs : List Nat) (v : Nat) : Decidable (IsSdnv bs v) :=
  inferInstanceAs (Decidable (1 ≤ bs.length ∧ bs.length ≤ 10 ∧ (∀ b ∈ bs.dropLast, b / 128 % 2 = 1) ∧
    bs.getLastD 0 / 128 % 2 = 0 ∧ ¬ (bs.length = 10 ∧ bs.getD 0 0 > 0x81) ∧ accum 0 bs = v))

/-- The bytes are the concatenation of complete SDNVs with the given values. -/
def IsSdnvs : List Nat → List Nat → Prop
  | bytes, [] => bytes = []
  | bytes, v :: vs => ∃ bs rest, bytes = bs ++ rest ∧ IsSdnv bs v ∧ IsSdnvs rest vs

/-- The bytes are the given extensions on the wire: for each extension its tag
byte, a complete SDNV with the length of the value, and the value. -/
def IsExtensions : List Nat → ltp_extensions_t → Prop
  | bytes, [] => bytes = []
  | bytes, e :: extensions => ∃ lengthSdnv rest,
      bytes = e.tag :: (lengthSdnv ++ e.valueVec ++ rest) ∧
      IsSdnv lengthSdnv e.valueVec.length ∧ IsExtensions rest extensions

/-- How a call of `HandleReceivedChars` goes on after an iteration of its loop:
it returns `false` on a failure and continues with the bytes left otherwise. -/
def RxResult.finish : RxResult → Option (Bool × Ltp)
  | .failure s => some (false, s)
  | .ok s rxVals => HandleReceivedChars s rxVals

/-- The parser takes the byte `rxVal` alone, whatever follows it in the call,
and goes from `s` to `s'`. -/
def Passes (s : Ltp) (rxVal : Nat) (s' : Ltp) : Prop :=
  ∀ rxVals, HandleReceivedChars.step s rxVal rxVals = .ok s' rxVals

/-- The parser takes the bytes `bs` one by one, whatever follows them and
however they are spread over calls, and goes from `s` to `s'`. -/
def Run : Ltp → List Nat → Ltp → Prop
  | s, [], s' => s = s'
  | s, b :: bs, s' => ∃ s1, Passes s b s1 ∧ Run s1 bs s'

/-- The parser is in a state that reads a byte of an SDNV into
`m_sdnvTempVec`. -/
def readsSdnv (s : Ltp) : Prop :=
  match s.m_mainRxState with
  | .READ_HEADER =>
    s.m_headerRxState = .READ_SESSION_ORIGINATOR_ENGINE_ID_SDNV ∨
    s.m_headerRxState = .READ_SESSION_NUMBER_SDNV ∨
    s.m_headerRxState = .READ_ONE_HEADER_EXTENSION_LENGTH_SDNV
  | .READ_DATA_SEGMENT_CONTENT => s.m_dataSegmentRxState ≠ .READ_CLIENT_SERVICE_DATA
  | .READ_REPORT_SEGMENT_CONTENT => True
  | .READ_REPORT_ACKNOWLEDGEMENT_SEGMENT_CONTENT => True
  | .READ_CANCEL_SEGMENT_CONTENT_BYTE => False
  | .READ_TRAILER => s.m_trailerRxState = .READ_ONE_TRAILER_EXTENSION_LENGTH_SDNV

/-- The parser `s` after a control byte that came alone in its call: it waits
for the first byte of the session originator engine id. -/
def controlRead (s : Ltp) (controlByte : Nat) : Ltp :=
  { s with m_segmentTypeFlags := controlByte &&& 0x0f
           m_sdnvTempVec := []
           m_headerRxState := .READ_SESSION_ORIGINATOR_ENGINE_ID_SDNV }

/-- The parser `s` after the control byte and the two SDNVs of the session id
`(e, n)`: it waits for the extension-count byte. What `m_sdnvTempVec` holds
depends on how the session id was read. -/
def headerRead (s : Ltp) (controlByte e n : Nat) (tv : List Nat) : Ltp :=
  { s with m_segmentTypeFlags := controlByte &&& 0x0f
           m_sdnvTempVec := tv
           m_sessionId := ⟨e, n⟩
           m_headerRxState := .READ_NUM_EXTENSIONS_BYTE }

/-- The parser `s` at the moment it calls `NextStateAfterHeaderExtensions`: the
header with the extension-count byte `x` and the header extensions has been
read. The last three arguments are members that no later state reads before
writing them. -/
def headerDone (s : Ltp) (controlByte e n x : Nat) (headerExtensions : ltp_extensions_t)
    (tv : List Nat) (currentLength : Nat) (headerRxState : LTP_HEADER_RX_STATE) : Ltp :=
  { s with m_segmentTypeFlags := controlByte &&& 0x0f
           m_sdnvTempVec := tv
           m_sessionId := ⟨e, n⟩
           m_numHeaderExtensionTlvs := x >>> 4
           m_numTrailerExtensionTlvs := x &&& 0x0f
           m_headerExtensions := headerExtensions
           m_trailerExtensions := []
           m_currentHeaderExtensionLength := currentLength
           m_headerRxState := headerRxState }

/-! ### An SDNV field that does not end: what is asked of the parser -/

/-- Every byte of `bs` has the top bit set: none of them ends an SDNV. -/
def AllContinue (bs : List Nat) : Prop :=
  ∀ b ∈ bs, b / 128 % 2 = 1

instance AllContinue.decidable (bs : List Nat) : Decidable (AllContinue bs) :=
  inferInstanceAs (Decidable (∀ b ∈ bs, b / 128 % 2 = 1))

/-- The calls of `chunks` are fed to the parser `s`, all return `true` but the
last, `fail`, which returns `false`; no callback is made. -/
def RejectsAt (s : Ltp) (chunks : List (List Nat)) (fail : List Nat) : Prop :=
  ∃ s', feedChunks s (chunks ++ [fail]) = some (List.replicate chunks.length true ++ [false], s') ∧
    s'.callbacks = s.callbacks

/-- The outcome `r` of an iteration of the loop of `HandleReceivedChars` that
started in `s` is an error, and no callback was made: the call returns
`false`. -/
def Rejected (s : Ltp) (r : RxResult) : Prop :=
  ∃ s', r = .failure s' ∧ s'.callbacks = s.callbacks

/-- After the outcome `r` of an iteration that started in `s`, the call comes
to its end and returns `true` without a callback, the parser is in a state that
reads an SDNV, and `m_sdnvTempVec` holds exactly the bytes `hi`. -/
def ContinuesIn (s : Ltp) (r : RxResult) (hi : List Nat) : Prop :=
  ∃ s', r.finish = some (true, s') ∧ readsSdnv s' ∧ s'.m_sdnvTempVec = hi ∧
    s'.callbacks = s.callbacks

instance readsSdnv.decidable (s : Ltp) : Decidable (readsSdnv s) := by
  unfold readsSdnv
  split <;> infer_instance

/-! ### Ltp.cpp: comparison of session ids, direction of a segment -/

/-- `Ltp::session_id_t::operator==(const session_id_t &)`. -/
def session_id_t.eq (a o : session_id_t) : Bool :=
  decide (a.sessionOriginatorEngineId = o.sessionOriginatorEngineId) &&
    decide (a.sessionNumber = o.sessionNumber)

/-- `Ltp::session_id_t::operator!=(const session_id_t &)`. -/
def session_id_t.ne (a o : session_id_t) : Bool :=
  decide (a.sessionOriginatorEngineId ≠ o.sessionOriginatorEngineId) ||
    decide (a.sessionNumber ≠ o.sessionNumber)

/-- `Ltp::session_id_t::operator<(const session_id_t &)`, the branch that is
compiled (`#if 1`). -/
def session_id_t.lt (a o : session_id_t) : Bool :=
  if a.sessionOriginatorEngineId = o.sessionOriginatorEngineId then
    decide (a.sessionNumber < o.sessionNumber)
  else
    decide (a.sessionOriginatorEngineId < o.sessionOriginatorEngineId)

/-- `enum class LTP_SEGMENT_TYPE_FLAGS`, the enumerator values. -/
def REDDATA : Nat := 0x00
/-- `LTP_SEGMENT_TYPE_FLAGS::REDDATA_CHECKPOINT`. -/
def REDDATA_CHECKPOINT : Nat := 0x01
/-- `LTP_SEGMENT_TYPE_FLAGS::REDDATA_CHECKPOINT_ENDOFREDPART`. -/
def REDDATA_CHECKPOINT_ENDOFREDPART : Nat := 0x02
/-- `LTP_SEGMENT_TYPE_FLAGS::REDDATA_CHECKPOINT_ENDOFREDPART_ENDOFBLOCK`. -/
def REDDATA_CHECKPOINT_ENDOFREDPART_ENDOFBLOCK : Nat := 0x03
/-- `LTP_SEGMENT_TYPE_FLAGS::GREENDATA`. -/
def GREENDATA : Nat := 0x04
/-- `LTP_SEGMENT_TYPE_FLAGS::GREENDATA_ENDOFBLOCK`. -/
def GREENDATA_ENDOFBLOCK : Nat := 0x07
/-- `LTP_SEGMENT_TYPE_FLAGS::REPORT_ACK_SEGMENT`. -/
def REPORT_ACK_SEGMENT : Nat := 0x09
/-- `LTP_SEGMENT_TYPE_FLAGS::CANCEL_SEGMENT_FROM_BLOCK_RECEIVER`. -/
def CANCEL_SEGMENT_FROM_BLOCK_RECEIVER : Nat := 14
/-- `LTP_SEGMENT_TYPE_FLAGS::CANCEL_ACK_SEGMENT_TO_BLOCK_RECEIVER`. -/
def CANCEL_ACK_SEGMENT_TO_BLOCK_RECEIVER : Nat := 15

/-- The constant `SENDER_TO_RECEIVER_TYPE_MESSAGES` of
`Ltp::GetMessageDirectionFromSegmentFlags`. -/
def SENDER_TO_RECEIVER_TYPE_MESSAGES : Nat :=
  ((1 <<< REDDATA) ||| (1 <<< REDDATA_CHECKPOINT) ||| (1 <<< REDDATA_CHECKPOINT_ENDOFREDPART) |||
    (1 <<< REDDATA_CHECKPOINT_ENDOFREDPART_ENDOFBLOCK) ||| (1 <<< GREENDATA) |||
    (1 <<< GREENDATA_ENDOFBLOCK) ||| (1 <<< REPORT_ACK_SEGMENT) |||
    (1 <<< CANCEL_SEGMENT_FROM_BLOCK_SENDER) |||
    (1 <<< CANCEL_ACK_SEGMENT_TO_BLOCK_RECEIVER)) % 2 ^ 16

/-- The constant `ALL_VALID_MESSAGES` of
`Ltp::GetMessageDirectionFromSegmentFlags`. -/
def ALL_VALID_MESSAGES : Nat :=
  (SENDER_TO_RECEIVER_TYPE_MESSAGES ||| (1 <<< REPORT_SEGMENT) |||
    (1 <<< CANCEL_ACK_SEGMENT_TO_BLOCK_SENDER) |||
    (1 <<< CANCEL_SEGMENT_FROM_BLOCK_RECEIVER)) % 2 ^ 16

/-- `Ltp::GetMessageDirectionFromSegmentFlags(segmentFlags, isSenderToReceiver)`,
the branchless routine that is compiled (`#else`): the return value and the
value written to `isSenderToReceiver`. The shift is the `uint16_t` one of the
code, for `segmentFlags` below 16. -/
def GetMessageDirectionFromSegmentFlags (segmentFlags : Nat) : Bool × Bool :=
  let mask : Nat := (1 <<< segmentFlags) % 2 ^ 16
  let isSenderToReceiver : Bool := decide (mask &&& SENDER_TO_RECEIVER_TYPE_MESSAGES ≠ 0)
  (decide (mask &&& ALL_VALID_MESSAGES ≠ 0), isSenderToReceiver)

/-- `Ltp::GetMessageDirectionFromSegmentFlags`, the `switch` routine that the
source keeps under `#if 0`: the return value and `isSenderToReceiver` after the
call, which the routine leaves as it was when no `case` matches. -/
def GetMessageDirectionFromSegmentFlags.switch (segmentFlags : Nat) (isSenderToReceiver : Bool) :
    Bool × Bool :=
  if segmentFlags = REDDATA ∨ segmentFlags = REDDATA_CHECKPOINT ∨
      segmentFlags = REDDATA_CHECKPOINT_ENDOFREDPART ∨
      segmentFlags = REDDATA_CHECKPOINT_ENDOFREDPART_ENDOFBLOCK ∨
      segmentFlags = GREENDATA ∨ segmentFlags = GREENDATA_ENDOFBLOCK ∨
      segmentFlags = REPORT_ACK_SEGMENT ∨ segmentFlags = CANCEL_SEGMENT_FROM_BLOCK_SENDER ∨
      segmentFlags = CANCEL_ACK_SEGMENT_TO_BLOCK_RECEIVER then
    (true, true)
  else if segmentFlags = REPORT_SEGMENT ∨ segmentFlags = CANCEL_ACK_SEGMENT_TO_BLOCK_SENDER ∨
      segmentFlags = CANCEL_SEGMENT_FROM_BLOCK_RECEIVER then
    (true, false)
  else
    (false, isSenderToReceiver)

/-! ### Callbacks and the beginning state: what is asked of an iteration -/

/-- What an iteration of the loop of `HandleReceivedChars` that started in `s`
may do to the log of callbacks: an iteration that fails makes no callback; one
that goes on makes none, or makes exactly one and leaves the parser in the
beginning state. -/
def RxResult.deliversFrom (r : RxResult) (s : Ltp) : Prop :=
  match r with
  | .failure s' => s'.callbacks = s.callbacks
  | .ok s' _ =>
    s'.callbacks = s.callbacks ∨
      ((∃ cb, s'.callbacks = s.callbacks ++ [cb]) ∧ IsAtBeginningState s' = true)

/-! ### Extensions: the parser after a tag byte -/

/-- The parser `s` after the tag byte `tag` of a header extension and the bytes
`tv` of the SDNV of its length: the extension is stored, with an empty
value. -/
def headerTagRead (s : Ltp) (tag : Nat) (tv : List Nat) : Ltp :=
  { s with m_headerExtensions := s.m_headerExtensions ++ [⟨tag, []⟩]
           m_sdnvTempVec := tv
           m_headerRxState := .READ_ONE_HEADER_EXTENSION_LENGTH_SDNV }

/-- The parser `s` after the tag byte `tag` of a trailer extension and the
bytes `tv` of the SDNV of its length: the extension is stored, with an empty
value. -/
def trailerTagRead (s : Ltp) (tag : Nat) (tv : List Nat) : Ltp :=
  { s with m_trailerExtensions := s.m_trailerExtensions ++ [⟨tag, []⟩]
           m_sdnvTempVec := tv
           m_trailerRxState := .READ_ONE_TRAILER_EXTENSION_LENGTH_SDNV }

/-! ### Ltp.cpp: the cancel-acknowledgement generator -/

/-- `Ltp::GenerateCancelAcknowledgementSegmentLtpPacket`: the contents of
`ltpCancelAcknowledgementSegmentPacket` after the call. The two extension
arguments are pointers, `none` being `NULL`. -/
def GenerateCancelAcknowledgementSegmentLtpPacket (sessionId : session_id_t) (isToSender : Bool)
    (headerExtensions trailerExtensions : Option ltp_extensions_t) : List Nat :=
  let numHeaderExtensions : Nat :=
    match headerExtensions with
    | some h => toU8 h.length
    | none => 0
  let numTrailerExtensions : Nat :=
    match trailerExtensions with
    | some t => toU8 t.length
    | none => 0
  [toU8 (if isToSender then CANCEL_ACK_SEGMENT_TO_BLOCK_SENDER
    else CANCEL_ACK_SEGMENT_TO_BLOCK_RECEIVER)] ++
  SdnvEncodeU64ClassicBufSize10 sessionId.sessionOriginatorEngineId ++
  SdnvEncodeU64ClassicBufSize10 sessionId.sessionNumber ++
  [toU8 ((numHeaderExtensions <<< 4) ||| numTrailerExtensions)] ++
  (match headerExtensions with
    | some h => ltp_extensions_t.Serialize h
    | none => []) ++
  (match trailerExtensions with
    | some t => ltp_extensions_t.Serialize t
    | none => [])

end Ltp

/-! ## LtpRandomNumberGenerator.cpp

The clock and the hardware random source are inputs of the model:
`microsecondsSinceEpochRfc5050` is what
`TimestampUtil::GetMicrosecondsSinceEpochRfc5050()` returned and `random2` is
the local of that name, 0 unless `LTP_RNG_USE_RDSEED` is defined and
`_rdseed64_step` stored a value. -/

namespace LtpRandomNumberGenerator

/-- `LtpRandomNumberGenerator::GetRandomSerialNumber64(additionalRandomness)`. -/
def GetRandomSerialNumber64 (microsecondsSinceEpochRfc5050 random2 additionalRandomness : Nat) :
    Nat :=
  let random1 := (microsecondsSinceEpochRfc5050 <<< 16) % U64
  let randomNumber := (random1 ^^^ random2) ^^^ additionalRandomness
  let randomNumber := randomNumber &&& 0x7fffffffffff0000
  let randomNumber := randomNumber ||| 1
  randomNumber

/-- `LtpRandomNumberGenerator::GetRandomSerialNumber32(additionalRandomness32Bit)`. -/
def GetRandomSerialNumber32 (microsecondsSinceEpochRfc5050 random2 additionalRandomness32Bit : Nat) :
    Nat :=
  let random1 := (microsecondsSinceEpochRfc5050 <<< 16) % U64
  let additionalRandomness := additionalRandomness32Bit
  let randomNumber := (random1 ^^^ random2) ^^^ additionalRandomness
  let randomNumber := randomNumber &&& 0x7fff0000
  let randomNumber := randomNumber ||| 1
  toU32 randomNumber

end LtpRandomNumberGenerator

/-! ## The LTP engine and its sessions

`LtpEngine.cpp`, `LtpSessionSender.cpp` and `LtpSessionReceiver.cpp` are not
among the sources. `LtpSessionReceiver.h` declares the members of the receiver
and `TestLtpEngine.cpp` drives two engines against each other. The engine and
its sessions are modelled here from the specification (§3.4 to §3.6, §4.E to
§4.G, §6.3); the harness `Test` is translated from `TestLtpEngine.cpp`.

A packet is the segment the parser delivers for it, a `Ltp.Callback`: the model
starts where `HandleReceivedChars` has made its callback and ends where a
`Generate...LtpPacket` function would be called. The clock does not advance:
timers are started and stopped, none expires, so the expiry of a timer and the
periodic housekeeping are no events of the model. Reports are sent without
delay (`delay_sending_of_report_segments_ms = 0`). -/

/-- Modelled from the spec: the callbacks of the application collaborator
(§6.3); `LtpNoticesToClientService.h`, which declares them, is missing. A value
is one call with its arguments. -/
inductive Notice where
  | session_start (sessionId : Ltp.session_id_t)
  | red_part_reception (sessionId : Ltp.session_id_t) (bytes : List Nat)
      (redLength clientServiceId : Nat) (isEndOfBlock : Bool)
  | green_part_segment_arrival (sessionId : Ltp.session_id_t) (bytes : List Nat)
      (offset clientServiceId : Nat) (isEndOfBlock : Bool)
  | transmission_session_completed (sessionId : Ltp.session_id_t)
  | initial_transmission_completed (sessionId : Ltp.session_id_t)
  | transmission_session_cancelled (sessionId : Ltp.session_id_t) (reasonCode : Nat)
  | reception_session_cancelled (sessionId : Ltp.session_id_t) (reasonCode : Nat)
  deriving DecidableEq, Repr

/-- `CANCEL_SEGMENT_REASON_CODES::MISCOLORED` (`Ltp.h`). -/
def MISCOLORED : Nat := 0x3

/-- `CANCEL_SEGMENT_REASON_CODES::SYSTEM_CANCELLED` (`Ltp.h`). -/
def SYSTEM_CANCELLED : Nat := 0x4

/-- Modelled from the spec: a data segment as the sender hands it to the
transport; `LtpSessionSender.cpp` is missing. The two serial numbers are present
exactly in a checkpoint (§3.2). -/
def dataSegment (typeFlags : Nat) (sessionId : Ltp.session_id_t) (clientServiceId offset : Nat)
    (bytes : List Nat) (serials : Option (Nat × Nat)) : Ltp.Callback :=
  .DataSegmentContentsRead typeFlags sessionId bytes
    { clientServiceId := clientServiceId
      offset := offset
      length := bytes.length
      tmpCheckpointSerialNumber := (serials.getD (0, 0)).1
      tmpReportSerialNumber := (serials.getD (0, 0)).2
      checkpointSerialNumber := serials.isSome
      reportSerialNumber := serials.isSome } [] []

/-- Modelled from the spec: the state of one outbound block (§3.5);
`LtpSessionSender.h` and `LtpSessionSender.cpp` are missing.
`red_segments_emitted` counts the red data segments for `checkpoint every Nth`,
`next_checkpoint_serial` is the next fresh checkpoint serial number,
`checkpoint_timers` lists the checkpoint serial numbers whose timer runs (the
map of outstanding checkpoints and the retry counts serve the expiry of a
timer, which is no event of the model), `awaiting_resend` holds the ranges to
resend already cut into segments, and `deletion_requested` records that the
session asked the engine for its deletion. -/
structure LtpSessionSender where
  session_id : Ltp.session_id_t
  client_service_id : Nat
  client_service_data : List Nat
  red_part_length : Nat
  send_cursor : Nat
  red_segments_emitted : Nat
  next_checkpoint_serial : Nat
  checkpoint_timers : List Nat
  awaiting_resend : List Ltp.Callback
  reports_processed : List Nat
  initial_transmission_completed : Bool
  cancel_in_progress : Bool
  deletion_requested : Bool
  deriving DecidableEq, Repr

namespace LtpSessionSender

/-- Modelled from the spec: initial transmission (§4.F.1), one segment at a
time; `LtpSessionSender.cpp` is missing. The segments that resend missing ranges
come first, then the block in offset order from `send_cursor`: bytes below
`red_part_length` are red, the others green; a segment carries at most
`mtu_bytes` bytes of one colour; the last red segment is the end-of-red-part
checkpoint, also end of block when there is no green part; every Nth red data
segment is a checkpoint (`N = 0` disables); the last green segment is the green
end of block. A checkpoint takes a fresh checkpoint serial number, has report
serial number 0 and starts a timer on its serial number. When the last segment
of the block has been handed over, `initial_transmission_completed` is called.
A session that asked for its deletion hands over nothing. The result is the
segment, the session after it, and the callbacks made. -/
def NextDataToSend (s : LtpSessionSender) (mtu_bytes checkpoint_every_nth : Nat) :
    Option (Ltp.Callback × LtpSessionSender × List Notice) :=
  if s.deletion_requested then none
  else
    match s.awaiting_resend with
    | segment :: rest =>
      let timers :=
        match segment with
        | .DataSegmentContentsRead _ _ _ m _ _ =>
          if m.checkpointSerialNumber then s.checkpoint_timers ++ [m.tmpCheckpointSerialNumber]
          else s.checkpoint_timers
        | _ => s.checkpoint_timers
      some (segment, { s with awaiting_resend := rest, checkpoint_timers := timers }, [])
    | [] =>
      let total := s.client_service_data.length
      if s.send_cursor < total then
        let isRed : Bool := decide (s.send_cursor < s.red_part_length)
        let partEnd := if isRed then s.red_part_length else total
        let length := min mtu_bytes (partEnd - s.send_cursor)
        let bytes := (s.client_service_data.drop s.send_cursor).take length
        let isLastOfPart : Bool := decide (s.send_cursor + length = partEnd)
        let isCheckpoint : Bool := isRed && (isLastOfPart ||
          (decide (checkpoint_every_nth ≠ 0) &&
            decide ((s.red_segments_emitted + 1) % checkpoint_every_nth = 0)))
        let typeFlags :=
          if isRed then
            if isLastOfPart then
              if s.red_part_length = total then Ltp.REDDATA_CHECKPOINT_ENDOFREDPART_ENDOFBLOCK
              else Ltp.REDDATA_CHECKPOINT_ENDOFREDPART
            else if isCheckpoint then Ltp.REDDATA_CHECKPOINT
            else Ltp.REDDATA
          else if isLastOfPart then Ltp.GREENDATA_ENDOFBLOCK
          else Ltp.GREENDATA
        let segment := dataSegment typeFlags s.session_id s.client_service_id s.send_cursor bytes
          (if isCheckpoint then some (s.next_checkpoint_serial, 0) else none)
        let done : Bool := decide (s.send_cursor + length = total)
        some (segment,
          { s with send_cursor := s.send_cursor + length
                   red_segments_emitted := if isRed then s.red_segments_emitted + 1
                     else s.red_segments_emitted
                   next_checkpoint_serial := if isCheckpoint then s.next_checkpoint_serial + 1
                     else s.next_checkpoint_serial
                   checkpoint_timers := if isCheckpoint then
                       s.checkpoint_timers ++ [s.next_checkpoint_serial]
                     else s.checkpoint_timers
                   initial_transmission_completed := s.initial_transmission_completed || done },
          if done then [.initial_transmission_completed s.session_id] else [])
      else none

/-- Modelled from the spec: the ranges a report acknowledges (§4.F.2),
`claim.map(c -> [lb+c.offset, lb+c.offset+c.length))`, as closed ranges; a claim
of length 0 acknowledges nothing. -/
def acknowledgedRanges (r : Ltp.report_segment_t) : List FragmentSet.data_fragment_t :=
  r.receptionClaims.filterMap (fun c =>
    if c.length = 0 then none
    else some ⟨r.lowerBound + c.offset, r.lowerBound + c.offset + c.length - 1⟩)

/-- Modelled from the spec: `missing = bounds_minus([lb,ub), acknowledged_ranges)`
(§4.F.2), computed with `FragmentSet::InsertFragment` and
`FragmentSet::GetBoundsMinusFragments`; nothing is missing from an empty
`[lb,ub)`. -/
def missingRanges (r : Ltp.report_segment_t) : List FragmentSet.data_fragment_t :=
  if r.lowerBound < r.upperBound then
    let acknowledged := (acknowledgedRanges r).foldl
      (fun s f => ((FragmentSet.InsertFragment s f).getD (s, false)).1) []
    (FragmentSet.GetBoundsMinusFragments ⟨r.lowerBound, r.upperBound - 1⟩ acknowledged []).getD []
  else []

/-- Modelled from the spec: a range cut into pieces of at most `mtu_bytes`
bytes, `(offset, length)` each, in offset order (`subject to MTU
fragmentation`, §4.F.2). `fuel` bounds the number of pieces. -/
def cutToMtu (mtu_bytes : Nat) : Nat → Nat → Nat → List (Nat × Nat)
  | 0, _, _ => []
  | fuel + 1, offset, remaining =>
    if remaining = 0 then []
    else
      let length := min mtu_bytes remaining
      (offset, length) :: cutToMtu mtu_bytes fuel (offset + length) (remaining - length)

/-- Modelled from the spec: the segments that resend the missing ranges of a
report (§4.F.2): red data segments of at most `mtu_bytes` bytes, the last of
them a checkpoint (end of red part, and of block, when it ends the red part)
with the new checkpoint serial number `checkpointSerial` and the serial number
of the report it answers. -/
def resendSegments (s : LtpSessionSender) (mtu_bytes : Nat)
    (missing : List FragmentSet.data_fragment_t) (checkpointSerial reportSerial : Nat) :
    List Ltp.Callback :=
  let pieces := (missing.map (fun f =>
    cutToMtu mtu_bytes (f.endIndex + 1 - f.beginIndex) f.beginIndex
      (f.endIndex + 1 - f.beginIndex))).flatten
  let plain := pieces.dropLast.map (fun p =>
    dataSegment Ltp.REDDATA s.session_id s.client_service_id p.1
      ((s.client_service_data.drop p.1).take p.2) none)
  match pieces.getLast? with
  | none => []
  | some p =>
    let typeFlags :=
      if p.1 + p.2 = s.red_part_length then
        if s.red_part_length = s.client_service_data.length then
          Ltp.REDDATA_CHECKPOINT_ENDOFREDPART_ENDOFBLOCK
        else Ltp.REDDATA_CHECKPOINT_ENDOFREDPART
      else Ltp.REDDATA_CHECKPOINT
    plain ++ [dataSegment typeFlags s.session_id s.client_service_id p.1
      ((s.client_service_data.drop p.1).take p.2) (some (checkpointSerial, reportSerial))]

/-- Modelled from the spec: report processing (§4.F.2); `LtpSessionSender.cpp`
is missing. A report already processed is acknowledged again and dropped.
Otherwise the report is acknowledged at once, the missing ranges are queued for
resending, the timer of the checkpoint the report answers is stopped, and when
the report covers `[0, red_length)` with nothing missing the session is
complete: `transmission_session_completed` is called and the deletion of the
session is requested. The result is the session after the report, the segments
sent, and the callbacks made. -/
def ReportSegmentReceivedCallback (s : LtpSessionSender) (mtu_bytes : Nat)
    (r : Ltp.report_segment_t) : LtpSessionSender × List Ltp.Callback × List Notice :=
  let acknowledgement : Ltp.Callback :=
    .ReportAcknowledgementSegmentContentsRead s.session_id r.reportSerialNumber [] []
  if r.reportSerialNumber ∈ s.reports_processed then
    (s, [acknowledgement], [])
  else
    let missing := missingRanges r
    let resend := resendSegments s mtu_bytes missing s.next_checkpoint_serial r.reportSerialNumber
    let complete : Bool :=
      decide (r.lowerBound = 0 ∧ r.upperBound = s.red_part_length ∧ missing = [])
    ({ s with reports_processed := s.reports_processed ++ [r.reportSerialNumber]
              awaiting_resend := s.awaiting_resend ++ resend
              next_checkpoint_serial := if resend = [] then s.next_checkpoint_serial
                else s.next_checkpoint_serial + 1
              checkpoint_timers := s.checkpoint_timers.erase r.checkpointSerialNumber
              deletion_requested := s.deletion_requested || complete },
      [acknowledgement],
      if complete then [.transmission_session_completed s.session_id] else [])

/-- Modelled from the spec: a cancel segment from the receiver (§4.F.5): all
timers are stopped, `transmission_session_cancelled` is called with the reason
code received, the cancel segment is acknowledged and the deletion of the
session is requested. -/
def CancelSegmentReceivedCallback (s : LtpSessionSender) (reasonCode : Nat) :
    LtpSessionSender × List Ltp.Callback × List Notice :=
  ({ s with checkpoint_timers := [], deletion_requested := true },
    [.CancelAcknowledgementSegmentContentsRead s.session_id false [] []],
    [.transmission_session_cancelled s.session_id reasonCode])

end LtpSessionSender

/-- Modelled from the spec: the state of one inbound block (§3.4), under the
names of the members that `LtpSessionReceiver.h` declares;
`LtpSessionReceiver.cpp` is missing. `m_lengthOfRedPart` is `none` until an
end-of-red-part checkpoint tells it, `m_lowestGreenOffsetReceived` is `none` for
`+∞`, `m_itLastPrimaryReportSegmentSent` is `none` for `end()`, and
`m_reportSerialNumberActiveTimersList` lists the report serial numbers whose
timer runs. -/
structure LtpSessionReceiver where
  M_SESSION_ID : Ltp.session_id_t
  M_CLIENT_SERVICE_ID : Nat
  M_MAX_RECEPTION_CLAIMS : Nat
  M_MAX_RED_RX_BYTES : Nat
  m_receivedDataFragmentsSet : List FragmentSet.data_fragment_t
  m_mapAllReportSegmentsSent : List Ltp.report_segment_t
  m_itLastPrimaryReportSegmentSent : Option Ltp.report_segment_t
  m_checkpointSerialNumbersReceivedSet : List Nat
  m_reportSerialNumberActiveTimersList : List Nat
  m_nextReportSegmentReportSerialNumber : Nat
  m_dataReceivedRed : List Nat
  m_lengthOfRedPart : Option Nat
  m_lowestGreenOffsetReceived : Option Nat
  m_currentRedLength : Nat
  m_didRedPartReceptionCallback : Bool
  m_didNotifyForDeletion : Bool
  m_receivedEobFromGreenOrRed : Bool
  m_calledCancelledCallback : Bool
  deriving DecidableEq, Repr

namespace LtpSessionReceiver

/-- Modelled from the spec: a receiver as the engine creates it on the first
segment of an unknown session (§3.6), nothing received yet. -/
def create (sessionId : Ltp.session_id_t) (clientServiceId maxReceptionClaims maxRedRxBytes
    randomNextReportSegmentReportSerialNumber : Nat) : LtpSessionReceiver where
  M_SESSION_ID := sessionId
  M_CLIENT_SERVICE_ID := clientServiceId
  M_MAX_RECEPTION_CLAIMS := maxReceptionClaims
  M_MAX_RED_RX_BYTES := maxRedRxBytes
  m_receivedDataFragmentsSet := []
  m_mapAllReportSegmentsSent := []
  m_itLastPrimaryReportSegmentSent := none
  m_checkpointSerialNumbersReceivedSet := []
  m_reportSerialNumberActiveTimersList := []
  m_nextReportSegmentReportSerialNumber := randomNextReportSegmentReportSerialNumber
  m_dataReceivedRed := []
  m_lengthOfRedPart := none
  m_lowestGreenOffsetReceived := none
  m_currentRedLength := 0
  m_didRedPartReceptionCallback := false
  m_didNotifyForDeletion := false
  m_receivedEobFromGreenOrRed := false
  m_calledCancelledCallback := false

/-- Modelled from the spec: the write of `bytes` into `red_buffer[offset ..]`
(§4.E.1), the buffer growing as needed (bytes never written read as 0). -/
def writeRed (buffer : List Nat) (offset : Nat) (bytes : List Nat) : List Nat :=
  buffer.take offset ++ List.replicate (offset - buffer.length) 0 ++ bytes ++
    buffer.drop (offset + bytes.length)

/-- Modelled from the spec: the reception claims of a report (§4.E.2), each
contiguous range of `received_red_ranges ∩ [lb, ub)` relative to `lb` as
`(offset_from_lb, length)`. -/
def receptionClaims (fragments : List FragmentSet.data_fragment_t) (lb ub : Nat) :
    List Ltp.reception_claim_t :=
  fragments.filterMap (fun f =>
    let b := max f.beginIndex lb
    let e := min (f.endIndex + 1) ub
    if b < e then some ⟨b - lb, e - b⟩ else none)

/-- Modelled from the spec: the claims of a report that would hold more than
`max_reception_claims` claims, split into consecutive runs (§4.E.2). `fuel`
bounds the number of runs. -/
def runsOfClaims (maxReceptionClaims : Nat) :
    Nat → List Ltp.reception_claim_t → List (List Ltp.reception_claim_t)
  | 0, claims => [claims]
  | fuel + 1, claims =>
    if claims.length ≤ maxReceptionClaims then [claims]
    else claims.take maxReceptionClaims ::
      runsOfClaims maxReceptionClaims fuel (claims.drop maxReceptionClaims)

/-- Modelled from the spec: report generation (§4.E.2) for the checkpoint
`checkpointSerialNumber` and the range `[lowerBound, upperBound)`;
`LtpSessionReceiver.cpp` is missing. Each report has the bounds, the claims of
its run and its own report serial number; it is placed among the reports sent
and sent, and a timer is started on its serial number. A report that answers a
checkpoint which is no response to a report segment becomes the last primary
report. The result is the session after it and the reports sent. -/
def HandleGenerateAndSendReportSegment (r : LtpSessionReceiver)
    (checkpointSerialNumber lowerBound upperBound : Nat)
    (checkpointIsResponseToReportSegment : Bool) : LtpSessionReceiver × List Ltp.Callback :=
  let claims := receptionClaims r.m_receivedDataFragmentsSet lowerBound upperBound
  let runs := runsOfClaims r.M_MAX_RECEPTION_CLAIMS claims.length claims
  let reports : List Ltp.report_segment_t := runs.enum.map (fun (i, run) =>
    { reportSerialNumber := r.m_nextReportSegmentReportSerialNumber + i
      checkpointSerialNumber := checkpointSerialNumber
      upperBound := upperBound
      lowerBound := lowerBound
      tmpReceptionClaimCount := run.length
      receptionClaims := run })
  ({ r with m_mapAllReportSegmentsSent := r.m_mapAllReportSegmentsSent ++ reports
            m_itLastPrimaryReportSegmentSent :=
              if checkpointIsResponseToReportSegment then r.m_itLastPrimaryReportSegmentSent
              else reports.getLast?.orElse (fun _ => r.m_itLastPrimaryReportSegmentSent)
            m_reportSerialNumberActiveTimersList := r.m_reportSerialNumberActiveTimersList ++
              reports.map (fun x => x.reportSerialNumber)
            m_nextReportSegmentReportSerialNumber :=
              r.m_nextReportSegmentReportSerialNumber + reports.length },
    reports.map (fun x => .ReportSegmentContentsRead r.M_SESSION_ID x [] []))

/-- Modelled from the spec: the red part is fully received (§4.E.1 step 4):
`red_length` is known and `received_red_ranges` contains `[0, red_length-1]`
(`FragmentSet::ContainsFragmentEntirely`). -/
def redPartFullyReceived (r : LtpSessionReceiver) : Bool :=
  match r.m_lengthOfRedPart with
  | none => false
  | some redLength =>
    decide (redLength = 0) ||
      FragmentSet.ContainsFragmentEntirely r.m_receivedDataFragmentsSet ⟨0, redLength - 1⟩

/-- Modelled from the spec: the receiver cancels its session with `reasonCode`
(§4.E.1, scenarios 6 and 7 of §8): a cancel segment from the receiver is sent,
`reception_session_cancelled` is called with the reason code and the deletion
of the session is requested. -/
def cancel (r : LtpSessionReceiver) (reasonCode : Nat) :
    LtpSessionReceiver × List Ltp.Callback × List Notice :=
  ({ r with m_calledCancelledCallback := true, m_didNotifyForDeletion := true },
    [.CancelSegmentContentsRead r.M_SESSION_ID reasonCode false [] []],
    [.reception_session_cancelled r.M_SESSION_ID reasonCode])

/-- Modelled from the spec: steps 4 and 5 of segment handling (§4.E.1): when
the red part is fully received and `red_part_reception` has not been called
yet, it is called with the bytes of the red part; when the red part is fully
received and the end of block has been received, the deletion of the session is
requested. -/
def deliverAndClose (r : LtpSessionReceiver) : LtpSessionReceiver × List Notice :=
  if r.redPartFullyReceived then
    let redLength := r.m_lengthOfRedPart.getD 0
    let notices : List Notice :=
      if r.m_didRedPartReceptionCallback then []
      else [.red_part_reception r.M_SESSION_ID (r.m_dataReceivedRed.take redLength) redLength
        r.M_CLIENT_SERVICE_ID r.m_receivedEobFromGreenOrRed]
    ({ r with m_didRedPartReceptionCallback := true
              m_didNotifyForDeletion := r.m_didNotifyForDeletion || r.m_receivedEobFromGreenOrRed },
      notices)
  else (r, [])

/-- Modelled from the spec: segment handling (§4.E.1) under the signature that
`LtpSessionReceiver.h` declares (the two callbacks are the `Notice`s returned);
`LtpSessionReceiver.cpp` is missing. Step 1, the timestamp, serves the
housekeeping only. The lower bound of a report is the upper bound of the last
primary report, 0 when there is none: the byte up to which reception has been
reported already. A checkpoint whose serial number was seen before requests no
report. The result is the session after the segment, the segments sent, and the
callbacks made. -/
def DataSegmentReceivedCallback (r : LtpSessionReceiver) (segmentTypeFlags : Nat)
    (clientServiceDataVec : List Nat) (dataSegmentMetadata : Ltp.data_segment_metadata_t) :
    LtpSessionReceiver × List Ltp.Callback × List Notice :=
  let offset := dataSegmentMetadata.offset
  let length := dataSegmentMetadata.length
  let isGreen : Bool :=
    decide (segmentTypeFlags = Ltp.GREENDATA ∨ segmentTypeFlags = Ltp.GREENDATA_ENDOFBLOCK)
  if isGreen then
    let isEndOfBlock : Bool := decide (segmentTypeFlags = Ltp.GREENDATA_ENDOFBLOCK)
    let arrival : Notice := .green_part_segment_arrival r.M_SESSION_ID clientServiceDataVec offset
      r.M_CLIENT_SERVICE_ID isEndOfBlock
    let lowest :=
      match r.m_lowestGreenOffsetReceived with
      | none => offset
      | some lowest => min lowest offset
    let r := { r with m_lowestGreenOffsetReceived := some lowest }
    if offset < r.m_currentRedLength then
      let (r, sent, notices) := r.cancel MISCOLORED
      (r, sent, arrival :: notices)
    else
      let r := { r with m_receivedEobFromGreenOrRed := r.m_receivedEobFromGreenOrRed || isEndOfBlock }
      let (r, notices) := r.deliverAndClose
      (r, [], arrival :: notices)
  else if (match r.m_lowestGreenOffsetReceived with
      | none => false
      | some lowest => decide (offset + length > lowest)) then
    r.cancel MISCOLORED
  else if offset + length > r.M_MAX_RED_RX_BYTES then
    r.cancel SYSTEM_CANCELLED
  else
    let r := { r with
      m_dataReceivedRed := writeRed r.m_dataReceivedRed offset clientServiceDataVec
      m_receivedDataFragmentsSet :=
        ((FragmentSet.InsertFragment r.m_receivedDataFragmentsSet
          ⟨offset, offset + length - 1⟩).getD (r.m_receivedDataFragmentsSet, false)).1
      m_currentRedLength := max r.m_currentRedLength (offset + length) }
    let isCheckpoint : Bool := decide (segmentTypeFlags = Ltp.REDDATA_CHECKPOINT ∨
      segmentTypeFlags = Ltp.REDDATA_CHECKPOINT_ENDOFREDPART ∨
      segmentTypeFlags = Ltp.REDDATA_CHECKPOINT_ENDOFREDPART_ENDOFBLOCK)
    let isEndOfRedPart : Bool := decide (segmentTypeFlags = Ltp.REDDATA_CHECKPOINT_ENDOFREDPART ∨
      segmentTypeFlags = Ltp.REDDATA_CHECKPOINT_ENDOFREDPART_ENDOFBLOCK)
    let (r, sent) :=
      if isCheckpoint ∧
          dataSegmentMetadata.tmpCheckpointSerialNumber ∉ r.m_checkpointSerialNumbersReceivedSet then
        let r := { r with m_checkpointSerialNumbersReceivedSet :=
          r.m_checkpointSerialNumbersReceivedSet ++ [dataSegmentMetadata.tmpCheckpointSerialNumber] }
        let lowerBound :=
          match r.m_itLastPrimaryReportSegmentSent with
          | none => 0
          | some primary => primary.upperBound
        r.HandleGenerateAndSendReportSegment dataSegmentMetadata.tmpCheckpointSerialNumber lowerBound
          (offset + length) (decide (dataSegmentMetadata.tmpReportSerialNumber ≠ 0))
      else (r, [])
    let r :=
      if isEndOfRedPart then
        { r with m_lengthOfRedPart := some (offset + length), m_receivedEobFromGreenOrRed := true }
      else r
    let (r, notices) := r.deliverAndClose
    (r, sent, notices)

/-- Modelled from the spec: a report acknowledgement (§4.E.2) under the
signature that `LtpSessionReceiver.h` declares; `LtpSessionReceiver.cpp` is
missing. For a known report serial number the timer is stopped; if the range of
that report was `[0, red_length)` and the red part is fully received,
`red_part_reception` is called unless it was called before, and the deletion of
the session is requested. -/
def ReportAcknowledgementSegmentReceivedCallback (r : LtpSessionReceiver)
    (reportSerialNumberBeingAcknowledged : Nat) : LtpSessionReceiver × List Notice :=
  match r.m_mapAllReportSegmentsSent.find?
      (fun x => x.reportSerialNumber = reportSerialNumberBeingAcknowledged) with
  | none => (r, [])
  | some report =>
    let r := { r with m_reportSerialNumberActiveTimersList :=
      r.m_reportSerialNumberActiveTimersList.erase reportSerialNumberBeingAcknowledged }
    if report.lowerBound = 0 ∧ some report.upperBound = r.m_lengthOfRedPart ∧
        r.redPartFullyReceived = true then
      let notices : List Notice :=
        if r.m_didRedPartReceptionCallback then []
        else [.red_part_reception r.M_SESSION_ID (r.m_dataReceivedRed.take report.upperBound)
          report.upperBound r.M_CLIENT_SERVICE_ID r.m_receivedEobFromGreenOrRed]
      ({ r with m_didRedPartReceptionCallback := true, m_didNotifyForDeletion := true }, notices)
    else (r, [])

/-- Modelled from the spec: a cancel segment from the sender (§4.E.3): the
cancel segment is acknowledged, `reception_session_cancelled` is called with
the reason code and the session is marked for deletion. -/
def CancelSegmentReceivedCallback (r : LtpSessionReceiver) (reasonCode : Nat) :
    LtpSessionReceiver × List Ltp.Callback × List Notice :=
  ({ r with m_calledCancelledCallback := true, m_didNotifyForDeletion := true },
    [.CancelAcknowledgementSegmentContentsRead r.M_SESSION_ID true [] []],
    [.reception_session_cancelled r.M_SESSION_ID reasonCode])

/-- `LtpSessionReceiver::GetNumActiveTimers()` as the header declares it, the
timers being those of the report serial numbers. -/
def GetNumActiveTimers (r : LtpSessionReceiver) : Nat :=
  r.m_reportSerialNumberActiveTimersList.length

end LtpSessionReceiver

/-- Modelled from the spec: the engine (§4.G) with the options of §6.4 that the
model uses; `LtpEngine.h` and `LtpEngine.cpp` are missing. `random` stands for
the random number generator (each draw takes its value and adds 1 to it),
`segments_to_send` holds the report, acknowledgement and cancel segments sent
and not yet taken by the transport, `recently_closed` is the recently-closed
session set and `notices` the log of the callbacks made to the application. -/
structure LtpEngine where
  engine_id : Nat
  mtu_bytes : Nat
  max_reception_claims_per_report : Nat
  max_red_rx_bytes_per_session : Nat
  checkpoint_every_nth_data_segment_for_senders : Nat
  rx_session_number_recreation_preventer_history_size : Nat
  random : Nat
  senders : List LtpSessionSender
  receivers : List LtpSessionReceiver
  segments_to_send : List Ltp.Callback
  recently_closed : List Ltp.session_id_t
  notices : List Notice
  deriving DecidableEq, Repr

namespace LtpEngine

/-- Modelled from the spec: `Reset()` as `TestLtpEngine.cpp` uses it: the
engine keeps its options and has no session, nothing to send and no callback
logged. -/
def Reset (e : LtpEngine) : LtpEngine :=
  { e with senders := [], receivers := [], segments_to_send := [], recently_closed := []
           notices := [] }

/-- Modelled from the spec: the setter of the option
`checkpoint_every_nth_data_segment_for_senders` (§6.4), which
`TestLtpEngine.cpp` calls. -/
def SetCheckpointEveryNthDataPacketForSenders (e : LtpEngine)
    (checkpointEveryNthDataPacketSender : Nat) : LtpEngine :=
  { e with checkpoint_every_nth_data_segment_for_senders := checkpointEveryNthDataPacketSender }

/-- Modelled from the spec: the number of sessions in the senders map, which
`TestLtpEngine.cpp` asserts on. -/
def NumActiveSenders (e : LtpEngine) : Nat := e.senders.length

/-- Modelled from the spec: the number of sessions in the receivers map, which
`TestLtpEngine.cpp` asserts on. -/
def NumActiveReceivers (e : LtpEngine) : Nat := e.receivers.length

/-- Modelled from the spec: the destruction of sessions (§3.6): a session is
destroyed once it has requested its deletion and none of its timers runs. The
session id of a destroyed receiver enters the recently-closed set, a FIFO that
keeps the last `rx_session_number_recreation_preventer_history_size` ids. -/
def destroyClosedSessions (e : LtpEngine) : LtpEngine :=
  let closed := (e.receivers.filter
    (fun r => r.m_didNotifyForDeletion && decide (r.GetNumActiveTimers = 0))).map
      (fun r => r.M_SESSION_ID)
  let history := e.recently_closed ++ closed
  { e with senders := e.senders.filter
             (fun s => !(s.deletion_requested && decide (s.checkpoint_timers = [])))
           receivers := e.receivers.filter
             (fun r => !(r.m_didNotifyForDeletion && decide (r.GetNumActiveTimers = 0)))
           recently_closed :=
             history.drop (history.length - e.rx_session_number_recreation_preventer_history_size) }

/-- Modelled from the spec: `transmission_request` (§3.6, §4.F.1) under the
signature `TestLtpEngine.cpp` calls it with: a sender is created for the block,
with a random session number, and `session_start` is called; `LtpEngine.cpp` is
missing. The first checkpoint serial number is random as well. -/
def TransmissionRequest (e : LtpEngine) (destinationClientServiceId _destinationLtpEngineId : Nat)
    (clientServiceDataToSend : List Nat) (lengthOfRedPart : Nat) : LtpEngine :=
  let sessionId : Ltp.session_id_t := ⟨e.engine_id, e.random⟩
  let sender : LtpSessionSender :=
    { session_id := sessionId
      client_service_id := destinationClientServiceId
      client_service_data := clientServiceDataToSend
      red_part_length := lengthOfRedPart
      send_cursor := 0
      red_segments_emitted := 0
      next_checkpoint_serial := e.random + 1
      checkpoint_timers := []
      awaiting_resend := []
      reports_processed := []
      initial_transmission_completed := false
      cancel_in_progress := false
      deletion_requested := false }
  { e with random := e.random + 2
           senders := e.senders ++ [sender]
           notices := e.notices ++ [.session_start sessionId] }

/-- Modelled from the spec: the first sender of the map that has a data segment
to hand over, with the map after the hand-over. -/
def nextDataOfSenders (mtu_bytes checkpoint_every_nth : Nat) :
    List LtpSessionSender → Option (Ltp.Callback × List LtpSessionSender × List Notice)
  | [] => none
  | s :: rest =>
    match s.NextDataToSend mtu_bytes checkpoint_every_nth with
    | some (segment, s, notices) => some (segment, s :: rest, notices)
    | none =>
      match nextDataOfSenders mtu_bytes checkpoint_every_nth rest with
      | some (segment, rest, notices) => some (segment, s :: rest, notices)
      | none => none

/-- Modelled from the spec: the next packet for the transport, if the engine
has one, under the name `TestLtpEngine.cpp` calls; `LtpEngine.cpp` is missing.
The report, acknowledgement and cancel segments sent come first, in the order
in which they were sent, then the data segments of the senders (the
specification gives no order). Sessions that can be destroyed are destroyed
after the call. -/
def GetNextPacketToSend (e : LtpEngine) : Option Ltp.Callback × LtpEngine :=
  match e.segments_to_send with
  | segment :: rest => (some segment, destroyClosedSessions { e with segments_to_send := rest })
  | [] =>
    match nextDataOfSenders e.mtu_bytes e.checkpoint_every_nth_data_segment_for_senders
        e.senders with
    | some (segment, senders, notices) =>
      (some segment,
        destroyClosedSessions { e with senders := senders, notices := e.notices ++ notices })
    | none => (none, destroyClosedSessions e)

/-- Modelled from the spec: the sender of the session `sessionId`, if the
engine has one. -/
def findSender (e : LtpEngine) (sessionId : Ltp.session_id_t) : Option LtpSessionSender :=
  e.senders.find? (fun s => s.session_id = sessionId)

/-- Modelled from the spec: the receiver of the session `sessionId`, if the
engine has one. -/
def findReceiver (e : LtpEngine) (sessionId : Ltp.session_id_t) : Option LtpSessionReceiver :=
  e.receivers.find? (fun r => r.M_SESSION_ID = sessionId)

/-- Modelled from the spec: the senders map with the session `s` in the place
of the session of the same id. -/
def putSender (e : LtpEngine) (s : LtpSessionSender) : List LtpSessionSender :=
  e.senders.map (fun x => if x.session_id = s.session_id then s else x)

/-- Modelled from the spec: the receivers map with the session `r` in the place
of the session of the same id, or added to the map when there is none. -/
def putReceiver (e : LtpEngine) (r : LtpSessionReceiver) : List LtpSessionReceiver :=
  if (e.findReceiver r.M_SESSION_ID).isSome then
    e.receivers.map (fun x => if x.M_SESSION_ID = r.M_SESSION_ID then r else x)
  else e.receivers ++ [r]

/-- Modelled from the spec: the dispatch of a decoded segment (§4.G), under the
name `TestLtpEngine.cpp` calls; `LtpEngine.cpp` is missing. Data segments,
report acknowledgements, cancel segments from the sender and cancel
acknowledgements to the receiver go to the receivers map, the other segments to
the senders map. A data segment of an unknown session creates a receiver (and
`session_start` is called) unless the session id is in the recently-closed set,
in which case it is dropped. A report or a report acknowledgement of an unknown
session is dropped. A cancel segment of an unknown session is answered by a
cancel acknowledgement. A cancel acknowledgement ends nothing that the model
holds and is dropped: of the rule `CANCEL and CANCEL_ACK for unknown sessions
produce a CANCEL_ACK in response` the model keeps the response to the cancel
segment, since two engines that answer each other's acknowledgements never
stop, and scenarios 6 and 7 of §8 end. Sessions that can be destroyed are
destroyed after the call. -/
def PacketIn (e : LtpEngine) (segment : Ltp.Callback) : LtpEngine :=
  destroyClosedSessions <|
    match segment with
    | .DataSegmentContentsRead segmentTypeFlags sessionId clientServiceDataVec
        dataSegmentMetadata _ _ =>
      match e.findReceiver sessionId with
      | some r =>
        let (r, sent, notices) := r.DataSegmentReceivedCallback segmentTypeFlags
          clientServiceDataVec dataSegmentMetadata
        { e with receivers := e.putReceiver r
                 segments_to_send := e.segments_to_send ++ sent
                 notices := e.notices ++ notices }
      | none =>
        if sessionId ∈ e.recently_closed then e
        else
          let r := LtpSessionReceiver.create sessionId dataSegmentMetadata.clientServiceId
            e.max_reception_claims_per_report e.max_red_rx_bytes_per_session e.random
          let (r, sent, notices) := r.DataSegmentReceivedCallback segmentTypeFlags
            clientServiceDataVec dataSegmentMetadata
          { e with random := e.random + 1
                   receivers := e.putReceiver r
                   segments_to_send := e.segments_to_send ++ sent
                   notices := e.notices ++ [.session_start sessionId] ++ notices }
    | .ReportSegmentContentsRead sessionId reportSegment _ _ =>
      match e.findSender sessionId with
      | some s =>
        let (s, sent, notices) := s.ReportSegmentReceivedCallback e.mtu_bytes reportSegment
        { e with senders := e.putSender s
                 segments_to_send := e.segments_to_send ++ sent
                 notices := e.notices ++ notices }
      | none => e
    | .ReportAcknowledgementSegmentContentsRead sessionId reportSerialNumberBeingAcknowledged _ _ =>
      match e.findReceiver sessionId with
      | some r =>
        let (r, notices) :=
          r.ReportAcknowledgementSegmentReceivedCallback reportSerialNumberBeingAcknowledged
        { e with receivers := e.putReceiver r, notices := e.notices ++ notices }
      | none => e
    | .CancelSegmentContentsRead sessionId reasonCode isFromSender _ _ =>
      if isFromSender then
        match e.findReceiver sessionId with
        | some r =>
          let (r, sent, notices) := r.CancelSegmentReceivedCallback reasonCode
          { e with receivers := e.putReceiver r
                   segments_to_send := e.segments_to_send ++ sent
                   notices := e.notices ++ notices }
        | none =>
          { e with segments_to_send := e.segments_to_send ++
              [.CancelAcknowledgementSegmentContentsRead sessionId true [] []] }
      else
        match e.findSender sessionId with
        | some s =>
          let (s, sent, notices) := s.CancelSegmentReceivedCallback reasonCode
          { e with senders := e.putSender s
                   segments_to_send := e.segments_to_send ++ sent
                   notices := e.notices ++ notices }
        | none =>
          { e with segments_to_send := e.segments_to_send ++
              [.CancelAcknowledgementSegmentContentsRead sessionId false [] []] }
    | .CancelAcknowledgementSegmentContentsRead _ _ _ _ => e

end LtpEngine

/-- `struct Test` of `TestLtpEngine.cpp`: the two engines and the two counters
of packets. The callbacks of the test count the calls, each for the engine it
is set on; here the engines log their calls and the counters of callbacks are
the functions below. `srcToDest` and `destToSrc` list the packets exchanged,
which the test does not keep. -/
structure Test where
  engineSrc : LtpEngine
  engineDest : LtpEngine
  numSrcToDestDataExchanged : Nat
  numDestToSrcDataExchanged : Nat
  srcToDest : List Ltp.Callback
  destToSrc : List Ltp.Callback
  deriving DecidableEq, Repr

namespace Test

/-- `CLIENT_SERVICE_ID_DEST(300)`. -/
def CLIENT_SERVICE_ID_DEST : Nat := 300

/-- `numRedPartReceptionCallbacks`, counted by the callback set on
`engineDest`. -/
def numRedPartReceptionCallbacks (t : Test) : Nat :=
  (t.engineDest.notices.filter (fun n =>
    match n with
    | .red_part_reception _ _ _ _ _ => true
    | _ => false)).length

/-- `numSessionStartSenderCallbacks`, counted by the callback set on
`engineSrc`. -/
def numSessionStartSenderCallbacks (t : Test) : Nat :=
  (t.engineSrc.notices.filter (fun n =>
    match n with
    | .session_start _ => true
    | _ => false)).length

/-- `numSessionStartReceiverCallbacks`, counted by the callback set on
`engineDest`. -/
def numSessionStartReceiverCallbacks (t : Test) : Nat :=
  (t.engineDest.notices.filter (fun n =>
    match n with
    | .session_start _ => true
    | _ => false)).length

/-- `numGreenPartReceptionCallbacks`, counted by the callback set on
`engineDest`. -/
def numGreenPartReceptionCallbacks (t : Test) : Nat :=
  (t.engineDest.notices.filter (fun n =>
    match n with
    | .green_part_segment_arrival _ _ _ _ _ => true
    | _ => false)).length

/-- `numReceptionSessionCancelledCallbacks`, counted by the callback set on
`engineDest`. -/
def numReceptionSessionCancelledCallbacks (t : Test) : Nat :=
  (t.engineDest.notices.filter (fun n =>
    match n with
    | .reception_session_cancelled _ _ => true
    | _ => false)).length

/-- `numTransmissionSessionCompletedCallbacks`, counted by the callback set on
`engineSrc`. -/
def numTransmissionSessionCompletedCallbacks (t : Test) : Nat :=
  (t.engineSrc.notices.filter (fun n =>
    match n with
    | .transmission_session_completed _ => true
    | _ => false)).length

/-- `numInitialTransmissionCompletedCallbacks`, counted by the callback set on
`engineSrc`. -/
def numInitialTransmissionCompletedCallbacks (t : Test) : Nat :=
  (t.engineSrc.notices.filter (fun n =>
    match n with
    | .initial_transmission_completed _ => true
    | _ => false)).length

/-- `numTransmissionSessionCancelledCallbacks`, counted by the callback set on
`engineSrc`. -/
def numTransmissionSessionCancelledCallbacks (t : Test) : Nat :=
  (t.engineSrc.notices.filter (fun n =>
    match n with
    | .transmission_session_cancelled _ _ => true
    | _ => false)).length

/-- `Test::SendData(src, dest)` with `simulateDrop` and `swapHeader` false: the
returned flag, the packet handed over if any, and the two engines after the
call. -/
def SendData (src dest : LtpEngine) : Bool × Option Ltp.Callback × LtpEngine × LtpEngine :=
  match src.GetNextPacketToSend with
  | (some packet, src) => (true, some packet, src, dest.PacketIn packet)
  | (none, src) => (false, none, src, dest)

/-- `Test::Reset()`. -/
def Reset (t : Test) : Test :=
  { engineSrc := t.engineSrc.Reset.SetCheckpointEveryNthDataPacketForSenders 0
    engineDest := t.engineDest.Reset.SetCheckpointEveryNthDataPacketForSenders 0
    numSrcToDestDataExchanged := 0
    numDestToSrcDataExchanged := 0
    srcToDest := []
    destToSrc := [] }

/-- `Test::ExchangeData()` with all its arguments at their defaults: the
returned flag (`false` when no data was exchanged) and the test after the
call. -/
def ExchangeData (t : Test) : Bool × Test :=
  match SendData t.engineSrc t.engineDest with
  | (didSrcToDest, packetSrcToDest, engineSrc, engineDest) =>
    match SendData engineDest engineSrc with
    | (didDestToSrc, packetDestToSrc, engineDest, engineSrc) =>
      (didSrcToDest || didDestToSrc,
        { engineSrc := engineSrc
          engineDest := engineDest
          numSrcToDestDataExchanged := t.numSrcToDestDataExchanged + didSrcToDest.toNat
          numDestToSrcDataExchanged := t.numDestToSrcDataExchanged + didDestToSrc.toNat
          srcToDest := t.srcToDest ++ packetSrcToDest.toList
          destToSrc := t.destToSrc ++ packetDestToSrc.toList })

/-- The loop `while (ExchangeData()) { }` of `Test::DoTest()`; `fuel` bounds
the number of calls of `ExchangeData`. -/
def exchangeAll : Nat → Test → Option Test
  | 0, _ => none
  | fuel + 1, t =>
    match t.ExchangeData with
    | (true, t) => exchangeAll fuel t
    | (false, t) => some t

/-- `Test::AssertNoActiveSendersAndReceivers()`: the four equalities it
requires. -/
def NoActiveSendersAndReceivers (t : Test) : Prop :=
  t.engineSrc.NumActiveSenders = 0 ∧ t.engineSrc.NumActiveReceivers = 0 ∧
  t.engineDest.NumActiveSenders = 0 ∧ t.engineDest.NumActiveReceivers = 0

instance (t : Test) : Decidable t.NoActiveSendersAndReceivers := by
  unfold NoActiveSendersAndReceivers
  infer_instance

/-- `Test::DoTest()` up to its assertions, for the block
`DESIRED_RED_DATA_TO_SEND`, all of it red: the test after the loop, `none` if
the loop needs more than `fuel` calls of `ExchangeData`. -/
def DoTest (fuel : Nat) (t : Test) (DESIRED_RED_DATA_TO_SEND : List Nat) : Option Test :=
  let t := t.Reset
  let engineSrc := t.engineSrc.TransmissionRequest CLIENT_SERVICE_ID_DEST t.engineDest.engine_id
    DESIRED_RED_DATA_TO_SEND DESIRED_RED_DATA_TO_SEND.length
  let t := { t with engineSrc := engineSrc }
  exchangeAll fuel t

/-! ### The states that `DoTest` goes through -/

/-- The session id that `TransmissionRequest` gives to the block of `DoTest`. -/
def sessionId (t : Test) : Ltp.session_id_t := ⟨t.engineSrc.engine_id, t.engineSrc.random⟩

/-- The data segment number `k` (from 0) of the block `data` of `DoTest`, one
byte per segment: red data, the last one the end-of-block checkpoint with the
first checkpoint serial number of the session. -/
def segmentAt (t : Test) (data : List Nat) (k : Nat) : Ltp.Callback :=
  dataSegment
    (if k + 1 = data.length then Ltp.REDDATA_CHECKPOINT_ENDOFREDPART_ENDOFBLOCK else Ltp.REDDATA)
    t.sessionId CLIENT_SERVICE_ID_DEST k ((data.drop k).take 1)
    (if k + 1 = data.length then some (t.engineSrc.random + 1, 0) else none)

/-- The report that answers the end-of-block checkpoint of the block `data`:
its serial number is the first of the receiver, its bounds are `[0, N)` and its
one claim is the whole block. -/
def reportOf (t : Test) (data : List Nat) : Ltp.report_segment_t :=
  { reportSerialNumber := t.engineDest.random
    checkpointSerialNumber := t.engineSrc.random + 1
    upperBound := data.length
    lowerBound := 0
    tmpReceptionClaimCount := 1
    receptionClaims := [⟨0, data.length⟩] }

/-- The sender of `DoTest` when `k` segments of the block have been handed
over and the last one has not. -/
def senderAt (t : Test) (data : List Nat) (k : Nat) : LtpSessionSender :=
  { session_id := t.sessionId
    client_service_id := CLIENT_SERVICE_ID_DEST
    client_service_data := data
    red_part_length := data.length
    send_cursor := k
    red_segments_emitted := k
    next_checkpoint_serial := t.engineSrc.random + 1
    checkpoint_timers := []
    awaiting_resend := []
    reports_processed := []
    initial_transmission_completed := false
    cancel_in_progress := false
    deletion_requested := false }

/-- The received ranges when the first `k` bytes of the block have arrived. -/
def fragmentsAt : Nat → List FragmentSet.data_fragment_t
  | 0 => []
  | k + 1 => [⟨0, k⟩]

/-- The receiver of `DoTest` when the first `k` bytes of the block have
arrived and the last one has not. -/
def receiverAt (t : Test) (data : List Nat) (k : Nat) : LtpSessionReceiver :=
  { LtpSessionReceiver.create t.sessionId CLIENT_SERVICE_ID_DEST
      t.engineDest.max_reception_claims_per_report t.engineDest.max_red_rx_bytes_per_session
      t.engineDest.random with
    m_receivedDataFragmentsSet := fragmentsAt k
    m_dataReceivedRed := data.take k
    m_currentRedLength := k }

/-- The sending engine of `DoTest` with the senders map `senders` and the log
`notices`, after `TransmissionRequest`. -/
def srcWith (t : Test) (senders : List LtpSessionSender) (segments : List Ltp.Callback)
    (notices : List Notice) : LtpEngine :=
  { t.engineSrc with
    checkpoint_every_nth_data_segment_for_senders := 0
    random := t.engineSrc.random + 2
    senders := senders
    receivers := []
    segments_to_send := segments
    recently_closed := []
    notices := notices }

/-- The receiving engine of `DoTest` once its receiver exists, with the
receivers map `receivers`, the recently-closed set `closed` and the log
`notices`. -/
def destWith (t : Test) (receivers : List LtpSessionReceiver) (segments : List Ltp.Callback)
    (closed : List Ltp.session_id_t) (notices : List Notice) : LtpEngine :=
  { t.engineDest with
    checkpoint_every_nth_data_segment_for_senders := 0
    random := t.engineDest.random + 1
    senders := []
    receivers := receivers
    segments_to_send := segments
    recently_closed := closed
    notices := notices }

/-- The receiving engine of `DoTest` when the first `k` bytes of the block
have arrived and the last one has not. -/
def destAt (t : Test) (data : List Nat) : Nat → LtpEngine
  | 0 => t.Reset.engineDest
  | k + 1 => t.destWith [t.receiverAt data (k + 1)] [] [] [.session_start t.sessionId]

/-- The test when `k` segments of the block have been exchanged and the last
one has not. -/
def stateAt (t : Test) (data : List Nat) (k : Nat) : Test :=
  { engineSrc := t.srcWith [t.senderAt data k] [] [.session_start t.sessionId]
    engineDest := t.destAt data k
    numSrcToDestDataExchanged := k
    numDestToSrcDataExchanged := 0
    srcToDest := (List.range k).map (t.segmentAt data)
    destToSrc := [] }

/-! ### The test of `TestLtpEngine.cpp` -/

/-- `Test::Test()`: the engines 100 and 200 with one byte of client service
data per data segment, reports of unlimited size and at most 50 red bytes per
session; the receiving engine remembers 1000 closed sessions. The random
numbers of both engines start at 1. -/
def init : Test :=
  { engineSrc :=
      { engine_id := 100, mtu_bytes := 1, max_reception_claims_per_report := 2 ^ 64 - 1
        max_red_rx_bytes_per_session := 50, checkpoint_every_nth_data_segment_for_senders := 0
        rx_session_number_recreation_preventer_history_size := 0, random := 1
        senders := [], receivers := [], segments_to_send := [], recently_closed := []
        notices := [] }
    engineDest :=
      { engine_id := 200, mtu_bytes := 1, max_reception_claims_per_report := 2 ^ 64 - 1
        max_red_rx_bytes_per_session := 50, checkpoint_every_nth_data_segment_for_senders := 0
        rx_session_number_recreation_preventer_history_size := 1000, random := 1
        senders := [], receivers := [], segments_to_send := [], recently_closed := []
        notices := [] }
    numSrcToDestDataExchanged := 0
    numDestToSrcDataExchanged := 0
    srcToDest := []
    destToSrc := [] }

/-- `DESIRED_RED_DATA_TO_SEND("The quick brown fox jumps over the lazy dog!")`,
44 bytes. -/
def DESIRED_RED_DATA_TO_SEND : List Nat :=
  [84, 104, 101, 32, 113, 117, 105, 99, 107, 32, 98, 114, 111, 119, 110, 32, 102, 111, 120, 32,
    106, 117, 109, 112, 115, 32, 111, 118, 101, 114, 32, 116, 104, 101, 32, 108, 97, 122, 121, 32,
    100, 111, 103, 33]

/-- `DESIRED_TOO_MUCH_RED_DATA_TO_SEND("The quick brown fox jumps over the lazy
dog! 12345678910")`, 56 bytes. -/
def DESIRED_TOO_MUCH_RED_DATA_TO_SEND : List Nat :=
  [84, 104, 101, 32, 113, 117, 105, 99, 107, 32, 98, 114, 111, 119, 110, 32, 102, 111, 120, 32,
    106, 117, 109, 112, 115, 32, 111, 118, 101, 114, 32, 116, 104, 101, 32, 108, 97, 122, 121, 32,
    100, 111, 103, 33, 32, 49, 50, 51, 52, 53, 54, 55, 56, 57, 49, 48]

end Test

/-! ## Sdnv.cpp: the 32-bit decoder -/

/-- The `for (byteCount = 1; byteCount <= byteCountMax; ++byteCount)` loop of
`SdnvDecodeU32Classic` together with the code after it, `result` being a
`uint32_t`. `iters` is the number of iterations still allowed,
`byteCountMax + 1 - byteCount`; the byte read by `*inputEncoded++` in iteration
`byteCount` is `inputEncoded[byteCount - 1]`. -/
def SdnvDecodeU32Classic.loop (inputEncoded : List Nat) :
    (iters : Nat) → (byteCount : Nat) → (result : Nat) → SdnvDecodeResult
  | 0, byteCount, _ =>
    if byteCount = 6 then ⟨.DECODE_FAILURE_INVALID_SDNV_RETURN_VALUE, 0⟩
    else ⟨.DECODE_FAILURE_NOT_ENOUGH_ENCODED_BYTES_RETURN_VALUE, 0⟩
  | iters + 1, byteCount, result =>
    let result := (result <<< 7) % 2 ^ 32
    let currentByte := inputEncoded.getD (byteCount - 1) 0
    let result := (result + (currentByte &&& 0x7f)) % 2 ^ 32
    if currentByte &&& 0x80 = 0 then
      if byteCount = 5 ∧ inputEncoded.getD 0 0 > 0x8f then
        ⟨.DECODE_FAILURE_INVALID_SDNV_RETURN_VALUE, 0⟩
      else
        ⟨.value result, byteCount⟩
    else
      SdnvDecodeU32Classic.loop inputEncoded iters (byteCount + 1) result

/-- `SdnvDecodeU32Classic(inputEncoded, numBytes, bufferSize)`. The caller
guarantees `bufferSize` readable bytes at `inputEncoded`. -/
def SdnvDecodeU32Classic (inputEncoded : List Nat) (bufferSize : Nat) : SdnvDecodeResult :=
  let byteCountMax := min 5 bufferSize
  SdnvDecodeU32Classic.loop inputEncoded byteCountMax 1 0

/-- The accumulation `result = (result << 7) + (byte & 0x7f)` of the 32-bit
decoder over a run of bytes, starting from `r`. -/
def accum32 (r : Nat) (bs : List Nat) : Nat :=
  bs.foldl (fun r b => (r * 128 % 2 ^ 32 + b % 128) % 2 ^ 32) r

/-! ## FragmentSet.cpp: the comparators and `DoesNotContainFragmentEntirely` -/

namespace FragmentSet

/-- `data_fragment_t::SimulateSetKeyFind(key, keyInSet)`,
`return !(key < keyInSet) && !(keyInSet < key);`. -/
def data_fragment_t.SimulateSetKeyFind (key keyInSet : data_fragment_t) : Bool :=
  !(key.lt keyInSet) && !(keyInSet.lt key)

/-- `data_fragment_no_overlap_allow_abut_t::operator<` (no overlap allow abut),
`return (endIndex < o.beginIndex);`. The class adds no member to
`data_fragment_t`, of which it is a subclass. -/
def data_fragment_no_overlap_allow_abut_t.lt (a o : data_fragment_t) : Bool :=
  decide (a.endIndex < o.beginIndex)

/-- `std::set<data_fragment_no_overlap_allow_abut_t>::find(key)` on the elements
of the set of `data_fragment_t` that `DoesNotContainFragmentEntirely` casts:
the first element that is not less than `key` under the operator of
`data_fragment_no_overlap_allow_abut_t`, if `key` is not less than it either;
`none` is `cend()`. -/
def setNoOverlapAllowAbut_find (fragmentSet : List data_fragment_t) (key : data_fragment_t) :
    Option data_fragment_t :=
  match fragmentSet.dropWhile (fun e => data_fragment_no_overlap_allow_abut_t.lt e key) with
  | [] => none
  | e :: _ => if data_fragment_no_overlap_allow_abut_t.lt key e then none else some e

/-- `FragmentSet::DoesNotContainFragmentEntirely(fragmentSet, key)`, the branch
that is compiled (`#if 1`). -/
def DoesNotContainFragmentEntirely (fragmentSet : List data_fragment_t) (key : data_fragment_t) :
    Bool :=
  (setNoOverlapAllowAbut_find fragmentSet key).isNone

/-- The ranges `a` and `b` share a byte index. -/
def data_fragment_t.overlaps (a b : data_fragment_t) : Prop :=
  ∃ x, a.covers x ∧ b.covers x

/-- The range `a` ends right before the range `b` begins, or `b` right before
`a`: they abut. -/
def data_fragment_t.abuts (a b : data_fragment_t) : Prop :=
  a.endIndex + 1 = b.beginIndex ∨ b.endIndex + 1 = a.beginIndex

/-- The range `a` lies entirely before the range `b` with at least one index
between them that neither covers. -/
def data_fragment_t.before (a b : data_fragment_t) : Prop :=
  ∃ x, a.endIndex < x ∧ x < b.beginIndex

end FragmentSet

/-! ## LtpRandomNumberGenerator.cpp: session numbers

The two data members of the class are the state of a generator. As for the
serial numbers, the clock and the hardware random source are inputs. -/

/-- The data members of `LtpRandomNumberGenerator`: a `uint16_t` and a
`uint8_t`. -/
structure LtpRandomNumberGenerator where
  m_birthdayParadoxPreventer_incrementalPart_U16 : Nat
  m_engineIndex : Nat
  deriving DecidableEq, Repr

namespace LtpRandomNumberGenerator

/-- `LtpRandomNumberGenerator::LtpRandomNumberGenerator()`, which sets the
incremental part to 1, followed by `SetEngineIndex(engineIndex)`. -/
def create (engineIndex : Nat) : LtpRandomNumberGenerator where
  m_birthdayParadoxPreventer_incrementalPart_U16 := 1
  m_engineIndex := engineIndex

/-- The statements `++inc; inc += (inc == 0);` on the `uint16_t inc`. -/
def nextIncrementalPart (inc : Nat) : Nat :=
  let inc := (inc + 1) % 2 ^ 16
  (inc + (if inc = 0 then 1 else 0)) % 2 ^ 16

/-- `LtpRandomNumberGenerator::GetRandomSession64(additionalRandomness)`: the
returned session number and the generator after the call. -/
def GetRandomSession64 (g : LtpRandomNumberGenerator)
    (microsecondsSinceEpochRfc5050 random2 additionalRandomness : Nat) :
    Nat × LtpRandomNumberGenerator :=
  let random1 := (microsecondsSinceEpochRfc5050 <<< 16) % U64
  let randomNumber := (random1 ^^^ random2) ^^^ additionalRandomness
  let randomNumber := randomNumber &&& 0x007fffffffff0000
  let randomNumber := randomNumber ||| ((g.m_engineIndex <<< 56) % U64)
  let inc := g.m_birthdayParadoxPreventer_incrementalPart_U16
  let randomNumber := randomNumber ||| inc
  (randomNumber,
    { g with m_birthdayParadoxPreventer_incrementalPart_U16 := nextIncrementalPart inc })

/-- `LtpRandomNumberGenerator::GetPingSession64()`. -/
def GetPingSession64 (g : LtpRandomNumberGenerator) : Nat :=
  0xffffffffffffff ||| ((g.m_engineIndex <<< 56) % U64)

/-- `LtpRandomNumberGenerator::GetRandomSession32(additionalRandomness32Bit)`:
the returned session number and the generator after the call. -/
def GetRandomSession32 (g : LtpRandomNumberGenerator)
    (microsecondsSinceEpochRfc5050 random2 additionalRandomness32Bit : Nat) :
    Nat × LtpRandomNumberGenerator :=
  let random1 := (microsecondsSinceEpochRfc5050 <<< 16) % U64
  let additionalRandomness := additionalRandomness32Bit
  let additionalRandomness := (additionalRandomness <<< 16) % U64
  let randomNumber := (random1 ^^^ random2) ^^^ additionalRandomness
  let randomNumber := randomNumber &&& 0x007f0000
  let randomNumber := randomNumber ||| ((g.m_engineIndex <<< 24) % U64)
  let inc := g.m_birthdayParadoxPreventer_incrementalPart_U16
  let randomNumber := randomNumber ||| inc
  (toU32 randomNumber,
    { g with m_birthdayParadoxPreventer_incrementalPart_U16 := nextIncrementalPart inc })

/-- `LtpRandomNumberGenerator::GetPingSession32()`. -/
def GetPingSession32 (g : LtpRandomNumberGenerator) : Nat :=
  toU32 (0x00ffffff ||| ((g.m_engineIndex <<< 24) % U64))

/-- `LtpRandomNumberGenerator::GetEngineIndexFromRandomSessionNumber(
randomSessionNumber)`. -/
def GetEngineIndexFromRandomSessionNumber (randomSessionNumber : Nat) : Nat :=
  let engineIndexIf64BitSessionNumber := toU8 (randomSessionNumber >>> 56)
  let is32BitSessionNumber : Bool := decide (engineIndexIf64BitSessionNumber = 0)
  let engineIndexIf32BitSessionNumber := toU8 (randomSessionNumber >>> 24)
  toU8 ((engineIndexIf32BitSessionNumber * (if is32BitSessionNumber then 1 else 0))
    + engineIndexIf64BitSessionNumber)

/-- A call that makes a session number: `GetRandomSession64` or
`GetRandomSession32`, with what the clock and the hardware random source gave
and the argument of the call. -/
inductive SessionCall where
  | session64 (microsecondsSinceEpochRfc5050 random2 additionalRandomness : Nat)
  | session32 (microsecondsSinceEpochRfc5050 random2 additionalRandomness32Bit : Nat)
  deriving DecidableEq, Repr

/-- The session number a call returns and the generator after it. -/
def SessionCall.run (g : LtpRandomNumberGenerator) : SessionCall → Nat × LtpRandomNumberGenerator
  | .session64 microsecondsSinceEpochRfc5050 random2 additionalRandomness =>
    g.GetRandomSession64 microsecondsSinceEpochRfc5050 random2 additionalRandomness
  | .session32 microsecondsSinceEpochRfc5050 random2 additionalRandomness32Bit =>
    g.GetRandomSession32 microsecondsSinceEpochRfc5050 random2 additionalRandomness32Bit

/-- The session numbers that consecutive calls on one generator return, in
order, and the generator after the last call. -/
def sessionNumbers : LtpRandomNumberGenerator → List SessionCall →
    List Nat × LtpRandomNumberGenerator
  | g, [] => ([], g)
  | g, call :: calls =>
    ((call.run g).1 :: (sessionNumbers (call.run g).2 calls).1,
      (sessionNumbers (call.run g).2 calls).2)

end LtpRandomNumberGenerator

/-! ## Ltp.cpp: the sizes of the serializations -/

namespace Ltp

/-- `Ltp::report_segment_t::GetMaximumDataRequiredForSerialization()`,
`(5 * 10) + (receptionClaims.size() * (2 * 10))` in `uint64_t`. -/
def report_segment_t.GetMaximumDataRequiredForSerialization (o : report_segment_t) : Nat :=
  ((5 * 10) + (o.receptionClaims.length * (2 * 10)) % U64) % U64

/-- `Ltp::ltp_extensions_t::GetMaximumDataRequiredForSerialization()`. -/
def ltp_extensions_t.GetMaximumDataRequiredForSerialization (extensionsVec : ltp_extensions_t) :
    Nat :=
  extensionsVec.foldl
    (fun maximumBytesRequired it => (maximumBytesRequired + it.valueVec.length) % U64)
    ((extensionsVec.length * 11) % U64)

/-- `Ltp::data_segment_metadata_t::GetMaximumDataRequiredForSerialization()`. -/
def data_segment_metadata_t.GetMaximumDataRequiredForSerialization
    (o : data_segment_metadata_t) : Nat :=
  (3 * 10) + ((if o.checkpointSerialNumber ∧ o.reportSerialNumber then 1 else 0) * toU8 (2 * 10))

/-- `LTP_SEGMENT_TYPE_FLAGS::CANCEL_SEGMENT_FROM_BLOCK_SENDER` and
`CANCEL_SEGMENT_FROM_BLOCK_RECEIVER` chosen by `isFromSender`. -/
def cancelSegmentTypeFlags (isFromSender : Bool) : Nat :=
  if isFromSender then CANCEL_SEGMENT_FROM_BLOCK_SENDER else CANCEL_SEGMENT_FROM_BLOCK_RECEIVER

/-- `Ltp::GenerateReportAcknowledgementSegmentLtpPacket`: the bytes stored
through `encodedPtr`, which are the contents of
`ltpReportAcknowledgementSegmentPacket` after the call. The two extension
arguments are pointers, `none` being `NULL`. -/
def GenerateReportAcknowledgementSegmentLtpPacket (sessionId : session_id_t)
    (reportSerialNumberBeingAcknowledged : Nat)
    (headerExtensions trailerExtensions : Option ltp_extensions_t) : List Nat :=
  let numHeaderExtensions : Nat :=
    match headerExtensions with
    | some h => toU8 h.length
    | none => 0
  let numTrailerExtensions : Nat :=
    match trailerExtensions with
    | some t => toU8 t.length
    | none => 0
  [toU8 REPORT_ACK_SEGMENT] ++
  SdnvEncodeU64ClassicBufSize10 sessionId.sessionOriginatorEngineId ++
  SdnvEncodeU64ClassicBufSize10 sessionId.sessionNumber ++
  [toU8 ((numHeaderExtensions <<< 4) ||| numTrailerExtensions)] ++
  (match headerExtensions with
    | some h => ltp_extensions_t.Serialize h
    | none => []) ++
  SdnvEncodeU64ClassicBufSize10 reportSerialNumberBeingAcknowledged ++
  (match trailerExtensions with
    | some t => ltp_extensions_t.Serialize t
    | none => [])

/-- `Ltp::GenerateCancelSegmentLtpPacket`: the bytes stored through
`encodedPtr`, which are the contents of `ltpCancelSegmentPacket` after the
call. The two extension arguments are pointers, `none` being `NULL`. -/
def GenerateCancelSegmentLtpPacket (sessionId : session_id_t) (reasonCode : Nat)
    (isFromSender : Bool) (headerExtensions trailerExtensions : Option ltp_extensions_t) :
    List Nat :=
  let numHeaderExtensions : Nat :=
    match headerExtensions with
    | some h => toU8 h.length
    | none => 0
  let numTrailerExtensions : Nat :=
    match trailerExtensions with
    | some t => toU8 t.length
    | none => 0
  [toU8 (cancelSegmentTypeFlags isFromSender)] ++
  SdnvEncodeU64ClassicBufSize10 sessionId.sessionOriginatorEngineId ++
  SdnvEncodeU64ClassicBufSize10 sessionId.sessionNumber ++
  [toU8 ((numHeaderExtensions <<< 4) ||| numTrailerExtensions)] ++
  (match headerExtensions with
    | some h => ltp_extensions_t.Serialize h
    | none => []) ++
  [toU8 reasonCode] ++
  (match trailerExtensions with
    | some t => ltp_extensions_t.Serialize t
    | none => [])

/-- The value of `maxBytesRequiredForHeaderExtensions` (or
`maxBytesRequiredForTrailerExtensions`) in a generator: 0 for a `NULL`
pointer. -/
def maxBytesRequiredForExtensions (extensions : Option ltp_extensions_t) : Nat :=
  match extensions with
  | some e => ltp_extensions_t.GetMaximumDataRequiredForSerialization e
  | none => 0

/-- The argument of the first `resize` of
`Ltp::GenerateLtpHeaderPlusDataSegmentMetadata`, a `uint64_t`. -/
def GenerateLtpHeaderPlusDataSegmentMetadata.resize (dataSegmentMetadata : data_segment_metadata_t)
    (headerExtensions : Option ltp_extensions_t) : Nat :=
  (1 + 1 + (2 * 10) + dataSegmentMetadata.GetMaximumDataRequiredForSerialization
    + maxBytesRequiredForExtensions headerExtensions) % U64

/-- The argument of the first `resize` of `Ltp::GenerateReportSegmentLtpPacket`,
a `uint64_t`. -/
def GenerateReportSegmentLtpPacket.resize (reportSegmentStruct : report_segment_t)
    (headerExtensions trailerExtensions : Option ltp_extensions_t) : Nat :=
  (1 + 1 + (2 * 10) + reportSegmentStruct.GetMaximumDataRequiredForSerialization
    + maxBytesRequiredForExtensions headerExtensions
    + maxBytesRequiredForExtensions trailerExtensions) % U64

/-- The argument of the first `resize` of
`Ltp::GenerateReportAcknowledgementSegmentLtpPacket`, a `uint64_t`. -/
def GenerateReportAcknowledgementSegmentLtpPacket.resize
    (headerExtensions trailerExtensions : Option ltp_extensions_t) : Nat :=
  (1 + 1 + (2 * 10) + (1 * 10) + maxBytesRequiredForExtensions headerExtensions
    + maxBytesRequiredForExtensions trailerExtensions) % U64

/-- The argument of the first `resize` of `Ltp::GenerateCancelSegmentLtpPacket`,
a `uint64_t`. -/
def GenerateCancelSegmentLtpPacket.resize
    (headerExtensions trailerExtensions : Option ltp_extensions_t) : Nat :=
  (1 + 1 + (2 * 10) + 1 + maxBytesRequiredForExtensions headerExtensions
    + maxBytesRequiredForExtensions trailerExtensions) % U64

/-- The argument of the first `resize` of
`Ltp::GenerateCancelAcknowledgementSegmentLtpPacket`, a `uint64_t`. -/
def GenerateCancelAcknowledgementSegmentLtpPacket.resize
    (headerExtensions trailerExtensions : Option ltp_extensions_t) : Nat :=
  (1 + 1 + (2 * 10) + 0 + maxBytesRequiredForExtensions headerExtensions
    + maxBytesRequiredForExtensions trailerExtensions) % U64

/-- What every generator does to its output vector: `resize(size)`, the stores
of the bytes `written`, in order, through `encodedPtr` from `data()` on, and
`resize(encodedPtr - data())`. The result is the vector after the call, `none`
if a store falls beyond the `size` elements the vector has (undefined
behaviour). -/
def resizeStoreResize (size : Nat) (written : List Nat) : Option (List Nat) :=
  if written.length ≤ size then
    some ((written ++ List.replicate (size - written.length) 0).take written.length)
  else none

/-- The number of bytes an extension list can need, as
`ltp_extensions_t::GetMaximumDataRequiredForSerialization` counts them but
without a bound: 11 for each extension and the bytes of its value. -/
def extensionsBound (extensions : Option ltp_extensions_t) : Nat :=
  11 * (extensions.getD []).length + ((extensions.getD []).map (fun e => e.valueVec.length)).sum

end Ltp


namespace Ltp

/-! ### Proof devices for the reception claims of a report -/

/-- The values that the reception claims of a report put on the wire, in
order: for each claim its offset and its length. -/
def claimSdnvValues : List reception_claim_t → List Nat
  | [] => []
  | c :: claims => c.offset :: c.length :: claimSdnvValues claims

end Ltp

/-! # Theorems -/

/-! ## SDNV codec -/

theorem and_7f (x : Nat) : x &&& 0x7f = x % 128 := Nat.and_pow_two_sub_one_eq_mod x 7

theorem low7_or_80 : ∀ g < 128, (toU8 (g ||| 0x80) &&& 0x7f = g) ∧ (toU8 (g ||| 0x80) &&& 0x80 ≠ 0)
      ∧ toU8 (g ||| 0x80) = g + 128 := by
  decide

theorem low7_last : ∀ g < 128, (toU8 g &&& 0x7f = g) ∧ (toU8 g &&& 0x80 = 0) := by
  decide

theorem sdnvContByte_eq (v s : Nat) : sdnvContByte v s = v / 2 ^ s % 128 + 128 := by
  unfold sdnvContByte
  rw [and_7f, Nat.shiftRight_eq_div_pow]
  exact (low7_or_80 _ (Nat.mod_lt _ (by norm_num))).2.2

theorem sdnvLastByte_eq (v : Nat) : sdnvLastByte v = v % 128 := by
  unfold sdnvLastByte
  rw [and_7f]
  unfold toU8
  omega

theorem byte_and_7f (b : Nat) : b &&& 0x7f = b % 128 := and_7f b
theorem byte_and_80 (b : Nat) : (b &&& 0x80 = 0) ↔ b / 128 % 2 = 0 := by
  have h : b &&& 0x80 = (b.testBit 7).toNat * 2 ^ 7 := Nat.and_two_pow b 7
  rw [h, Nat.testBit_to_div_mod]
  rcases Nat.mod_two_eq_zero_or_one (b / 2 ^ 7) with h0 | h1
  · simp [h0]
  · simp [h1]



theorem getD_append_cons (pre : List Nat) (b : Nat) (t : List Nat) :
    (pre ++ b :: t).getD pre.length 0 = b := by
  induction pre with
  | nil => rfl
  | cons a pre ih => simpa using ih

theorem loop_run (cont : List Nat) (hcont : ∀ b ∈ cont, b / 128 % 2 = 1) (last : Nat)
    (hlast : last / 128 % 2 = 0) (rest : List Nat) :
    ∀ (pre : List Nat) (iters r : Nat), cont.length < iters →
      SdnvDecodeU64Classic.loop (pre ++ (cont ++ last :: rest)) iters (pre.length + 1) r =
        if pre.length + cont.length + 1 = 10 ∧ (pre ++ (cont ++ last :: rest)).getD 0 0 > 0x81 then
          ⟨.DECODE_FAILURE_INVALID_SDNV_RETURN_VALUE, 0⟩
        else ⟨.value (accum r (cont ++ [last])), pre.length + cont.length + 1⟩ := by
  induction cont with
  | nil =>
    intro pre iters r hlt
    obtain ⟨k, rfl⟩ : ∃ k, iters = k + 1 := ⟨iters - 1, by simp at hlt; omega⟩
    rw [SdnvDecodeU64Classic.loop]
    simp only [List.nil_append, Nat.add_sub_cancel, getD_append_cons, byte_and_7f, byte_and_80,
      Nat.shiftLeft_eq, if_pos hlast, List.length_nil, Nat.add_zero]
    simp [accum]
  | cons b cont ih =>
    intro pre iters r hlt
    obtain ⟨k, rfl⟩ : ∃ k, iters = k + 1 := ⟨iters - 1, by simp at hlt; omega⟩
    rw [SdnvDecodeU64Classic.loop]
    have hb : ¬ (b / 128 % 2 = 0) := by
      have := hcont b (List.mem_cons_self _ _); omega
    simp only [List.cons_append, Nat.add_sub_cancel, getD_append_cons, byte_and_7f, byte_and_80,
      Nat.shiftLeft_eq, if_neg hb]
    have hih := ih (fun x hx => hcont x (List.mem_cons_of_mem _ hx)) (pre ++ [b]) k
      ((r * 2 ^ 7 % U64 + b % 128) % U64) (by simp at hlt; omega)
    have e1 : pre ++ [b] ++ (cont ++ last :: rest) = pre ++ b :: (cont ++ last :: rest) := by simp
    have e2 : (pre ++ [b]).length = pre.length + 1 := by simp
    rw [e1, e2] at hih
    rw [hih]
    have e3 : pre.length + 1 + cont.length + 1 = pre.length + (b :: cont).length + 1 := by
      simp; omega
    rw [e3]
    rfl

theorem loop_short (cont : List Nat) (hcont : ∀ b ∈ cont, b / 128 % 2 = 1) (rest : List Nat) :
    ∀ (pre : List Nat) (r : Nat),
      SdnvDecodeU64Classic.loop (pre ++ (cont ++ rest)) cont.length (pre.length + 1) r =
        if pre.length + cont.length = 10 then ⟨.DECODE_FAILURE_INVALID_SDNV_RETURN_VALUE, 0⟩
        else ⟨.DECODE_FAILURE_NOT_ENOUGH_ENCODED_BYTES_RETURN_VALUE, 0⟩ := by
  induction cont with
  | nil =>
    intro pre r
    simp [SdnvDecodeU64Classic.loop]
  | cons b cont ih =>
    intro pre r
    rw [List.length_cons, SdnvDecodeU64Classic.loop]
    have hb : ¬ (b / 128 % 2 = 0) := by
      have := hcont b (List.mem_cons_self _ _); omega
    simp only [List.cons_append, Nat.add_sub_cancel, getD_append_cons, byte_and_7f, byte_and_80,
      Nat.shiftLeft_eq, if_neg hb]
    have hih := ih (fun x hx => hcont x (List.mem_cons_of_mem _ hx)) (pre ++ [b])
      ((r * 2 ^ 7 % U64 + b % 128) % U64)
    have e1 : pre ++ [b] ++ (cont ++ rest) = pre ++ b :: (cont ++ rest) := by simp
    have e2 : (pre ++ [b]).length = pre.length + 1 := by simp
    rw [e1, e2] at hih
    rw [hih]
    have e3 : pre.length + 1 + cont.length = pre.length + (cont.length + 1) := by omega
    rw [e3]



theorem contGroups_length (v k : Nat) : (contGroups v k).length = k := by
  induction k with
  | zero => rfl
  | succ k ih => simp [contGroups, ih]

theorem contGroups_high (v k : Nat) : ∀ b ∈ contGroups v k, b / 128 % 2 = 1 := by
  induction k with
  | zero => intro b hb; simp [contGroups] at hb
  | succ k ih =>
    intro b hb
    simp only [contGroups, List.mem_cons] at hb
    rcases hb with rfl | hb
    · omega
    · exact ih b hb

theorem accum_contGroups (v : Nat) (hv : v < 2 ^ 64) :
    ∀ k, accum (v / 2 ^ (7 * (k + 1))) (contGroups v k ++ [v % 128]) = v := by
  intro k
  induction k with
  | zero =>
    simp only [contGroups, List.nil_append, accum, List.foldl, U64]
    omega
  | succ k ih =>
    have hstep : (v / 2 ^ (7 * (k + 1 + 1)) * 128 % U64 +
        (v / 2 ^ (7 * (k + 1)) % 128 + 128) % 128) % U64 = v / 2 ^ (7 * (k + 1)) := by
      have e : v / 2 ^ (7 * (k + 1 + 1)) = v / 2 ^ (7 * (k + 1)) / 128 := by
        rw [Nat.div_div_eq_div_mul, show 7 * (k + 1 + 1) = 7 * (k + 1) + 7 by ring, pow_add]
        norm_num
      have hle : v / 2 ^ (7 * (k + 1)) ≤ v := Nat.div_le_self _ _
      rw [e]
      simp only [U64]
      omega
    have hunf : accum (v / 2 ^ (7 * (k + 1 + 1))) (contGroups v (k + 1) ++ [v % 128]) =
        accum ((v / 2 ^ (7 * (k + 1 + 1)) * 128 % U64 +
          (v / 2 ^ (7 * (k + 1)) % 128 + 128) % 128) % U64) (contGroups v k ++ [v % 128]) := by
      simp [accum, contGroups]
    rw [hunf, hstep, ih]

theorem encode10_shape (v : Nat) (hv : v < 2 ^ 64) :
    ∃ k, k ≤ 9 ∧ SdnvEncodeU64ClassicBufSize10 v = contGroups v k ++ [v % 128] ∧
      v < 2 ^ (7 * (k + 1)) ∧ (k = 0 ∨ 2 ^ (7 * k) ≤ v) := by
  unfold SdnvEncodeU64ClassicBufSize10
  simp only [SDNV64_MAX_1_BYTE, SDNV64_MAX_2_BYTE, SDNV64_MAX_3_BYTE, SDNV64_MAX_4_BYTE,
    SDNV64_MAX_5_BYTE, SDNV64_MAX_6_BYTE, SDNV64_MAX_7_BYTE, SDNV64_MAX_8_BYTE, SDNV64_MAX_9_BYTE,
    sdnvContByte_eq, sdnvLastByte_eq, Nat.shiftLeft_eq]
  by_cases h1 : v ≤ 1 * 2 ^ 7 - 1
  · rw [if_pos h1]; exact ⟨0, by omega, by simp [contGroups], by omega, by omega⟩
  rw [if_neg h1]
  by_cases h2 : v ≤ 1 * 2 ^ 14 - 1
  · rw [if_pos h2]; exact ⟨1, by omega, by simp [contGroups], by omega, by omega⟩
  rw [if_neg h2]
  by_cases h3 : v ≤ 1 * 2 ^ 21 - 1
  · rw [if_pos h3]; exact ⟨2, by omega, by simp [contGroups], by omega, by omega⟩
  rw [if_neg h3]
  by_cases h4 : v ≤ 1 * 2 ^ 28 - 1
  · rw [if_pos h4]; exact ⟨3, by omega, by simp [contGroups], by omega, by omega⟩
  rw [if_neg h4]
  by_cases h5 : v ≤ 1 * 2 ^ 35 - 1
  · rw [if_pos h5]; exact ⟨4, by omega, by simp [contGroups], by omega, by omega⟩
  rw [if_neg h5]
  by_cases h6 : v ≤ 1 * 2 ^ 42 - 1
  · rw [if_pos h6]; exact ⟨5, by omega, by simp [contGroups], by omega, by omega⟩
  rw [if_neg h6]
  by_cases h7 : v ≤ 1 * 2 ^ 49 - 1
  · rw [if_pos h7]; exact ⟨6, by omega, by simp [contGroups], by omega, by omega⟩
  rw [if_neg h7]
  by_cases h8 : v ≤ 1 * 2 ^ 56 - 1
  · rw [if_pos h8]; exact ⟨7, by omega, by simp [contGroups], by omega, by omega⟩
  rw [if_neg h8]
  by_cases h9 : v ≤ 1 * 2 ^ 63 - 1
  · rw [if_pos h9]; exact ⟨8, by omega, by simp [contGroups], by omega, by omega⟩
  rw [if_neg h9]
  exact ⟨9, by omega, by simp [contGroups], by omega, by omega⟩

theorem decode_encode10 (v : Nat) (hv : v < 2 ^ 64) (rest : List Nat) (bufferSize : Nat)
    (hsz : (SdnvEncodeU64ClassicBufSize10 v).length ≤ bufferSize) :
    SdnvDecodeU64Classic (SdnvEncodeU64ClassicBufSize10 v ++ rest) bufferSize
      = ⟨.value v, (SdnvEncodeU64ClassicBufSize10 v).length⟩ := by
  obtain ⟨k, hk9, hshape, hlt, _⟩ := encode10_shape v hv
  rw [hshape] at hsz ⊢
  simp only [List.length_append, contGroups_length, List.length_singleton] at hsz ⊢
  unfold SdnvDecodeU64Classic
  have hrun := loop_run (contGroups v k) (contGroups_high v k) (v % 128) (by omega) rest []
    (min 10 bufferSize) 0 (by rw [contGroups_length]; omega)
  simp only [List.nil_append, List.length_nil, Nat.zero_add, contGroups_length] at hrun
  have e : contGroups v k ++ [v % 128] ++ rest = contGroups v k ++ v % 128 :: rest := by simp
  rw [e, hrun]
  have hacc := accum_contGroups v hv k
  rw [Nat.div_eq_of_lt hlt] at hacc
  rw [hacc]
  have hfirst : ¬ (k + 1 = 10 ∧ (contGroups v k ++ v % 128 :: rest).getD 0 0 > 0x81) := by
    rintro ⟨hk, hgt⟩
    have hk' : k = 9 := by omega
    subst hk'
    simp only [contGroups, List.cons_append, List.getD_cons_zero] at hgt
    omega
  rw [if_neg hfirst]


theorem high_bit_set (b : Nat) (h : b &&& 0x80 ≠ 0) : b / 128 % 2 = 1 := by
  have := (byte_and_80 b).not.mp h
  omega

theorem split_at_ten (input : List Nat) (n : Nat) (hlen : n < input.length) :
    input = input.take n ++ input.getD n 0 :: input.drop (n + 1) := by
  have h1 : input = input.take n ++ input.drop n := (List.take_append_drop n input).symm
  have h2 : input.drop n = input.getD n 0 :: input.drop (n + 1) := by
    rw [List.getD_eq_getElem _ _ hlen]
    exact List.drop_eq_getElem_cons hlen
  rw [← h2]; exact h1

theorem take_high (input : List Nat) (n : Nat) (hlen : n ≤ input.length)
    (h : ∀ i < n, input.getD i 0 &&& 0x80 ≠ 0) : ∀ b ∈ input.take n, b / 128 % 2 = 1 := by
  intro b hb
  obtain ⟨i, hi, rfl⟩ := List.getElem_of_mem hb
  have hi' : i < n := by
    rw [List.length_take] at hi; omega
  have := h i hi'
  rw [List.getD_eq_getElem _ _ (by omega)] at this
  rw [List.getElem_take]
  exact high_bit_set _ this

/-- C9 (SDNV overflow boundary): on an input of at least ten bytes
`SdnvDecodeU64Classic` answers invalid-SDNV with `numBytes = 0` when the first
nine bytes have the high bit set, the tenth has it clear and the first byte
exceeds `0x81`, and also when all of the first ten bytes have the high bit set;
a ten byte encoding whose first byte is `0x80` or `0x81` is accepted (ten bytes
taken, the value being the accumulation of the ten 7-bit groups). -/
theorem C9_sdnv_overflow_boundary (inputEncoded : List Nat) (bufferSize : Nat)
    (hlen : 10 ≤ inputEncoded.length) (hbuf : 10 ≤ bufferSize) :
    ((∀ i < 9, inputEncoded.getD i 0 &&& 0x80 ≠ 0) → inputEncoded.getD 9 0 &&& 0x80 = 0 →
        inputEncoded.getD 0 0 > 0x81 →
        SdnvDecodeU64Classic inputEncoded bufferSize
          = ⟨.DECODE_FAILURE_INVALID_SDNV_RETURN_VALUE, 0⟩) ∧
    ((∀ i < 10, inputEncoded.getD i 0 &&& 0x80 ≠ 0) →
        SdnvDecodeU64Classic inputEncoded bufferSize
          = ⟨.DECODE_FAILURE_INVALID_SDNV_RETURN_VALUE, 0⟩) ∧
    ((∀ i < 9, inputEncoded.getD i 0 &&& 0x80 ≠ 0) → inputEncoded.getD 9 0 &&& 0x80 = 0 →
        (inputEncoded.getD 0 0 = 0x80 ∨ inputEncoded.getD 0 0 = 0x81) →
        SdnvDecodeU64Classic inputEncoded bufferSize
          = ⟨.value (accum 0 (inputEncoded.take 10)), 10⟩) := by
  have hmin : min 10 bufferSize = 10 := by omega
  have hsplit := split_at_ten inputEncoded 9 (by omega)
  refine ⟨?_, ?_, ?_⟩
  · intro hhigh hlow hfirst
    have hrun := loop_run (inputEncoded.take 9) (take_high _ 9 (by omega) hhigh)
      (inputEncoded.getD 9 0) ((byte_and_80 _).mp hlow) (inputEncoded.drop 10) [] 10 0
      (by rw [List.length_take]; omega)
    simp only [List.nil_append, List.length_nil, Nat.zero_add] at hrun
    rw [← hsplit] at hrun
    unfold SdnvDecodeU64Classic
    rw [hmin, hrun, if_pos]
    refine ⟨?_, hfirst⟩
    rw [List.length_take]; omega
  · intro hhigh
    have h10 : inputEncoded = inputEncoded.take 10 ++ inputEncoded.drop 10 :=
      (List.take_append_drop 10 inputEncoded).symm
    have hshort := loop_short (inputEncoded.take 10) (take_high _ 10 hlen hhigh)
      (inputEncoded.drop 10) [] 0
    simp only [List.nil_append, List.length_nil, Nat.zero_add] at hshort
    rw [← h10] at hshort
    have hl : (inputEncoded.take 10).length = 10 := by rw [List.length_take]; omega
    rw [hl] at hshort
    unfold SdnvDecodeU64Classic
    rw [hmin, hshort, if_pos rfl]
  · intro hhigh hlow hfirst
    have hrun := loop_run (inputEncoded.take 9) (take_high _ 9 (by omega) hhigh)
      (inputEncoded.getD 9 0) ((byte_and_80 _).mp hlow) (inputEncoded.drop 10) [] 10 0
      (by rw [List.length_take]; omega)
    simp only [List.nil_append, List.length_nil, Nat.zero_add] at hrun
    rw [← hsplit] at hrun
    unfold SdnvDecodeU64Classic
    rw [hmin, hrun, if_neg]
    · have hl : (inputEncoded.take 9).length = 9 := by rw [List.length_take]; omega
      have ht : inputEncoded.take 10 = inputEncoded.take 9 ++ [inputEncoded.getD 9 0] := by
        rw [List.getD_eq_getElem _ _ (by omega)]
        exact (List.take_concat_get' _ 9 (by omega)).symm
      rw [hl, ht]
    · rintro ⟨_, hgt⟩
      omega

/-- C10 (truncated SDNV): when fewer than ten bytes are available (also none)
and every available byte has the high bit set, `SdnvDecodeU64Classic` answers
not-enough-encoded-bytes, which is not the invalid-SDNV answer, with
`numBytes = 0`. -/
theorem C10_sdnv_truncated (available rest : List Nat) (hL : available.length < 10)
    (hhigh : ∀ b ∈ available, b &&& 0x80 ≠ 0) :
    SdnvDecodeU64Classic (available ++ rest) available.length
        = ⟨.DECODE_FAILURE_NOT_ENOUGH_ENCODED_BYTES_RETURN_VALUE, 0⟩ ∧
      (SdnvDecodeU64Classic (available ++ rest) available.length).ret
        ≠ .DECODE_FAILURE_INVALID_SDNV_RETURN_VALUE := by
  suffices h : SdnvDecodeU64Classic (available ++ rest) available.length
      = ⟨.DECODE_FAILURE_NOT_ENOUGH_ENCODED_BYTES_RETURN_VALUE, 0⟩ by
    rw [h]; exact ⟨rfl, by simp⟩
  have hshort := loop_short available (fun b hb => high_bit_set b (hhigh b hb)) rest [] 0
  simp only [List.nil_append, List.length_nil, Nat.zero_add] at hshort
  unfold SdnvDecodeU64Classic
  have hmin : min 10 available.length = available.length := by omega
  rw [hmin, hshort, if_neg (by omega)]

theorem loop_result_shape (input : List Nat) :
    ∀ (iters byteCount result : Nat), 1 ≤ byteCount →
      ((SdnvDecodeU64Classic.loop input iters byteCount result).numBytes = 0 ∧
        ((SdnvDecodeU64Classic.loop input iters byteCount result).ret
            = .DECODE_FAILURE_INVALID_SDNV_RETURN_VALUE ∨
         (SdnvDecodeU64Classic.loop input iters byteCount result).ret
            = .DECODE_FAILURE_NOT_ENOUGH_ENCODED_BYTES_RETURN_VALUE)) ∨
      (∃ v, (SdnvDecodeU64Classic.loop input iters byteCount result).ret = .value v ∧
        byteCount ≤ (SdnvDecodeU64Classic.loop input iters byteCount result).numBytes ∧
        (SdnvDecodeU64Classic.loop input iters byteCount result).numBytes < byteCount + iters) := by
  intro iters
  induction iters with
  | zero =>
    intro byteCount result _
    left
    rw [SdnvDecodeU64Classic.loop]
    by_cases h : byteCount = 11
    · rw [if_pos h]; exact ⟨rfl, Or.inl rfl⟩
    · rw [if_neg h]; exact ⟨rfl, Or.inr rfl⟩
  | succ k ih =>
    intro byteCount result hb
    rw [SdnvDecodeU64Classic.loop]
    split
    · split
      · left; simp
      · right; exact ⟨_, rfl, by simp, by simp⟩
    · rcases ih (byteCount + 1) ((result <<< 7 % U64 + (input.getD (byteCount - 1) 0 &&& 0x7f)) % U64)
        (by omega) with h | ⟨v, h1, h2, h3⟩
      · left; exact h
      · right; exact ⟨v, h1, by omega, by omega⟩

theorem decode_result_shape (input : List Nat) (bufferSize : Nat) :
    ((SdnvDecodeU64Classic input bufferSize).numBytes = 0 ∧
      ((SdnvDecodeU64Classic input bufferSize).ret = .DECODE_FAILURE_INVALID_SDNV_RETURN_VALUE ∨
       (SdnvDecodeU64Classic input bufferSize).ret
          = .DECODE_FAILURE_NOT_ENOUGH_ENCODED_BYTES_RETURN_VALUE)) ∨
    (∃ v, (SdnvDecodeU64Classic input bufferSize).ret = .value v ∧
      1 ≤ (SdnvDecodeU64Classic input bufferSize).numBytes ∧
      (SdnvDecodeU64Classic input bufferSize).numBytes ≤ 10 ∧
      (SdnvDecodeU64Classic input bufferSize).numBytes ≤ bufferSize) := by
  simp only [SdnvDecodeU64Classic]
  rcases loop_result_shape input (min 10 bufferSize) 1 0 (le_refl 1) with h | ⟨v, h1, h2, h3⟩
  · left; exact h
  · right; exact ⟨v, h1, h2, by omega, by omega⟩

theorem array_loop_spec (buffer : List Nat) (bufferSize : Nat) (hbs : bufferSize < 2 ^ 64) :
    ∀ (n offset : Nat) (stored : List Nat), offset ≤ bufferSize →
      (repeatedSingleDecodes buffer bufferSize n offset = .invalid →
        SdnvDecodeArrayU64Classic.loop n (buffer.drop offset) (bufferSize - offset) offset stored
          = ⟨0, (SdnvDecodeArrayU64Classic.loop n (buffer.drop offset) (bufferSize - offset)
                  offset stored).decodedValues, 0, true⟩) ∧
      (∀ values total, repeatedSingleDecodes buffer bufferSize n offset = .stopped values total →
        SdnvDecodeArrayU64Classic.loop n (buffer.drop offset) (bufferSize - offset) offset stored
          = ⟨toU32 (stored ++ values).length, stored ++ values, total, false⟩) := by
  intro n
  induction n with
  | zero =>
    intro offset stored _
    simp [repeatedSingleDecodes, SdnvDecodeArrayU64Classic.loop]
  | succ n ih =>
    intro offset stored hoff
    rw [repeatedSingleDecodes, SdnvDecodeArrayU64Classic.loop]
    rcases decode_result_shape (buffer.drop offset) (bufferSize - offset) with
      ⟨h0, hI | hN⟩ | ⟨v, hv, h1, h10, hle⟩
    · -- invalid
      generalize SdnvDecodeU64Classic (buffer.drop offset) (bufferSize - offset) = r at *
      obtain ⟨ret, nb⟩ := r
      simp only at h0 hI
      subst h0 hI
      simp
    · generalize SdnvDecodeU64Classic (buffer.drop offset) (bufferSize - offset) = r at *
      obtain ⟨ret, nb⟩ := r
      simp only at h0 hN
      subst h0 hN
      simp
    · generalize SdnvDecodeU64Classic (buffer.drop offset) (bufferSize - offset) = r at *
      obtain ⟨ret, nb⟩ := r
      simp only at hv h1 h10 hle
      subst hv
      have hnb : ¬ nb = 0 := by omega
      simp only [hnb, if_false, List.drop_drop]
      have hbuf : (bufferSize - offset + U64 - nb) % U64 = bufferSize - (offset + nb) := by
        simp only [U64]; omega
      rw [hbuf]
      have hih := ih (offset + nb) (stored ++ [v]) (by omega)
      constructor
      · intro hinv
        have : repeatedSingleDecodes buffer bufferSize n (offset + nb) = .invalid := by
          revert hinv
          cases repeatedSingleDecodes buffer bufferSize n (offset + nb) <;> simp
        exact hih.1 this
      · intro values total hst
        cases hrec : repeatedSingleDecodes buffer bufferSize n (offset + nb) with
        | invalid => rw [hrec] at hst; simp at hst
        | stopped vs tot =>
          rw [hrec] at hst
          simp only [RepeatedDecodeOutcome.stopped.injEq] at hst
          obtain ⟨rfl, rfl⟩ := hst
          have := hih.2 vs tot hrec
          rw [this]
          simp


theorem repeatedSingleDecodes_length (buffer : List Nat) (bufferSize : Nat) :
    ∀ (n offset : Nat) (values : List Nat) (total : Nat),
      repeatedSingleDecodes buffer bufferSize n offset = .stopped values total →
      values.length ≤ n := by
  intro n
  induction n with
  | zero =>
    intro offset values total h
    simp only [repeatedSingleDecodes, RepeatedDecodeOutcome.stopped.injEq] at h
    rw [← h.1]; simp
  | succ n ih =>
    intro offset values total h
    rw [repeatedSingleDecodes] at h
    split at h
    · split at h
      · simp at h
      · rename_i vs tot hrec
        simp only [RepeatedDecodeOutcome.stopped.injEq] at h
        rw [← h.1]
        have := ih _ _ _ hrec
        simp; omega
    · simp at h
    · simp only [RepeatedDecodeOutcome.stopped.injEq] at h
      rw [← h.1]; simp

/-- C7 (bulk decode equals repeated single decodes): for every buffer, buffer
size and requested count, `SdnvDecodeArrayU64Classic` has the outcome of
`repeatedSingleDecodes`: if a single decode at the advancing offset reports an
invalid SDNV it sets `decodeErrorDetected`, returns 0 and takes 0 bytes;
otherwise it returns the number of values decoded before the count was reached
or the input ran out, those values in order, and the number of bytes of exactly
those complete SDNVs. -/
theorem C7_bulk_decode_refines_single (buffer : List Nat) (bufferSize n : Nat)
    (hbs : bufferSize < 2 ^ 64) (hn : n < 2 ^ 32) :
    match repeatedSingleDecodes buffer bufferSize n 0 with
    | .invalid =>
      (SdnvDecodeArrayU64Classic buffer n bufferSize).decodeErrorDetected = true ∧
      (SdnvDecodeArrayU64Classic buffer n bufferSize).numDecoded = 0 ∧
      (SdnvDecodeArrayU64Classic buffer n bufferSize).numBytesTakenToDecode = 0
    | .stopped values total =>
      SdnvDecodeArrayU64Classic buffer n bufferSize = ⟨values.length, values, total, false⟩ := by
  have h := array_loop_spec buffer bufferSize hbs n 0 [] (Nat.zero_le _)
  simp only [List.drop_zero, Nat.sub_zero, List.nil_append] at h
  unfold SdnvDecodeArrayU64Classic
  cases hspec : repeatedSingleDecodes buffer bufferSize n 0 with
  | invalid =>
    have := h.1 hspec
    rw [this]
    exact ⟨rfl, rfl, rfl⟩
  | stopped values total =>
    have := h.2 values total hspec
    simp only
    rw [this]
    have hl := repeatedSingleDecodes_length buffer bufferSize n 0 values total hspec
    have : toU32 values.length = values.length := by
      unfold toU32; exact Nat.mod_eq_of_lt (by omega)
    rw [this]

theorem encode_cases (v bufferSize : Nat) (hbuf : 10 ≤ bufferSize) :
    SdnvEncodeU64Classic v bufferSize = SdnvEncodeU64ClassicBufSize10 v := by
  unfold SdnvEncodeU64Classic SdnvEncodeU64ClassicBufSize10
  have h1 : ¬ bufferSize < 1 := by omega
  have h2 : ¬ bufferSize < 2 := by omega
  have h3 : ¬ bufferSize < 3 := by omega
  have h4 : ¬ bufferSize < 4 := by omega
  have h5 : ¬ bufferSize < 5 := by omega
  have h6 : ¬ bufferSize < 6 := by omega
  have h7 : ¬ bufferSize < 7 := by omega
  have h8 : ¬ bufferSize < 8 := by omega
  have h9 : ¬ bufferSize < 9 := by omega
  have h10 : ¬ bufferSize < 10 := by omega
  simp only [h1, h2, h3, h4, h5, h6, h7, h8, h9, h10, if_false]

theorem encode_length_le (v : Nat) (hv : v < 2 ^ 64) :
    (SdnvEncodeU64Classic v 10).length ≤ 10 := by
  rw [encode_cases v 10 (le_refl _)]
  obtain ⟨k, hk9, hshape, _, _⟩ := encode10_shape v hv
  rw [hshape]
  simp [contGroups_length]
  omega

theorem sdnvConcat_length_le (vs : List Nat) (hvs : ∀ v ∈ vs, v < 2 ^ 64) :
    (sdnvConcat vs).length ≤ 10 * vs.length := by
  induction vs with
  | nil => simp [sdnvConcat]
  | cons v vs ih =>
    have := encode_length_le v (hvs v (List.mem_cons_self _ _))
    have := ih (fun x hx => hvs x (List.mem_cons_of_mem _ hx))
    simp only [sdnvConcat, List.length_append, List.length_cons]
    omega

theorem array_loop_concat :
    ∀ (vs : List Nat), (∀ v ∈ vs, v < 2 ^ 64) →
    ∀ (rest : List Nat) (bufferSize taken : Nat) (stored : List Nat),
      (sdnvConcat vs).length ≤ bufferSize → bufferSize < 2 ^ 64 →
      SdnvDecodeArrayU64Classic.loop vs.length (sdnvConcat vs ++ rest) bufferSize taken stored
        = ⟨toU32 (stored ++ vs).length, stored ++ vs, taken + (sdnvConcat vs).length, false⟩ := by
  intro vs
  induction vs with
  | nil =>
    intro _ rest bufferSize taken stored _ _
    simp [SdnvDecodeArrayU64Classic.loop, sdnvConcat]
  | cons v vs ih =>
    intro hvs rest bufferSize taken stored hle hbs
    have hv : v < 2 ^ 64 := hvs v (List.mem_cons_self _ _)
    simp only [sdnvConcat, List.length_append] at hle
    rw [List.length_cons, SdnvDecodeArrayU64Classic.loop]
    have henc : SdnvEncodeU64Classic v 10 = SdnvEncodeU64ClassicBufSize10 v :=
      encode_cases v 10 (le_refl _)
    have hdec := decode_encode10 v hv (sdnvConcat vs ++ rest) bufferSize (by rw [← henc]; omega)
    obtain ⟨k, hk9, hshape, _, _⟩ := encode10_shape v hv
    have hlen : (SdnvEncodeU64ClassicBufSize10 v).length = k + 1 := by
      rw [hshape]; simp [contGroups_length]
    simp only [sdnvConcat, List.append_assoc, henc, hdec, hlen] at hle ⊢
    have hk : ¬ (k + 1 = 0) := by omega
    simp only [hk, if_false]
    have hdrop : List.drop (k + 1) (SdnvEncodeU64ClassicBufSize10 v ++ (sdnvConcat vs ++ rest))
        = sdnvConcat vs ++ rest := by
      rw [← hlen]; exact List.drop_left _ _
    have hbuf : (bufferSize + U64 - (k + 1)) % U64 = bufferSize - (k + 1) := by
      simp only [U64]; omega
    rw [hdrop, hbuf, ih (fun x hx => hvs x (List.mem_cons_of_mem _ hx)) rest _ _ _ (by omega)
      (by omega)]
    simp [hlen]
    omega

/-- C8 (bulk decode round trip): decoding `n` values from the concatenation of
the encodings of `v1..vn`, with `bufferSize` the length of the concatenation,
returns `n`, stores `v1..vn` in order, takes the whole concatenation and leaves
`decodeErrorDetected` false. -/
theorem C8_bulk_decode_round_trip (vs : List Nat) (hvs : ∀ v ∈ vs, v < 2 ^ 64)
    (hn : vs.length < 2 ^ 32) :
    SdnvDecodeArrayU64Classic (sdnvConcat vs) vs.length (sdnvConcat vs).length
      = ⟨vs.length, vs, (sdnvConcat vs).length, false⟩ := by
  have hlen := sdnvConcat_length_le vs hvs
  have h := array_loop_concat vs hvs [] (sdnvConcat vs).length 0 [] (le_refl _) (by omega)
  simp only [List.append_nil, List.nil_append, Nat.zero_add] at h
  unfold SdnvDecodeArrayU64Classic
  rw [h]
  have : toU32 vs.length = vs.length := by
    unfold toU32; exact Nat.mod_eq_of_lt hn
  rw [this]

/-- C1 (SDNV round trip): for every 64-bit `v`, encoding with
`SdnvEncodeU64Classic` into a buffer of at least ten bytes and decoding the
produced bytes (whatever follows them) with `SdnvDecodeU64Classic` and a
`bufferSize` of at least the encoded length returns `v` and `numBytes` equal to
the number of bytes written. -/
theorem C1_sdnv_round_trip (v : Nat) (hv : v < 2 ^ 64) (encodeBufferSize : Nat)
    (hbuf : 10 ≤ encodeBufferSize) (rest : List Nat) (bufferSize : Nat)
    (hsz : (SdnvEncodeU64Classic v encodeBufferSize).length ≤ bufferSize) :
    SdnvDecodeU64Classic (SdnvEncodeU64Classic v encodeBufferSize ++ rest) bufferSize
      = ⟨.value v, (SdnvEncodeU64Classic v encodeBufferSize).length⟩ := by
  rw [encode_cases v encodeBufferSize hbuf] at hsz ⊢
  exact decode_encode10 v hv rest bufferSize hsz

theorem C1_witness :
    (300 < 2 ^ 64 ∧ 10 ≤ 10 ∧ (SdnvEncodeU64Classic 300 10).length ≤ 2) ∧
    SdnvDecodeU64Classic (SdnvEncodeU64Classic 300 10 ++ []) 2
      = ⟨.value 300, (SdnvEncodeU64Classic 300 10).length⟩ :=
  ⟨⟨by norm_num, by norm_num, by decide⟩,
    C1_sdnv_round_trip 300 (by norm_num) 10 (by norm_num) [] 2 (by decide)⟩

theorem C8_witness :
    ((∀ v ∈ [0, 300, 2 ^ 64 - 1], v < 2 ^ 64) ∧ [0, 300, 2 ^ 64 - 1].length < 2 ^ 32) ∧
    SdnvDecodeArrayU64Classic (sdnvConcat [0, 300, 2 ^ 64 - 1]) [0, 300, 2 ^ 64 - 1].length
        (sdnvConcat [0, 300, 2 ^ 64 - 1]).length
      = ⟨[0, 300, 2 ^ 64 - 1].length, [0, 300, 2 ^ 64 - 1],
          (sdnvConcat [0, 300, 2 ^ 64 - 1]).length, false⟩ :=
  ⟨⟨by decide, by decide⟩, C8_bulk_decode_round_trip [0, 300, 2 ^ 64 - 1] (by decide) (by decide)⟩

theorem C7_witness :
    (2 < 2 ^ 64 ∧ 2 < 2 ^ 32) ∧
    SdnvDecodeArrayU64Classic [0x82, 0x2c, 0x85] 2 2 = ⟨1, [300], 2, false⟩ := by
  refine ⟨⟨by norm_num, by norm_num⟩, ?_⟩
  have h := C7_bulk_decode_refines_single [0x82, 0x2c, 0x85] 2 2 (by norm_num) (by norm_num)
  have e : repeatedSingleDecodes [0x82, 0x2c, 0x85] 2 2 0 = .stopped [300] 2 := by decide
  rw [e] at h
  exact h

theorem C9_witness :
    SdnvDecodeU64Classic [0x82, 0x80, 0x80, 0x80, 0x80, 0x80, 0x80, 0x80, 0x80, 0x00] 10
        = ⟨.DECODE_FAILURE_INVALID_SDNV_RETURN_VALUE, 0⟩ ∧
    SdnvDecodeU64Classic [0x80, 0x80, 0x80, 0x80, 0x80, 0x80, 0x80, 0x80, 0x80, 0x80, 0x00] 11
        = ⟨.DECODE_FAILURE_INVALID_SDNV_RETURN_VALUE, 0⟩ ∧
    SdnvDecodeU64Classic [0x81, 0xff, 0xff, 0xff, 0xff, 0xff, 0xff, 0xff, 0xff, 0x7f] 10
        = ⟨.value (2 ^ 64 - 1), 10⟩ :=
  ⟨(C9_sdnv_overflow_boundary [0x82, 0x80, 0x80, 0x80, 0x80, 0x80, 0x80, 0x80, 0x80, 0x00] 10
      (by decide) (by decide)).1 (by decide) (by decide) (by decide),
   (C9_sdnv_overflow_boundary [0x80, 0x80, 0x80, 0x80, 0x80, 0x80, 0x80, 0x80, 0x80, 0x80, 0x00] 11
      (by decide) (by decide)).2.1 (by decide),
   (C9_sdnv_overflow_boundary [0x81, 0xff, 0xff, 0xff, 0xff, 0xff, 0xff, 0xff, 0xff, 0x7f] 10
      (by decide) (by decide)).2.2 (by decide) (by decide) (by decide)⟩

theorem C10_witness :
    ([0x81, 0x80, 0xff].length < 10 ∧ ∀ b ∈ [0x81, 0x80, 0xff], b &&& 0x80 ≠ 0) ∧
    SdnvDecodeU64Classic ([0x81, 0x80, 0xff] ++ [0x01]) [0x81, 0x80, 0xff].length
      = ⟨.DECODE_FAILURE_NOT_ENOUGH_ENCODED_BYTES_RETURN_VALUE, 0⟩ :=
  ⟨⟨by decide, by decide⟩,
    (C10_sdnv_truncated [0x81, 0x80, 0xff] [0x01] (by decide) (by decide)).1⟩

/-! ### The encoder: buffer, wire format, length -/

theorem storeBytes_other (i : Nat) : ∀ (assignments : List (Nat × Nat)) (buf : Nat → Nat),
    (∀ a ∈ assignments, a.1 ≠ i) → storeBytes buf assignments i = buf i := by
  intro assignments
  induction assignments with
  | nil => intro buf _; rfl
  | cons a as ih =>
    intro buf h
    have h1 : a.1 ≠ i := h a (List.mem_cons_self _ _)
    have := ih (Function.update buf a.1 a.2) (fun x hx => h x (List.mem_cons_of_mem _ hx))
    simp only [storeBytes, List.foldl_cons] at this ⊢
    rw [this, Function.update_noteq (Ne.symm h1)]

theorem least_of_bounds (v k : Nat) (hk : 1 ≤ k) (hlo : k = 1 ∨ 128 ^ (k - 1) ≤ v) :
    ∀ j, 1 ≤ j → v < 128 ^ j → k ≤ j := by
  intro j hj hvj
  by_contra hlt
  have hk1 : k ≠ 1 := by omega
  have hle : 128 ^ j ≤ 128 ^ (k - 1) := Nat.pow_le_pow_right (by norm_num) (by omega)
  rcases hlo with h | h
  · exact hk1 h
  · omega


theorem store_shape (outputEncoded : Nat → Nat) (v bufferSize : Nat) (hv : v < 2 ^ 64) :
    ∃ k, 1 ≤ k ∧ k ≤ 10 ∧ v < 128 ^ k ∧ (k = 1 ∨ 128 ^ (k - 1) ≤ v) ∧
      (SdnvEncodeU64ClassicBufSize10 v).length = k ∧
      (SdnvEncodeU64Classic v bufferSize
        = if bufferSize < k then [] else SdnvEncodeU64ClassicBufSize10 v) ∧
      (bufferSize < k → SdnvEncodeU64Classic.store outputEncoded v bufferSize = (0, outputEncoded)) ∧
      (¬ bufferSize < k →
        (SdnvEncodeU64Classic.store outputEncoded v bufferSize).1 = k ∧
        (∀ i, k ≤ i → (SdnvEncodeU64Classic.store outputEncoded v bufferSize).2 i = outputEncoded i) ∧
        (∀ i < k, (SdnvEncodeU64Classic.store outputEncoded v bufferSize).2 i
          = (SdnvEncodeU64ClassicBufSize10 v).getD i 0)) := by
  unfold SdnvEncodeU64Classic.store SdnvEncodeU64Classic SdnvEncodeU64ClassicBufSize10
  simp only [SDNV64_MAX_1_BYTE, SDNV64_MAX_2_BYTE, SDNV64_MAX_3_BYTE, SDNV64_MAX_4_BYTE,
    SDNV64_MAX_5_BYTE, SDNV64_MAX_6_BYTE, SDNV64_MAX_7_BYTE, SDNV64_MAX_8_BYTE, SDNV64_MAX_9_BYTE, Nat.shiftLeft_eq]
  by_cases h1 : v ≤ 1 * 2 ^ 7 - 1
  · simp only [h1, if_true]
    refine ⟨1, by omega, by omega, by omega, by omega, rfl, ?_, ?_, ?_⟩
    · by_cases hb : bufferSize < 1 <;> simp only [hb, if_true, if_false]
    · intro hb; simp only [hb, if_true]
    · intro hb
      simp only [hb, if_false]
      refine ⟨trivial, ?_, ?_⟩
      · intro i hi
        exact storeBytes_other i _ _ (by simp; omega)
      · intro i hi
        interval_cases i
        simp [storeBytes, Function.update]
  simp only [h1, if_false]
  by_cases h2 : v ≤ 1 * 2 ^ 14 - 1
  · simp only [h2, if_true]
    refine ⟨2, by omega, by omega, by omega, by omega, rfl, ?_, ?_, ?_⟩
    · by_cases hb : bufferSize < 2 <;> simp only [hb, if_true, if_false]
    · intro hb; simp only [hb, if_true]
    · intro hb
      simp only [hb, if_false]
      refine ⟨trivial, ?_, ?_⟩
      · intro i hi
        exact storeBytes_other i _ _ (by simp; omega)
      · intro i hi
        interval_cases i <;> simp [storeBytes, Function.update]
  simp only [h2, if_false]
  by_cases h3 : v ≤ 1 * 2 ^ 21 - 1
  · simp only [h3, if_true]
    refine ⟨3, by omega, by omega, by omega, by omega, rfl, ?_, ?_, ?_⟩
    · by_cases hb : bufferSize < 3 <;> simp only [hb, if_true, if_false]
    · intro hb; simp only [hb, if_true]
    · intro hb
      simp only [hb, if_false]
      refine ⟨trivial, ?_, ?_⟩
      · intro i hi
        exact storeBytes_other i _ _ (by simp; omega)
      · intro i hi
        interval_cases i <;> simp [storeBytes, Function.update]
  simp only [h3, if_false]
  by_cases h4 : v ≤ 1 * 2 ^ 28 - 1
  · simp only [h4, if_true]
    refine ⟨4, by omega, by omega, by omega, by omega, rfl, ?_, ?_, ?_⟩
    · by_cases hb : bufferSize < 4 <;> simp only [hb, if_true, if_false]
    · intro hb; simp only [hb, if_true]
    · intro hb
      simp only [hb, if_false]
      refine ⟨trivial, ?_, ?_⟩
      · intro i hi
        exact storeBytes_other i _ _ (by simp; omega)
      · intro i hi
        interval_cases i <;> simp [storeBytes, Function.update]
  simp only [h4, if_false]
  by_cases h5 : v ≤ 1 * 2 ^ 35 - 1
  · simp only [h5, if_true]
    refine ⟨5, by omega, by omega, by omega, by omega, rfl, ?_, ?_, ?_⟩
    · by_cases hb : bufferSize < 5 <;> simp only [hb, if_true, if_false]
    · intro hb; simp only [hb, if_true]
    · intro hb
      simp only [hb, if_false]
      refine ⟨trivial, ?_, ?_⟩
      · intro i hi
        exact storeBytes_other i _ _ (by simp; omega)
      · intro i hi
        interval_cases i <;> simp [storeBytes, Function.update]
  simp only [h5, if_false]
  by_cases h6 : v ≤ 1 * 2 ^ 42 - 1
  · simp only [h6, if_true]
    refine ⟨6, by omega, by omega, by omega, by omega, rfl, ?_, ?_, ?_⟩
    · by_cases hb : bufferSize < 6 <;> simp only [hb, if_true, if_false]
    · intro hb; simp only [hb, if_true]
    · intro hb
      simp only [hb, if_false]
      refine ⟨trivial, ?_, ?_⟩
      · intro i hi
        exact storeBytes_other i _ _ (by simp; omega)
      · intro i hi
        interval_cases i <;> simp [storeBytes, Function.update]
  simp only [h6, if_false]
  by_cases h7 : v ≤ 1 * 2 ^ 49 - 1
  · simp only [h7, if_true]
    refine ⟨7, by omega, by omega, by omega, by omega, rfl, ?_, ?_, ?_⟩
    · by_cases hb : bufferSize < 7 <;> simp only [hb, if_true, if_false]
    · intro hb; simp only [hb, if_true]
    · intro hb
      simp only [hb, if_false]
      refine ⟨trivial, ?_, ?_⟩
      · intro i hi
        exact storeBytes_other i _ _ (by simp; omega)
      · intro i hi
        interval_cases i <;> simp [storeBytes, Function.update]
  simp only [h7, if_false]
  by_cases h8 : v ≤ 1 * 2 ^ 56 - 1
  · simp only [h8, if_true]
    refine ⟨8, by omega, by omega, by omega, by omega, rfl, ?_, ?_, ?_⟩
    · by_cases hb : bufferSize < 8 <;> simp only [hb, if_true, if_false]
    · intro hb; simp only [hb, if_true]
    · intro hb
      simp only [hb, if_false]
      refine ⟨trivial, ?_, ?_⟩
      · intro i hi
        exact storeBytes_other i _ _ (by simp; omega)
      · intro i hi
        interval_cases i <;> simp [storeBytes, Function.update]
  simp only [h8, if_false]
  by_cases h9 : v ≤ 1 * 2 ^ 63 - 1
  · simp only [h9, if_true]
    refine ⟨9, by omega, by omega, by omega, by omega, rfl, ?_, ?_, ?_⟩
    · by_cases hb : bufferSize < 9 <;> simp only [hb, if_true, if_false]
    · intro hb; simp only [hb, if_true]
    · intro hb
      simp only [hb, if_false]
      refine ⟨trivial, ?_, ?_⟩
      · intro i hi
        exact storeBytes_other i _ _ (by simp; omega)
      · intro i hi
        interval_cases i <;> simp [storeBytes, Function.update]
  simp only [h9, if_false]
  refine ⟨10, by omega, by omega, by omega, by omega, rfl, ?_, ?_, ?_⟩
  · by_cases hb : bufferSize < 10 <;> simp only [hb, if_true, if_false]
  · intro hb; simp only [hb, if_true]
  · intro hb
    simp only [hb, if_false]
    refine ⟨trivial, ?_, ?_⟩
    · intro i hi
      exact storeBytes_other i _ _ (by simp; omega)
    · intro i hi
      interval_cases i <;> simp [storeBytes, Function.update]

/-- C11 (encode into a short buffer): with `n` the number of bytes needed to
encode `v` (the least `k ≥ 1` with `v < 128 ^ k`), `SdnvEncodeU64Classic` returns
`0` exactly when `bufferSize < n`; when it returns `0` the memory at
`outputEncoded` is unchanged; otherwise it returns `n`, leaves every byte from
index `n` on unchanged, and the `n` bytes it wrote are the encoding. -/
theorem C11_encode_short_buffer (outputEncoded : Nat → Nat) (v bufferSize : Nat)
    (hv : v < 2 ^ 64) :
    ∃ n, (1 ≤ n ∧ v < 128 ^ n ∧ ∀ k, 1 ≤ k → v < 128 ^ k → n ≤ k) ∧
      ((SdnvEncodeU64Classic.store outputEncoded v bufferSize).1 = 0 ↔ bufferSize < n) ∧
      ((SdnvEncodeU64Classic.store outputEncoded v bufferSize).1 = 0 →
        (SdnvEncodeU64Classic.store outputEncoded v bufferSize).2 = outputEncoded) ∧
      ((SdnvEncodeU64Classic.store outputEncoded v bufferSize).1 ≠ 0 →
        (SdnvEncodeU64Classic.store outputEncoded v bufferSize).1 = n ∧
        (∀ i, n ≤ i →
          (SdnvEncodeU64Classic.store outputEncoded v bufferSize).2 i = outputEncoded i) ∧
        (∀ i < n, (SdnvEncodeU64Classic.store outputEncoded v bufferSize).2 i
          = (SdnvEncodeU64ClassicBufSize10 v).getD i 0)) ∧
      (SdnvEncodeU64Classic v bufferSize).length
        = (SdnvEncodeU64Classic.store outputEncoded v bufferSize).1 := by
  obtain ⟨k, hk1, hk10, hlt, hlo, hlen, hlist, hshort, hfit⟩ :=
    store_shape outputEncoded v bufferSize hv
  refine ⟨k, ⟨hk1, hlt, least_of_bounds v k hk1 hlo⟩, ?_, ?_, ?_, ?_⟩
  · constructor
    · intro h0
      by_contra hb
      have := (hfit hb).1
      omega
    · intro hb
      rw [hshort hb]
  · intro h0
    by_cases hb : bufferSize < k
    · rw [hshort hb]
    · have := (hfit hb).1
      omega
  · intro hne
    by_cases hb : bufferSize < k
    · rw [hshort hb] at hne
      exact absurd rfl hne
    · exact hfit hb
  · rw [hlist]
    by_cases hb : bufferSize < k
    · rw [if_pos hb, hshort hb]
      rfl
    · rw [if_neg hb, hlen, (hfit hb).1]

theorem C11_witness :
    ∃ n, (1 ≤ n ∧ 300 < 128 ^ n ∧ ∀ k, 1 ≤ k → 300 < 128 ^ k → n ≤ k) ∧
      ((SdnvEncodeU64Classic.store (fun _ => 0) 300 1).1 = 0 ↔ 1 < n) ∧
      ((SdnvEncodeU64Classic.store (fun _ => 0) 300 1).1 = 0 →
        (SdnvEncodeU64Classic.store (fun _ => 0) 300 1).2 = (fun _ => 0)) ∧
      ((SdnvEncodeU64Classic.store (fun _ => 0) 300 1).1 ≠ 0 →
        (SdnvEncodeU64Classic.store (fun _ => 0) 300 1).1 = n ∧
        (∀ i, n ≤ i →
          (SdnvEncodeU64Classic.store (fun _ => 0) 300 1).2 i = (fun _ => 0) i) ∧
        (∀ i < n, (SdnvEncodeU64Classic.store (fun _ => 0) 300 1).2 i
          = (SdnvEncodeU64ClassicBufSize10 300).getD i 0)) ∧
      (SdnvEncodeU64Classic 300 1).length
        = (SdnvEncodeU64Classic.store (fun _ => 0) 300 1).1 :=
  C11_encode_short_buffer (fun _ => 0) 300 1 (by decide)

theorem sdnvGroupsValue_contGroups (v : Nat) :
    ∀ k, sdnvGroupsValue (contGroups v k ++ [v % 128]) = v % 128 ^ (k + 1) := by
  intro k
  induction k with
  | zero =>
    simp only [contGroups, List.nil_append, sdnvGroupsValue, List.length_nil, and_7f]
    simp
  | succ k ih =>
    simp only [contGroups, List.cons_append, sdnvGroupsValue, List.append_eq, List.length_append,
      contGroups_length, List.length_singleton, and_7f, ih]
    have e : (2 : Nat) ^ (7 * (k + 1)) = 128 ^ (k + 1) := by
      rw [pow_mul]; norm_num
    rw [e, @Nat.mod_pow_succ v 128 (k + 1)]
    have : (v / 128 ^ (k + 1) % 128 + 128) % 128 = v / 128 ^ (k + 1) % 128 := by omega
    rw [this]
    ring

/-- C12 (SDNV wire format): the bytes `b[0 .. n-1]` that
`SdnvEncodeU64ClassicBufSize10` writes for `v`, which are also the bytes
`SdnvEncodeU64Classic` writes into a buffer of 10 bytes, are bytes, there is at
least one, `b[i]` has its high bit set exactly when `i < n - 1`, and the sum of
`(b[i] AND 0x7f) * 128 ^ (n - 1 - i)` is `v`. -/
theorem C12_sdnv_wire_format (v : Nat) (hv : v < 2 ^ 64) :
    SdnvEncodeU64Classic v 10 = SdnvEncodeU64ClassicBufSize10 v ∧
    1 ≤ (SdnvEncodeU64ClassicBufSize10 v).length ∧
    (∀ b ∈ SdnvEncodeU64ClassicBufSize10 v, b < 256) ∧
    (∀ i < (SdnvEncodeU64ClassicBufSize10 v).length,
      ((SdnvEncodeU64ClassicBufSize10 v).getD i 0 &&& 0x80 ≠ 0
        ↔ i < (SdnvEncodeU64ClassicBufSize10 v).length - 1)) ∧
    sdnvGroupsValue (SdnvEncodeU64ClassicBufSize10 v) = v := by
  obtain ⟨k, hk9, hshape, hlt, _⟩ := encode10_shape v hv
  refine ⟨encode_cases v 10 (le_refl _), ?_, ?_, ?_, ?_⟩
  · rw [hshape]; simp
  · rw [hshape]
    intro b hb
    rcases List.mem_append.mp hb with hb | hb
    · have hmem : ∀ j, ∀ x ∈ contGroups v j, x < 256 := by
        intro j
        induction j with
        | zero => intro x hx; simp [contGroups] at hx
        | succ j ih =>
          intro x hx
          simp only [contGroups, List.mem_cons] at hx
          rcases hx with rfl | hx
          · omega
          · exact ih x hx
      exact hmem k b hb
    · simp only [List.mem_singleton] at hb
      omega
  · rw [hshape]
    simp only [List.length_append, contGroups_length, List.length_singleton, Nat.add_sub_cancel]
    intro i hi
    by_cases hik : i < k
    · have hget : (contGroups v k ++ [v % 128]).getD i 0 ∈ contGroups v k := by
        rw [List.getD_eq_getElem _ _ (by simp [contGroups_length]; omega),
          List.getElem_append_left (by rw [contGroups_length]; exact hik)]
        exact List.getElem_mem _
      have h1 := contGroups_high v k _ hget
      have h2 := byte_and_80 ((contGroups v k ++ [v % 128]).getD i 0)
      constructor
      · intro _; exact hik
      · intro _ h0
        have := h2.mp h0
        omega
    · have hi' : i = k := by omega
      subst hi'
      have hget : (contGroups v i ++ [v % 128]).getD i 0 = v % 128 := by
        have := getD_append_cons (contGroups v i) (v % 128) []
        rwa [contGroups_length] at this
      rw [hget]
      have h2 := byte_and_80 (v % 128)
      constructor
      · intro h; exact absurd (h2.mpr (by omega)) h
      · intro h; omega
  · rw [hshape, sdnvGroupsValue_contGroups]
    have e : (128 : Nat) ^ (k + 1) = 2 ^ (7 * (k + 1)) := by
      rw [pow_mul]; norm_num
    rw [e]
    exact Nat.mod_eq_of_lt hlt

theorem C12_witness :
    SdnvEncodeU64Classic 300 10 = SdnvEncodeU64ClassicBufSize10 300 ∧
    1 ≤ (SdnvEncodeU64ClassicBufSize10 300).length ∧
    (∀ b ∈ SdnvEncodeU64ClassicBufSize10 300, b < 256) ∧
    (∀ i < (SdnvEncodeU64ClassicBufSize10 300).length,
      ((SdnvEncodeU64ClassicBufSize10 300).getD i 0 &&& 0x80 ≠ 0
        ↔ i < (SdnvEncodeU64ClassicBufSize10 300).length - 1)) ∧
    sdnvGroupsValue (SdnvEncodeU64ClassicBufSize10 300) = 300 :=
  C12_sdnv_wire_format 300 (by decide)

theorem mask0x80Indices_eq : ∀ m < 70, mask0x80Indices.getD m 0 = m / 7 := by decide

theorem SdnvGetNumBytesRequiredToEncode_eq (v k : Nat) (hv : v < 2 ^ 64) (hk : k ≤ 9)
    (hlt : v < 2 ^ (7 * (k + 1))) (hlo : k = 0 ∨ 2 ^ (7 * k) ≤ v) :
    SdnvGetNumBytesRequiredToEncode v = k + 1 := by
  unfold SdnvGetNumBytesRequiredToEncode find_msb
  by_cases h0 : v = 0
  · subst h0
    have hk0 : k = 0 := by
      rcases hlo with h | h
      · exact h
      · have : 0 < 2 ^ (7 * k) := by positivity
        omega
    subst hk0
    have h1 : ((0 : Nat) ||| if (0 : Nat) = 0 then 1 else 0) = 1 := by decide
    have h2 : Nat.log2 1 < 1 := (Nat.log2_lt (by decide)).mpr (by decide)
    have h3 : Nat.log2 1 = 0 := by omega
    show mask0x80Indices.getD (Nat.log2 ((0 : Nat) ||| if (0 : Nat) = 0 then 1 else 0)) 0 + 1
      = 0 + 1
    rw [h1, h3]
    rfl
  · simp only [h0, if_false, Nat.or_zero]
    have h1 : v.log2 < 7 * (k + 1) := (Nat.log2_lt h0).mpr hlt
    have h2 : 7 * k ≤ v.log2 := by
      rcases hlo with h | h
      · omega
      · exact (Nat.le_log2 h0).mpr h
    rw [mask0x80Indices_eq _ (by omega)]
    omega

theorem SdnvEncodeU32Classic_length_le (v bufferSize : Nat) :
    (SdnvEncodeU32Classic v bufferSize).length ≤ 5 := by
  unfold SdnvEncodeU32Classic
  simp only []
  repeat' (first
    | split
    | simp)

/-- C13 (SDNV length): the number `n` of bytes `SdnvEncodeU64Classic` writes for
`v` into a buffer of at least 10 bytes is the least `k ≥ 1` with `v < 128 ^ k`;
it is `1` exactly when `v ≤ 127`, it is at most `10`, and it is
`SdnvGetNumBytesRequiredToEncode v`. `SdnvEncodeU32Classic` writes at most 5
bytes for every 32-bit value. -/
theorem C13_sdnv_length (v bufferSize : Nat) (hv : v < 2 ^ 64) (hbuf : 10 ≤ bufferSize) :
    (1 ≤ (SdnvEncodeU64Classic v bufferSize).length ∧
      v < 128 ^ (SdnvEncodeU64Classic v bufferSize).length ∧
      ∀ k, 1 ≤ k → v < 128 ^ k → (SdnvEncodeU64Classic v bufferSize).length ≤ k) ∧
    ((SdnvEncodeU64Classic v bufferSize).length = 1 ↔ v ≤ 127) ∧
    (SdnvEncodeU64Classic v bufferSize).length ≤ 10 ∧
    (SdnvEncodeU64Classic v bufferSize).length = SdnvGetNumBytesRequiredToEncode v ∧
    (∀ valToEncodeU32 bufferSize32, valToEncodeU32 < 2 ^ 32 →
      (SdnvEncodeU32Classic valToEncodeU32 bufferSize32).length ≤ 5) := by
  rw [encode_cases v bufferSize hbuf]
  obtain ⟨k, hk9, hshape, hlt, hlo⟩ := encode10_shape v hv
  have hlen : (SdnvEncodeU64ClassicBufSize10 v).length = k + 1 := by
    rw [hshape]; simp [contGroups_length]
  have e : ∀ j, (2 : Nat) ^ (7 * j) = 128 ^ j := by
    intro j; rw [pow_mul]; norm_num
  rw [hlen]
  refine ⟨⟨by omega, by rw [← e]; exact hlt, ?_⟩, ?_, by omega, ?_, ?_⟩
  · apply least_of_bounds v (k + 1) (by omega)
    rcases hlo with h | h
    · left; omega
    · right; rw [Nat.add_sub_cancel, ← e]; exact h
  · constructor
    · intro h1
      have hk0 : k = 0 := by omega
      subst hk0
      omega
    · intro h127
      rcases hlo with h | h
      · omega
      · have : (2 : Nat) ^ (7 * 1) ≤ 2 ^ (7 * k) ∨ k = 0 := by
          by_cases hk0 : k = 0
          · right; exact hk0
          · left; exact Nat.pow_le_pow_right (by norm_num) (by omega)
        rcases this with h' | h'
        · omega
        · omega
  · exact (SdnvGetNumBytesRequiredToEncode_eq v k hv hk9 hlt hlo).symm
  · intro v32 b32 _
    exact SdnvEncodeU32Classic_length_le v32 b32

theorem C13_witness :
    (1 ≤ (SdnvEncodeU64Classic 300 10).length ∧
      300 < 128 ^ (SdnvEncodeU64Classic 300 10).length ∧
      ∀ k, 1 ≤ k → 300 < 128 ^ k → (SdnvEncodeU64Classic 300 10).length ≤ k) ∧
    ((SdnvEncodeU64Classic 300 10).length = 1 ↔ 300 ≤ 127) ∧
    (SdnvEncodeU64Classic 300 10).length ≤ 10 ∧
    (SdnvEncodeU64Classic 300 10).length = SdnvGetNumBytesRequiredToEncode 300 ∧
    (∀ valToEncodeU32 bufferSize32, valToEncodeU32 < 2 ^ 32 →
      (SdnvEncodeU32Classic valToEncodeU32 bufferSize32).length ≤ 5) :=
  C13_sdnv_length 300 10 (by decide) (by decide)

/-! ## Fragment set -/

namespace FragmentSet

theorem lt_iff (a o : data_fragment_t) : a.lt o = true ↔ (a.endIndex + 1) % U64 < o.beginIndex := by
  simp [data_fragment_t.lt]

theorem covers_nil (x : Nat) : ¬ covers [] x := by
  simp [covers]

theorem covers_cons (e : data_fragment_t) (s : List data_fragment_t) (x : Nat) :
    covers (e :: s) x ↔ e.covers x ∨ covers s x := by
  simp [covers]

theorem covers_append (s t : List data_fragment_t) (x : Nat) :
    covers (s ++ t) x ↔ covers s x ∨ covers t x := by
  simp only [covers, List.mem_append]
  constructor
  · rintro ⟨e, he | he, hx⟩
    · exact Or.inl ⟨e, he, hx⟩
    · exact Or.inr ⟨e, he, hx⟩
  · rintro (⟨e, he, hx⟩ | ⟨e, he, hx⟩)
    · exact ⟨e, Or.inl he, hx⟩
    · exact ⟨e, Or.inr he, hx⟩

theorem covers_erase (s : List data_fragment_t) (e : data_fragment_t) (he : e ∈ s) (x : Nat) :
    covers s x ↔ e.covers x ∨ covers (set_erase s e) x := by
  unfold set_erase
  constructor
  · rintro ⟨f, hf, hx⟩
    by_cases hfe : f = e
    · subst hfe; exact Or.inl hx
    · exact Or.inr ⟨f, (List.mem_erase_of_ne hfe).mpr hf, hx⟩
  · rintro (hx | ⟨f, hf, hx⟩)
    · exact ⟨e, he, hx⟩
    · exact ⟨f, List.mem_of_mem_erase hf, hx⟩

/-- What `set_insert` does when it inserts. -/
theorem set_insert_inserted (s : List data_fragment_t) (key : data_fragment_t)
    (h : (set_insert s key).second = true) :
    ∃ pre post, s = pre ++ post ∧ (set_insert s key).set = pre ++ key :: post ∧
      (∀ e ∈ pre, e.lt key = true) ∧ (∀ e, post.head? = some e → key.lt e = true) := by
  induction s with
  | nil => exact ⟨[], [], rfl, rfl, by simp, by simp⟩
  | cons e rest ih =>
    rw [set_insert] at h ⊢
    by_cases h1 : e.lt key = true
    · simp only [h1, if_true] at h ⊢
      obtain ⟨pre, post, hs, hset, hpre, hpost⟩ := ih h
      refine ⟨e :: pre, post, by rw [hs]; rfl, by rw [hset]; rfl, ?_, hpost⟩
      intro f hf
      rcases List.mem_cons.mp hf with rfl | hf
      · exact h1
      · exact hpre f hf
    · simp only [h1] at h ⊢
      by_cases h2 : key.lt e = true
      · simp only [h2, if_true] at h ⊢
        exact ⟨[], e :: rest, rfl, rfl, by simp, by simpa using h2⟩
      · simp [h2] at h

/-- What `set_insert` does when it finds an equivalent element. -/
theorem set_insert_found (s : List data_fragment_t) (key : data_fragment_t)
    (h : (set_insert s key).second = false) :
    (set_insert s key).first ∈ s ∧ (set_insert s key).first.lt key = false ∧
      key.lt (set_insert s key).first = false := by
  induction s with
  | nil => simp [set_insert] at h
  | cons e rest ih =>
    rw [set_insert] at h ⊢
    by_cases h1 : e.lt key = true
    · simp only [h1, if_true] at h ⊢
      obtain ⟨hm, ha, hb⟩ := ih h
      exact ⟨List.mem_cons_of_mem _ hm, ha, hb⟩
    · simp only [h1] at h ⊢
      by_cases h2 : key.lt e = true
      · simp [h2] at h
      · simp only [h2]
        exact ⟨List.mem_cons_self _ _, by simpa using h1, by simpa using h2⟩

theorem set_insert_covers (s : List data_fragment_t) (key : data_fragment_t)
    (h : (set_insert s key).second = true) (x : Nat) :
    covers (set_insert s key).set x ↔ covers s x ∨ key.covers x := by
  obtain ⟨pre, post, hs, hset, _, _⟩ := set_insert_inserted s key h
  rw [hset, hs, covers_append, covers_append, covers_cons]
  tauto

/-- Two fragments that the comparator orders in neither direction overlap or abut. -/
theorem equivalent_touch (a b : data_fragment_t) (ha : a.endIndex < U64) (hb : b.endIndex < U64)
    (h1 : a.lt b = false) (h2 : b.lt a = false) :
    b.beginIndex ≤ a.endIndex + 1 ∧ a.beginIndex ≤ b.endIndex + 1 := by
  have h1' : ¬ (a.endIndex + 1) % U64 < b.beginIndex := by
    rw [← lt_iff]; simp [h1]
  have h2' : ¬ (b.endIndex + 1) % U64 < a.beginIndex := by
    rw [← lt_iff]; simp [h2]
  simp only [U64] at *
  omega

theorem hull_covers (a b : data_fragment_t)
    (h : b.beginIndex ≤ a.endIndex + 1 ∧ a.beginIndex ≤ b.endIndex + 1) (x : Nat) :
    (⟨min a.beginIndex b.beginIndex, max a.endIndex b.endIndex⟩ : data_fragment_t).covers x ↔
      a.covers x ∨ b.covers x := by
  simp only [data_fragment_t.covers]
  omega

theorem InsertFragment_loop_covers :
    ∀ (fuel : Nat) (s : List data_fragment_t) (key : data_fragment_t) (modified : Bool)
      (out : List data_fragment_t × Bool),
      (∀ e ∈ s, e.beginIndex ≤ e.endIndex ∧ e.endIndex < U64) →
      key.beginIndex ≤ key.endIndex → key.endIndex < U64 →
      InsertFragment.loop fuel s key modified = some out →
      ∀ x, covers out.1 x ↔ covers s x ∨ key.covers x := by
  intro fuel
  induction fuel with
  | zero => intro s key modified out _ _ _ h; simp [InsertFragment.loop] at h
  | succ fuel ih =>
    intro s key modified out hs hk hk64 h x
    rw [InsertFragment.loop] at h
    by_cases hins : (set_insert s key).second = true
    · simp only [hins, if_true, Option.some.injEq] at h
      rw [← h]
      exact set_insert_covers s key hins x
    · have hins' : (set_insert s key).second = false := by simpa using hins
      obtain ⟨hmem, hl1, hl2⟩ := set_insert_found s key hins'
      have hfv := hs _ hmem
      have htouch := equivalent_touch _ _ hfv.2 hk64 hl1 hl2
      simp only [hins', Bool.false_eq_true, if_false] at h
      by_cases hin : key.beginIndex ≥ (set_insert s key).first.beginIndex ∧
          key.endIndex ≤ (set_insert s key).first.endIndex
      · simp only [hin, and_self, if_true, Option.some.injEq] at h
        rw [← h]
        constructor
        · intro hx; exact Or.inl hx
        · rintro (hx | hx)
          · exact hx
          · exact ⟨_, hmem, by simp only [data_fragment_t.covers] at hx ⊢; omega⟩
      · rw [if_neg hin] at h
        have hrec := ih _ _ _ out
          (fun e he => hs e (List.mem_of_mem_erase he))
          (by simp only []; omega) (by simp only []; omega) h x
        rw [hrec, covers_erase s _ hmem x, hull_covers key _ ⟨htouch.2, htouch.1⟩]
        tauto

theorem InsertFragment_loop_total :
    ∀ (fuel : Nat) (s : List data_fragment_t) (key : data_fragment_t) (modified : Bool),
      s.length < fuel → ∃ out, InsertFragment.loop fuel s key modified = some out := by
  intro fuel
  induction fuel with
  | zero => intro s key modified h; omega
  | succ fuel ih =>
    intro s key modified hlen
    rw [InsertFragment.loop]
    by_cases hins : (set_insert s key).second = true
    · simp [hins]
    · have hins' : (set_insert s key).second = false := by simpa using hins
      obtain ⟨hmem, _, _⟩ := set_insert_found s key hins'
      simp only [hins', Bool.false_eq_true, if_false]
      split
      · exact ⟨_, rfl⟩
      · apply ih
        unfold set_erase
        rw [List.length_erase_of_mem hmem]
        have : 0 < s.length := List.length_pos_of_mem hmem
        omega

/-- `InsertFragment` always returns. -/
theorem InsertFragment_total (s : List data_fragment_t) (key : data_fragment_t) :
    ∃ out, InsertFragment s key = some out :=
  InsertFragment_loop_total _ s key false (Nat.lt_succ_self _)

theorem lt_of_inRange (a o : data_fragment_t) (ha : a.endIndex ≤ U64 - 2) :
    a.lt o = true ↔ a.endIndex + 1 < o.beginIndex := by
  rw [lt_iff]
  simp only [U64] at *
  have : (a.endIndex + 1) % 2 ^ 64 = a.endIndex + 1 := Nat.mod_eq_of_lt (by omega)
  rw [this]

theorem InsertFragment_loop_bound (B : Nat) :
    ∀ (fuel : Nat) (s : List data_fragment_t) (key : data_fragment_t) (modified : Bool)
      (out : List data_fragment_t × Bool),
      (∀ e ∈ s, e.beginIndex ≤ e.endIndex ∧ e.endIndex ≤ B) →
      key.beginIndex ≤ key.endIndex → key.endIndex ≤ B →
      InsertFragment.loop fuel s key modified = some out →
      ∀ e ∈ out.1, e.beginIndex ≤ e.endIndex ∧ e.endIndex ≤ B := by
  intro fuel
  induction fuel with
  | zero => intro s key modified out _ _ _ h; simp [InsertFragment.loop] at h
  | succ fuel ih =>
    intro s key modified out hs hk hkB h
    rw [InsertFragment.loop] at h
    by_cases hins : (set_insert s key).second = true
    · simp only [hins, if_true, Option.some.injEq] at h
      rw [← h]
      obtain ⟨pre, post, hs', hset, _, _⟩ := set_insert_inserted s key hins
      intro e he
      simp only [hset, List.mem_append, List.mem_cons] at he
      rcases he with he | rfl | he
      · exact hs e (by rw [hs']; exact List.mem_append_left _ he)
      · exact ⟨hk, hkB⟩
      · exact hs e (by rw [hs']; exact List.mem_append_right _ he)
    · have hins' : (set_insert s key).second = false := by simpa using hins
      obtain ⟨hmem, _, _⟩ := set_insert_found s key hins'
      have hfv := hs _ hmem
      simp only [hins', Bool.false_eq_true, if_false] at h
      by_cases hin : key.beginIndex ≥ (set_insert s key).first.beginIndex ∧
          key.endIndex ≤ (set_insert s key).first.endIndex
      · simp only [hin, and_self, if_true, Option.some.injEq] at h
        rw [← h]; exact hs
      · rw [if_neg hin] at h
        exact ih _ _ _ out (fun e he => hs e (List.mem_of_mem_erase he))
          (by simp only []; omega) (by simp only []; omega) h

theorem StrongInvariant.sublist {s t : List data_fragment_t} (h : StrongInvariant s)
    (hsub : t.Sublist s) : StrongInvariant t :=
  ⟨fun e he => h.1 e (hsub.subset he), h.2.sublist hsub⟩

theorem StrongInvariant.erase {s : List data_fragment_t} (h : StrongInvariant s)
    (e : data_fragment_t) : StrongInvariant (set_erase s e) :=
  h.sublist (List.erase_sublist e s)

/-- Inserting a range between the ranges before it and the ranges after it. -/
theorem StrongInvariant.insert_mid {pre post : List data_fragment_t} {key : data_fragment_t}
    (h : StrongInvariant (pre ++ post)) (hk : key.inRange)
    (hpre : ∀ e ∈ pre, e.endIndex + 1 < key.beginIndex)
    (hpost : ∀ e, post.head? = some e → key.endIndex + 1 < e.beginIndex) :
    StrongInvariant (pre ++ key :: post) := by
  obtain ⟨hv, hp⟩ := h
  rw [List.pairwise_append] at hp
  obtain ⟨hp1, hp2, hp12⟩ := hp
  refine ⟨?_, ?_⟩
  · intro e he
    simp only [List.mem_append, List.mem_cons] at he
    rcases he with he | rfl | he
    · exact hv e (List.mem_append_left _ he)
    · exact hk
    · exact hv e (List.mem_append_right _ he)
  · rw [List.pairwise_append]
    have hkpost : ∀ f ∈ post, key.endIndex + 1 < f.beginIndex := by
      intro f hf
      cases post with
      | nil => simp at hf
      | cons g post' =>
        have hg := hpost g rfl
        rcases List.mem_cons.mp hf with rfl | hf'
        · exact hg
        · have := (List.pairwise_cons.mp hp2).1 f hf'
          have hgv := hv g (List.mem_append_right _ (List.mem_cons_self _ _))
          simp only [data_fragment_t.inRange] at hgv
          omega
    refine ⟨hp1, List.pairwise_cons.mpr ⟨hkpost, hp2⟩, ?_⟩
    intro a ha b hb
    rcases List.mem_cons.mp hb with rfl | hb
    · exact hpre a ha
    · exact hp12 a ha b hb

theorem InsertFragment_loop_strong :
    ∀ (fuel : Nat) (s : List data_fragment_t) (key : data_fragment_t) (modified : Bool)
      (out : List data_fragment_t × Bool),
      StrongInvariant s → key.inRange →
      InsertFragment.loop fuel s key modified = some out → StrongInvariant out.1 := by
  intro fuel
  induction fuel with
  | zero => intro s key modified out _ _ h; simp [InsertFragment.loop] at h
  | succ fuel ih =>
    intro s key modified out hs hk h
    rw [InsertFragment.loop] at h
    by_cases hins : (set_insert s key).second = true
    · simp only [hins, if_true, Option.some.injEq] at h
      rw [← h]
      obtain ⟨pre, post, hs', hset, hpre, hpost⟩ := set_insert_inserted s key hins
      simp only [hset]
      rw [hs'] at hs
      apply hs.insert_mid hk
      · intro e he
        exact (lt_of_inRange e key (hs.1 e (List.mem_append_left _ he)).2).mp (hpre e he)
      · intro e he
        exact (lt_of_inRange key e hk.2).mp (hpost e he)
    · have hins' : (set_insert s key).second = false := by simpa using hins
      obtain ⟨hmem, _, _⟩ := set_insert_found s key hins'
      have hfv := hs.1 _ hmem
      simp only [hins', Bool.false_eq_true, if_false] at h
      by_cases hin : key.beginIndex ≥ (set_insert s key).first.beginIndex ∧
          key.endIndex ≤ (set_insert s key).first.endIndex
      · simp only [hin, and_self, if_true, Option.some.injEq] at h
        rw [← h]; exact hs
      · rw [if_neg hin] at h
        refine ih _ _ _ out (hs.erase _) ?_ h
        simp only [data_fragment_t.inRange] at hk hfv ⊢
        omega

theorem StrongInvariant.not_mem_pre {pre rest : List data_fragment_t} {e : data_fragment_t}
    (h : StrongInvariant (pre ++ e :: rest)) : e ∉ pre := by
  intro he
  have hp := (List.pairwise_append.mp h.2).2.2 e he e (List.mem_cons_self _ _)
  have hv := h.1 e (List.mem_append_left _ he)
  simp only [data_fragment_t.inRange] at hv
  omega

theorem set_erase_mid {pre rest : List data_fragment_t} {e : data_fragment_t}
    (h : StrongInvariant (pre ++ e :: rest)) : set_erase (pre ++ e :: rest) e = pre ++ rest := by
  unfold set_erase
  rw [List.erase_append_right _ h.not_mem_pre, List.erase_cons_head]

theorem set_insert_mid (pre rest : List data_fragment_t) (key : data_fragment_t)
    (hpre : ∀ f ∈ pre, f.lt key = true)
    (hrest : ∀ g, rest.head? = some g → g.lt key = false ∧ key.lt g = true) :
    (set_insert (pre ++ rest) key).set = pre ++ key :: rest := by
  induction pre with
  | nil =>
    cases rest with
    | nil => rfl
    | cons g rest =>
      obtain ⟨h1, h2⟩ := hrest g rfl
      simp [set_insert, h1, h2]
  | cons f pre ih =>
    have hf := hpre f (List.mem_cons_self _ _)
    have hih := ih (fun x hx => hpre x (List.mem_cons_of_mem _ hx))
    rw [List.cons_append, set_insert]
    simp only [hf, if_true, hih, List.cons_append]

/-- Inserting a range that fits between the ranges of `pre` and those of
`rest`: where `insert` puts it, and that the invariant is kept. -/
theorem insert_piece {pre rest : List data_fragment_t} {p : data_fragment_t}
    (h : StrongInvariant (pre ++ rest)) (hp : p.inRange)
    (h1 : ∀ f ∈ pre, f.endIndex + 1 < p.beginIndex)
    (h2 : ∀ g ∈ rest, p.endIndex + 1 < g.beginIndex) :
    (set_insert (pre ++ rest) p).set = pre ++ p :: rest ∧ StrongInvariant (pre ++ p :: rest) := by
  constructor
  · apply set_insert_mid
    · intro f hf
      exact (lt_of_inRange f p (h.1 f (List.mem_append_left _ hf)).2).mpr (h1 f hf)
    · intro g hg
      have hgm : g ∈ rest := List.mem_of_mem_head? hg
      have hgv := h.1 g (List.mem_append_right _ hgm)
      simp only [data_fragment_t.inRange] at hgv hp
      constructor
      · have := h2 g hgm
        have hn : ¬ (g.lt p = true) := by
          rw [lt_of_inRange g p hgv.2]; omega
        simpa using hn
      · exact (lt_of_inRange p g hp.2).mpr (h2 g hgm)
  · apply h.insert_mid hp h1
    intro g hg
    exact h2 g (List.mem_of_mem_head? hg)

theorem StrongInvariant.drop_mid {pre rest : List data_fragment_t} {e : data_fragment_t}
    (h : StrongInvariant (pre ++ e :: rest)) : StrongInvariant (pre ++ rest) :=
  h.sublist (List.Sublist.append_left (List.sublist_cons_self e rest) pre)

theorem StrongInvariant.before {pre rest : List data_fragment_t} {e : data_fragment_t}
    (h : StrongInvariant (pre ++ e :: rest)) : ∀ f ∈ pre, f.endIndex + 1 < e.beginIndex :=
  fun f hf => (List.pairwise_append.mp h.2).2.2 f hf e (List.mem_cons_self _ _)

theorem StrongInvariant.after {pre rest : List data_fragment_t} {e : data_fragment_t}
    (h : StrongInvariant (pre ++ e :: rest)) : ∀ g ∈ rest, e.endIndex + 1 < g.beginIndex :=
  fun g hg => (List.pairwise_cons.mp (List.pairwise_append.mp h.2).2.1).1 g hg

theorem StrongInvariant.mid {pre rest : List data_fragment_t} {e : data_fragment_t}
    (h : StrongInvariant (pre ++ e :: rest)) : e.inRange :=
  h.1 e (List.mem_append_right _ (List.mem_cons_self _ _))

theorem remove_loop_eq (deleteBegin deleteEnd : Nat) (hd : deleteBegin ≤ deleteEnd)
    (hE : deleteEnd < U64) :
    ∀ (it pre : List data_fragment_t) (modified : Bool), StrongInvariant (pre ++ it) →
      RemoveFragment.loop deleteBegin deleteEnd it (pre ++ it) modified
        = (pre ++ (removeTail deleteBegin deleteEnd it).1,
            modified || (removeTail deleteBegin deleteEnd it).2) ∧
      StrongInvariant (pre ++ (removeTail deleteBegin deleteEnd it).1) := by
  intro it
  induction it with
  | nil =>
    intro pre modified h
    simp only [RemoveFragment.loop, removeTail, Bool.or_false]
    exact ⟨trivial, h⟩
  | cons e rest ih =>
    intro pre modified h
    have hev := h.mid
    have hbefore := h.before
    have hafter := h.after
    have hdrop := h.drop_mid
    simp only [data_fragment_t.inRange, U64] at hev hE
    have hsnoc : pre ++ e :: rest = (pre ++ [e]) ++ rest := by simp
    rw [RemoveFragment.loop, removeTail]
    by_cases c1 : deleteBegin > e.endIndex
    · simp only [c1, if_true, Bool.or_false]
      exact ⟨trivial, h⟩
    rw [if_neg c1, if_neg c1]
    by_cases c2 : deleteEnd < e.beginIndex
    · rw [if_pos c2, if_pos c2]
      have := ih (pre ++ [e]) modified (by rw [← hsnoc]; exact h)
      rw [hsnoc]
      simpa using this
    rw [if_neg c2, if_neg c2]
    by_cases c3 : deleteBegin ≤ e.beginIndex ∧ deleteEnd ≥ e.endIndex
    · rw [if_pos c3, if_pos c3, set_erase_mid h]
      have := ih pre true hdrop
      simpa using this
    rw [if_neg c3, if_neg c3]
    by_cases c4 : deleteBegin > e.beginIndex ∧ deleteEnd < e.endIndex
    · rw [if_pos c4, if_pos c4]
      have hL : (deleteBegin + U64 - 1) % U64 = deleteBegin - 1 := by
        simp only [U64]; omega
      have hR : (deleteEnd + 1) % U64 = deleteEnd + 1 := by
        simp only [U64]; omega
      simp only [hL, hR, set_erase_mid h]
      -- the two replacement ranges
      have hrightR : (⟨deleteEnd + 1, e.endIndex⟩ : data_fragment_t).inRange := by
        simp only [data_fragment_t.inRange, U64]; omega
      have hleftR : (⟨e.beginIndex, deleteBegin - 1⟩ : data_fragment_t).inRange := by
        simp only [data_fragment_t.inRange, U64]; omega
      have hfinal : (pre ++ [⟨e.beginIndex, deleteBegin - 1⟩, ⟨deleteEnd + 1, e.endIndex⟩]) ++ rest
          = pre ++ ⟨e.beginIndex, deleteBegin - 1⟩ :: ⟨deleteEnd + 1, e.endIndex⟩ :: rest := by
        simp
      by_cases hhead : (pre ++ e :: rest).head? ≠ some e
      · rw [if_pos hhead]
        obtain ⟨e1, i1⟩ := insert_piece (p := ⟨deleteEnd + 1, e.endIndex⟩) hdrop hrightR
          (fun f hf => by have := hbefore f hf; simp only []; omega)
          (fun g hg => by have := hafter g hg; simp only []; omega)
        obtain ⟨e2, i2⟩ := @insert_piece pre (⟨deleteEnd + 1, e.endIndex⟩ :: rest)
          ⟨e.beginIndex, deleteBegin - 1⟩ i1 hleftR
          (fun f hf => by have := hbefore f hf; simp only []; omega)
          (fun g hg => by
            rcases List.mem_cons.mp hg with rfl | hg
            · simp only []; omega
            · have := hafter g hg; simp only []; omega)
        rw [e1, e2, ← hfinal]
        have := ih (pre ++ [⟨e.beginIndex, deleteBegin - 1⟩, ⟨deleteEnd + 1, e.endIndex⟩]) true
          (by rw [hfinal]; exact i2)
        simpa using this
      · rw [if_neg hhead]
        obtain ⟨e1, i1⟩ := insert_piece (p := ⟨e.beginIndex, deleteBegin - 1⟩) hdrop hleftR
          (fun f hf => by have := hbefore f hf; simp only []; omega)
          (fun g hg => by have := hafter g hg; simp only []; omega)
        have hsn : pre ++ ⟨e.beginIndex, deleteBegin - 1⟩ :: rest
            = (pre ++ [⟨e.beginIndex, deleteBegin - 1⟩]) ++ rest := by simp
        rw [hsn] at i1
        obtain ⟨e2, i2⟩ := @insert_piece (pre ++ [⟨e.beginIndex, deleteBegin - 1⟩])
          rest ⟨deleteEnd + 1, e.endIndex⟩ i1 hrightR
          (fun f hf => by
            rcases List.mem_append.mp hf with hf | hf
            · have := hbefore f hf; simp only []; omega
            · simp only [List.mem_singleton] at hf; subst hf; simp only []; omega)
          (fun g hg => by have := hafter g hg; simp only []; omega)
        rw [e1, hsn, e2]
        have hfin2 : pre ++ [⟨e.beginIndex, deleteBegin - 1⟩] ++ ⟨deleteEnd + 1, e.endIndex⟩ :: rest
            = (pre ++ [⟨e.beginIndex, deleteBegin - 1⟩, ⟨deleteEnd + 1, e.endIndex⟩]) ++ rest := by
          simp
        rw [hfin2] at i2 ⊢
        have := ih (pre ++ [⟨e.beginIndex, deleteBegin - 1⟩, ⟨deleteEnd + 1, e.endIndex⟩]) true i2
        simpa using this
    rw [if_neg c4, if_neg c4]
    by_cases c5 : deleteBegin ≤ e.beginIndex ∧ deleteEnd ≥ e.beginIndex
    · rw [if_pos c5, if_pos c5]
      have hR : (deleteEnd + 1) % U64 = deleteEnd + 1 := by
        simp only [U64]; omega
      simp only [hR, set_erase_mid h]
      obtain ⟨e1, i1⟩ := insert_piece (p := ⟨deleteEnd + 1, e.endIndex⟩) hdrop
        (by simp only [data_fragment_t.inRange, U64]; omega)
        (fun f hf => by have := hbefore f hf; simp only []; omega)
        (fun g hg => by have := hafter g hg; simp only []; omega)
      have hsn : pre ++ ⟨deleteEnd + 1, e.endIndex⟩ :: rest
          = (pre ++ [⟨deleteEnd + 1, e.endIndex⟩]) ++ rest := by simp
      rw [e1, hsn]
      rw [hsn] at i1
      have := ih (pre ++ [⟨deleteEnd + 1, e.endIndex⟩]) true i1
      simpa using this
    rw [if_neg c5, if_neg c5]
    by_cases c6 : deleteBegin ≤ e.endIndex ∧ deleteEnd ≥ e.endIndex
    · rw [if_pos c6, if_pos c6]
      have hL : (deleteBegin + U64 - 1) % U64 = deleteBegin - 1 := by
        simp only [U64]; omega
      simp only [hL, set_erase_mid h]
      obtain ⟨e1, i1⟩ := insert_piece (p := ⟨e.beginIndex, deleteBegin - 1⟩) hdrop
        (by simp only [data_fragment_t.inRange, U64]; omega)
        (fun f hf => by have := hbefore f hf; simp only []; omega)
        (fun g hg => by have := hafter g hg; simp only []; omega)
      have hsn : pre ++ ⟨e.beginIndex, deleteBegin - 1⟩ :: rest
          = (pre ++ [⟨e.beginIndex, deleteBegin - 1⟩]) ++ rest := by simp
      rw [e1, hsn]
      rw [hsn] at i1
      have := ih (pre ++ [⟨e.beginIndex, deleteBegin - 1⟩]) true i1
      simpa using this
    · exfalso; omega

theorem removeTail_covers (deleteBegin deleteEnd : Nat) (hd : deleteBegin ≤ deleteEnd) :
    ∀ (it : List data_fragment_t), (∀ f ∈ it, f.beginIndex ≤ f.endIndex) →
      (∀ f ∈ it, deleteBegin ≤ f.endIndex) →
      ∀ x, covers (removeTail deleteBegin deleteEnd it).1 x ↔
        covers it x ∧ ¬ (deleteBegin ≤ x ∧ x ≤ deleteEnd) := by
  intro it
  induction it with
  | nil => intro _ _ x; simp [removeTail, covers]
  | cons e rest ih =>
    intro hv hne x
    have hih := ih (fun f hf => hv f (List.mem_cons_of_mem _ hf))
      (fun f hf => hne f (List.mem_cons_of_mem _ hf)) x
    have hev := hv e (List.mem_cons_self _ _)
    have c1 : ¬ deleteBegin > e.endIndex := by
      have := hne e (List.mem_cons_self _ _); omega
    rw [removeTail, if_neg c1]
    by_cases c2 : deleteEnd < e.beginIndex
    · rw [if_pos c2]
      simp only [covers_cons, hih, data_fragment_t.covers]
      constructor
      · rintro (h | h)
        · exact ⟨Or.inl h, by omega⟩
        · exact ⟨Or.inr h.1, h.2⟩
      · rintro ⟨h | h, hx⟩
        · exact Or.inl h
        · exact Or.inr ⟨h, hx⟩
    rw [if_neg c2]
    by_cases c3 : deleteBegin ≤ e.beginIndex ∧ deleteEnd ≥ e.endIndex
    · rw [if_pos c3]
      simp only [covers_cons, hih, data_fragment_t.covers]
      constructor
      · rintro ⟨h, hx⟩; exact ⟨Or.inr h, hx⟩
      · rintro ⟨h | h, hx⟩
        · exfalso; omega
        · exact ⟨h, hx⟩
    rw [if_neg c3]
    by_cases c4 : deleteBegin > e.beginIndex ∧ deleteEnd < e.endIndex
    · rw [if_pos c4]
      simp only [covers_cons, hih, data_fragment_t.covers]
      constructor
      · rintro (h | h | h)
        · exact ⟨Or.inl (by omega), by omega⟩
        · exact ⟨Or.inl (by omega), by omega⟩
        · exact ⟨Or.inr h.1, h.2⟩
      · rintro ⟨h | h, hx⟩
        · by_cases hlt : x < deleteBegin
          · exact Or.inl (by omega)
          · exact Or.inr (Or.inl (by omega))
        · exact Or.inr (Or.inr ⟨h, hx⟩)
    rw [if_neg c4]
    by_cases c5 : deleteBegin ≤ e.beginIndex ∧ deleteEnd ≥ e.beginIndex
    · rw [if_pos c5]
      simp only [covers_cons, hih, data_fragment_t.covers]
      constructor
      · rintro (h | h)
        · exact ⟨Or.inl (by omega), by omega⟩
        · exact ⟨Or.inr h.1, h.2⟩
      · rintro ⟨h | h, hx⟩
        · exact Or.inl (by omega)
        · exact Or.inr ⟨h, hx⟩
    rw [if_neg c5]
    by_cases c6 : deleteBegin ≤ e.endIndex ∧ deleteEnd ≥ e.endIndex
    · rw [if_pos c6]
      simp only [covers_cons, hih, data_fragment_t.covers]
      constructor
      · rintro (h | h)
        · exact ⟨Or.inl (by omega), by omega⟩
        · exact ⟨Or.inr h.1, h.2⟩
      · rintro ⟨h | h, hx⟩
        · exact Or.inl (by omega)
        · exact Or.inr ⟨h, hx⟩
    · exfalso; omega

/-- The set split at `lower_bound(key)`. -/
theorem lower_bound_split (s : List data_fragment_t) (key : data_fragment_t) :
    ∃ pre, s = pre ++ set_lower_bound s key ∧ (∀ f ∈ pre, f.lt key = true) ∧
      (∀ e, (set_lower_bound s key).head? = some e → e.lt key = false) := by
  refine ⟨s.takeWhile (fun e => e.lt key), ?_, ?_, ?_⟩
  · unfold set_lower_bound; exact (List.takeWhile_append_dropWhile _ s).symm
  · intro f hf; exact List.mem_takeWhile_imp (p := fun (e : data_fragment_t) => e.lt key) hf
  · intro e he
    unfold set_lower_bound at he
    have := List.head?_dropWhile_not (fun e => e.lt key) s
    rw [he] at this
    simpa using this

theorem RemoveFragment_eq (s : List data_fragment_t) (key : data_fragment_t)
    (hs : StrongInvariant s) (hk : key.beginIndex ≤ key.endIndex) (hk64 : key.endIndex < U64) :
    ∃ pre, s = pre ++ set_lower_bound s key ∧ (∀ f ∈ pre, f.endIndex + 1 < key.beginIndex) ∧
      (∀ e, (set_lower_bound s key).head? = some e → key.beginIndex ≤ e.endIndex + 1) ∧
      RemoveFragment s key
        = (pre ++ (removeTail key.beginIndex key.endIndex (set_lower_bound s key)).1,
            (removeTail key.beginIndex key.endIndex (set_lower_bound s key)).2) ∧
      StrongInvariant (RemoveFragment s key).1 := by
  obtain ⟨pre, hsplit, hpre, hhead⟩ := lower_bound_split s key
  have hs' : StrongInvariant (pre ++ set_lower_bound s key) := by rw [← hsplit]; exact hs
  have hloop := remove_loop_eq key.beginIndex key.endIndex hk hk64 (set_lower_bound s key) pre
    false hs'
  rw [← hsplit] at hloop
  have heq : RemoveFragment s key
      = (pre ++ (removeTail key.beginIndex key.endIndex (set_lower_bound s key)).1,
          (removeTail key.beginIndex key.endIndex (set_lower_bound s key)).2) := by
    unfold RemoveFragment
    simp only [not_lt.mpr hk, if_false, hloop.1, Bool.false_or]
  refine ⟨pre, hsplit, ?_, ?_, heq, ?_⟩
  · intro f hf
    have hfv := hs.1 f (by rw [hsplit]; exact List.mem_append_left _ hf)
    exact (lt_of_inRange f key hfv.2).mp (hpre f hf)
  · intro e he
    have hem : e ∈ s := by rw [hsplit]; exact List.mem_append_right _ (List.mem_of_mem_head? he)
    have hev := hs.1 e hem
    have hnl : ¬ (e.lt key = true) := by simp [hhead e he]
    rw [lt_of_inRange e key hev.2] at hnl
    omega
  · rw [heq]; exact hloop.2

theorem RemoveFragment_strong (s : List data_fragment_t) (key : data_fragment_t)
    (hs : StrongInvariant s) (hk64 : key.endIndex < U64) :
    StrongInvariant (RemoveFragment s key).1 := by
  by_cases hk : key.beginIndex ≤ key.endIndex
  · obtain ⟨_, _, _, _, _, h⟩ := RemoveFragment_eq s key hs hk hk64
    exact h
  · unfold RemoveFragment
    simp only [not_le.mp hk, if_true]
    exact hs

/-- When a stored range ends right before the range to remove, the loop stops at
once and the set is left as it was. -/
theorem RemoveFragment_abut (s : List data_fragment_t) (key : data_fragment_t)
    (hs : StrongInvariant s) (hk : key.beginIndex ≤ key.endIndex) (hk64 : key.endIndex < U64)
    (e : data_fragment_t) (he : e ∈ s) (habut : e.endIndex + 1 = key.beginIndex) :
    RemoveFragment s key = (s, false) := by
  obtain ⟨pre, hsplit, hpre, hhead, heq, _⟩ := RemoveFragment_eq s key hs hk hk64
  have hnp : e ∉ pre := fun h => by have := hpre e h; omega
  have hel : e ∈ set_lower_bound s key := by
    rw [hsplit] at he
    rcases List.mem_append.mp he with h | h
    · exact absurd h hnp
    · exact h
  -- `e` is the first element of the lower bound
  cases hlb : set_lower_bound s key with
  | nil => rw [hlb] at hel; simp at hel
  | cons g rest =>
    rw [hlb] at hel hsplit hhead heq
    have hg := hhead g rfl
    have hge : g = e := by
      rcases List.mem_cons.mp hel with h | h
      · exact h.symm
      · exfalso
        rw [hsplit] at hs
        have := hs.after e h
        have hev := hs.1 e (List.mem_append_right _ (List.mem_cons_of_mem _ h))
        simp only [data_fragment_t.inRange] at hev
        omega
    subst hge
    rw [heq, removeTail, if_pos (by omega)]
    rw [← hsplit]

theorem RemoveFragment_covers (s : List data_fragment_t) (key : data_fragment_t)
    (hs : StrongInvariant s) (hk : key.beginIndex ≤ key.endIndex) (hk64 : key.endIndex < U64)
    (hno : ∀ e ∈ s, e.endIndex + 1 ≠ key.beginIndex) (x : Nat) :
    covers (RemoveFragment s key).1 x ↔ covers s x ∧ ¬ key.covers x := by
  obtain ⟨pre, hsplit, hpre, hhead, heq, _⟩ := RemoveFragment_eq s key hs hk hk64
  have hs' := hs
  rw [hsplit] at hs'
  have hv : ∀ f ∈ set_lower_bound s key, f.beginIndex ≤ f.endIndex := fun f hf =>
    (hs'.1 f (List.mem_append_right _ hf)).1
  have hne : ∀ f ∈ set_lower_bound s key, key.beginIndex ≤ f.endIndex := by
    intro f hf
    cases hlb : set_lower_bound s key with
    | nil => rw [hlb] at hf; simp at hf
    | cons g rest =>
      rw [hlb] at hf hhead hs'
      have hg := hhead g rfl
      have hgm : g ∈ s := by rw [hsplit, hlb]; simp
      have hgn := hno g hgm
      rcases List.mem_cons.mp hf with rfl | h
      · omega
      · have := hs'.after f h
        have hfv := hv f (by rw [hlb]; exact List.mem_cons_of_mem _ h)
        have hgv := hs'.mid
        simp only [data_fragment_t.inRange] at hgv
        omega
  have hrt := removeTail_covers key.beginIndex key.endIndex hk _ hv hne x
  rw [heq]
  simp only []
  rw [covers_append, hrt]
  conv_rhs => rw [hsplit, covers_append]
  simp only [data_fragment_t.covers]
  constructor
  · rintro (h | ⟨h, hx⟩)
    · refine ⟨Or.inl h, ?_⟩
      obtain ⟨f, hf, hfx⟩ := h
      have := hpre f hf
      simp only [data_fragment_t.covers] at hfx
      omega
    · exact ⟨Or.inr h, hx⟩
  · rintro ⟨h | h, hx⟩
    · exact Or.inl h
    · exact Or.inr ⟨h, hx⟩

theorem Invariant.pairwise {s : List data_fragment_t} (h : Invariant s) :
    s.Pairwise (fun a b => a.endIndex + 1 < b.beginIndex) := by
  induction s with
  | nil => exact List.Pairwise.nil
  | cons a rest ih =>
    cases rest with
    | nil => exact List.pairwise_singleton _ _
    | cons b rest =>
      obtain ⟨hv, hg⟩ := h
      simp only [consecutiveGaps] at hg
      have hrec := ih ⟨fun e he => hv e (List.mem_cons_of_mem _ he), hg.2⟩
      refine List.pairwise_cons.mpr ⟨?_, hrec⟩
      intro c hc
      rcases List.mem_cons.mp hc with rfl | hc
      · exact hg.1
      · have := (List.pairwise_cons.mp hrec).1 c hc
        have hbv := hv b (by simp)
        omega

theorem consecutiveGaps_of_pairwise {s : List data_fragment_t}
    (h : s.Pairwise (fun a b => a.endIndex + 1 < b.beginIndex)) : consecutiveGaps s := by
  induction s with
  | nil => trivial
  | cons a rest ih =>
    cases rest with
    | nil => trivial
    | cons b rest =>
      have h' := List.pairwise_cons.mp h
      exact ⟨h'.1 b (List.mem_cons_self _ _), ih h'.2⟩

theorem StrongInvariant.invariant {s : List data_fragment_t} (h : StrongInvariant s) :
    Invariant s := by
  refine ⟨?_, consecutiveGaps_of_pairwise h.2⟩
  intro e he
  have := h.1 e he
  simp only [data_fragment_t.inRange, U64] at this ⊢
  omega

theorem StrongInvariant.increasing {s : List data_fragment_t} (h : StrongInvariant s) :
    strictlyIncreasing s := by
  unfold strictlyIncreasing
  have hv := h.1
  have hp := h.2
  clear h
  induction s with
  | nil => exact List.Pairwise.nil
  | cons a rest ih =>
    have h' := List.pairwise_cons.mp hp
    refine List.pairwise_cons.mpr ⟨?_, ih (fun e he => hv e (List.mem_cons_of_mem _ he)) h'.2⟩
    intro b hb
    have := h'.1 b hb
    have hav := hv a (List.mem_cons_self _ _)
    simp only [data_fragment_t.inRange] at hav
    omega

theorem StrongInvariant.nil : StrongInvariant [] :=
  ⟨fun _ h => by simp at h, List.Pairwise.nil⟩

theorem InsertFragment_strong (s : List data_fragment_t) (key : data_fragment_t)
    (hs : StrongInvariant s) (hk : key.inRange) :
    ∃ out, InsertFragment s key = some out ∧ StrongInvariant out.1 := by
  obtain ⟨out, hout⟩ := InsertFragment_total s key
  exact ⟨out, hout, InsertFragment_loop_strong _ s key false out hs hk hout⟩

theorem runCalls_strong :
    ∀ (calls : List Call) (s : List data_fragment_t), StrongInvariant s →
      (∀ c ∈ calls, c.key.inRange) →
      ∃ out, runCalls calls s = some out ∧ StrongInvariant out := by
  intro calls
  induction calls with
  | nil => intro s hs _; exact ⟨s, rfl, hs⟩
  | cons c calls ih =>
    intro s hs hc
    have hck := hc c (List.mem_cons_self _ _)
    have hrest : ∀ c ∈ calls, c.key.inRange := fun c h => hc c (List.mem_cons_of_mem _ h)
    cases c with
    | insert key =>
      obtain ⟨out, hout, hinv⟩ := InsertFragment_strong s key hs hck
      simp only [runCalls, hout]
      exact ih out.1 hinv hrest
    | remove key =>
      simp only [runCalls]
      simp only [Call.key, data_fragment_t.inRange, U64] at hck
      exact ih _ (RemoveFragment_strong s key hs (by simp only [U64]; omega)) hrest

/-- C3 (fragment set invariant): starting from the empty set, every finite
sequence of `InsertFragment` and `RemoveFragment` calls with arguments
`beginIndex <= endIndex <= 2^64 - 2` runs to the end and leaves a set in which
every stored range has `beginIndex <= endIndex`, the stored ranges are in
strictly increasing order, and any two consecutive stored ranges `a`, `b`
satisfy `a.endIndex + 1 < b.beginIndex`. -/
theorem C3_fragment_set_invariant (calls : List Call) (hcalls : ∀ c ∈ calls, c.key.inRange) :
    ∃ s, runCalls calls [] = some s ∧ (∀ e ∈ s, e.beginIndex ≤ e.endIndex) ∧
      strictlyIncreasing s ∧ consecutiveGaps s := by
  obtain ⟨s, hrun, hs⟩ := runCalls_strong calls [] StrongInvariant.nil hcalls
  exact ⟨s, hrun, fun e he => (hs.1 e he).1, hs.increasing, hs.invariant.2⟩

/-- C5 (coverage under insert): for a set `S` with the invariant and ranges
`a`, `b` with `beginIndex <= endIndex <= 2^64 - 2`, both insertions return, and
an index is covered by the set after `InsertFragment(a)` then
`InsertFragment(b)` exactly when it is covered by `S`, lies in `a` or lies in
`b`. -/
theorem C5_insert_coverage (S : List data_fragment_t) (hS : Invariant S)
    (a b : data_fragment_t) (ha : a.inRange) (hb : b.inRange) :
    ∃ S1 m1 S2 m2, InsertFragment S a = some (S1, m1) ∧ InsertFragment S1 b = some (S2, m2) ∧
      ∀ x, covers S2 x ↔ (covers S x ∨ a.covers x ∨ b.covers x) := by
  obtain ⟨⟨S1, m1⟩, h1⟩ := InsertFragment_total S a
  obtain ⟨⟨S2, m2⟩, h2⟩ := InsertFragment_total S1 b
  simp only [data_fragment_t.inRange, U64] at ha hb
  have hSv : ∀ e ∈ S, e.beginIndex ≤ e.endIndex ∧ e.endIndex ≤ U64 - 1 := by
    intro e he
    have := hS.1 e he
    simp only [U64] at this ⊢
    omega
  have hS1v := InsertFragment_loop_bound (U64 - 1) _ S a false (S1, m1) hSv ha.1
    (by simp only [U64]; omega) h1
  have lt64 : ∀ n, n ≤ U64 - 1 → n < U64 := by
    intro n hn; simp only [U64] at hn ⊢; omega
  have c1 := InsertFragment_loop_covers _ S a false (S1, m1)
    (fun e he => ⟨(hSv e he).1, lt64 _ (hSv e he).2⟩) ha.1 (by simp only [U64]; omega) h1
  have c2 := InsertFragment_loop_covers _ S1 b false (S2, m2)
    (fun e he => ⟨(hS1v e he).1, lt64 _ (hS1v e he).2⟩) hb.1 (by simp only [U64]; omega) h2
  refine ⟨S1, m1, S2, m2, h1, h2, ?_⟩
  intro x
  rw [c2 x, c1 x]
  exact or_assoc

/-- One step of `GetBoundsMinusFragments`: removing the next stored range. -/
theorem bounds_minus_step (bounds : data_fragment_t) (out done : List data_fragment_t)
    (key : data_fragment_t) (hout : StrongInvariant out)
    (hcov : ∀ x, covers out x ↔ bounds.covers x ∧ ¬ covers done x)
    (hk : key.beginIndex ≤ key.endIndex) (hk64 : key.endIndex < U64)
    (hdone : ∀ d ∈ done, d.endIndex + 1 < key.beginIndex) :
    StrongInvariant (RemoveFragment out key).1 ∧
    ∀ x, covers (RemoveFragment out key).1 x ↔ bounds.covers x ∧ ¬ covers (done ++ [key]) x := by
  refine ⟨RemoveFragment_strong out key hout hk64, ?_⟩
  have hgoal : ∀ x, (covers out x ∧ ¬ key.covers x) ↔
      (bounds.covers x ∧ ¬ covers (done ++ [key]) x) := by
    intro x
    have hsing : covers [key] x ↔ key.covers x := by simp [covers]
    rw [hcov x, covers_append, hsing]
    tauto
  by_cases habut : ∃ e ∈ out, e.endIndex + 1 = key.beginIndex
  · obtain ⟨e, he, hab⟩ := habut
    rw [RemoveFragment_abut out key hout hk hk64 e he hab]
    intro x
    rw [← hgoal x]
    simp only []
    constructor
    · intro hx
      refine ⟨hx, ?_⟩
      intro hkx
      -- the index right after `e` lies in `bounds`, is not stored, and is not in `done`
      obtain ⟨e', he', hx'⟩ := hx
      have hev := hout.1 e he
      have hev' := hout.1 e' he'
      simp only [data_fragment_t.inRange] at hev hev'
      simp only [data_fragment_t.covers] at hkx hx'
      have hb1 : bounds.covers e.endIndex :=
        ((hcov e.endIndex).mp ⟨e, he, by simp only [data_fragment_t.covers]; omega⟩).1
      have hb2 : bounds.covers e'.endIndex :=
        ((hcov e'.endIndex).mp ⟨e', he', by simp only [data_fragment_t.covers]; omega⟩).1
      simp only [data_fragment_t.covers] at hb1 hb2
      have hpb : bounds.covers key.beginIndex := by
        simp only [data_fragment_t.covers]; omega
      have hpn : ¬ covers out key.beginIndex := by
        rintro ⟨f, hf, hfx⟩
        simp only [data_fragment_t.covers] at hfx
        have hsym : out.Pairwise (fun a b => a.endIndex + 1 < b.beginIndex ∨
            b.endIndex + 1 < a.beginIndex) := hout.2.imp (fun h => Or.inl h)
        have hfe : f ≠ e := by
          rintro rfl; omega
        have := hsym.forall (fun a b h => h.symm) hf he hfe
        have hfv := hout.1 f hf
        simp only [data_fragment_t.inRange] at hfv
        omega
      have hpd : covers done key.beginIndex := by
        by_contra hnd
        exact hpn ((hcov key.beginIndex).mpr ⟨hpb, hnd⟩)
      obtain ⟨d, hd, hdx⟩ := hpd
      have := hdone d hd
      simp only [data_fragment_t.covers] at hdx
      omega
    · intro hx; exact hx.1
  · intro x
    rw [← hgoal x]
    apply RemoveFragment_covers out key hout hk hk64
    intro e he hab
    exact habut ⟨e, he, hab⟩

theorem bounds_minus_fold (bounds : data_fragment_t) :
    ∀ (todo done out : List data_fragment_t), StrongInvariant out →
      (∀ x, covers out x ↔ bounds.covers x ∧ ¬ covers done x) →
      (∀ e ∈ done ++ todo, e.beginIndex ≤ e.endIndex ∧ e.endIndex < U64) →
      (done ++ todo).Pairwise (fun a b => a.endIndex + 1 < b.beginIndex) →
      StrongInvariant (todo.foldl (fun s it => (RemoveFragment s it).1) out) ∧
      ∀ x, covers (todo.foldl (fun s it => (RemoveFragment s it).1) out) x ↔
        bounds.covers x ∧ ¬ covers (done ++ todo) x := by
  intro todo
  induction todo with
  | nil =>
    intro done out hout hcov _ _
    simpa using ⟨hout, hcov⟩
  | cons key todo ih =>
    intro done out hout hcov hv hp
    have hkv := hv key (by simp)
    have hdone : ∀ d ∈ done, d.endIndex + 1 < key.beginIndex := fun d hd =>
      (List.pairwise_append.mp hp).2.2 d hd key (List.mem_cons_self _ _)
    obtain ⟨h1, h2⟩ := bounds_minus_step bounds out done key hout hcov hkv.1 hkv.2 hdone
    have hassoc : done ++ key :: todo = (done ++ [key]) ++ todo := by simp
    rw [List.foldl_cons, hassoc]
    exact ih (done ++ [key]) _ h1 h2 (by rw [← hassoc]; exact hv) (by rw [← hassoc]; exact hp)

/-- C6 (`bounds_minus`): for `bounds` with `beginIndex <= endIndex <= 2^64 - 2`
and a set `S` with the invariant, `GetBoundsMinusFragments` leaves in its output
set, whatever that held before, a set with the invariant, in increasing order,
covering exactly the indices of `bounds` that `S` does not cover; it is
`{bounds}` when `S` is empty and empty when `S` covers `bounds`. -/
theorem C6_bounds_minus_fragments (bounds : data_fragment_t) (hb : bounds.inRange)
    (S : List data_fragment_t) (hS : Invariant S) (boundsMinusFragmentsSet : List data_fragment_t) :
    ∃ out, GetBoundsMinusFragments bounds S boundsMinusFragmentsSet = some out ∧
      Invariant out ∧ strictlyIncreasing out ∧
      (∀ x, covers out x ↔ (bounds.covers x ∧ ¬ covers S x)) ∧
      (S = [] → out = [bounds]) ∧
      ((∀ x, bounds.covers x → covers S x) → out = []) := by
  have hins : InsertFragment [] bounds = some ([bounds], true) := rfl
  have h0 : StrongInvariant [bounds] :=
    ⟨fun e he => by simp only [List.mem_singleton] at he; subst he; exact hb,
      List.pairwise_singleton _ _⟩
  have hc0 : ∀ x, covers [bounds] x ↔ bounds.covers x ∧ ¬ covers [] x := by
    intro x; simp [covers]
  obtain ⟨h1, h2⟩ := bounds_minus_fold bounds S [] [bounds] h0 hc0
    (by simpa using hS.1) (by simpa using hS.pairwise)
  simp only [List.nil_append] at h2
  refine ⟨_, by simp only [GetBoundsMinusFragments, hins], h1.invariant, h1.increasing, h2, ?_, ?_⟩
  · rintro rfl; rfl
  · intro hall
    cases hout : List.foldl (fun s it => (RemoveFragment s it).1) [bounds] S with
    | nil => rfl
    | cons e rest =>
      exfalso
      rw [hout] at h1 h2
      have hev := h1.1 e (List.mem_cons_self _ _)
      simp only [data_fragment_t.inRange] at hev
      have := (h2 e.beginIndex).mp ⟨e, List.mem_cons_self _ _,
        by simp only [data_fragment_t.covers]; omega⟩
      exact this.2 (hall _ this.1)

/-- C4 (`RemoveFragment` subtracts the range), evaluated where it fails: the set
`{[0,4], [10,20]}` has the invariant and `[5,15]` is a range, yet
`RemoveFragment` returns `false` and leaves the set as it was, so index `12`,
which lies in `[5,15]`, is still covered. `lower_bound` yields `[0,4]`, which
abuts `[5,15]` on the left, and the loop returns on `deleteBegin >
keyInMapEndIndex`. -/
theorem C4_remove_fragment_stops_at_abutting_range :
    Invariant [⟨0, 4⟩, ⟨10, 20⟩] ∧ (5 : Nat) ≤ 15 ∧
    RemoveFragment [⟨0, 4⟩, ⟨10, 20⟩] ⟨5, 15⟩ = ([⟨0, 4⟩, ⟨10, 20⟩], false) ∧
    covers [⟨0, 4⟩, ⟨10, 20⟩] 12 ∧ (⟨5, 15⟩ : data_fragment_t).covers 12 ∧
    covers (RemoveFragment [⟨0, 4⟩, ⟨10, 20⟩] ⟨5, 15⟩).1 12 := by
  decide

theorem C3_witness :
    (∀ c ∈ [Call.insert ⟨0, 4⟩, Call.insert ⟨10, 20⟩, Call.remove ⟨12, 15⟩, Call.insert ⟨5, 9⟩],
        c.key.inRange) ∧
    ∃ s, runCalls [Call.insert ⟨0, 4⟩, Call.insert ⟨10, 20⟩, Call.remove ⟨12, 15⟩,
        Call.insert ⟨5, 9⟩] [] = some s ∧
      (∀ e ∈ s, e.beginIndex ≤ e.endIndex) ∧ strictlyIncreasing s ∧ consecutiveGaps s :=
  ⟨by decide, C3_fragment_set_invariant _ (by decide)⟩

theorem C5_witness :
    (Invariant [⟨0, 4⟩, ⟨10, 20⟩] ∧ (⟨5, 9⟩ : data_fragment_t).inRange ∧
      (⟨30, 40⟩ : data_fragment_t).inRange) ∧
    ∃ S1 m1 S2 m2, InsertFragment [⟨0, 4⟩, ⟨10, 20⟩] ⟨5, 9⟩ = some (S1, m1) ∧
      InsertFragment S1 ⟨30, 40⟩ = some (S2, m2) ∧
      ∀ x, covers S2 x ↔ (covers [⟨0, 4⟩, ⟨10, 20⟩] x ∨ (⟨5, 9⟩ : data_fragment_t).covers x ∨
        (⟨30, 40⟩ : data_fragment_t).covers x) :=
  ⟨by decide, C5_insert_coverage _ (by decide) _ _ (by decide) (by decide)⟩

theorem C6_witness :
    ((⟨0, 100⟩ : data_fragment_t).inRange ∧ Invariant [⟨0, 4⟩, ⟨10, 20⟩, ⟨30, 40⟩]) ∧
    ∃ out, GetBoundsMinusFragments ⟨0, 100⟩ [⟨0, 4⟩, ⟨10, 20⟩, ⟨30, 40⟩] [] = some out ∧
      Invariant out ∧ strictlyIncreasing out ∧
      (∀ x, covers out x ↔ ((⟨0, 100⟩ : data_fragment_t).covers x ∧
        ¬ covers [⟨0, 4⟩, ⟨10, 20⟩, ⟨30, 40⟩] x)) ∧
      (([⟨0, 4⟩, ⟨10, 20⟩, ⟨30, 40⟩] : List data_fragment_t) = [] → out = [⟨0, 100⟩]) ∧
      ((∀ x, (⟨0, 100⟩ : data_fragment_t).covers x → covers [⟨0, 4⟩, ⟨10, 20⟩, ⟨30, 40⟩] x) →
        out = []) :=
  ⟨by decide, C6_bounds_minus_fragments _ (by decide) _ (by decide) []⟩

/-! ### `ContainsFragmentEntirely` -/

theorem set_find_mem (s : List data_fragment_t) (key res : data_fragment_t)
    (h : set_find s key = some res) : res ∈ s := by
  unfold set_find at h
  obtain ⟨pre, hs, -, -⟩ := lower_bound_split s key
  cases hl : set_lower_bound s key with
  | nil => rw [hl] at h; cases h
  | cons e t =>
    rw [hl] at h hs
    simp only [] at h
    split at h
    · cases h
    · cases h
      rw [hs]
      simp

theorem set_find_covering (s : List data_fragment_t) (key c : data_fragment_t)
    (hpair : s.Pairwise (fun a b => a.endIndex + 1 < b.beginIndex))
    (hend : ∀ e ∈ s, e.endIndex ≤ U64 - 2) (hk : key.inRange) (hc : c ∈ s)
    (hcov : c.beginIndex ≤ key.beginIndex ∧ key.endIndex ≤ c.endIndex) :
    set_find s key = some c := by
  obtain ⟨hk1, hk2⟩ := hk
  obtain ⟨pre, hs, hpre, hhead⟩ := lower_bound_split s key
  have hcl : c.lt key = false := by
    rw [Bool.eq_false_iff, Ne, lt_of_inRange c key (hend c hc)]
    omega
  have hkc : key.lt c = false := by
    rw [Bool.eq_false_iff, Ne, lt_of_inRange key c hk2]
    omega
  have hcpre : c ∉ pre := by
    intro hin
    have := hpre c hin
    rw [hcl] at this
    cases this
  unfold set_find
  cases hl : set_lower_bound s key with
  | nil =>
    rw [hl, List.append_nil] at hs
    rw [hs] at hc
    exact absurd hc hcpre
  | cons e t =>
    rw [hl] at hs hhead
    have hel : e.lt key = false := hhead e rfl
    have hcin : c ∈ e :: t := by
      rw [hs, List.mem_append] at hc
      rcases hc with h | h
      · exact absurd h hcpre
      · exact h
    have hec : c = e := by
      rcases List.mem_cons.mp hcin with h | h
      · exact h
      · exfalso
        rw [hs] at hpair hend
        have hp := (List.pairwise_append.mp hpair).2.1
        have hgap := (List.pairwise_cons.mp hp).1 c h
        have he2 : e.endIndex ≤ U64 - 2 := hend e (by simp)
        rw [Bool.eq_false_iff, Ne, lt_of_inRange e key he2] at hel
        omega
    subst hec
    simp only [hkc, Bool.false_eq_true, if_false]

/-- C25 (contains_entirely), on sets whose stored ranges end at `2^64 - 2` at
most: for every fragment set `S` that satisfies the invariant and every range
`r` with `beginIndex <= endIndex <= 2^64 - 2`, `ContainsFragmentEntirely(S, r)`
returns `true` if and only if a single stored range `[b, e]` has
`b <= r.beginIndex` and `r.endIndex <= e`. -/
theorem C25_contains_entirely (S : List data_fragment_t) (hS : Invariant S)
    (hend : ∀ e ∈ S, e.endIndex ≤ U64 - 2) (r : data_fragment_t) (hr : r.inRange) :
    ContainsFragmentEntirely S r = true ↔
      ∃ e ∈ S, e.beginIndex ≤ r.beginIndex ∧ r.endIndex ≤ e.endIndex := by
  constructor
  · intro h
    unfold ContainsFragmentEntirely at h
    cases hf : set_find S r with
    | none => rw [hf] at h; cases h
    | some res =>
      rw [hf] at h
      simp only [ge_iff_le, decide_eq_true_eq] at h
      exact ⟨res, set_find_mem S r res hf, h⟩
  · rintro ⟨c, hc, hcov⟩
    unfold ContainsFragmentEntirely
    rw [set_find_covering S r c hS.pairwise hend hr hc hcov]
    simpa using hcov

theorem C25_witness :
    ContainsFragmentEntirely [⟨0, 4⟩, ⟨10, 20⟩] ⟨12, 15⟩ = true ↔
      ∃ e ∈ ([⟨0, 4⟩, ⟨10, 20⟩] : List data_fragment_t),
        e.beginIndex ≤ (⟨12, 15⟩ : data_fragment_t).beginIndex ∧
        (⟨12, 15⟩ : data_fragment_t).endIndex ≤ e.endIndex :=
  C25_contains_entirely [⟨0, 4⟩, ⟨10, 20⟩] (by decide) (by decide) ⟨12, 15⟩ (by decide)

/-- C25 as stated fails on a set that holds a range ending at `2^64 - 1`: the
set `{[0, 2^64 - 1]}` satisfies the invariant and its range covers `[5, 10]`,
yet `ContainsFragmentEntirely` returns `false`, because `endIndex + 1` wraps to
0 in `operator<` and the stored range compares less than the key. -/
theorem C25_stored_range_ending_at_max :
    Invariant [⟨0, 2 ^ 64 - 1⟩] ∧ (⟨5, 10⟩ : data_fragment_t).inRange ∧
    (∃ e ∈ ([⟨0, 2 ^ 64 - 1⟩] : List data_fragment_t),
      e.beginIndex ≤ (⟨5, 10⟩ : data_fragment_t).beginIndex ∧
      (⟨5, 10⟩ : data_fragment_t).endIndex ≤ e.endIndex) ∧
    ContainsFragmentEntirely [⟨0, 2 ^ 64 - 1⟩] ⟨5, 10⟩ = false := by
  decide

/-! ### The flag returned by `InsertFragment` and `RemoveFragment` -/

theorem mem_set_insert (s : List data_fragment_t) (key x : data_fragment_t)
    (h : x ∈ (set_insert s key).set) : x = key ∨ x ∈ s := by
  induction s with
  | nil =>
    simp only [set_insert, List.mem_singleton] at h
    exact Or.inl h
  | cons e rest ih =>
    rw [set_insert] at h
    split at h
    · simp only [List.mem_cons] at h ⊢
      rcases h with h | h
      · exact Or.inr (Or.inl h)
      · rcases ih h with h' | h'
        · exact Or.inl h'
        · exact Or.inr (Or.inr h')
    · split at h
      · simp only [List.mem_cons] at h ⊢
        exact h
      · exact Or.inr h

theorem Invariant.disjoint {s : List data_fragment_t} (h : Invariant s) :
    ∀ a ∈ s, ∀ b ∈ s, a ≠ b → a.endIndex < b.beginIndex ∨ b.endIndex < a.beginIndex := by
  have hp : s.Pairwise (fun a b => a.endIndex < b.beginIndex ∨ b.endIndex < a.beginIndex) :=
    h.pairwise.imp (fun {a b} hab => Or.inl (by omega))
  intro a ha b hb hab
  exact hp.forall (fun x y hxy => hxy.symm) ha hb hab

theorem Invariant.nodup {s : List data_fragment_t} (h : Invariant s) : s.Nodup := by
  have hp := h.pairwise
  have hv := h.1
  unfold List.Nodup
  refine hp.imp_of_mem ?_
  intro a b ha _ hab heq
  subst heq
  have := (hv a ha).1
  omega

/-- A range inside the stored range `e`, other than `e`, is none of the stored
ranges. -/
theorem part_not_stored {s : List data_fragment_t} (hs : Invariant s) (e e0 p : data_fragment_t)
    (he : e ∈ s) (he0 : e0 ∈ s) (hsub : e.beginIndex ≤ p.beginIndex ∧ p.endIndex ≤ e.endIndex)
    (hpne : p ≠ e) : p ≠ e0 := by
  intro hp
  subst hp
  by_cases h : p = e
  · exact hpne h
  · have hv := (hs.1 p he0).1
    rcases hs.disjoint p he0 e he h with h1 | h1 <;> omega

theorem InsertFragment_loop_flag (S : List data_fragment_t) (hS : Invariant S) :
    ∀ (fuel : Nat) (F : List data_fragment_t) (key : data_fragment_t) (modified : Bool)
      (out : List data_fragment_t × Bool),
      (∀ f ∈ F, f ∈ S) → F.length ≤ S.length → (modified = false → F = S) →
      (modified = true → F.length < S.length ∧
        ∃ e1 ∈ S, key.beginIndex ≤ e1.beginIndex ∧ e1.endIndex ≤ key.endIndex ∧ key ≠ e1) →
      InsertFragment.loop fuel F key modified = some out →
      (out.2 = false → out.1 = S) ∧ (out.2 = true → ¬ out.1.Perm S) := by
  intro fuel
  induction fuel with
  | zero =>
    intro F key modified out _ _ _ _ h
    simp [InsertFragment.loop] at h
  | succ fuel ih =>
    intro F key modified out hsub hlen hfalse htrue h
    rw [InsertFragment.loop] at h
    simp only [] at h
    by_cases hsec : (set_insert F key).second = true
    · rw [if_pos hsec] at h
      cases h
      refine ⟨(fun h => by cases h), fun _ hperm => ?_⟩
      obtain ⟨pre, post, hF, hset, -, -⟩ := set_insert_inserted F key hsec
      simp only [] at hperm
      rw [hset] at hperm
      cases hm : modified with
      | false =>
        have := hperm.length_eq
        rw [← hfalse hm, hF] at this
        simp at this
      | true =>
        obtain ⟨-, e1, he1, hb, he, hne⟩ := htrue hm
        have hkey : key ∈ S := hperm.mem_iff.mp (by simp)
        have hv := (hS.1 e1 he1).1
        rcases hS.disjoint key hkey e1 he1 hne with h1 | h1 <;> omega
    · rw [if_neg hsec] at h
      have hsec' : (set_insert F key).second = false := by simpa using hsec
      obtain ⟨hmem, -, -⟩ := set_insert_found F key hsec'
      by_cases hfit : key.beginIndex ≥ (set_insert F key).first.beginIndex ∧
          key.endIndex ≤ (set_insert F key).first.endIndex
      · rw [if_pos hfit] at h
        cases h
        refine ⟨fun hm => hfalse hm, fun hm hperm => ?_⟩
        have hl := hperm.length_eq
        simp only [] at hl
        have := (htrue hm).1
        omega
      · rw [if_neg hfit] at h
        have hlen' : (set_erase F (set_insert F key).first).length < S.length := by
          unfold set_erase
          rw [List.length_erase_of_mem hmem]
          have : 0 < F.length := List.length_pos_of_mem hmem
          omega
        refine ih _ _ true out (fun f hf => hsub f (List.mem_of_mem_erase hf))
          (Nat.le_of_lt hlen') (fun h => by cases h) (fun _ => ⟨hlen', ?_⟩) h
        cases hm : modified with
        | false =>
          refine ⟨(set_insert F key).first, hsub _ hmem, Nat.min_le_right _ _,
            Nat.le_max_right _ _, ?_⟩
          intro heq
          have h1 := congrArg data_fragment_t.beginIndex heq
          have h2 := congrArg data_fragment_t.endIndex heq
          simp only [] at h1 h2
          omega
        | true =>
          obtain ⟨-, e1, he1, hb, he, hne⟩ := htrue hm
          refine ⟨e1, he1, by simp only []; omega, by simp only []; omega, ?_⟩
          intro heq
          have h1 := congrArg data_fragment_t.beginIndex heq
          have h2 := congrArg data_fragment_t.endIndex heq
          simp only [] at h1 h2
          apply hne
          cases key
          cases e1
          simp only [data_fragment_t.mk.injEq] at *
          omega

theorem not_mem_set_insert {G : List data_fragment_t} {p e0 : data_fragment_t}
    (h : e0 ∉ G) (hp : p ≠ e0) : e0 ∉ (set_insert G p).set := by
  intro hin
  rcases mem_set_insert G p e0 hin with h1 | h1
  · exact hp h1.symm
  · exact h h1

theorem RemoveFragment_loop_flag (deleteBegin deleteEnd : Nat) (S : List data_fragment_t)
    (hS : Invariant S) :
    ∀ (it F : List data_fragment_t) (modified : Bool), it.Nodup → (∀ f ∈ it, f ∈ S) →
      (modified = false → F = S) → (modified = true → ∃ e0 ∈ S, e0 ∉ F ∧ e0 ∉ it) →
      ((RemoveFragment.loop deleteBegin deleteEnd it F modified).2 = false →
        (RemoveFragment.loop deleteBegin deleteEnd it F modified).1 = S) ∧
      ((RemoveFragment.loop deleteBegin deleteEnd it F modified).2 = true →
        ∃ e0 ∈ S, e0 ∉ (RemoveFragment.loop deleteBegin deleteEnd it F modified).1) := by
  intro it
  induction it with
  | nil =>
    intro F modified _ _ hfalse htrue
    rw [RemoveFragment.loop]
    refine ⟨hfalse, fun hm => ?_⟩
    obtain ⟨e0, h0, h1, -⟩ := htrue hm
    exact ⟨e0, h0, h1⟩
  | cons e it ih =>
    intro F modified hnd hsub hfalse htrue
    have he : e ∈ S := hsub e (List.mem_cons_self _ _)
    have hnd' : it.Nodup := (List.nodup_cons.mp hnd).2
    have heit : e ∉ it := (List.nodup_cons.mp hnd).1
    have hsub' : ∀ f ∈ it, f ∈ S := fun f hf => hsub f (List.mem_cons_of_mem _ hf)
    have hv := hS.1 e he
    have hU : U64 = 2 ^ 64 := rfl
    -- after `e` is erased, some range of `S` is missing, now and for the rest of the walk
    have hmiss : ∃ e0 ∈ S, e0 ∉ set_erase F e ∧ e0 ∉ it := by
      cases hm : modified with
      | false =>
        rw [hfalse hm]
        exact ⟨e, he, hS.nodup.not_mem_erase, heit⟩
      | true =>
        obtain ⟨e0, h0, h1, h2⟩ := htrue hm
        exact ⟨e0, h0, fun h => h1 (List.mem_of_mem_erase h),
          fun h => h2 (List.mem_cons_of_mem _ h)⟩
    have hkeep : modified = true → ∃ e0 ∈ S, e0 ∉ F ∧ e0 ∉ it := by
      intro hm
      obtain ⟨e0, h0, h1, h2⟩ := htrue hm
      exact ⟨e0, h0, h1, fun h => h2 (List.mem_cons_of_mem _ h)⟩
    rw [RemoveFragment.loop]
    simp only []
    by_cases c1 : deleteBegin > e.endIndex
    · rw [if_pos c1]
      refine ⟨hfalse, fun hm => ?_⟩
      obtain ⟨e0, h0, h1, -⟩ := htrue hm
      exact ⟨e0, h0, h1⟩
    rw [if_neg c1]
    by_cases c2 : deleteEnd < e.beginIndex
    · rw [if_pos c2]
      exact ih F modified hnd' hsub' hfalse hkeep
    rw [if_neg c2]
    obtain ⟨e0, h0, h1, h2⟩ := hmiss
    by_cases c3 : deleteBegin ≤ e.beginIndex ∧ deleteEnd ≥ e.endIndex
    · rw [if_pos c3]
      exact ih _ true hnd' hsub' (fun h => by cases h) (fun _ => ⟨e0, h0, h1, h2⟩)
    rw [if_neg c3]
    by_cases c4 : deleteBegin > e.beginIndex ∧ deleteEnd < e.endIndex
    · rw [if_pos c4]
      have hl : (⟨e.beginIndex, (deleteBegin + U64 - 1) % U64⟩ : data_fragment_t) ≠ e0 := by
        refine part_not_stored hS e e0 _ he h0 ?_ ?_
        · simp only []
          rw [hU] at hv ⊢
          omega
        · intro heq
          have := congrArg data_fragment_t.endIndex heq
          simp only [] at this
          rw [hU] at hv this
          omega
      have hr : (⟨(deleteEnd + 1) % U64, e.endIndex⟩ : data_fragment_t) ≠ e0 := by
        refine part_not_stored hS e e0 _ he h0 ?_ ?_
        · simp only []
          rw [hU] at hv ⊢
          omega
        · intro heq
          have := congrArg data_fragment_t.beginIndex heq
          simp only [] at this
          rw [hU] at hv this
          omega
      by_cases c4' : F.head? ≠ some e
      · rw [if_pos c4']
        exact ih _ true hnd' hsub' (fun h => by cases h)
          (fun _ => ⟨e0, h0, not_mem_set_insert (not_mem_set_insert h1 hr) hl, h2⟩)
      · rw [if_neg c4']
        exact ih _ true hnd' hsub' (fun h => by cases h)
          (fun _ => ⟨e0, h0, not_mem_set_insert (not_mem_set_insert h1 hl) hr, h2⟩)
    rw [if_neg c4]
    by_cases c5 : deleteBegin ≤ e.beginIndex ∧ deleteEnd ≥ e.beginIndex
    · rw [if_pos c5]
      have hr : (⟨(deleteEnd + 1) % U64, e.endIndex⟩ : data_fragment_t) ≠ e0 := by
        refine part_not_stored hS e e0 _ he h0 ?_ ?_
        · simp only []
          rw [hU] at hv ⊢
          omega
        · intro heq
          have := congrArg data_fragment_t.beginIndex heq
          simp only [] at this
          rw [hU] at hv this
          omega
      exact ih _ true hnd' hsub' (fun h => by cases h)
        (fun _ => ⟨e0, h0, not_mem_set_insert h1 hr, h2⟩)
    rw [if_neg c5]
    by_cases c6 : deleteBegin ≤ e.endIndex ∧ deleteEnd ≥ e.endIndex
    · rw [if_pos c6]
      have hl : (⟨e.beginIndex, (deleteBegin + U64 - 1) % U64⟩ : data_fragment_t) ≠ e0 := by
        refine part_not_stored hS e e0 _ he h0 ?_ ?_
        · simp only []
          rw [hU] at hv ⊢
          omega
        · intro heq
          have := congrArg data_fragment_t.endIndex heq
          simp only [] at this
          rw [hU] at hv this
          omega
      exact ih _ true hnd' hsub' (fun h => by cases h)
        (fun _ => ⟨e0, h0, not_mem_set_insert h1 hl, h2⟩)
    rw [if_neg c6]
    exact ih F modified hnd' hsub' hfalse hkeep

theorem remove_flag_aux (S : List data_fragment_t) (hS : Invariant S) (r : data_fragment_t) :
    ((RemoveFragment S r).2 = false → (RemoveFragment S r).1 = S) ∧
    ((RemoveFragment S r).2 = true → ∃ e0 ∈ S, e0 ∉ (RemoveFragment S r).1) := by
  unfold RemoveFragment
  simp only []
  split
  · exact ⟨fun _ => rfl, fun h => by cases h⟩
  · obtain ⟨pre, hs, -, -⟩ := lower_bound_split S r
    have hsuf : ∀ f ∈ set_lower_bound S r, f ∈ S := by
      intro f hf
      rw [hs]
      exact List.mem_append_right _ hf
    have hnd : (set_lower_bound S r).Nodup := by
      have := hS.nodup
      rw [hs] at this
      exact (List.nodup_append.mp this).2.1
    exact RemoveFragment_loop_flag r.beginIndex r.endIndex S hS _ S false hnd hsuf
      (fun _ => rfl) (fun h => by cases h)

/-- C26 (modification flag): for every fragment set `S` that satisfies the
invariant and every range `r`, `InsertFragment(S, r)` returns, and the flag it
returns is `true` if and only if the set after the call differs from `S`;
likewise for `RemoveFragment(S, r)`. When the flag is `true` the set after the
call is not even a rearrangement of `S`. `RemoveFragment` with
`r.beginIndex > r.endIndex` returns `false` and leaves `S` as it is. -/
theorem C26_modification_flag (S : List data_fragment_t) (hS : Invariant S)
    (r : data_fragment_t) :
    (∃ out, InsertFragment S r = some out ∧ (out.2 = true ↔ out.1 ≠ S) ∧
      (out.2 = true → ¬ out.1.Perm S)) ∧
    ((RemoveFragment S r).2 = true ↔ (RemoveFragment S r).1 ≠ S) ∧
    ((RemoveFragment S r).2 = true → ¬ (RemoveFragment S r).1.Perm S) ∧
    (r.beginIndex > r.endIndex → RemoveFragment S r = (S, false)) := by
  refine ⟨?_, ?_, ?_, ?_⟩
  · obtain ⟨out, hout⟩ := InsertFragment_total S r
    have h := InsertFragment_loop_flag S hS _ S r false out (fun f hf => hf) (Nat.le_refl _)
      (fun _ => rfl) (fun h => by cases h) hout
    refine ⟨out, hout, ⟨fun ht heq => h.2 ht (heq ▸ List.Perm.refl _), fun hne => ?_⟩, h.2⟩
    cases hb : out.2 with
    | false => exact absurd (h.1 hb) hne
    | true => rfl
  · have h := remove_flag_aux S hS r
    constructor
    · intro ht heq
      obtain ⟨e0, h0, h1⟩ := h.2 ht
      rw [heq] at h1
      exact h1 h0
    · intro hne
      cases hb : (RemoveFragment S r).2 with
      | false => exact absurd (h.1 hb) hne
      | true => rfl
  · intro ht hperm
    obtain ⟨e0, h0, h1⟩ := (remove_flag_aux S hS r).2 ht
    exact h1 (hperm.mem_iff.mpr h0)
  · intro hgt
    unfold RemoveFragment
    simp only [hgt, if_true]

theorem C26_witness :
    (∃ out, InsertFragment [⟨0, 4⟩, ⟨10, 20⟩] ⟨5, 9⟩ = some out ∧
      (out.2 = true ↔ out.1 ≠ [⟨0, 4⟩, ⟨10, 20⟩]) ∧
      (out.2 = true → ¬ out.1.Perm [⟨0, 4⟩, ⟨10, 20⟩])) ∧
    ((RemoveFragment [⟨0, 4⟩, ⟨10, 20⟩] ⟨5, 9⟩).2 = true ↔
      (RemoveFragment [⟨0, 4⟩, ⟨10, 20⟩] ⟨5, 9⟩).1 ≠ [⟨0, 4⟩, ⟨10, 20⟩]) ∧
    ((RemoveFragment [⟨0, 4⟩, ⟨10, 20⟩] ⟨5, 9⟩).2 = true →
      ¬ (RemoveFragment [⟨0, 4⟩, ⟨10, 20⟩] ⟨5, 9⟩).1.Perm [⟨0, 4⟩, ⟨10, 20⟩]) ∧
    ((⟨5, 9⟩ : data_fragment_t).beginIndex > (⟨5, 9⟩ : data_fragment_t).endIndex →
      RemoveFragment [⟨0, 4⟩, ⟨10, 20⟩] ⟨5, 9⟩ = ([⟨0, 4⟩, ⟨10, 20⟩], false)) :=
  C26_modification_flag [⟨0, 4⟩, ⟨10, 20⟩] (by decide) ⟨5, 9⟩

end FragmentSet

/-! ## Ltp.cpp: the segment parser -/

namespace Ltp

/-! ### Evaluation of the decoders on the bytes of the report header -/

theorem decode_small (b : Nat) (rest : List Nat) (n : Nat) (hb : b < 128) (hn : 1 ≤ n) :
    SdnvDecodeU64Classic (b :: rest) n = ⟨.value b, 1⟩ := by
  have h := loop_run [] (by simp) b (by omega) rest [] (min 10 n) 0 (by simp; omega)
  simp only [List.nil_append, List.length_nil, Nat.zero_add] at h
  unfold SdnvDecodeU64Classic
  rw [h, if_neg (by omega)]
  simp [accum, U64]
  omega

theorem decode_two_pow_31 (rest : List Nat) (n : Nat) (hn : 5 ≤ n) :
    SdnvDecodeU64Classic (0x88 :: 0x80 :: 0x80 :: 0x80 :: 0x00 :: rest) n = ⟨.value (2 ^ 31), 5⟩ := by
  have h := loop_run [0x88, 0x80, 0x80, 0x80] (by decide) 0 (by decide) rest [] (min 10 n) 0
    (by simp; omega)
  simp only [List.nil_append, List.length_nil, Nat.zero_add, List.cons_append] at h
  unfold SdnvDecodeU64Classic
  rw [h, if_neg (by simp)]
  have : accum 0 [0x88, 0x80, 0x80, 0x80, 0] = 2 ^ 31 := by decide
  rw [this]
  rfl

theorem array_loop_step (k : Nat) (input : List Nat) (n taken : Nat) (stored : List Nat)
    (v nb : Nat) (hdec : SdnvDecodeU64Classic input n = ⟨.value v, nb⟩) (hnb : 1 ≤ nb)
    (hle : nb ≤ n) (hn64 : n < 2 ^ 64) :
    SdnvDecodeArrayU64Classic.loop (k + 1) input n taken stored
      = SdnvDecodeArrayU64Classic.loop k (input.drop nb) (n - nb) (taken + nb) (stored ++ [v]) := by
  rw [SdnvDecodeArrayU64Classic.loop, hdec]
  have : (n + U64 - nb) % U64 = n - nb := by simp only [U64]; omega
  have hne : ¬ nb = 0 := by omega
  simp only [hne, if_false, this]

theorem array_loop_small (k : Nat) (b : Nat) (rest : List Nat) (n taken : Nat) (stored : List Nat)
    (hb : b < 128) (hn : 1 ≤ n) (hn64 : n < 2 ^ 64) :
    SdnvDecodeArrayU64Classic.loop (k + 1) (b :: rest) n taken stored
      = SdnvDecodeArrayU64Classic.loop k rest (n - 1) (taken + 1) (stored ++ [b]) :=
  array_loop_step k (b :: rest) n taken stored b 1 (decode_small b rest n hb hn) (le_refl 1) hn hn64

theorem array_two_small (b c : Nat) (rest : List Nat) (n : Nat)
    (hb : b < 128) (hc : c < 128) (hn : 2 ≤ n) (hn64 : n < 2 ^ 64) :
    SdnvDecodeArrayU64Classic (b :: c :: rest) 2 n = ⟨2, [b, c], 2, false⟩ := by
  unfold SdnvDecodeArrayU64Classic
  rw [array_loop_small 1 b _ n 0 [] hb (by omega) hn64,
    array_loop_small 0 c _ (n - 1) (0 + 1) _ hc (by omega) (by omega)]
  rfl

theorem array_three_small (b c d : Nat) (rest : List Nat) (n : Nat)
    (hb : b < 128) (hc : c < 128) (hd : d < 128) (hn : 3 ≤ n) (hn64 : n < 2 ^ 64) :
    SdnvDecodeArrayU64Classic (b :: c :: d :: rest) 3 n = ⟨3, [b, c, d], 3, false⟩ := by
  unfold SdnvDecodeArrayU64Classic
  rw [array_loop_small 2 b _ n 0 [] hb (by omega) hn64,
    array_loop_small 1 c _ (n - 1) (0 + 1) _ hc (by omega) (by omega),
    array_loop_small 0 d _ (n - 1 - 1) (0 + 1 + 1) _ hd (by omega) (by omega)]
  rfl

theorem array_report_fields (rest : List Nat) (n : Nat) (hn : 9 ≤ n) (hn64 : n < 2 ^ 64) :
    SdnvDecodeArrayU64Classic (1 :: 1 :: 1 :: 0 :: 0x88 :: 0x80 :: 0x80 :: 0x80 :: 0x00 :: rest) 5 n
      = ⟨5, [1, 1, 1, 0, 2 ^ 31], 9, false⟩ := by
  unfold SdnvDecodeArrayU64Classic
  rw [array_loop_small 4 1 _ n 0 [] (by norm_num) (by omega) hn64,
    array_loop_small 3 1 _ (n - 1) (0 + 1) _ (by norm_num) (by omega) (by omega),
    array_loop_small 2 1 _ (n - 1 - 1) (0 + 1 + 1) _ (by norm_num) (by omega) (by omega),
    array_loop_small 1 0 _ (n - 1 - 1 - 1) (0 + 1 + 1 + 1) _ (by norm_num) (by omega) (by omega),
    array_loop_step 0 _ (n - 1 - 1 - 1 - 1) (0 + 1 + 1 + 1 + 1) _ (2 ^ 31) 5
      (decode_two_pow_31 rest _ (by omega)) (by omega) (by omega) (by omega)]
  rfl

theorem storeClaimSdnvs_nil (claims : List reception_claim_t) : storeClaimSdnvs claims [] = claims := by
  cases claims <;> rfl

theorem resizeClaims_zero (claims : List reception_claim_t) : resizeClaims claims 0 = [] := by
  simp [resizeClaims]


theorem array_zero (rxVals : List Nat) (n : Nat) :
    SdnvDecodeArrayU64Classic rxVals 0 n = ⟨0, [], 0, false⟩ := by
  unfold SdnvDecodeArrayU64Classic
  rw [SdnvDecodeArrayU64Classic.loop]
  rfl

/-! ### The states of the parser that the report with `2 ^ 31` claims visits -/

theorem step_READ_CONTROL_BYTE (s : Ltp) (rxVal : Nat) (rxVals : List Nat)
    (h1 : s.m_mainRxState = .READ_HEADER) (h2 : s.m_headerRxState = .READ_CONTROL_BYTE)
    (hv : rxVal >>> 4 = 0) (a b nb : Nat)
    (hd : SdnvDecodeArrayU64Classic rxVals 2 rxVals.length = ⟨2, [a, b], nb, false⟩) :
    HandleReceivedChars.step s rxVal rxVals
      = .ok { s with m_segmentTypeFlags := rxVal &&& 0x0f, m_sdnvTempVec := [],
                     m_sessionId := ⟨a, b⟩, m_headerRxState := .READ_NUM_EXTENSIONS_BYTE }
          (rxVals.drop nb) := by
  rw [HandleReceivedChars.step]
  simp only [h1, h2, hd, hv]
  rfl

theorem step_READ_NUM_EXTENSIONS_BYTE (s : Ltp) (rxVal : Nat) (rxVals : List Nat)
    (h1 : s.m_mainRxState = .READ_HEADER) (h2 : s.m_headerRxState = .READ_NUM_EXTENSIONS_BYTE)
    (hv : rxVal >>> 4 = 0) :
    HandleReceivedChars.step s rxVal rxVals
      = NextStateAfterHeaderExtensions
          { s with m_numHeaderExtensionTlvs := 0, m_numTrailerExtensionTlvs := rxVal &&& 0x0f,
                   m_headerExtensions := [], m_trailerExtensions := [] } rxVals := by
  rw [HandleReceivedChars.step]
  simp only [h1, h2, hv]
  rfl

theorem NextStateAfterHeaderExtensions_report (s : Ltp) (rxVals : List Nat)
    (h : s.m_segmentTypeFlags = 8) :
    NextStateAfterHeaderExtensions s rxVals
      = TryShortcutReadReportSegmentSdnvs
          { s with m_sdnvTempVec := []
                   m_reportSegmentRxState := .READ_REPORT_SERIAL_NUMBER_SDNV
                   m_mainRxState := .READ_REPORT_SEGMENT_CONTENT } rxVals := by
  unfold NextStateAfterHeaderExtensions
  have h8 : (8 : Nat) &&& 0xd ≠ 0xd := by decide
  simp [h, h8]

theorem NextStateAfterHeaderExtensions_data (s : Ltp) (rxVals : List Nat)
    (h : s.m_segmentTypeFlags = 0) :
    NextStateAfterHeaderExtensions s rxVals
      = TryShortcutReadDataSegmentSdnvs
          { s with m_sdnvTempVec := []
                   m_dataSegmentRxState := .READ_CLIENT_SERVICE_ID_SDNV
                   m_mainRxState := .READ_DATA_SEGMENT_CONTENT } rxVals := by
  unfold NextStateAfterHeaderExtensions
  have h0 : (0 : Nat) &&& 0xd ≠ 0xd := by decide
  simp [h, h0]

theorem TryShortcutReadReportSegmentSdnvs_truncated (s : Ltp) (rxVals : List Nat)
    (a b c d N nb : Nat)
    (hd : SdnvDecodeArrayU64Classic rxVals 5 rxVals.length = ⟨5, [a, b, c, d, N], nb, false⟩)
    (hN : N ≠ 0) (htr : toU32 ((N <<< 1) % U64) = 0) (ht : s.m_numTrailerExtensionTlvs = 0) :
    TryShortcutReadReportSegmentSdnvs s rxVals
      = .ok (SetBeginningState (callbackReportSegment
          { s with m_reportSegmentRxState := .READ_ONE_RECEPTION_CLAIM_OFFSET_SDNV
                   m_reportSegment := ⟨a, b, c, d, N, []⟩ })) (rxVals.drop nb) := by
  unfold TryShortcutReadReportSegmentSdnvs
  simp only [hd, storeReportSegmentSdnvs, List.getD_cons_zero, List.getD_cons_succ, htr,
    array_zero, storeClaimSdnvs_nil, resizeClaims_zero, ht]
  simp [hN, ht, LTP_REPORT_SEGMENT_RX_STATE.fromValue, SetBeginningState, callbackReportSegment]
  exact resizeClaims_zero _

theorem TryShortcutReadDataSegmentSdnvs_zero_length (s : Ltp) (rxVals : List Nat)
    (a b nb : Nat) (h : s.m_segmentTypeFlags = 0)
    (hd : SdnvDecodeArrayU64Classic rxVals 3 rxVals.length = ⟨3, [a, b, 0], nb, false⟩) :
    TryShortcutReadDataSegmentSdnvs s rxVals
      = .failure { s with
          m_dataSegmentMetadata := storeDataSegmentSdnvs s.m_dataSegmentMetadata [a, b, 0]
          m_dataSegmentRxState := .READ_CHECKPOINT_SERIAL_NUMBER_SDNV } := by
  unfold TryShortcutReadDataSegmentSdnvs
  simp only [h]
  simp [hd, storeDataSegmentSdnvs, LTP_DATA_SEGMENT_RX_STATE.fromValue]

/-- Fed in one call, the header and the five leading fields of the report with
claim count `2 ^ 31` take the batch path: twice the count is `0` as an
`unsigned int`, the report is delivered without claims, and the bytes that
follow are read as a new segment, a data segment of length `0`. -/
theorem whole_feed_prefix (t : List Nat) (ht64 : t.length + 21 < 2 ^ 64) :
    (HandleReceivedChars InitRx
      ([8, 1, 1, 0, 1, 1, 1, 0, 0x88, 0x80, 0x80, 0x80, 0x00, 0, 1, 0, 1, 0, 1, 0, 1] ++ t)).map
        (fun r => (r.1, r.2.callbacks))
      = some (false, [.ReportSegmentContentsRead ⟨1, 1⟩ ⟨1, 1, 1, 0, 2 ^ 31, []⟩ [] []]) := by
  simp only [HandleReceivedChars, List.length_append, List.length_cons, List.length_nil,
    List.cons_append, List.nil_append]
  rw [HandleReceivedChars.loop,
    step_READ_CONTROL_BYTE InitRx 8 _ rfl rfl (by decide) 1 1 2
      (array_two_small 1 1 _ _ (by decide) (by decide) (by simp) (by simp; omega))]
  simp only [List.drop_succ_cons, List.drop_zero]
  rw [HandleReceivedChars.loop, step_READ_NUM_EXTENSIONS_BYTE _ 0 _ rfl rfl (by decide),
    NextStateAfterHeaderExtensions_report _ _ rfl,
    TryShortcutReadReportSegmentSdnvs_truncated _ _ 1 1 1 0 (2 ^ 31) 9
      (array_report_fields _ _ (by simp) (by simp; omega)) (by decide) (by decide) rfl]
  simp only [List.drop_succ_cons, List.drop_zero]
  rw [HandleReceivedChars.loop,
    step_READ_CONTROL_BYTE _ 0 _ rfl rfl (by decide) 1 0 2
      (array_two_small 1 0 _ _ (by decide) (by decide) (by simp) (by simp; omega))]
  simp only [List.drop_succ_cons, List.drop_zero]
  rw [HandleReceivedChars.loop, step_READ_NUM_EXTENSIONS_BYTE _ 1 _ rfl rfl (by decide),
    NextStateAfterHeaderExtensions_data _ _ rfl,
    TryShortcutReadDataSegmentSdnvs_zero_length _ _ 0 1 3 rfl
      (array_three_small 0 1 0 _ _ (by decide) (by decide) (by decide) (by simp) (by simp; omega))]
  rfl

theorem pushSdnvByte_small (b : Nat) (hb : b < 128) :
    pushSdnvByte [] b = ([b], .complete b) := by
  have h80 : ∀ b < 128, b &&& 0x80 = 0 := by decide
  unfold pushSdnvByte
  simp [h80 b hb, decode_small b [] sdnvTempVecCapacity hb (by decide)]

theorem setLastClaimLength_append (l : List reception_claim_t) (c : reception_claim_t) (n : Nat) :
    setLastClaimLength (l ++ [c]) n = l ++ [{ c with length := n }] := by
  induction l with
  | nil => rfl
  | cons a l ih =>
    cases l with
    | nil => rfl
    | cons b l => exact congrArg (List.cons a) ih

theorem step_READ_ONE_RECEPTION_CLAIM_OFFSET_SDNV (s : Ltp) (rxVal : Nat) (rxVals : List Nat)
    (h1 : s.m_mainRxState = .READ_REPORT_SEGMENT_CONTENT)
    (h2 : s.m_reportSegmentRxState = .READ_ONE_RECEPTION_CLAIM_OFFSET_SDNV)
    (h3 : s.m_sdnvTempVec = []) (hb : rxVal < 128) :
    HandleReceivedChars.step s rxVal rxVals
      = .ok { s with m_reportSegment :=
                       { s.m_reportSegment with receptionClaims :=
                           (s.m_reportSegment.receptionClaims ++ [⟨rxVal, 0⟩]) }
                     m_sdnvTempVec := []
                     m_reportSegmentRxState := .READ_ONE_RECEPTION_CLAIM_LENGTH_SDNV } rxVals := by
  rw [HandleReceivedChars.step]
  simp only [h1, h2, h3, pushSdnvByte_small rxVal hb]

theorem step_READ_ONE_RECEPTION_CLAIM_LENGTH_SDNV (s : Ltp) (rxVal : Nat) (rxVals : List Nat)
    (h1 : s.m_mainRxState = .READ_REPORT_SEGMENT_CONTENT)
    (h2 : s.m_reportSegmentRxState = .READ_ONE_RECEPTION_CLAIM_LENGTH_SDNV)
    (h3 : s.m_sdnvTempVec = []) (hb : rxVal < 128) (h0 : rxVal ≠ 0) :
    HandleReceivedChars.step s rxVal rxVals
      = if (setLastClaimLength s.m_reportSegment.receptionClaims rxVal).length
            < s.m_reportSegment.tmpReceptionClaimCount then
          .ok { s with m_reportSegment :=
                         { s.m_reportSegment with receptionClaims :=
                             (setLastClaimLength s.m_reportSegment.receptionClaims rxVal) }
                       m_sdnvTempVec := []
                       m_reportSegmentRxState := .READ_ONE_RECEPTION_CLAIM_OFFSET_SDNV } rxVals
        else
          .ok (trailerOrCallback
            { s with m_reportSegment :=
                       { s.m_reportSegment with receptionClaims :=
                           (setLastClaimLength s.m_reportSegment.receptionClaims rxVal) }
                     m_sdnvTempVec := [] } callbackReportSegment) rxVals := by
  rw [HandleReceivedChars.step]
  simp only [h1, h2, h3, pushSdnvByte_small rxVal hb, h0, if_false]

theorem HandleReceivedChars_one_byte (s : Ltp) (b : Nat) :
    HandleReceivedChars s [b]
      = match HandleReceivedChars.step s b [] with
        | .failure s => some (false, s)
        | .ok s rxVals => HandleReceivedChars.loop 0 s rxVals := by
  simp only [HandleReceivedChars, List.length_singleton]
  rw [HandleReceivedChars.loop]

theorem feedChunks_append (s : Ltp) (xs ys : List (List Nat)) :
    feedChunks s (xs ++ ys)
      = match feedChunks s xs with
        | none => none
        | some (oks, s) => (feedChunks s ys).map (fun r => (oks ++ r.1, r.2)) := by
  induction xs generalizing s with
  | nil =>
    simp only [List.nil_append, feedChunks]
    cases feedChunks s ys <;> simp
  | cons x xs ih =>
    rw [List.cons_append, feedChunks, feedChunks]
    cases hx : HandleReceivedChars s x with
    | none => rfl
    | some r =>
      obtain ⟨ok, s1⟩ := r
      simp only []
      rw [ih s1]
      cases feedChunks s1 xs with
      | none => rfl
      | some r1 =>
        obtain ⟨oks, s2⟩ := r1
        simp only []
        cases feedChunks s2 ys <;> rfl

theorem header_bytewise :
    feedChunks InitRx [[8], [1], [1], [0], [1], [1], [1], [0], [0x88], [0x80], [0x80], [0x80], [0]]
      = some (List.replicate 13 true,
          { InitRx with
            m_mainRxState := .READ_REPORT_SEGMENT_CONTENT
            m_headerRxState := .READ_NUM_EXTENSIONS_BYTE
            m_reportSegmentRxState := .READ_ONE_RECEPTION_CLAIM_OFFSET_SDNV
            m_segmentTypeFlags := 8
            m_sessionId := ⟨1, 1⟩
            m_reportSegment := ⟨1, 1, 1, 0, 2 ^ 31, []⟩ }) := by
  decide

theorem HandleReceivedChars_loop_nil (fuel : Nat) (s : Ltp) : HandleReceivedChars.loop fuel s [] = some (true, s) := by
  cases fuel <;> rfl

theorem claim_pair_more (N : Nat) (claims : List reception_claim_t) (chunks : List (List Nat))
    (h : claims.length + 1 < N) :
    feedChunks (readingClaims N claims) ([0] :: [1] :: chunks)
      = (feedChunks (readingClaims N (claims ++ [⟨0, 1⟩])) chunks).map
          (fun r => (true :: true :: r.1, r.2)) := by
  rw [feedChunks, HandleReceivedChars_one_byte,
    step_READ_ONE_RECEPTION_CLAIM_OFFSET_SDNV _ 0 [] rfl rfl rfl (by decide)]
  simp only [HandleReceivedChars_loop_nil]
  rw [feedChunks, HandleReceivedChars_one_byte,
    step_READ_ONE_RECEPTION_CLAIM_LENGTH_SDNV _ 1 [] rfl rfl rfl (by decide) (by decide)]
  have hlen : (claims ++ [(⟨0, 1⟩ : reception_claim_t)]).length < N := by
    simpa using h
  simp only [readingClaims, InitRx, setLastClaimLength_append, if_pos hlen, HandleReceivedChars_loop_nil]
  cases feedChunks _ chunks with
  | none => rfl
  | some r => rfl

theorem claim_pair_last (N : Nat) (claims : List reception_claim_t)
    (h : claims.length + 1 = N) :
    (feedChunks (readingClaims N claims) [[0], [1]]).map (fun r => (r.1, r.2.callbacks))
      = some ([true, true],
          [.ReportSegmentContentsRead ⟨1, 1⟩ ⟨1, 1, 1, 0, N, claims ++ [⟨0, 1⟩]⟩ [] []]) := by
  rw [feedChunks, HandleReceivedChars_one_byte,
    step_READ_ONE_RECEPTION_CLAIM_OFFSET_SDNV _ 0 [] rfl rfl rfl (by decide)]
  simp only [HandleReceivedChars_loop_nil]
  rw [feedChunks, HandleReceivedChars_one_byte,
    step_READ_ONE_RECEPTION_CLAIM_LENGTH_SDNV _ 1 [] rfl rfl rfl (by decide) (by decide)]
  have hlen : ¬ (claims ++ [(⟨0, 1⟩ : reception_claim_t)]).length < N := by
    simp [← h]
  simp only [readingClaims, InitRx, setLastClaimLength_append, if_neg hlen, HandleReceivedChars_loop_nil, feedChunks]
  rfl

theorem serializeReceptionClaims_replicate_succ (k : Nat) :
    serializeReceptionClaims (List.replicate (k + 1) ⟨0, 1⟩)
      = 0 :: 1 :: serializeReceptionClaims (List.replicate k ⟨0, 1⟩) := by
  have e : reception_claim_t.Serialize ⟨0, 1⟩ = [0, 1] := by decide
  rw [List.replicate_succ, serializeReceptionClaims, e]
  rfl

theorem serializeReceptionClaims_replicate_length (k : Nat) :
    (serializeReceptionClaims (List.replicate k ⟨0, 1⟩)).length = 2 * k := by
  induction k with
  | zero => rfl
  | succ k ih =>
    rw [serializeReceptionClaims_replicate_succ, List.length_cons, List.length_cons, ih]
    omega

/-- Reading `k + 1` claims `(0, 1)` one byte per call, when `k + 1` claims are
still missing: every call returns `true` and the report is delivered once. -/
theorem claims_bytewise (N : Nat) : ∀ (k : Nat) (claims : List reception_claim_t),
    claims.length + (k + 1) = N →
    (feedChunks (readingClaims N claims)
        ((serializeReceptionClaims (List.replicate (k + 1) ⟨0, 1⟩)).map (fun b => [b]))).map
        (fun r => (r.1.all id, r.2.callbacks))
      = some (true, [.ReportSegmentContentsRead ⟨1, 1⟩
          ⟨1, 1, 1, 0, N, claims ++ List.replicate (k + 1) ⟨0, 1⟩⟩ [] []]) := by
  intro k
  induction k with
  | zero =>
    intro claims h
    have h2 := claim_pair_last N claims h
    rw [serializeReceptionClaims_replicate_succ]
    simp only [List.replicate_zero, serializeReceptionClaims, List.map_cons, List.map_nil,
      List.replicate_succ]
    cases hf : feedChunks (readingClaims N claims) [[0], [1]] with
    | none => rw [hf] at h2; simp at h2
    | some r =>
      rw [hf] at h2
      simp only [Option.map_some', Option.some.injEq, Prod.mk.injEq] at h2 ⊢
      rw [h2.1, h2.2]
      exact ⟨rfl, rfl⟩
  | succ k ih =>
    intro claims h
    rw [serializeReceptionClaims_replicate_succ]
    simp only [List.map_cons]
    rw [claim_pair_more N claims _ (by omega), Option.map_map]
    have h3 := ih (claims ++ [⟨0, 1⟩]) (by simp only [List.length_append, List.length_singleton]; omega)
    have e : claims ++ [(⟨0, 1⟩ : reception_claim_t)] ++ List.replicate (k + 1) ⟨0, 1⟩
        = claims ++ List.replicate (k + 1 + 1) ⟨0, 1⟩ := by
      rw [List.append_assoc, List.singleton_append, ← List.replicate_succ]
    rw [e] at h3
    rw [← h3]
    rfl

theorem report_packet_bytes (N : Nat) (hN : N = 2 ^ 31) :
    GenerateReportSegmentLtpPacket ⟨1, 1⟩ ⟨1, 1, 1, 0, 0, List.replicate N ⟨0, 1⟩⟩ none none
      = [8, 1, 1, 0, 1, 1, 1, 0, 0x88, 0x80, 0x80, 0x80, 0x00]
          ++ serializeReceptionClaims (List.replicate N ⟨0, 1⟩) := by
  have e1 : SdnvEncodeU64ClassicBufSize10 1 = [1] := by decide
  have e0 : SdnvEncodeU64ClassicBufSize10 0 = [0] := by decide
  have eN : SdnvEncodeU64ClassicBufSize10 N = [0x88, 0x80, 0x80, 0x80, 0x00] := by
    subst hN
    decide
  have e8 : toU8 REPORT_SEGMENT = 8 := by decide
  have eb : toU8 (((0 : Nat) <<< 4) ||| 0) = 0 := by decide
  unfold GenerateReportSegmentLtpPacket report_segment_t.Serialize session_id_t.Serialize
  simp only [List.length_replicate, e1, e0, eN, e8, eb, List.append_nil, List.cons_append,
    List.nil_append, List.append_assoc]

/-- The whole packet in one call: `false`, and a report without claims. -/
theorem whole_feed_truncates (N : Nat) (hN : N = 2 ^ 31) :
    (HandleReceivedChars InitRx
        (GenerateReportSegmentLtpPacket ⟨1, 1⟩ ⟨1, 1, 1, 0, 0, List.replicate N ⟨0, 1⟩⟩ none none)).map
        (fun r => (r.1, r.2.callbacks))
      = some (false, [.ReportSegmentContentsRead ⟨1, 1⟩ ⟨1, 1, 1, 0, 2 ^ 31, []⟩ [] []]) := by
  rw [report_packet_bytes N hN]
  obtain ⟨M, hM⟩ : ∃ M, N = M + 1 + 1 + 1 + 1 := ⟨N - 4, by omega⟩
  have hlen := serializeReceptionClaims_replicate_length M
  rw [hM]
  simp only [serializeReceptionClaims_replicate_succ]
  exact whole_feed_prefix _ (by rw [hlen]; omega)

/-- The packet one byte per call: `true` every time, and the report with all
its claims. -/
theorem bytewise_feed_delivers (N : Nat) (hN : N = 2 ^ 31) :
    (feedChunks InitRx
        ((GenerateReportSegmentLtpPacket ⟨1, 1⟩ ⟨1, 1, 1, 0, 0, List.replicate N ⟨0, 1⟩⟩
          none none).map (fun b => [b]))).map
        (fun r => (r.1.all id, r.2.callbacks))
      = some (true, [.ReportSegmentContentsRead ⟨1, 1⟩
          ⟨1, 1, 1, 0, 2 ^ 31, List.replicate N ⟨0, 1⟩⟩ [] []]) := by
  rw [report_packet_bytes N hN, List.map_append]
  simp only [List.map_cons, List.map_nil]
  rw [feedChunks_append, header_bytewise]
  simp only [Option.map_map]
  obtain ⟨k, hk⟩ : ∃ k, N = k + 1 := ⟨N - 1, by omega⟩
  have h := claims_bytewise N k [] (by simp [hk])
  rw [List.nil_append, ← hk] at h
  rw [← hN]
  rw [← h, hk]
  rfl

/-! ### The model of the parser always returns -/

theorem consumes_failure (s : Ltp) (rxVals : List Nat) : (RxResult.failure s).consumes rxVals :=
  trivial

theorem consumes_ok (s : Ltp) (rxVals : List Nat) : (RxResult.ok s rxVals).consumes rxVals :=
  Nat.le_refl _

theorem consumes_drop (s : Ltp) (rxVals : List Nat) (n : Nat) :
    (RxResult.ok s (rxVals.drop n)).consumes rxVals := by
  simp only [RxResult.consumes, List.length_drop]
  omega

theorem consumes_drop_drop (s : Ltp) (rxVals : List Nat) (n m : Nat) :
    (RxResult.ok s ((rxVals.drop n).drop m)).consumes rxVals := by
  simp only [RxResult.consumes, List.length_drop]
  omega

theorem TryShortcutReadDataSegmentSdnvs_consumes (s : Ltp) (rxVals : List Nat) :
    (TryShortcutReadDataSegmentSdnvs s rxVals).consumes rxVals := by
  unfold TryShortcutReadDataSegmentSdnvs
  simp only []
  repeat (first
    | split
    | exact consumes_failure _ _
    | exact consumes_ok _ _
    | exact consumes_drop _ _ _)

theorem TryShortcutReadReportSegmentSdnvs_consumes (s : Ltp) (rxVals : List Nat) :
    (TryShortcutReadReportSegmentSdnvs s rxVals).consumes rxVals := by
  unfold TryShortcutReadReportSegmentSdnvs
  simp only []
  repeat (first
    | split
    | exact consumes_failure _ _
    | exact consumes_ok _ _
    | exact consumes_drop _ _ _
    | exact consumes_drop_drop _ _ _ _)

theorem NextStateAfterHeaderExtensions_consumes (s : Ltp) (rxVals : List Nat) :
    (NextStateAfterHeaderExtensions s rxVals).consumes rxVals := by
  unfold NextStateAfterHeaderExtensions
  repeat (first
    | split
    | exact consumes_failure _ _
    | exact consumes_ok _ _
    | exact TryShortcutReadDataSegmentSdnvs_consumes _ _
    | exact TryShortcutReadReportSegmentSdnvs_consumes _ _)

/-- An iteration of the loop of `HandleReceivedChars` never hands back more
bytes than it was given. -/
theorem step_consumes (s : Ltp) (rxVal : Nat) (rxVals : List Nat) :
    (HandleReceivedChars.step s rxVal rxVals).consumes rxVals := by
  unfold HandleReceivedChars.step
  repeat' (first
    | split
    | exact consumes_failure _ _
    | exact consumes_ok _ _
    | exact consumes_drop _ _ _
    | exact NextStateAfterHeaderExtensions_consumes _ _
    | dsimp only)

theorem HandleReceivedChars_loop_total (fuel : Nat) : ∀ (s : Ltp) (rxVals : List Nat), rxVals.length ≤ fuel →
    (HandleReceivedChars.loop fuel s rxVals).isSome = true := by
  induction fuel with
  | zero =>
    intro s rxVals h
    cases rxVals with
    | nil => rfl
    | cons b rest => simp at h
  | succ fuel ih =>
    intro s rxVals h
    cases rxVals with
    | nil => rfl
    | cons b rest =>
      rw [HandleReceivedChars.loop]
      have hc := step_consumes s b rest
      cases hs : HandleReceivedChars.step s b rest with
      | failure s1 => rfl
      | ok s1 rest1 =>
        rw [hs] at hc
        simp only [RxResult.consumes] at hc
        exact ih s1 rest1 (by simp only [List.length_cons] at h; omega)

/-- The model of `HandleReceivedChars` always returns: as many iterations as
there are bytes are enough. -/
theorem HandleReceivedChars_total (s : Ltp) (rxVals : List Nat) :
    (HandleReceivedChars s rxVals).isSome = true :=
  HandleReceivedChars_loop_total _ s rxVals (Nat.le_refl _)

/-- Feeding a list of chunks always returns. -/
theorem feedChunks_total (chunks : List (List Nat)) : ∀ (s : Ltp),
    (feedChunks s chunks).isSome = true := by
  induction chunks with
  | nil => intro s; rfl
  | cons c chunks ih =>
    intro s
    rw [feedChunks]
    have h1 := HandleReceivedChars_total s c
    cases hc : HandleReceivedChars s c with
    | none => rw [hc] at h1; simp at h1
    | some r =>
      obtain ⟨ok, s1⟩ := r
      have h2 := ih s1
      cases hf : feedChunks s1 chunks with
      | none => rw [hf] at h2; simp at h2
      | some r1 =>
        obtain ⟨oks, s2⟩ := r1
        simp only [hf, Option.isSome_some]

/-- C2 (parser split-invariance) fails for a report segment with `2 ^ 31`
reception claims. The packet is the one `GenerateReportSegmentLtpPacket` writes
for session `(1, 1)`, report fields `1, 1, 1, 0` and `2 ^ 31` claims
`(offset 0, length 1)`. Fed to a fresh parser in a single call,
`HandleReceivedChars` returns `false` and the only callback made is a report
with no reception claim at all. Fed one byte per call, every call returns
`true` and the only callback made is the report with its `2 ^ 31` claims. -/
theorem C2_report_claim_count_truncated_when_fed_whole :
    (HandleReceivedChars InitRx
        (GenerateReportSegmentLtpPacket ⟨1, 1⟩ ⟨1, 1, 1, 0, 0, List.replicate (2 ^ 31) ⟨0, 1⟩⟩
          none none)).map (fun r => (r.1, r.2.callbacks))
      = some (false, [.ReportSegmentContentsRead ⟨1, 1⟩ ⟨1, 1, 1, 0, 2 ^ 31, []⟩ [] []]) ∧
    (feedChunks InitRx
        ((GenerateReportSegmentLtpPacket ⟨1, 1⟩ ⟨1, 1, 1, 0, 0, List.replicate (2 ^ 31) ⟨0, 1⟩⟩
          none none).map (fun b => [b]))).map (fun r => (r.1.all id, r.2.callbacks))
      = some (true, [.ReportSegmentContentsRead ⟨1, 1⟩
          ⟨1, 1, 1, 0, 2 ^ 31, List.replicate (2 ^ 31) ⟨0, 1⟩⟩ [] []]) :=
  ⟨whole_feed_truncates (2 ^ 31) rfl, bytewise_feed_delivers (2 ^ 31) rfl⟩

/-! ### Errors the parser reports, and reports it delivers -/

/-- C16 (version check): at the beginning state, a first byte whose high four
bits are not zero makes `HandleReceivedChars` return `false` on that byte,
whatever bytes follow in the call; the parser is left as it was, so no callback
is made. -/
theorem C16_version_check (s : Ltp) (rxVal : Nat) (rxVals : List Nat)
    (hs : IsAtBeginningState s = true) (hv : rxVal >>> 4 ≠ 0) :
    HandleReceivedChars s (rxVal :: rxVals) = some (false, s) ∧
    ∀ r, HandleReceivedChars s (rxVal :: rxVals) = some r → r.2.callbacks = s.callbacks := by
  have hs' : s.m_mainRxState = .READ_HEADER ∧ s.m_headerRxState = .READ_CONTROL_BYTE := by
    simpa [IsAtBeginningState] using hs
  have hstep : HandleReceivedChars.step s rxVal rxVals = .failure s := by
    rw [HandleReceivedChars.step]
    simp only [hs'.1, hs'.2, hv, ne_eq, not_false_eq_true, if_true]
  have h : HandleReceivedChars s (rxVal :: rxVals) = some (false, s) := by
    simp only [HandleReceivedChars, List.length_cons]
    rw [HandleReceivedChars.loop, hstep]
  refine ⟨h, ?_⟩
  intro r hr
  rw [h] at hr
  cases hr
  rfl

theorem C16_witness :
    HandleReceivedChars InitRx (0x18 :: [1, 1, 0]) = some (false, InitRx) ∧
    ∀ r, HandleReceivedChars InitRx (0x18 :: [1, 1, 0]) = some r →
      r.2.callbacks = InitRx.callbacks :=
  C16_version_check InitRx 0x18 [1, 1, 0] (by decide) (by decide)

/-- C14 (delivered reports are well-formed) fails for the thirteen bytes
`08 01 01 00 01 01 01 00 88 80 80 80 00` given to a fresh parser in one call:
the header of a report for session `(1, 1)` and its five leading fields, the
reception-claim count being `2 ^ 31`. `HandleReceivedChars` returns `true` and
delivers a report whose `receptionClaims` is empty. -/
theorem C14_report_delivered_without_claims :
    (HandleReceivedChars InitRx [8, 1, 1, 0, 1, 1, 1, 0, 0x88, 0x80, 0x80, 0x80, 0x00]).map
        (fun r => (r.1, r.2.callbacks))
      = some (true, [.ReportSegmentContentsRead ⟨1, 1⟩ ⟨1, 1, 1, 0, 2 ^ 31, []⟩ [] []]) := by
  simp only [HandleReceivedChars, List.length_cons, List.length_nil]
  rw [HandleReceivedChars.loop,
    step_READ_CONTROL_BYTE InitRx 8 _ rfl rfl (by decide) 1 1 2
      (array_two_small 1 1 _ _ (by decide) (by decide) (by decide) (by decide))]
  simp only [List.drop_succ_cons, List.drop_zero]
  rw [HandleReceivedChars.loop, step_READ_NUM_EXTENSIONS_BYTE _ 0 _ rfl rfl (by decide),
    NextStateAfterHeaderExtensions_report _ _ rfl,
    TryShortcutReadReportSegmentSdnvs_truncated _ _ 1 1 1 0 (2 ^ 31) 9
      (array_report_fields _ _ (by decide) (by decide)) (by decide) (by decide) rfl]
  simp only [List.drop_succ_cons, List.drop_zero, HandleReceivedChars_loop_nil]
  rfl

/-! ### Serialization: the byte layout -/

theorem contGroups_congr (v w : Nat) (h : v / 128 = w / 128) :
    ∀ k, contGroups v k = contGroups w k := by
  intro k
  induction k with
  | zero => rfl
  | succ k ih =>
    have e : ∀ x : Nat, x / 2 ^ (7 * (k + 1)) = x / 128 / 2 ^ (7 * k) := by
      intro x
      rw [Nat.div_div_eq_div_mul]
      congr 1
      rw [show 7 * (k + 1) = 7 * k + 7 by ring, pow_add]
      ring
    simp only [contGroups, ih, e, h]

theorem contGroups_snoc (v : Nat) :
    ∀ k, contGroups v (k + 1) = contGroups (v / 128) k ++ [v / 128 % 128 + 128] := by
  intro k
  induction k with
  | zero => simp [contGroups]
  | succ k ih =>
    rw [contGroups, ih]
    have e : v / 2 ^ (7 * (k + 1 + 1)) = v / 128 / 2 ^ (7 * (k + 1)) := by
      rw [Nat.div_div_eq_div_mul]
      congr 1
      rw [show 7 * (k + 1 + 1) = 7 * (k + 1) + 7 by ring, pow_add]
      ring
    rw [e]
    rfl

theorem sdnvLeadingGroups_eq : ∀ (k w : Nat), w < 128 ^ k → (k = 0 ∨ 128 ^ (k - 1) ≤ w) →
    ∀ v, v / 128 = w → sdnvLeadingGroups w = contGroups v k := by
  intro k
  induction k with
  | zero =>
    intro w hw _ v _
    have : w = 0 := by simpa using hw
    subst this
    rw [sdnvLeadingGroups]
    simp [contGroups]
  | succ k ih =>
    intro w hw hlo v hv
    have hpos : 0 < 128 ^ k := by positivity
    have hw0 : w ≠ 0 := by
      rcases hlo with h | h
      · omega
      · simp only [Nat.add_sub_cancel] at h; omega
    rw [sdnvLeadingGroups, if_neg hw0, contGroups_snoc, hv]
    congr 1
    apply ih (w / 128)
    · rw [pow_succ] at hw
      exact Nat.div_lt_of_lt_mul (by rw [Nat.mul_comm]; exact hw)
    · rcases hlo with h | h
      · omega
      · by_cases hk : k = 0
        · left; exact hk
        · right
          simp only [Nat.add_sub_cancel] at h
          obtain ⟨j, rfl⟩ : ∃ j, k = j + 1 := ⟨k - 1, by omega⟩
          simp only [Nat.add_sub_cancel]
          rw [pow_succ] at h
          exact (Nat.le_div_iff_mul_le (by norm_num)).mpr h
    · rfl

theorem encode_eq_SDNV (v : Nat) (hv : v < 2 ^ 64) : SdnvEncodeU64ClassicBufSize10 v = SDNV v := by
  obtain ⟨k, hk9, hshape, hlt, hlo⟩ := encode10_shape v hv
  rw [hshape, SDNV]
  congr 1
  have e : ∀ j, (2 : Nat) ^ (7 * j) = 128 ^ j := by
    intro j; rw [pow_mul]; norm_num
  symm
  apply sdnvLeadingGroups_eq k (v / 128) _ _ v rfl
  · rw [e, pow_succ] at hlt
    exact Nat.div_lt_of_lt_mul (by rw [Nat.mul_comm]; exact hlt)
  · rcases hlo with h | h
    · left; exact h
    · by_cases hk : k = 0
      · left; exact hk
      · right
        obtain ⟨j, rfl⟩ : ∃ j, k = j + 1 := ⟨k - 1, by omega⟩
        simp only [Nat.add_sub_cancel]
        rw [e, pow_succ] at h
        exact (Nat.le_div_iff_mul_le (by norm_num)).mpr h

theorem extensions_Serialize_eq (extensions : ltp_extensions_t)
    (h : ∀ e ∈ extensions, e.valueVec.length < 2 ^ 64) :
    ltp_extensions_t.Serialize extensions = extensionsLayout extensions := by
  induction extensions with
  | nil => rfl
  | cons e es ih =>
    rw [ltp_extensions_t.Serialize, extensionsLayout, ih (fun x hx => h x (List.mem_cons_of_mem _ hx)),
      ltp_extension_t.Serialize, encode_eq_SDNV _ (h e (List.mem_cons_self _ _))]
    simp

theorem serializeReceptionClaims_eq (claims : List reception_claim_t)
    (h : ∀ c ∈ claims, c.offset < 2 ^ 64 ∧ c.length < 2 ^ 64) :
    serializeReceptionClaims claims = claimsLayout claims := by
  induction claims with
  | nil => rfl
  | cons c cs ih =>
    rw [serializeReceptionClaims, claimsLayout, ih (fun x hx => h x (List.mem_cons_of_mem _ hx)),
      reception_claim_t.Serialize, encode_eq_SDNV _ (h c (List.mem_cons_self _ _)).1,
      encode_eq_SDNV _ (h c (List.mem_cons_self _ _)).2]

theorem extension_count_byte : ∀ a < 16, ∀ b < 16,
    toU8 ((toU8 a <<< 4) ||| toU8 b) = (a <<< 4) ||| b := by
  decide

/-- C19 (report segment byte layout): for a session id and report fields that
are 64-bit values and extension lists of at most 15 extensions each,
`GenerateReportSegmentLtpPacket` produces exactly `reportSegmentLayout`: `0x08`,
the two SDNVs of the session id, the byte `(numHeaderExt << 4) | numTrailerExt`,
the header extensions, the five SDNVs of the report, the claims, the trailer
extensions. A `NULL` extension pointer stands for no extension. -/
theorem C19_report_segment_layout (sessionId : session_id_t) (report : report_segment_t)
    (headerExtensions trailerExtensions : Option ltp_extensions_t)
    (hsid : sessionId.sessionOriginatorEngineId < 2 ^ 64 ∧ sessionId.sessionNumber < 2 ^ 64)
    (hrep : report.reportSerialNumber < 2 ^ 64 ∧ report.checkpointSerialNumber < 2 ^ 64 ∧
      report.upperBound < 2 ^ 64 ∧ report.lowerBound < 2 ^ 64 ∧
      report.receptionClaims.length < 2 ^ 64)
    (hclaims : ∀ c ∈ report.receptionClaims, c.offset < 2 ^ 64 ∧ c.length < 2 ^ 64)
    (hh : (headerExtensions.getD []).length ≤ 15 ∧
      ∀ e ∈ headerExtensions.getD [], e.valueVec.length < 2 ^ 64)
    (ht : (trailerExtensions.getD []).length ≤ 15 ∧
      ∀ e ∈ trailerExtensions.getD [], e.valueVec.length < 2 ^ 64) :
    GenerateReportSegmentLtpPacket sessionId report headerExtensions trailerExtensions
      = reportSegmentLayout sessionId report (headerExtensions.getD [])
          (trailerExtensions.getD []) := by
  have hb := extension_count_byte _ (Nat.lt_succ_of_le hh.1) _ (Nat.lt_succ_of_le ht.1)
  have e8 : toU8 REPORT_SEGMENT = 8 := by decide
  unfold GenerateReportSegmentLtpPacket reportSegmentLayout report_segment_t.Serialize
    session_id_t.Serialize
  rw [encode_eq_SDNV _ hsid.1, encode_eq_SDNV _ hsid.2, encode_eq_SDNV _ hrep.1,
    encode_eq_SDNV _ hrep.2.1, encode_eq_SDNV _ hrep.2.2.1, encode_eq_SDNV _ hrep.2.2.2.1,
    encode_eq_SDNV _ hrep.2.2.2.2, serializeReceptionClaims_eq _ hclaims, e8]
  cases headerExtensions with
  | none =>
    cases trailerExtensions with
    | none => simp [extensionsLayout, toU8]
    | some t =>
      simp only [Option.getD_some, Option.getD_none, List.length_nil] at hb ht ⊢
      rw [extensions_Serialize_eq t ht.2]
      have hb' : toU8 (0 <<< 4 ||| toU8 t.length) = 0 <<< 4 ||| t.length := by
        simpa [toU8] using hb
      simp only [hb', extensionsLayout, List.append_nil, List.append_assoc]
  | some h =>
    cases trailerExtensions with
    | none =>
      simp only [Option.getD_some, Option.getD_none, List.length_nil] at hb hh ⊢
      rw [extensions_Serialize_eq h hh.2]
      have hb' : toU8 (toU8 h.length <<< 4 ||| 0) = h.length <<< 4 ||| 0 := by
        simpa [toU8] using hb
      simp only [hb', extensionsLayout, List.append_nil, List.append_assoc]
    | some t =>
      simp only [Option.getD_some] at hb hh ht ⊢
      rw [extensions_Serialize_eq h hh.2, extensions_Serialize_eq t ht.2, hb]
      simp only [List.append_assoc]

theorem C19_witness :
    GenerateReportSegmentLtpPacket ⟨1, 2⟩ ⟨3, 4, 300, 5, 0, [⟨6, 7⟩]⟩ (some [⟨9, [1, 2]⟩]) none
      = reportSegmentLayout ⟨1, 2⟩ ⟨3, 4, 300, 5, 0, [⟨6, 7⟩]⟩
          ((some [⟨9, [1, 2]⟩] : Option ltp_extensions_t).getD [])
          ((none : Option ltp_extensions_t).getD []) :=
  C19_report_segment_layout ⟨1, 2⟩ ⟨3, 4, 300, 5, 0, [⟨6, 7⟩]⟩ (some [⟨9, [1, 2]⟩]) none
    (by decide) (by decide) (by decide) (by decide) (by decide)

theorem extension_count_byte_data : ∀ a < 16, ∀ b < 16,
    toU8 ((toU8 a <<< 4) ||| b) = (a <<< 4) ||| b := by
  decide

theorem SDNV_small (v : Nat) (hv : v < 128) : SDNV v = [v] := by
  rw [SDNV, Nat.div_eq_of_lt hv, Nat.mod_eq_of_lt hv, sdnvLeadingGroups]
  rfl

/-- C20 as worded fails: the serializer looks at the two pointers of the
metadata, not at the type flag. With type flag `0` (red data, no checkpoint)
and both pointers set, the serial numbers `5` and `6` are written after the
length, while the layout of a segment of type `0` has nothing after the
length; with type flag `1` (a checkpoint) and both pointers `NULL`, nothing
follows the length, while the layout of a segment of type `1` has the two
serial numbers. -/
theorem C20_shape_follows_pointers_not_type :
    (GenerateLtpHeaderPlusDataSegmentMetadata 0 ⟨1, 1⟩ ⟨1, 0, 1, 0, 0, true, true⟩ 5 6 none 0
        = [0, 1, 1, 0, 1, 0, 1, 5, 6] ∧
      dataSegmentHeaderLayout 0 ⟨1, 1⟩ 1 0 1 5 6 [] 0
          (decide ((0 : Nat) = 1 ∨ (0 : Nat) = 2 ∨ (0 : Nat) = 3))
        = [0, 1, 1, 0, 1, 0, 1]) ∧
    (GenerateLtpHeaderPlusDataSegmentMetadata 1 ⟨1, 1⟩ ⟨1, 0, 1, 0, 0, false, false⟩ 5 6 none 0
        = [1, 1, 1, 0, 1, 0, 1] ∧
      dataSegmentHeaderLayout 1 ⟨1, 1⟩ 1 0 1 5 6 [] 0
          (decide ((1 : Nat) = 1 ∨ (1 : Nat) = 2 ∨ (1 : Nat) = 3))
        = [1, 1, 1, 0, 1, 0, 1, 5, 6]) := by
  have h0 := SDNV_small 0 (by decide)
  have h1 := SDNV_small 1 (by decide)
  have h5 := SDNV_small 5 (by decide)
  have h6 := SDNV_small 6 (by decide)
  refine ⟨⟨by decide, ?_⟩, ⟨by decide, ?_⟩⟩
  · simp only [dataSegmentHeaderLayout, h0, h1, extensionsLayout]
    decide
  · simp only [dataSegmentHeaderLayout, h0, h1, h5, h6, extensionsLayout]
    decide

/-- C20 amended: for every type flag and metadata,
`GenerateLtpHeaderPlusDataSegmentMetadata` writes the control byte, the session
id, the extension-count byte, the header extensions, `SDNV(client_service_id)`,
`SDNV(offset)`, `SDNV(length)`, and then the checkpoint serial number and the
report serial number exactly when both pointers of the metadata are not `NULL`.
So the body has the shape of its type (serial numbers for the flags 1, 2, 3 and
only for them) exactly for the callers that set the two pointers for the
checkpoint types and for no other type. -/
theorem C20_data_segment_header_shape (dataSegmentTypeFlags : Nat) (sessionId : session_id_t)
    (dataSegmentMetadata : data_segment_metadata_t)
    (checkpointSerialNumberPointee reportSerialNumberPointee : Nat)
    (headerExtensions : Option ltp_extensions_t) (numTrailerExtensions : Nat)
    (hflags : dataSegmentTypeFlags < 256)
    (hsid : sessionId.sessionOriginatorEngineId < 2 ^ 64 ∧ sessionId.sessionNumber < 2 ^ 64)
    (hmd : dataSegmentMetadata.clientServiceId < 2 ^ 64 ∧ dataSegmentMetadata.offset < 2 ^ 64 ∧
      dataSegmentMetadata.length < 2 ^ 64)
    (hptr : checkpointSerialNumberPointee < 2 ^ 64 ∧ reportSerialNumberPointee < 2 ^ 64)
    (hh : (headerExtensions.getD []).length ≤ 15 ∧
      ∀ e ∈ headerExtensions.getD [], e.valueVec.length < 2 ^ 64)
    (ht : numTrailerExtensions ≤ 15) :
    GenerateLtpHeaderPlusDataSegmentMetadata dataSegmentTypeFlags sessionId dataSegmentMetadata
        checkpointSerialNumberPointee reportSerialNumberPointee headerExtensions
        numTrailerExtensions
      = dataSegmentHeaderLayout dataSegmentTypeFlags sessionId
          dataSegmentMetadata.clientServiceId dataSegmentMetadata.offset
          dataSegmentMetadata.length checkpointSerialNumberPointee reportSerialNumberPointee
          (headerExtensions.getD []) numTrailerExtensions
          (dataSegmentMetadata.checkpointSerialNumber && dataSegmentMetadata.reportSerialNumber) ∧
    (((dataSegmentMetadata.checkpointSerialNumber = true ∧
          dataSegmentMetadata.reportSerialNumber = true) ↔
        (dataSegmentTypeFlags = 1 ∨ dataSegmentTypeFlags = 2 ∨ dataSegmentTypeFlags = 3)) →
      GenerateLtpHeaderPlusDataSegmentMetadata dataSegmentTypeFlags sessionId dataSegmentMetadata
          checkpointSerialNumberPointee reportSerialNumberPointee headerExtensions
          numTrailerExtensions
        = dataSegmentHeaderLayout dataSegmentTypeFlags sessionId
            dataSegmentMetadata.clientServiceId dataSegmentMetadata.offset
            dataSegmentMetadata.length checkpointSerialNumberPointee reportSerialNumberPointee
            (headerExtensions.getD []) numTrailerExtensions
            (decide (dataSegmentTypeFlags = 1 ∨ dataSegmentTypeFlags = 2 ∨
              dataSegmentTypeFlags = 3))) := by
  have hmain : GenerateLtpHeaderPlusDataSegmentMetadata dataSegmentTypeFlags sessionId
        dataSegmentMetadata checkpointSerialNumberPointee reportSerialNumberPointee
        headerExtensions numTrailerExtensions
      = dataSegmentHeaderLayout dataSegmentTypeFlags sessionId
          dataSegmentMetadata.clientServiceId dataSegmentMetadata.offset
          dataSegmentMetadata.length checkpointSerialNumberPointee reportSerialNumberPointee
          (headerExtensions.getD []) numTrailerExtensions
          (dataSegmentMetadata.checkpointSerialNumber &&
            dataSegmentMetadata.reportSerialNumber) := by
    have hb := extension_count_byte_data _ (Nat.lt_succ_of_le hh.1) _ (Nat.lt_succ_of_le ht)
    have ef : toU8 dataSegmentTypeFlags = dataSegmentTypeFlags := Nat.mod_eq_of_lt hflags
    unfold GenerateLtpHeaderPlusDataSegmentMetadata dataSegmentHeaderLayout
      data_segment_metadata_t.Serialize session_id_t.Serialize
    rw [encode_eq_SDNV _ hsid.1, encode_eq_SDNV _ hsid.2, encode_eq_SDNV _ hmd.1,
      encode_eq_SDNV _ hmd.2.1, encode_eq_SDNV _ hmd.2.2, encode_eq_SDNV _ hptr.1,
      encode_eq_SDNV _ hptr.2, ef]
    cases headerExtensions with
    | none =>
      simp only [Option.getD_none, List.length_nil] at hb ⊢
      have hb' : toU8 (0 <<< 4 ||| numTrailerExtensions) = 0 <<< 4 ||| numTrailerExtensions := by
        simpa [toU8] using hb
      simp only [hb', extensionsLayout, List.append_nil, List.append_assoc, Bool.and_eq_true]
    | some h =>
      simp only [Option.getD_some] at hb hh ⊢
      rw [extensions_Serialize_eq h hh.2, hb]
      simp only [List.append_assoc, Bool.and_eq_true]
  refine ⟨hmain, ?_⟩
  intro hiff
  rw [hmain]
  congr 1
  rw [Bool.eq_iff_iff]
  simp only [Bool.and_eq_true, decide_eq_true_eq]
  exact hiff

theorem C20_witness :
    GenerateLtpHeaderPlusDataSegmentMetadata 1 ⟨1, 2⟩ ⟨3, 4, 5, 0, 0, true, true⟩ 6 7 none 0
      = dataSegmentHeaderLayout 1 ⟨1, 2⟩ 3 4 5 6 7 ((none : Option ltp_extensions_t).getD []) 0
          (true && true) ∧
    (((true = true ∧ true = true) ↔ ((1 : Nat) = 1 ∨ (1 : Nat) = 2 ∨ (1 : Nat) = 3)) →
      GenerateLtpHeaderPlusDataSegmentMetadata 1 ⟨1, 2⟩ ⟨3, 4, 5, 0, 0, true, true⟩ 6 7 none 0
        = dataSegmentHeaderLayout 1 ⟨1, 2⟩ 3 4 5 6 7 ((none : Option ltp_extensions_t).getD []) 0
            (decide ((1 : Nat) = 1 ∨ (1 : Nat) = 2 ∨ (1 : Nat) = 3))) :=
  C20_data_segment_header_shape 1 ⟨1, 2⟩ ⟨3, 4, 5, 0, 0, true, true⟩ 6 7 none 0
    (by decide) (by decide) (by decide) (by decide) (by decide) (by decide)

/-! ### Reading a segment byte by byte -/


/-! ### Complete SDNVs -/

theorem IsSdnv.split {bs : List Nat} {v : Nat} (h : IsSdnv bs v) :
    ∃ cont last, bs = cont ++ [last] ∧ (∀ b ∈ cont, b / 128 % 2 = 1) ∧ last / 128 % 2 = 0 ∧
      cont.length ≤ 9 ∧ ¬ (cont.length + 1 = 10 ∧ (cont ++ [last]).getD 0 0 > 0x81) ∧
      accum 0 (cont ++ [last]) = v := by
  obtain ⟨h1, h10, hhigh, hlast, hfirst, hacc⟩ := h
  have hne : bs ≠ [] := by
    intro h0; rw [h0] at h1; simp at h1
  have hsplit : bs = bs.dropLast ++ [bs.getLast hne] := (List.dropLast_append_getLast hne).symm
  have hlast' : bs.getLastD 0 = bs.getLast hne := by
    cases bs with
    | nil => exact absurd rfl hne
    | cons a t => rfl
  refine ⟨bs.dropLast, bs.getLast hne, hsplit, hhigh, by rw [← hlast']; exact hlast, ?_, ?_, ?_⟩
  · rw [List.length_dropLast]; omega
  · rw [← hsplit, List.length_dropLast]
    intro hc
    exact hfirst ⟨by omega, hc.2⟩
  · rw [← hsplit]; exact hacc

theorem IsSdnv.of_parts (cont : List Nat) (last : Nat) (hcont : ∀ b ∈ cont, b / 128 % 2 = 1)
    (hlast : last / 128 % 2 = 0) (hlen : cont.length ≤ 9)
    (hfirst : ¬ (cont.length + 1 = 10 ∧ (cont ++ [last]).getD 0 0 > 0x81)) :
    IsSdnv (cont ++ [last]) (accum 0 (cont ++ [last])) := by
  refine ⟨by simp, by simp; omega, by simpa using hcont, by simpa using hlast, ?_, rfl⟩
  intro hc
  exact hfirst ⟨by simpa using hc.1, hc.2⟩

theorem IsSdnv.length_pos {bs : List Nat} {v : Nat} (h : IsSdnv bs v) : 1 ≤ bs.length := h.1

theorem IsSdnv.length_le {bs : List Nat} {v : Nat} (h : IsSdnv bs v) : bs.length ≤ 10 := h.2.1

theorem IsSdnv.decode_single {bs : List Nat} {v : Nat} (h : IsSdnv bs v) (rest : List Nat)
    (bufferSize : Nat) (hsz : bs.length ≤ bufferSize) :
    SdnvDecodeU64Classic (bs ++ rest) bufferSize = ⟨.value v, bs.length⟩ := by
  obtain ⟨cont, last, rfl, hcont, hlast, hlen, hfirst, hacc⟩ := h.split
  simp only [List.length_append, List.length_singleton] at hsz ⊢
  unfold SdnvDecodeU64Classic
  have hrun := loop_run cont hcont last hlast rest [] (min 10 bufferSize) 0 (by omega)
  simp only [List.nil_append, List.length_nil, Nat.zero_add] at hrun
  have e : cont ++ [last] ++ rest = cont ++ last :: rest := by simp
  rw [e, hrun]
  have hfirst' : ¬ (cont.length + 1 = 10 ∧ (cont ++ last :: rest).getD 0 0 > 0x81) := by
    intro hc
    apply hfirst
    refine ⟨hc.1, ?_⟩
    have : (cont ++ [last]).getD 0 0 = (cont ++ last :: rest).getD 0 0 := by
      cases cont <;> rfl
    rw [this]; exact hc.2
  rw [if_neg hfirst', hacc]

theorem IsSdnv.of_encode (v : Nat) (hv : v < 2 ^ 64) : IsSdnv (SdnvEncodeU64ClassicBufSize10 v) v := by
  obtain ⟨k, hk9, hshape, hlt, hlo⟩ := encode10_shape v hv
  rw [hshape]
  have hacc : accum 0 (contGroups v k ++ [v % 128]) = v := by
    have h := accum_contGroups v hv k
    have h0 : v / 2 ^ (7 * (k + 1)) = 0 := Nat.div_eq_of_lt hlt
    rwa [h0] at h
  have h := IsSdnv.of_parts (contGroups v k) (v % 128) (contGroups_high v k) (by omega)
    (by rw [contGroups_length]; exact hk9) ?_
  · rwa [hacc] at h
  · rw [contGroups_length]
    intro hc
    have hk : k = 9 := by omega
    subst hk
    have hget : (contGroups v 9 ++ [v % 128]).getD 0 0 = v / 2 ^ 63 % 128 + 128 := by
      simp [contGroups]
    have : v / 2 ^ 63 < 2 := Nat.div_lt_of_lt_mul (by omega)
    rw [hget] at hc
    omega

theorem IsSdnvs.decode_array : ∀ (vs : List Nat) (bytes : List Nat), IsSdnvs bytes vs →
    ∀ (k : Nat) (rest : List Nat) (bufferSize taken : Nat) (stored : List Nat),
      bytes.length ≤ bufferSize → bufferSize < 2 ^ 64 →
      SdnvDecodeArrayU64Classic.loop (vs.length + k) (bytes ++ rest) bufferSize taken stored
        = SdnvDecodeArrayU64Classic.loop k rest (bufferSize - bytes.length)
            (taken + bytes.length) (stored ++ vs) := by
  intro vs
  induction vs with
  | nil =>
    intro bytes h k rest bufferSize taken stored _ _
    simp only [IsSdnvs] at h
    subst h
    simp
  | cons v vs ih =>
    intro bytes h k rest bufferSize taken stored hsz h64
    obtain ⟨bs, tail, rfl, hbs, htail⟩ := h
    simp only [List.length_append] at hsz
    have hdec := hbs.decode_single (tail ++ rest) bufferSize (by omega)
    have e1 : (v :: vs).length + k = (vs.length + k) + 1 := by simp; omega
    rw [e1, List.append_assoc,
      array_loop_step _ _ _ _ _ v bs.length hdec hbs.length_pos (by omega) h64,
      List.drop_left, ih tail htail k rest _ _ _ (by omega) (by omega)]
    simp only [List.length_append, List.append_assoc, List.singleton_append]
    congr 1
    · omega
    · omega

theorem IsSdnvs.bytes_le : ∀ (vs : List Nat) (bytes : List Nat), IsSdnvs bytes vs →
    bytes.length ≤ 10 * vs.length := by
  intro vs
  induction vs with
  | nil => intro bytes h; simp only [IsSdnvs] at h; subst h; simp
  | cons v vs ih =>
    intro bytes h
    obtain ⟨bs, tail, rfl, hbs, htail⟩ := h
    have := ih tail htail
    have := hbs.length_le
    simp only [List.length_append, List.length_cons]
    omega

/-! ### One byte of an SDNV read into `m_sdnvTempVec` -/

theorem low_bit_clear_iff (b : Nat) : b &&& 0x80 = 0 ↔ b / 128 % 2 = 0 := byte_and_80 b

theorem pushSdnvByte_high (tv : List Nat) (b : Nat) (hb : b / 128 % 2 = 1) (hlen : tv.length < 10) :
    pushSdnvByte tv b = (tv ++ [b], .incomplete) := by
  unfold pushSdnvByte
  have h1 : ¬ (tv ++ [b]).length > 10 := by simp; omega
  have h2 : ¬ b &&& 0x80 = 0 := by
    rw [low_bit_clear_iff]; omega
  simp only [h1, h2, if_false]

theorem pushSdnvByte_overflow (tv : List Nat) (b : Nat) (hlen : 10 ≤ tv.length) :
    pushSdnvByte tv b = (tv ++ [b], .failure) := by
  unfold pushSdnvByte
  have h1 : (tv ++ [b]).length > 10 := by simp; omega
  simp only [h1, if_true]

theorem pushSdnvByte_last (cont : List Nat) (last v : Nat) (h : IsSdnv (cont ++ [last]) v) :
    pushSdnvByte cont last = (cont ++ [last], .complete v) := by
  have hdec := h.decode_single [] sdnvTempVecCapacity (by have := h.length_le; simp [sdnvTempVecCapacity] at *; omega)
  rw [List.append_nil] at hdec
  obtain ⟨_, h10, _, hlast, _, _⟩ := h
  unfold pushSdnvByte
  have h1 : ¬ (cont ++ [last]).length > 10 := by omega
  have h2 : last &&& 0x80 = 0 := by
    rw [low_bit_clear_iff]
    simpa using hlast
  simp only [h1, h2, if_false, if_true, hdec, ne_eq, not_true_eq_false]

/-! ### The loop of `HandleReceivedChars`, byte by byte -/

theorem HandleReceivedChars_loop_fuel (fuel : Nat) : ∀ (s : Ltp) (rxVals : List Nat),
    rxVals.length ≤ fuel →
    HandleReceivedChars.loop fuel s rxVals = HandleReceivedChars s rxVals := by
  induction fuel using Nat.strong_induction_on with
  | _ fuel ih =>
    intro s rxVals h
    unfold HandleReceivedChars
    cases rxVals with
    | nil => rw [HandleReceivedChars_loop_nil, HandleReceivedChars_loop_nil]
    | cons b rest =>
      obtain ⟨f, rfl⟩ : ∃ f, fuel = f + 1 := ⟨fuel - 1, by simp at h; omega⟩
      simp only [List.length_cons] at h ⊢
      rw [HandleReceivedChars.loop, HandleReceivedChars.loop]
      have hc := step_consumes s b rest
      cases hs : HandleReceivedChars.step s b rest with
      | failure s1 => rfl
      | ok s1 rest1 =>
        rw [hs] at hc
        simp only [RxResult.consumes] at hc
        simp only []
        rw [ih f (by omega) s1 rest1 (by omega), ih rest.length (by omega) s1 rest1 hc]

theorem HandleReceivedChars_nil (s : Ltp) : HandleReceivedChars s [] = some (true, s) := rfl

theorem HandleReceivedChars_cons (s : Ltp) (b : Nat) (rest : List Nat) :
    HandleReceivedChars s (b :: rest) = (HandleReceivedChars.step s b rest).finish := by
  have hc := step_consumes s b rest
  unfold HandleReceivedChars
  simp only [List.length_cons]
  rw [HandleReceivedChars.loop]
  cases hs : HandleReceivedChars.step s b rest with
  | failure s1 => rfl
  | ok s1 rest1 =>
    rw [hs] at hc
    simp only [RxResult.consumes] at hc
    simp only [RxResult.finish]
    exact HandleReceivedChars_loop_fuel _ s1 rest1 hc

theorem Passes.call_cons {s s' : Ltp} {b : Nat} (h : Passes s b s') (rest : List Nat) :
    HandleReceivedChars s (b :: rest) = HandleReceivedChars s' rest := by
  rw [HandleReceivedChars_cons, h rest]
  rfl

/-! ### Runs -/

theorem Run.empty (s : Ltp) : Run s [] s := rfl

theorem Run.one {s s' : Ltp} {b : Nat} (h : Passes s b s') : Run s [b] s' := ⟨s', h, rfl⟩

theorem Run.append {s s1 s2 : Ltp} {bs cs : List Nat} (h1 : Run s bs s1) (h2 : Run s1 cs s2) :
    Run s (bs ++ cs) s2 := by
  induction bs generalizing s with
  | nil =>
    simp only [Run] at h1
    subst h1
    exact h2
  | cons b bs ih =>
    obtain ⟨t, hp, hr⟩ := h1
    exact ⟨t, hp, ih hr⟩

theorem Run.cut {s s2 : Ltp} {bs cs : List Nat} (h : Run s (bs ++ cs) s2) :
    ∃ s1, Run s bs s1 ∧ Run s1 cs s2 := by
  induction bs generalizing s with
  | nil => exact ⟨s, rfl, h⟩
  | cons b bs ih =>
    obtain ⟨t, hp, hr⟩ := h
    obtain ⟨s1, h1, h2⟩ := ih hr
    exact ⟨s1, ⟨t, hp, h1⟩, h2⟩

theorem Run.call_append {s s' : Ltp} {bs : List Nat} (h : Run s bs s') (rest : List Nat) :
    HandleReceivedChars s (bs ++ rest) = HandleReceivedChars s' rest := by
  induction bs generalizing s with
  | nil =>
    simp only [Run] at h
    subst h
    rfl
  | cons b bs ih =>
    obtain ⟨t, hp, hr⟩ := h
    rw [List.cons_append, hp.call_cons, ih hr]

theorem Run.call_all {s s' : Ltp} {bs : List Nat} (h : Run s bs s') :
    HandleReceivedChars s bs = some (true, s') := by
  have := h.call_append []
  rwa [List.append_nil, HandleReceivedChars_nil] at this

/-- A run does not depend on how its bytes are spread over calls: every call
returns `true` and the parser ends where the run ends. -/
theorem Run.feed_chunks {s' : Ltp} : ∀ (chunks : List (List Nat)) (s : Ltp),
    Run s chunks.flatten s' →
    feedChunks s chunks = some (List.replicate chunks.length true, s') := by
  intro chunks
  induction chunks with
  | nil =>
    intro s h
    simp only [List.flatten_nil, Run] at h
    subst h
    rfl
  | cons c chunks ih =>
    intro s h
    rw [List.flatten_cons] at h
    obtain ⟨s1, h1, h2⟩ := h.cut
    rw [feedChunks, h1.call_all]
    simp only []
    rw [ih s1 h2]
    rfl

theorem flatten_singletons (bs : List Nat) : (bs.map (fun b => [b])).flatten = bs := by
  induction bs with
  | nil => rfl
  | cons b bs ih => simp [ih]

theorem Run.feed_bytes {s s' : Ltp} {bs : List Nat} (h : Run s bs s') :
    feedChunks s (bs.map (fun b => [b])) = some (List.replicate bs.length true, s') := by
  have := Run.feed_chunks (bs.map (fun b => [b])) s (by rw [flatten_singletons]; exact h)
  rwa [List.length_map] at this


/-! ### The states that read an SDNV -/

theorem step_sdnv_incomplete (s : Ltp) (b : Nat) (rxVals : List Nat) (hs : readsSdnv s)
    (hp : pushSdnvByte s.m_sdnvTempVec b = (s.m_sdnvTempVec ++ [b], .incomplete)) :
    HandleReceivedChars.step s b rxVals
      = .ok { s with m_sdnvTempVec := s.m_sdnvTempVec ++ [b] } rxVals := by
  unfold readsSdnv at hs
  rw [HandleReceivedChars.step]
  cases hm : s.m_mainRxState <;> simp only [hm] at hs ⊢
  · rcases hs with h | h | h <;> simp only [h, hp]
  · cases hd : s.m_dataSegmentRxState <;> simp only [hd, hp] at hs ⊢
    exact absurd rfl hs
  · cases hr : s.m_reportSegmentRxState <;> simp only [hr, hp]
  · simp only [hp]
  · simp only [hs, hp]

theorem step_sdnv_failure (s : Ltp) (b : Nat) (rxVals : List Nat) (hs : readsSdnv s)
    (hp : pushSdnvByte s.m_sdnvTempVec b = (s.m_sdnvTempVec ++ [b], .failure)) :
    HandleReceivedChars.step s b rxVals
      = .failure { s with m_sdnvTempVec := s.m_sdnvTempVec ++ [b] } := by
  unfold readsSdnv at hs
  rw [HandleReceivedChars.step]
  cases hm : s.m_mainRxState <;> simp only [hm] at hs ⊢
  · rcases hs with h | h | h <;> simp only [h, hp]
  · cases hd : s.m_dataSegmentRxState <;> simp only [hd, hp] at hs ⊢
    exact absurd rfl hs
  · cases hr : s.m_reportSegmentRxState <;> simp only [hr, hp]
  · simp only [hp]
  · simp only [hs, hp]

theorem Passes.sdnv_high (s : Ltp) (b : Nat) (hs : readsSdnv s) (hb : b / 128 % 2 = 1)
    (hlen : s.m_sdnvTempVec.length < 10) :
    Passes s b { s with m_sdnvTempVec := s.m_sdnvTempVec ++ [b] } :=
  fun rxVals => step_sdnv_incomplete s b rxVals hs (pushSdnvByte_high _ b hb hlen)

theorem Run.sdnv_continuation : ∀ (cont : List Nat) (s : Ltp), readsSdnv s →
    (∀ b ∈ cont, b / 128 % 2 = 1) → s.m_sdnvTempVec.length + cont.length ≤ 10 →
    Run s cont { s with m_sdnvTempVec := s.m_sdnvTempVec ++ cont } := by
  intro cont
  induction cont with
  | nil =>
    intro s _ _ _
    simp only [Run, List.append_nil]
  | cons b cont ih =>
    intro s hs hhigh hlen
    simp only [List.length_cons] at hlen
    have hp := Passes.sdnv_high s b hs (hhigh b (List.mem_cons_self _ _)) (by omega)
    have hr := ih { s with m_sdnvTempVec := s.m_sdnvTempVec ++ [b] } hs
      (fun x hx => hhigh x (List.mem_cons_of_mem _ hx))
      (by simp only [List.length_append, List.length_singleton]; omega)
    simp only [List.append_assoc, List.singleton_append] at hr
    exact ⟨_, hp, hr⟩

/-- The bytes of a complete SDNV but the last, read from the start of the
field. -/
theorem Run.sdnv_prefix (s : Ltp) (hs : readsSdnv s) (h0 : s.m_sdnvTempVec = [])
    (cont : List Nat) (last v : Nat) (h : IsSdnv (cont ++ [last]) v) :
    Run s cont { s with m_sdnvTempVec := cont } := by
  obtain ⟨_, h10, hhigh, _, _, _⟩ := h
  have hr := Run.sdnv_continuation cont s hs (by simpa using hhigh)
    (by rw [h0]; simp at h10 ⊢; omega)
  rwa [h0, List.nil_append] at hr

/-! ### The header -/

theorem array_nil (n : Nat) : SdnvDecodeArrayU64Classic [] (n + 1) 0 = ⟨0, [], 0, false⟩ := by
  unfold SdnvDecodeArrayU64Classic
  rw [SdnvDecodeArrayU64Classic.loop]
  rfl

theorem IsSdnvs.decode_all {vs bytes : List Nat} (h : IsSdnvs bytes vs) (rest : List Nat)
    (h64 : (bytes ++ rest).length < 2 ^ 64) (h32 : vs.length < 2 ^ 32) :
    SdnvDecodeArrayU64Classic (bytes ++ rest) vs.length (bytes ++ rest).length
      = ⟨vs.length, vs, bytes.length, false⟩ := by
  unfold SdnvDecodeArrayU64Classic
  have := IsSdnvs.decode_array vs bytes h 0 rest (bytes ++ rest).length 0 []
    (by simp) h64
  rw [Nat.add_zero] at this
  rw [this, SdnvDecodeArrayU64Classic.loop]
  simp only [List.nil_append, Nat.zero_add, toU32]
  rw [Nat.mod_eq_of_lt h32]

theorem IsSdnvs.two {E N : List Nat} {e n : Nat} (hE : IsSdnv E e) (hN : IsSdnv N n) :
    IsSdnvs (E ++ N) [e, n] :=
  ⟨E, N, rfl, hE, N, [], by simp, hN, rfl⟩

/-- The control byte with the session id in the same call: the two SDNVs are
decoded at once. -/
theorem step_control_whole (s : Ltp) (c : Nat) (E N tail : List Nat) (e n : Nat)
    (h1 : s.m_mainRxState = .READ_HEADER) (h2 : s.m_headerRxState = .READ_CONTROL_BYTE)
    (hc : c >>> 4 = 0) (hE : IsSdnv E e) (hN : IsSdnv N n)
    (h64 : (E ++ N ++ tail).length < 2 ^ 64) :
    HandleReceivedChars.step s c (E ++ N ++ tail) = .ok (headerRead s c e n []) tail := by
  have hd := (IsSdnvs.two hE hN).decode_all tail h64 (by simp)
  rw [step_READ_CONTROL_BYTE s c _ h1 h2 hc e n (E ++ N).length hd, List.drop_left]
  rfl

/-- The control byte alone in its call. -/
theorem step_control_alone (s : Ltp) (c : Nat)
    (h1 : s.m_mainRxState = .READ_HEADER) (h2 : s.m_headerRxState = .READ_CONTROL_BYTE)
    (hc : c >>> 4 = 0) :
    HandleReceivedChars.step s c [] = .ok (controlRead s c) [] := by
  rw [HandleReceivedChars.step]
  simp only [controlRead, h1, h2, hc, List.length_nil, array_nil, ne_eq, not_true_eq_false,
    if_false, Bool.false_eq_true]
  rfl

theorem Passes.engine_id (s : Ltp) (b v : Nat)
    (h1 : s.m_mainRxState = .READ_HEADER)
    (h2 : s.m_headerRxState = .READ_SESSION_ORIGINATOR_ENGINE_ID_SDNV)
    (h : IsSdnv (s.m_sdnvTempVec ++ [b]) v) :
    Passes s b { s with m_sessionId := { s.m_sessionId with sessionOriginatorEngineId := v }
                        m_sdnvTempVec := []
                        m_headerRxState := .READ_SESSION_NUMBER_SDNV } := by
  intro rxVals
  rw [HandleReceivedChars.step]
  simp only [h1, h2, pushSdnvByte_last _ b v h]

theorem Passes.session_number (s : Ltp) (b v : Nat)
    (h1 : s.m_mainRxState = .READ_HEADER)
    (h2 : s.m_headerRxState = .READ_SESSION_NUMBER_SDNV)
    (h : IsSdnv (s.m_sdnvTempVec ++ [b]) v) :
    Passes s b { s with m_sessionId := { s.m_sessionId with sessionNumber := v }
                        m_sdnvTempVec := s.m_sdnvTempVec ++ [b]
                        m_headerRxState := .READ_NUM_EXTENSIONS_BYTE } := by
  intro rxVals
  rw [HandleReceivedChars.step]
  simp only [h1, h2, pushSdnvByte_last _ b v h]

theorem Run.engine_id_field (s : Ltp) (E : List Nat) (e : Nat)
    (h1 : s.m_mainRxState = .READ_HEADER)
    (h2 : s.m_headerRxState = .READ_SESSION_ORIGINATOR_ENGINE_ID_SDNV)
    (h0 : s.m_sdnvTempVec = []) (hE : IsSdnv E e) :
    Run s E { s with m_sessionId := { s.m_sessionId with sessionOriginatorEngineId := e }
                     m_sdnvTempVec := []
                     m_headerRxState := .READ_SESSION_NUMBER_SDNV } := by
  obtain ⟨cont, last, rfl, -⟩ := hE.split
  have r := Run.sdnv_prefix s (by simp [readsSdnv, h1, h2]) h0 cont last e hE
  exact r.append (Run.one (Passes.engine_id _ last e h1 h2 hE))

theorem Run.session_number_field (s : Ltp) (N : List Nat) (n : Nat)
    (h1 : s.m_mainRxState = .READ_HEADER)
    (h2 : s.m_headerRxState = .READ_SESSION_NUMBER_SDNV)
    (h0 : s.m_sdnvTempVec = []) (hN : IsSdnv N n) :
    Run s N { s with m_sessionId := { s.m_sessionId with sessionNumber := n }
                     m_sdnvTempVec := N
                     m_headerRxState := .READ_NUM_EXTENSIONS_BYTE } := by
  obtain ⟨cont, last, rfl, -⟩ := hN.split
  have r := Run.sdnv_prefix s (by simp [readsSdnv, h1, h2]) h0 cont last n hN
  exact r.append (Run.one (Passes.session_number _ last n h1 h2 hN))

/-- The session id read byte by byte after a control byte that came alone. -/
theorem Run.session_id (s : Ltp) (c : Nat) (E N : List Nat) (e n : Nat)
    (h1 : s.m_mainRxState = .READ_HEADER) (hE : IsSdnv E e) (hN : IsSdnv N n) :
    Run (controlRead s c) (E ++ N) (headerRead s c e n N) :=
  (Run.engine_id_field (controlRead s c) E e h1 rfl rfl hE).append
    (Run.session_number_field _ N n h1 rfl rfl hN)

/-! ### The extension-count byte and the header extensions -/

theorem Passes.num_extensions (s : Ltp) (x : Nat)
    (h1 : s.m_mainRxState = .READ_HEADER) (h2 : s.m_headerRxState = .READ_NUM_EXTENSIONS_BYTE)
    (hx : x >>> 4 ≠ 0) :
    Passes s x { s with m_numHeaderExtensionTlvs := x >>> 4
                        m_numTrailerExtensionTlvs := x &&& 0x0f
                        m_headerExtensions := []
                        m_trailerExtensions := []
                        m_headerRxState := .READ_ONE_HEADER_EXTENSION_TAG_BYTE } := by
  intro rxVals
  rw [HandleReceivedChars.step]
  simp only [h1, h2, hx, ne_eq, not_false_eq_true, if_true]

theorem step_num_extensions_none (s : Ltp) (x : Nat) (rxVals : List Nat)
    (h1 : s.m_mainRxState = .READ_HEADER) (h2 : s.m_headerRxState = .READ_NUM_EXTENSIONS_BYTE)
    (hx : x >>> 4 = 0) :
    HandleReceivedChars.step s x rxVals
      = NextStateAfterHeaderExtensions
          { s with m_numHeaderExtensionTlvs := x >>> 4
                   m_numTrailerExtensionTlvs := x &&& 0x0f
                   m_headerExtensions := []
                   m_trailerExtensions := [] } rxVals := by
  rw [HandleReceivedChars.step]
  simp only [h1, h2, hx, ne_eq, not_true_eq_false, if_false]

theorem Passes.header_tag (s : Ltp) (tag : Nat)
    (h1 : s.m_mainRxState = .READ_HEADER)
    (h2 : s.m_headerRxState = .READ_ONE_HEADER_EXTENSION_TAG_BYTE) :
    Passes s tag { s with m_headerExtensions := s.m_headerExtensions ++ [⟨tag, []⟩]
                          m_sdnvTempVec := []
                          m_headerRxState := .READ_ONE_HEADER_EXTENSION_LENGTH_SDNV } := by
  intro rxVals
  rw [HandleReceivedChars.step]
  simp only [h1, h2]

theorem Passes.header_length_value (s : Ltp) (b len : Nat)
    (h1 : s.m_mainRxState = .READ_HEADER)
    (h2 : s.m_headerRxState = .READ_ONE_HEADER_EXTENSION_LENGTH_SDNV)
    (h : IsSdnv (s.m_sdnvTempVec ++ [b]) len) (hlen : len ≠ 0) :
    Passes s b { s with m_sdnvTempVec := s.m_sdnvTempVec ++ [b]
                        m_currentHeaderExtensionLength := len
                        m_headerRxState := .READ_ONE_HEADER_EXTENSION_VALUE } := by
  intro rxVals
  rw [HandleReceivedChars.step]
  simp only [h1, h2, pushSdnvByte_last _ b len h, hlen, if_false]

theorem Passes.header_length_zero_more (s : Ltp) (b : Nat)
    (h1 : s.m_mainRxState = .READ_HEADER)
    (h2 : s.m_headerRxState = .READ_ONE_HEADER_EXTENSION_LENGTH_SDNV)
    (h : IsSdnv (s.m_sdnvTempVec ++ [b]) 0)
    (hmore : s.m_headerExtensions.length ≠ s.m_numHeaderExtensionTlvs) :
    Passes s b { s with m_sdnvTempVec := s.m_sdnvTempVec ++ [b]
                        m_currentHeaderExtensionLength := 0
                        m_headerRxState := .READ_ONE_HEADER_EXTENSION_TAG_BYTE } := by
  intro rxVals
  rw [HandleReceivedChars.step]
  simp only [h1, h2, pushSdnvByte_last _ b 0 h, hmore, if_true, if_false]

theorem step_header_length_zero_last (s : Ltp) (b : Nat) (rxVals : List Nat)
    (h1 : s.m_mainRxState = .READ_HEADER)
    (h2 : s.m_headerRxState = .READ_ONE_HEADER_EXTENSION_LENGTH_SDNV)
    (h : IsSdnv (s.m_sdnvTempVec ++ [b]) 0)
    (hlast : s.m_headerExtensions.length = s.m_numHeaderExtensionTlvs) :
    HandleReceivedChars.step s b rxVals
      = NextStateAfterHeaderExtensions
          { s with m_sdnvTempVec := s.m_sdnvTempVec ++ [b]
                   m_currentHeaderExtensionLength := 0 } rxVals := by
  rw [HandleReceivedChars.step]
  simp only [h1, h2, pushSdnvByte_last _ b 0 h, hlast, if_true]

theorem pushToLastValueVec_append (done : ltp_extensions_t) (e : ltp_extension_t) (b : Nat) :
    pushToLastValueVec (done ++ [e]) b = done ++ [{ e with valueVec := e.valueVec ++ [b] }] := by
  induction done with
  | nil => rfl
  | cons a done ih =>
    cases done with
    | nil => rfl
    | cons a' done => exact congrArg (List.cons a) ih

theorem getLastD_append_one (done : ltp_extensions_t) (e d : ltp_extension_t) :
    (done ++ [e]).getLastD d = e := by
  induction done generalizing d with
  | nil => rfl
  | cons a done ih =>
    rw [List.cons_append, List.getLastD_cons]
    exact ih a

theorem Passes.header_value_more (s : Ltp) (b tag : Nat) (done : ltp_extensions_t)
    (p : List Nat)
    (h1 : s.m_mainRxState = .READ_HEADER)
    (h2 : s.m_headerRxState = .READ_ONE_HEADER_EXTENSION_VALUE)
    (he : s.m_headerExtensions = done ++ [⟨tag, p⟩])
    (hlen : p.length + 1 ≠ s.m_currentHeaderExtensionLength) :
    Passes s b { s with m_headerExtensions := done ++ [⟨tag, p ++ [b]⟩] } := by
  intro rxVals
  rw [HandleReceivedChars.step]
  simp only [h1, h2, he, pushToLastValueVec_append, getLastD_append_one, List.length_append,
    List.length_singleton, hlen, if_false]

theorem Passes.header_value_next (s : Ltp) (b tag : Nat) (done : ltp_extensions_t)
    (p : List Nat)
    (h1 : s.m_mainRxState = .READ_HEADER)
    (h2 : s.m_headerRxState = .READ_ONE_HEADER_EXTENSION_VALUE)
    (he : s.m_headerExtensions = done ++ [⟨tag, p⟩])
    (hlen : p.length + 1 = s.m_currentHeaderExtensionLength)
    (hmore : done.length + 1 ≠ s.m_numHeaderExtensionTlvs) :
    Passes s b { s with m_headerExtensions := done ++ [⟨tag, p ++ [b]⟩]
                        m_headerRxState := .READ_ONE_HEADER_EXTENSION_TAG_BYTE } := by
  intro rxVals
  rw [HandleReceivedChars.step]
  simp only [h1, h2, he, pushToLastValueVec_append, getLastD_append_one, List.length_append,
    List.length_singleton, hlen, hmore, if_true, if_false]

theorem step_header_value_last (s : Ltp) (b tag : Nat) (done : ltp_extensions_t)
    (p : List Nat) (rxVals : List Nat)
    (h1 : s.m_mainRxState = .READ_HEADER)
    (h2 : s.m_headerRxState = .READ_ONE_HEADER_EXTENSION_VALUE)
    (he : s.m_headerExtensions = done ++ [⟨tag, p⟩])
    (hlen : p.length + 1 = s.m_currentHeaderExtensionLength)
    (hlast : done.length + 1 = s.m_numHeaderExtensionTlvs) :
    HandleReceivedChars.step s b rxVals
      = NextStateAfterHeaderExtensions
          { s with m_headerExtensions := done ++ [⟨tag, p ++ [b]⟩] } rxVals := by
  rw [HandleReceivedChars.step]
  simp only [h1, h2, he, pushToLastValueVec_append, getLastD_append_one, List.length_append,
    List.length_singleton, hlen, hlast, if_true]

theorem Run.header_value : ∀ (bs : List Nat) (s : Ltp) (tag : Nat) (done : ltp_extensions_t)
    (p : List Nat), s.m_mainRxState = .READ_HEADER →
    s.m_headerRxState = .READ_ONE_HEADER_EXTENSION_VALUE →
    s.m_headerExtensions = done ++ [⟨tag, p⟩] →
    p.length + bs.length < s.m_currentHeaderExtensionLength →
    Run s bs { s with m_headerExtensions := done ++ [⟨tag, p ++ bs⟩] } := by
  intro bs
  induction bs with
  | nil =>
    intro s tag done p _ _ he _
    simp only [Run, List.append_nil, ← he]
  | cons b bs ih =>
    intro s tag done p h1 h2 he hlen
    simp only [List.length_cons] at hlen
    have hp := Passes.header_value_more s b tag done p h1 h2 he (by omega)
    have hr := ih { s with m_headerExtensions := done ++ [⟨tag, p ++ [b]⟩] } tag done (p ++ [b])
      h1 h2 rfl (by simp only [List.length_append, List.length_singleton]; omega)
    simp only [List.append_assoc, List.singleton_append] at hr
    exact ⟨_, hp, hr⟩

/-- The header extensions, from the first tag byte to the byte before the last
one, are taken one by one; the last byte brings the parser to
`NextStateAfterHeaderExtensions` with all the extensions stored. -/
theorem header_extensions_run : ∀ (exts : ltp_extensions_t) (bytes : List Nat) (t : Ltp)
    (done : ltp_extensions_t),
    IsExtensions bytes exts → exts ≠ [] → t.m_mainRxState = .READ_HEADER →
    t.m_headerRxState = .READ_ONE_HEADER_EXTENSION_TAG_BYTE → t.m_headerExtensions = done →
    done.length + exts.length = t.m_numHeaderExtensionTlvs →
    ∃ (init : List Nat) (last : Nat) (tv : List Nat) (len : Nat) (hs : LTP_HEADER_RX_STATE)
      (spre : Ltp), bytes = init ++ [last] ∧ Run t init spre ∧
      (∀ rxVals, HandleReceivedChars.step spre last rxVals
        = NextStateAfterHeaderExtensions
            { t with m_headerExtensions := done ++ exts
                     m_sdnvTempVec := tv
                     m_currentHeaderExtensionLength := len
                     m_headerRxState := hs } rxVals) ∧
      spre.callbacks = t.callbacks := by
  intro exts
  induction exts with
  | nil => intro bytes t done _ hne; exact absurd rfl hne
  | cons e es ih =>
    intro bytes t done hb _ h1 h2 he hnum
    obtain ⟨L, rest, rfl, hL, hrest⟩ := hb
    obtain ⟨tag, value⟩ := e
    simp only [List.length_cons] at hnum
    simp only [] at hL
    obtain ⟨cont, l, rfl, -⟩ := hL.split
    have ptag := Passes.header_tag t tag h1 h2
    rw [he] at ptag
    have rcont := Run.sdnv_prefix
      { t with m_headerExtensions := done ++ [⟨tag, []⟩]
               m_sdnvTempVec := []
               m_headerRxState := .READ_ONE_HEADER_EXTENSION_LENGTH_SDNV }
      (by simp [readsSdnv, h1]) rfl cont l _ hL
    rcases List.eq_nil_or_concat value with hv | ⟨p, q, hv⟩
    · -- an extension without value
      subst hv
      simp only [List.length_nil] at hL
      by_cases hes : es = []
      · subst hes
        simp only [IsExtensions] at hrest
        subst hrest
        refine ⟨tag :: cont, l, cont ++ [l], 0, .READ_ONE_HEADER_EXTENSION_LENGTH_SDNV, _,
          by simp, (Run.one ptag).append rcont, ?_, rfl⟩
        intro rxVals
        rw [step_header_length_zero_last
          { t with m_headerExtensions := done ++ [⟨tag, []⟩]
                   m_sdnvTempVec := cont
                   m_headerRxState := .READ_ONE_HEADER_EXTENSION_LENGTH_SDNV }
          l rxVals h1 rfl hL
          (by simp only [List.length_append, List.length_singleton, List.length_nil] at hnum ⊢
              omega)]
      · have hpos : 1 ≤ es.length := by
          cases es with
          | nil => exact absurd rfl hes
          | cons a as => simp
        have pl := Passes.header_length_zero_more
          { t with m_headerExtensions := done ++ [⟨tag, []⟩]
                   m_sdnvTempVec := cont
                   m_headerRxState := .READ_ONE_HEADER_EXTENSION_LENGTH_SDNV }
          l h1 rfl hL
          (by simp only [List.length_append, List.length_singleton]; omega)
        obtain ⟨init', last', tv', len', hs', spre', hr', hrun', hfin', hcb'⟩ :=
          ih rest
            { t with m_headerExtensions := done ++ [⟨tag, []⟩]
                     m_sdnvTempVec := cont ++ [l]
                     m_currentHeaderExtensionLength := 0
                     m_headerRxState := .READ_ONE_HEADER_EXTENSION_TAG_BYTE }
            (done ++ [⟨tag, []⟩]) hrest hes h1 rfl rfl
            (by simp only [List.length_append, List.length_singleton]; omega)
        refine ⟨tag :: (cont ++ [l]) ++ init', last', tv', len', hs', spre', by simp [hr'],
          (((Run.one ptag).append rcont).append (Run.one pl)).append hrun', ?_, hcb'⟩
        intro rxVals
        rw [hfin' rxVals]
        simp only [List.append_assoc, List.singleton_append]
    · -- an extension with a value
      subst hv
      have hL' : IsSdnv (cont ++ [l]) (p ++ [q]).length := by
        simpa only [List.concat_eq_append] using hL
      have hlen0 : (p ++ [q]).length ≠ 0 := by simp
      have pl := Passes.header_length_value
        { t with m_headerExtensions := done ++ [⟨tag, []⟩]
                 m_sdnvTempVec := cont
                 m_headerRxState := .READ_ONE_HEADER_EXTENSION_LENGTH_SDNV }
        l (p ++ [q]).length h1 rfl hL' hlen0
      have rval := Run.header_value p
        { t with m_headerExtensions := done ++ [⟨tag, []⟩]
                 m_sdnvTempVec := cont ++ [l]
                 m_currentHeaderExtensionLength := (p ++ [q]).length
                 m_headerRxState := .READ_ONE_HEADER_EXTENSION_VALUE }
        tag done [] h1 rfl rfl (by simp)
      simp only [List.nil_append] at rval
      simp only [List.concat_eq_append] at hrest ⊢
      by_cases hes : es = []
      · subst hes
        simp only [IsExtensions] at hrest
        subst hrest
        refine ⟨tag :: (cont ++ [l]) ++ p, q, cont ++ [l], (p ++ [q]).length,
          .READ_ONE_HEADER_EXTENSION_VALUE, _, by simp,
          (((Run.one ptag).append rcont).append (Run.one pl)).append rval, ?_, rfl⟩
        intro rxVals
        rw [step_header_value_last
          { t with m_headerExtensions := done ++ [⟨tag, p⟩]
                   m_sdnvTempVec := cont ++ [l]
                   m_currentHeaderExtensionLength := (p ++ [q]).length
                   m_headerRxState := .READ_ONE_HEADER_EXTENSION_VALUE }
          q tag done p rxVals h1 rfl rfl (by simp)
          (by simp only [List.length_nil] at hnum ⊢; omega)]
      · have hpos : 1 ≤ es.length := by
          cases es with
          | nil => exact absurd rfl hes
          | cons a as => simp
        have pq := Passes.header_value_next
          { t with m_headerExtensions := done ++ [⟨tag, p⟩]
                   m_sdnvTempVec := cont ++ [l]
                   m_currentHeaderExtensionLength := (p ++ [q]).length
                   m_headerRxState := .READ_ONE_HEADER_EXTENSION_VALUE }
          q tag done p h1 rfl rfl (by simp) (by simp only []; omega)
        obtain ⟨init', last', tv', len', hs', spre', hr', hrun', hfin', hcb'⟩ :=
          ih rest
            { t with m_headerExtensions := done ++ [⟨tag, p ++ [q]⟩]
                     m_sdnvTempVec := cont ++ [l]
                     m_currentHeaderExtensionLength := (p ++ [q]).length
                     m_headerRxState := .READ_ONE_HEADER_EXTENSION_TAG_BYTE }
            (done ++ [⟨tag, p ++ [q]⟩]) hrest hes h1 rfl rfl
            (by simp only [List.length_append, List.length_singleton]; omega)
        refine ⟨[tag] ++ cont ++ [l] ++ p ++ [q] ++ init', last', tv', len', hs', spre',
          by simp [hr'],
          (((((Run.one ptag).append rcont).append (Run.one pl)).append rval).append
            (Run.one pq)).append hrun', ?_, hcb'⟩
        intro rxVals
        rw [hfin' rxVals]
        simp only [List.append_assoc, List.singleton_append]

/-- From the extension-count byte `x` to the end of the header extensions: all
bytes but the last are taken one by one, and the last one brings the parser to
`NextStateAfterHeaderExtensions` with the header read. -/
theorem header_tail_run (s : Ltp) (c e n x : Nat) (tv : List Nat) (exts : ltp_extensions_t)
    (H : List Nat) (h1 : s.m_mainRxState = .READ_HEADER) (hx : x >>> 4 = exts.length)
    (hH : IsExtensions H exts) :
    ∃ (init : List Nat) (last : Nat) (tv' : List Nat) (len : Nat) (hs : LTP_HEADER_RX_STATE)
      (spre : Ltp), [x] ++ H = init ++ [last] ∧ Run (headerRead s c e n tv) init spre ∧
      (∀ rxVals, HandleReceivedChars.step spre last rxVals
        = NextStateAfterHeaderExtensions (headerDone s c e n x exts tv' len hs) rxVals) ∧
      spre.callbacks = s.callbacks := by
  by_cases hexts : exts = []
  · subst hexts
    simp only [IsExtensions] at hH
    subst hH
    refine ⟨[], x, tv, s.m_currentHeaderExtensionLength, .READ_NUM_EXTENSIONS_BYTE,
      headerRead s c e n tv, rfl, rfl, ?_, rfl⟩
    intro rxVals
    rw [step_num_extensions_none (headerRead s c e n tv) x rxVals h1 rfl (by simpa using hx)]
    rfl
  · have hx0 : x >>> 4 ≠ 0 := by
      rw [hx]
      cases exts with
      | nil => exact absurd rfl hexts
      | cons a as => simp
    have px := Passes.num_extensions (headerRead s c e n tv) x h1 rfl hx0
    obtain ⟨init, last, tv', len, hs, spre, hb, hrun, hfin, hcb⟩ :=
      header_extensions_run exts H
        { headerRead s c e n tv with
            m_numHeaderExtensionTlvs := x >>> 4
            m_numTrailerExtensionTlvs := x &&& 0x0f
            m_headerExtensions := []
            m_trailerExtensions := []
            m_headerRxState := .READ_ONE_HEADER_EXTENSION_TAG_BYTE }
        [] hH hexts h1 rfl rfl (by simp only [List.length_nil, Nat.zero_add]; exact hx.symm)
    refine ⟨[x] ++ init, last, tv', len, hs, spre, by rw [hb, List.append_assoc],
      (Run.one px).append hrun, ?_, hcb⟩
    intro rxVals
    rw [hfin rxVals]
    simp only [List.nil_append]
    rfl

/-- A whole header in one call, from the beginning state: the call goes on as
`NextStateAfterHeaderExtensions` decides, with the bytes after the header. -/
theorem header_one_call (s : Ltp) (c e n x : Nat) (E N H tail : List Nat) (exts : ltp_extensions_t)
    (h1 : s.m_mainRxState = .READ_HEADER) (h2 : s.m_headerRxState = .READ_CONTROL_BYTE)
    (hc : c >>> 4 = 0) (hE : IsSdnv E e) (hN : IsSdnv N n) (hx : x >>> 4 = exts.length)
    (hH : IsExtensions H exts) (h64 : (c :: (E ++ N ++ ([x] ++ H ++ tail))).length < 2 ^ 64) :
    ∃ (tv : List Nat) (len : Nat) (hs : LTP_HEADER_RX_STATE),
      HandleReceivedChars s (c :: (E ++ N ++ ([x] ++ H ++ tail)))
        = (NextStateAfterHeaderExtensions (headerDone s c e n x exts tv len hs) tail).finish := by
  obtain ⟨init, last, tv, len, hs, spre, hb, hrun, hfin, -⟩ :=
    header_tail_run s c e n x [] exts H h1 hx hH
  refine ⟨tv, len, hs, ?_⟩
  rw [HandleReceivedChars_cons,
    step_control_whole s c E N _ e n h1 h2 hc hE hN (by simp at h64 ⊢; omega)]
  change HandleReceivedChars _ _ = _
  rw [hb, List.append_assoc, hrun.call_append, List.singleton_append, HandleReceivedChars_cons,
    hfin tail]

/-- A header one byte per call, from the beginning state: every call but the
last returns `true`, and the last byte is the one that brings the parser to
`NextStateAfterHeaderExtensions`. -/
theorem header_one_byte_per_call (s : Ltp) (c e n x : Nat) (E N H : List Nat) (exts : ltp_extensions_t)
    (h1 : s.m_mainRxState = .READ_HEADER) (h2 : s.m_headerRxState = .READ_CONTROL_BYTE)
    (hc : c >>> 4 = 0) (hE : IsSdnv E e) (hN : IsSdnv N n) (hx : x >>> 4 = exts.length)
    (hH : IsExtensions H exts) :
    ∃ (init : List Nat) (last : Nat) (tv : List Nat) (len : Nat) (hs : LTP_HEADER_RX_STATE)
      (spre : Ltp), c :: (E ++ N ++ ([x] ++ H)) = init ++ [last] ∧
      feedChunks s (init.map (fun b => [b])) = some (List.replicate init.length true, spre) ∧
      (∀ rxVals, HandleReceivedChars.step spre last rxVals
        = NextStateAfterHeaderExtensions (headerDone s c e n x exts tv len hs) rxVals) ∧
      spre.callbacks = s.callbacks := by
  obtain ⟨init, last, tv, len, hs, spre, hb, hrun, hfin, hcb⟩ :=
    header_tail_run s c e n x N exts H h1 hx hH
  have hsess := Run.session_id s c E N e n h1 hE hN
  have hrun2 := hsess.append hrun
  have hfeed := hrun2.feed_bytes
  have hfirst : HandleReceivedChars s [c] = some (true, controlRead s c) := by
    rw [HandleReceivedChars_cons, step_control_alone s c h1 h2 hc]
    rfl
  refine ⟨c :: (E ++ N ++ init), last, tv, len, hs, spre, ?_, ?_, hfin, hcb⟩
  · rw [hb]; simp
  · rw [List.map_cons, feedChunks, hfirst]
    simp only []
    rw [hfeed]
    simp [List.replicate_succ]

theorem feedChunks_snoc (s spre : Ltp) (init : List Nat) (last : Nat) (oks : List Bool)
    (h : feedChunks s (init.map (fun b => [b])) = some (oks, spre)) :
    feedChunks s ((init ++ [last]).map (fun b => [b]))
      = ((HandleReceivedChars.step spre last []).finish).map (fun r => (oks ++ [r.1], r.2)) := by
  rw [List.map_append, feedChunks_append, h]
  simp only [List.map_cons, List.map_nil, feedChunks, HandleReceivedChars_cons]
  cases (HandleReceivedChars.step spre last []).finish with
  | none => rfl
  | some r => rfl

theorem NextStateAfterHeaderExtensions_undefined (t : Ltp) (rxVals : List Nat)
    (h : t.m_segmentTypeFlags = 5 ∨ t.m_segmentTypeFlags = 6 ∨ t.m_segmentTypeFlags = 10 ∨
      t.m_segmentTypeFlags = 11) :
    NextStateAfterHeaderExtensions t rxVals = .failure t := by
  unfold NextStateAfterHeaderExtensions
  have hd : ¬ t.m_segmentTypeFlags &&& 0xd = 0xd := by
    rcases h with h | h | h | h <;> rw [h] <;> decide
  rw [if_neg hd, if_pos h]

/-- C17 (undefined segment types): a header with version 0 and type flags 5, 6,
10 or 11, any two complete SDNVs as session id, any extension-count byte and
the header extensions it announces. Given to a parser at its beginning state
in one call, with whatever follows, `HandleReceivedChars` returns `false` and no
callback is made. Given one byte per call, every call returns `true` until the
last byte of the header and its extensions, on which the call returns `false`;
no callback is made. -/
theorem C17_undefined_segment_types_rejected (s : Ltp) (flags e n x : Nat)
    (E N H rest : List Nat) (exts : ltp_extensions_t)
    (hs : IsAtBeginningState s = true)
    (hflags : flags = 5 ∨ flags = 6 ∨ flags = 10 ∨ flags = 11)
    (hE : IsSdnv E e) (hN : IsSdnv N n) (hx : x >>> 4 = exts.length)
    (hH : IsExtensions H exts)
    (h64 : (flags :: (E ++ N ++ ([x] ++ H ++ rest))).length < 2 ^ 64) :
    (∃ s', HandleReceivedChars s (flags :: (E ++ N ++ ([x] ++ H ++ rest))) = some (false, s') ∧
      s'.callbacks = s.callbacks) ∧
    (∃ s', feedChunks s ((flags :: (E ++ N ++ ([x] ++ H))).map (fun b => [b]))
        = some (List.replicate (E.length + N.length + H.length + 1) true ++ [false], s') ∧
      s'.callbacks = s.callbacks) := by
  have hs' : s.m_mainRxState = .READ_HEADER ∧ s.m_headerRxState = .READ_CONTROL_BYTE := by
    simpa [IsAtBeginningState] using hs
  have hc : flags >>> 4 = 0 ∧ flags &&& 0x0f = flags := by
    rcases hflags with h | h | h | h <;> rw [h] <;> decide
  have hfail : ∀ tv len hst rxVals,
      NextStateAfterHeaderExtensions (headerDone s flags e n x exts tv len hst) rxVals
        = .failure (headerDone s flags e n x exts tv len hst) := by
    intro tv len hst rxVals
    apply NextStateAfterHeaderExtensions_undefined
    show flags &&& 0x0f = 5 ∨ flags &&& 0x0f = 6 ∨ flags &&& 0x0f = 10 ∨ flags &&& 0x0f = 11
    rw [hc.2]
    exact hflags
  constructor
  · obtain ⟨tv, len, hst, hw⟩ :=
      header_one_call s flags e n x E N H rest exts hs'.1 hs'.2 hc.1 hE hN hx hH h64
    rw [hw, hfail]
    exact ⟨_, rfl, rfl⟩
  · obtain ⟨init, last, tv, len, hst, spre, hb, hfeed, hfin, -⟩ :=
      header_one_byte_per_call s flags e n x E N H exts hs'.1 hs'.2 hc.1 hE hN hx hH
    have hlen : init.length = E.length + N.length + H.length + 1 := by
      have := congrArg List.length hb
      simp only [List.length_cons, List.length_append, List.length_singleton,
        List.length_nil] at this
      omega
    rw [hb, feedChunks_snoc s spre init last _ hfeed, hfin, hfail, hlen]
    exact ⟨_, rfl, rfl⟩

theorem C17_witness :
    (∃ s', HandleReceivedChars InitRx (5 :: ([1] ++ [2] ++ ([0x10] ++ [7, 1, 9] ++ [3, 4])))
        = some (false, s') ∧
      s'.callbacks = InitRx.callbacks) ∧
    (∃ s', feedChunks InitRx ((5 :: ([1] ++ [2] ++ ([0x10] ++ [7, 1, 9]))).map (fun b => [b]))
        = some (List.replicate ([1].length + [2].length + [7, 1, 9].length + 1) true ++ [false],
            s') ∧
      s'.callbacks = InitRx.callbacks) :=
  C17_undefined_segment_types_rejected InitRx 5 1 2 0x10 [1] [2] [7, 1, 9] [3, 4] [⟨7, [9]⟩]
    (by decide) (by decide) (by decide) (by decide) (by decide)
    ⟨[1], [], rfl, by decide, rfl⟩ (by decide)

/-! ### Report segments: the five leading fields -/

theorem IsSdnvs.concat : ∀ (vs : List Nat) (a b ws : List Nat), IsSdnvs a vs → IsSdnvs b ws →
    IsSdnvs (a ++ b) (vs ++ ws) := by
  intro vs
  induction vs with
  | nil =>
    intro a b ws ha hb
    simp only [IsSdnvs] at ha
    subst ha
    exact hb
  | cons v vs ih =>
    intro a b ws ha hb
    obtain ⟨bs, tail, rfl, hbs, htail⟩ := ha
    exact ⟨bs, tail ++ b, by simp, hbs, ih tail b ws htail hb⟩

theorem IsSdnvs.single {bs : List Nat} {v : Nat} (h : IsSdnv bs v) : IsSdnvs bs [v] :=
  ⟨bs, [], by simp, h, rfl⟩

theorem feed_bytes_append (s s1 s2 : Ltp) (a b : List Nat) (oks1 oks2 : List Bool)
    (h1 : feedChunks s (a.map (fun x => [x])) = some (oks1, s1))
    (h2 : feedChunks s1 (b.map (fun x => [x])) = some (oks2, s2)) :
    feedChunks s ((a ++ b).map (fun x => [x])) = some (oks1 ++ oks2, s2) := by
  rw [List.map_append, feedChunks_append, h1]
  simp only [h2, Option.map_some']

theorem TryShortcutReadReportSegmentSdnvs_zero_count (s : Ltp) (rxVals : List Nat)
    (a b c d nb : Nat)
    (hd : SdnvDecodeArrayU64Classic rxVals 5 rxVals.length = ⟨5, [a, b, c, d, 0], nb, false⟩) :
    ∃ s', TryShortcutReadReportSegmentSdnvs s rxVals = .failure s' ∧
      s'.callbacks = s.callbacks := by
  unfold TryShortcutReadReportSegmentSdnvs
  simp only [hd, storeReportSegmentSdnvs, List.getD_cons_zero, List.getD_cons_succ]
  simp

theorem TryShortcutReadReportSegmentSdnvs_nil (s : Ltp) :
    TryShortcutReadReportSegmentSdnvs s [] = .ok s [] := by
  unfold TryShortcutReadReportSegmentSdnvs
  simp only [List.length_nil, array_nil, storeReportSegmentSdnvs, List.getD_nil]
  rfl

theorem Passes.report_serial_number (s : Ltp) (b v : Nat)
    (h1 : s.m_mainRxState = .READ_REPORT_SEGMENT_CONTENT)
    (h2 : s.m_reportSegmentRxState = .READ_REPORT_SERIAL_NUMBER_SDNV)
    (h : IsSdnv (s.m_sdnvTempVec ++ [b]) v) :
    Passes s b { s with m_reportSegment := { s.m_reportSegment with reportSerialNumber := v }
                        m_sdnvTempVec := []
                        m_reportSegmentRxState := .READ_CHECKPOINT_SERIAL_NUMBER_SDNV } := by
  intro rxVals
  rw [HandleReceivedChars.step]
  simp only [h1, h2, pushSdnvByte_last _ b v h]

theorem Passes.report_checkpoint_serial_number (s : Ltp) (b v : Nat)
    (h1 : s.m_mainRxState = .READ_REPORT_SEGMENT_CONTENT)
    (h2 : s.m_reportSegmentRxState = .READ_CHECKPOINT_SERIAL_NUMBER_SDNV)
    (h : IsSdnv (s.m_sdnvTempVec ++ [b]) v) :
    Passes s b { s with m_reportSegment := { s.m_reportSegment with checkpointSerialNumber := v }
                        m_sdnvTempVec := []
                        m_reportSegmentRxState := .READ_UPPER_BOUND_SDNV } := by
  intro rxVals
  rw [HandleReceivedChars.step]
  simp only [h1, h2, pushSdnvByte_last _ b v h]

theorem Passes.report_upper_bound (s : Ltp) (b v : Nat)
    (h1 : s.m_mainRxState = .READ_REPORT_SEGMENT_CONTENT)
    (h2 : s.m_reportSegmentRxState = .READ_UPPER_BOUND_SDNV)
    (h : IsSdnv (s.m_sdnvTempVec ++ [b]) v) :
    Passes s b { s with m_reportSegment := { s.m_reportSegment with upperBound := v }
                        m_sdnvTempVec := []
                        m_reportSegmentRxState := .READ_LOWER_BOUND_SDNV } := by
  intro rxVals
  rw [HandleReceivedChars.step]
  simp only [h1, h2, pushSdnvByte_last _ b v h]

theorem Passes.report_lower_bound (s : Ltp) (b v : Nat)
    (h1 : s.m_mainRxState = .READ_REPORT_SEGMENT_CONTENT)
    (h2 : s.m_reportSegmentRxState = .READ_LOWER_BOUND_SDNV)
    (h : IsSdnv (s.m_sdnvTempVec ++ [b]) v) :
    Passes s b { s with m_reportSegment := { s.m_reportSegment with lowerBound := v }
                        m_sdnvTempVec := []
                        m_reportSegmentRxState := .READ_RECEPTION_CLAIM_COUNT_SDNV } := by
  intro rxVals
  rw [HandleReceivedChars.step]
  simp only [h1, h2, pushSdnvByte_last _ b v h]

theorem step_report_claim_count_zero (s : Ltp) (b : Nat) (rxVals : List Nat)
    (h1 : s.m_mainRxState = .READ_REPORT_SEGMENT_CONTENT)
    (h2 : s.m_reportSegmentRxState = .READ_RECEPTION_CLAIM_COUNT_SDNV)
    (h : IsSdnv (s.m_sdnvTempVec ++ [b]) 0) :
    HandleReceivedChars.step s b rxVals
      = .failure { s with m_sdnvTempVec := s.m_sdnvTempVec ++ [b]
                          m_reportSegment :=
                            { s.m_reportSegment with tmpReceptionClaimCount := 0 } } := by
  rw [HandleReceivedChars.step]
  simp only [h1, h2, pushSdnvByte_last _ b 0 h, if_true]

/-- The four SDNVs before the reception-claim count of a report, read byte by
byte. -/
theorem Run.report_fields (s : Ltp) (F : List Nat) (rsn csn ub lb : Nat)
    (h1 : s.m_mainRxState = .READ_REPORT_SEGMENT_CONTENT)
    (h2 : s.m_reportSegmentRxState = .READ_REPORT_SERIAL_NUMBER_SDNV)
    (h0 : s.m_sdnvTempVec = []) (hF : IsSdnvs F [rsn, csn, ub, lb]) :
    Run s F { s with m_reportSegment :=
                       { s.m_reportSegment with reportSerialNumber := rsn
                                                checkpointSerialNumber := csn
                                                upperBound := ub
                                                lowerBound := lb }
                     m_sdnvTempVec := []
                     m_reportSegmentRxState := .READ_RECEPTION_CLAIM_COUNT_SDNV } := by
  obtain ⟨F1, r1, rfl, hF1, F2, r2, rfl, hF2, F3, r3, rfl, hF3, F4, r4, rfl, hF4, hnil⟩ := hF
  simp only [IsSdnvs] at hnil
  subst hnil
  obtain ⟨c1, l1, rfl, -⟩ := hF1.split
  obtain ⟨c2, l2, rfl, -⟩ := hF2.split
  obtain ⟨c3, l3, rfl, -⟩ := hF3.split
  obtain ⟨c4, l4, rfl, -⟩ := hF4.split
  have a1 := Run.sdnv_prefix s (by simp [readsSdnv, h1]) h0 c1 l1 rsn hF1
  have p1 := Passes.report_serial_number { s with m_sdnvTempVec := c1 } l1 rsn h1 h2 hF1
  have a2 := Run.sdnv_prefix
    { s with m_reportSegment := { s.m_reportSegment with reportSerialNumber := rsn }
             m_sdnvTempVec := []
             m_reportSegmentRxState := .READ_CHECKPOINT_SERIAL_NUMBER_SDNV }
    (by simp [readsSdnv, h1]) rfl c2 l2 csn hF2
  have p2 := Passes.report_checkpoint_serial_number
    { s with m_reportSegment := { s.m_reportSegment with reportSerialNumber := rsn }
             m_sdnvTempVec := c2
             m_reportSegmentRxState := .READ_CHECKPOINT_SERIAL_NUMBER_SDNV }
    l2 csn h1 rfl hF2
  have a3 := Run.sdnv_prefix
    { s with m_reportSegment := { s.m_reportSegment with reportSerialNumber := rsn
                                                         checkpointSerialNumber := csn }
             m_sdnvTempVec := []
             m_reportSegmentRxState := .READ_UPPER_BOUND_SDNV }
    (by simp [readsSdnv, h1]) rfl c3 l3 ub hF3
  have p3 := Passes.report_upper_bound
    { s with m_reportSegment := { s.m_reportSegment with reportSerialNumber := rsn
                                                         checkpointSerialNumber := csn }
             m_sdnvTempVec := c3
             m_reportSegmentRxState := .READ_UPPER_BOUND_SDNV }
    l3 ub h1 rfl hF3
  have a4 := Run.sdnv_prefix
    { s with m_reportSegment := { s.m_reportSegment with reportSerialNumber := rsn
                                                         checkpointSerialNumber := csn
                                                         upperBound := ub }
             m_sdnvTempVec := []
             m_reportSegmentRxState := .READ_LOWER_BOUND_SDNV }
    (by simp [readsSdnv, h1]) rfl c4 l4 lb hF4
  have p4 := Passes.report_lower_bound
    { s with m_reportSegment := { s.m_reportSegment with reportSerialNumber := rsn
                                                         checkpointSerialNumber := csn
                                                         upperBound := ub }
             m_sdnvTempVec := c4
             m_reportSegmentRxState := .READ_LOWER_BOUND_SDNV }
    l4 lb h1 rfl hF4
  have hall := (((((((a1.append (Run.one p1)).append a2).append (Run.one p2)).append a3).append
    (Run.one p3)).append a4).append (Run.one p4))
  simpa only [List.append_assoc, List.append_nil] using hall

/-- C15 (zero claim count): a report segment (version 0, type flags 8) with any
session id, any well-formed header extensions, any four SDNVs as report serial
number, checkpoint serial number and bounds, and a claim-count SDNV `Z` that
decodes to 0. Given to a parser at its beginning state in one call (the batch
fast path decodes the five fields), with whatever follows, `HandleReceivedChars`
returns `false` and no callback is made. Given one byte per call, every call
returns `true` until the last byte of the claim count, on which the call
returns `false`; no callback is made. -/
theorem C15_zero_claim_count_rejected (s : Ltp) (e n x rsn csn ub lb : Nat)
    (E N H F Z rest : List Nat) (exts : ltp_extensions_t)
    (hs : IsAtBeginningState s = true)
    (hE : IsSdnv E e) (hN : IsSdnv N n) (hx : x >>> 4 = exts.length)
    (hH : IsExtensions H exts) (hF : IsSdnvs F [rsn, csn, ub, lb]) (hZ : IsSdnv Z 0)
    (h64 : (8 :: (E ++ N ++ ([x] ++ H ++ (F ++ Z ++ rest)))).length < 2 ^ 64) :
    (∃ s', HandleReceivedChars s (8 :: (E ++ N ++ ([x] ++ H ++ (F ++ Z ++ rest))))
        = some (false, s') ∧
      s'.callbacks = s.callbacks) ∧
    (∃ s', feedChunks s ((8 :: (E ++ N ++ ([x] ++ H)) ++ (F ++ Z)).map (fun b => [b]))
        = some (List.replicate (E.length + N.length + H.length + F.length + Z.length + 1) true
            ++ [false], s') ∧
      s'.callbacks = s.callbacks) := by
  have hs' : s.m_mainRxState = .READ_HEADER ∧ s.m_headerRxState = .READ_CONTROL_BYTE := by
    simpa [IsAtBeginningState] using hs
  have hc : (8 : Nat) >>> 4 = 0 := by decide
  have hrep : ∀ tv len hst rxVals,
      NextStateAfterHeaderExtensions (headerDone s 8 e n x exts tv len hst) rxVals
        = TryShortcutReadReportSegmentSdnvs
            { headerDone s 8 e n x exts tv len hst with
                m_sdnvTempVec := []
                m_reportSegmentRxState := .READ_REPORT_SERIAL_NUMBER_SDNV
                m_mainRxState := .READ_REPORT_SEGMENT_CONTENT } rxVals := by
    intro tv len hst rxVals
    exact NextStateAfterHeaderExtensions_report _ rxVals rfl
  constructor
  · obtain ⟨tv, len, hst, hw⟩ :=
      header_one_call s 8 e n x E N H (F ++ Z ++ rest) exts hs'.1 hs'.2 hc hE hN hx hH h64
    have hFZ : IsSdnvs (F ++ Z) ([rsn, csn, ub, lb] ++ [0]) :=
      IsSdnvs.concat _ _ _ _ hF (IsSdnvs.single hZ)
    have hd := hFZ.decode_all rest
      (by simp only [List.length_cons, List.length_append] at h64 ⊢; omega) (by simp)
    obtain ⟨s', hfail, hcb⟩ := TryShortcutReadReportSegmentSdnvs_zero_count
      { headerDone s 8 e n x exts tv len hst with
          m_sdnvTempVec := []
          m_reportSegmentRxState := .READ_REPORT_SERIAL_NUMBER_SDNV
          m_mainRxState := .READ_REPORT_SEGMENT_CONTENT }
      (F ++ Z ++ rest) rsn csn ub lb (F ++ Z).length hd
    rw [hw, hrep, hfail]
    exact ⟨s', rfl, hcb⟩
  · obtain ⟨init, last, tv, len, hst, spre, hb, hfeed, hfin, -⟩ :=
      header_one_byte_per_call s 8 e n x E N H exts hs'.1 hs'.2 hc hE hN hx hH
    have hlen : init.length = E.length + N.length + H.length + 1 := by
      have := congrArg List.length hb
      simp only [List.length_cons, List.length_append, List.length_singleton,
        List.length_nil] at this
      omega
    obtain ⟨Zc, z, rfl, -⟩ := hZ.split
    have hhead := feedChunks_snoc s spre init last _ hfeed
    rw [hfin, hrep, TryShortcutReadReportSegmentSdnvs_nil] at hhead
    have hF' := Run.report_fields
      { headerDone s 8 e n x exts tv len hst with
          m_sdnvTempVec := []
          m_reportSegmentRxState := .READ_REPORT_SERIAL_NUMBER_SDNV
          m_mainRxState := .READ_REPORT_SEGMENT_CONTENT }
      F rsn csn ub lb rfl rfl rfl hF
    have hZc := Run.sdnv_prefix
      { headerDone s 8 e n x exts tv len hst with
          m_reportSegment :=
            { (headerDone s 8 e n x exts tv len hst).m_reportSegment with
                reportSerialNumber := rsn
                checkpointSerialNumber := csn
                upperBound := ub
                lowerBound := lb }
          m_sdnvTempVec := []
          m_reportSegmentRxState := .READ_RECEPTION_CLAIM_COUNT_SDNV
          m_mainRxState := .READ_REPORT_SEGMENT_CONTENT }
      (by simp [readsSdnv]) rfl Zc z 0 hZ
    have hrun := (hF'.append hZc).feed_bytes
    have hbody := feedChunks_snoc _ _ (F ++ Zc) z _ hrun
    rw [step_report_claim_count_zero _ z [] rfl rfl hZ] at hbody
    simp only [RxResult.finish, HandleReceivedChars_nil, Option.map_some'] at hhead hbody
    have hall := feed_bytes_append s _ _ (init ++ [last]) (F ++ Zc ++ [z]) _ _ hhead hbody
    have hoks : List.replicate init.length true ++ [true]
          ++ (List.replicate (F ++ Zc).length true ++ [false])
        = List.replicate (E.length + N.length + H.length + F.length + (Zc ++ [z]).length + 1) true
          ++ [false] := by
      rw [← List.replicate_succ', ← List.append_assoc, ← List.replicate_add, hlen]
      simp only [List.length_append, List.length_singleton]
      congr 2
      omega
    rw [hb, ← List.append_assoc F Zc [z], hall, hoks]
    exact ⟨_, rfl, rfl⟩

theorem C15_witness :
    (∃ s', HandleReceivedChars InitRx
          (8 :: ([1] ++ [2] ++ ([0] ++ [] ++ ([1, 1, 1, 0] ++ [0x80, 0] ++ [3, 4]))))
        = some (false, s') ∧
      s'.callbacks = InitRx.callbacks) ∧
    (∃ s', feedChunks InitRx
          ((8 :: ([1] ++ [2] ++ ([0] ++ [])) ++ ([1, 1, 1, 0] ++ [0x80, 0])).map (fun b => [b]))
        = some (List.replicate
              ([1].length + [2].length + ([] : List Nat).length + [1, 1, 1, 0].length
                + [0x80, 0].length + 1) true
            ++ [false], s') ∧
      s'.callbacks = InitRx.callbacks) :=
  C15_zero_claim_count_rejected InitRx 1 2 0 1 1 1 0 [1] [2] [] [1, 1, 1, 0] [0x80, 0] [3, 4] []
    (by decide) (by decide) (by decide) (by decide) rfl
    ⟨[1], [1, 1, 0], rfl, by decide, [1], [1, 0], rfl, by decide, [1], [0], rfl, by decide,
      [0], [], rfl, by decide, rfl⟩
    (by decide) (by decide)

/-! ### An SDNV that does not end within ten bytes -/

theorem flatten_eq_append_cons : ∀ (chunks : List (List Nat)) (xs : List Nat) (y : Nat)
    (zs : List Nat), chunks.flatten = xs ++ y :: zs →
    ∃ pre c1 c2 post, chunks = pre ++ (c1 ++ y :: c2) :: post ∧ pre.flatten ++ c1 = xs ∧
      zs = c2 ++ post.flatten := by
  intro chunks
  induction chunks with
  | nil =>
    intro xs y zs h
    simp at h
  | cons c cs ih =>
    intro xs y zs h
    rw [List.flatten_cons, List.append_eq_append_iff] at h
    rcases h with ⟨a, hxs, hcs⟩ | ⟨c', hc, hzs⟩
    · obtain ⟨pre, c1, c2, post, h1, h2, h3⟩ := ih a y zs hcs
      refine ⟨c :: pre, c1, c2, post, by rw [h1]; rfl, ?_, h3⟩
      rw [List.flatten_cons, List.append_assoc, h2, hxs]
    · cases c' with
      | nil =>
        rw [List.nil_append] at hzs
        obtain ⟨pre, c1, c2, post, h1, h2, h3⟩ := ih [] y zs (by rw [List.nil_append]; exact hzs.symm)
        refine ⟨c :: pre, c1, c2, post, by rw [h1]; rfl, ?_, h3⟩
        rw [List.flatten_cons, List.append_assoc, h2, hc]
        simp
      | cons y' c2 =>
        rw [List.cons_append, List.cons.injEq] at hzs
        obtain ⟨rfl, hzs⟩ := hzs
        exact ⟨[], xs, c2, cs, by rw [hc]; rfl, rfl, hzs⟩

theorem RejectsAt.of_run {s s1 sm : Ltp} {chunks : List (List Nat)} {c1 c2 : List Nat} {b : Nat}
    (h1 : Run s chunks.flatten sm) (h2 : Run sm c1 s1)
    (hf : ∃ s', HandleReceivedChars.step s1 b c2 = .failure s' ∧ s'.callbacks = s.callbacks) :
    RejectsAt s chunks (c1 ++ b :: c2) := by
  obtain ⟨s', hf, hcb⟩ := hf
  refine ⟨s', ?_, hcb⟩
  rw [feedChunks_append, Run.feed_chunks chunks s h1]
  simp only [feedChunks, h2.call_append, HandleReceivedChars_cons, hf, RxResult.finish,
    Option.map_some']

/-- In a state that reads an SDNV, with `m_sdnvTempVec` and `hi` together ten
continuation bytes: however `hi` and the byte after it come in calls, the call
that holds that byte returns `false`, the calls before it `true`. -/
theorem overlong_bytewise (s : Ltp) (hi : List Nat) (b : Nat) (rest : List Nat)
    (chunks : List (List Nat)) (hs : readsSdnv s) (hhigh : AllContinue hi)
    (hlen : s.m_sdnvTempVec.length + hi.length = 10)
    (hch : chunks.flatten = hi ++ b :: rest) :
    ∃ pre c1 c2 post, chunks = pre ++ (c1 ++ b :: c2) :: post ∧ pre.flatten ++ c1 = hi ∧
      RejectsAt s pre (c1 ++ b :: c2) := by
  obtain ⟨pre, c1, c2, post, h1, h2, -⟩ := flatten_eq_append_cons chunks hi b rest hch
  refine ⟨pre, c1, c2, post, h1, h2, ?_⟩
  have hrun := Run.sdnv_continuation hi s hs hhigh (by omega)
  rw [← h2] at hrun
  obtain ⟨sm, hr1, hr2⟩ := hrun.cut
  refine RejectsAt.of_run hr1 hr2 ⟨_, step_sdnv_failure _ b c2 hs (pushSdnvByte_overflow _ b ?_), rfl⟩
  show 10 ≤ (s.m_sdnvTempVec ++ (pre.flatten ++ c1)).length
  rw [h2, List.length_append]
  omega

/-! ### The batch decoder at a field that does not end -/

theorem array_overlong (vs pre hi rest : List Nat) (k : Nat) (hpre : IsSdnvs pre vs)
    (hhigh : AllContinue hi) (hlen : hi.length = 10)
    (h64 : (pre ++ (hi ++ rest)).length < 2 ^ 64) :
    SdnvDecodeArrayU64Classic (pre ++ (hi ++ rest)) (vs.length + (k + 1))
        (pre ++ (hi ++ rest)).length
      = ⟨0, vs, 0, true⟩ := by
  unfold SdnvDecodeArrayU64Classic
  rw [IsSdnvs.decode_array vs pre hpre (k + 1) (hi ++ rest) _ 0 [] (by simp) h64,
    SdnvDecodeArrayU64Classic.loop]
  have hd : SdnvDecodeU64Classic (hi ++ rest) ((pre ++ (hi ++ rest)).length - pre.length)
      = ⟨.DECODE_FAILURE_INVALID_SDNV_RETURN_VALUE, 0⟩ := by
    unfold SdnvDecodeU64Classic
    have hm : min 10 ((pre ++ (hi ++ rest)).length - pre.length) = hi.length := by
      simp only [List.length_append]; omega
    have := loop_short hi hhigh rest [] 0
    simp only [List.nil_append, List.length_nil, Nat.zero_add, hlen, if_true] at this
    simp only [hm, hlen, this]
  simp only [hd, if_true, List.nil_append]

theorem array_partial (vs pre hi : List Nat) (k : Nat) (hpre : IsSdnvs pre vs)
    (hhigh : AllContinue hi) (hlen : hi.length < 10)
    (h64 : (pre ++ hi).length < 2 ^ 64) (h32 : vs.length < 2 ^ 32) :
    SdnvDecodeArrayU64Classic (pre ++ hi) (vs.length + (k + 1)) (pre ++ hi).length
      = ⟨vs.length, vs, pre.length, false⟩ := by
  unfold SdnvDecodeArrayU64Classic
  rw [IsSdnvs.decode_array vs pre hpre (k + 1) hi _ 0 [] (by simp) h64,
    SdnvDecodeArrayU64Classic.loop]
  have hd : SdnvDecodeU64Classic hi ((pre ++ hi).length - pre.length)
      = ⟨.DECODE_FAILURE_NOT_ENOUGH_ENCODED_BYTES_RETURN_VALUE, 0⟩ := by
    unfold SdnvDecodeU64Classic
    have hm : min 10 ((pre ++ hi).length - pre.length) = hi.length := by
      simp only [List.length_append]; omega
    have := loop_short hi hhigh [] [] 0
    have hne : ¬ hi.length = 10 := by omega
    simp only [List.nil_append, List.append_nil, List.length_nil, Nat.zero_add, hne,
      if_false] at this
    simp only [hm, this]
  simp only [hd, if_true, List.nil_append, Nat.zero_add, toU32]
  rw [Nat.mod_eq_of_lt h32]
  simp

theorem array_overlong_lt (vs pre hi rest : List Nat) (n : Nat) (hpre : IsSdnvs pre vs)
    (hn : vs.length < n) (hhigh : AllContinue hi) (hlen : hi.length = 10)
    (h64 : (pre ++ (hi ++ rest)).length < 2 ^ 64) :
    SdnvDecodeArrayU64Classic (pre ++ (hi ++ rest)) n (pre ++ (hi ++ rest)).length
      = ⟨0, vs, 0, true⟩ := by
  obtain ⟨k, rfl⟩ : ∃ k, n = vs.length + (k + 1) := ⟨n - vs.length - 1, by omega⟩
  exact array_overlong vs pre hi rest k hpre hhigh hlen h64

theorem array_partial_lt (vs pre hi : List Nat) (n : Nat) (hpre : IsSdnvs pre vs)
    (hn : vs.length < n) (hhigh : AllContinue hi) (hlen : hi.length < 10)
    (h64 : (pre ++ hi).length < 2 ^ 64) (h32 : vs.length < 2 ^ 32) :
    SdnvDecodeArrayU64Classic (pre ++ hi) n (pre ++ hi).length
      = ⟨vs.length, vs, pre.length, false⟩ := by
  obtain ⟨k, rfl⟩ : ∃ k, n = vs.length + (k + 1) := ⟨n - vs.length - 1, by omega⟩
  exact array_partial vs pre hi k hpre hhigh hlen h64 h32

theorem IsSdnvs.unappend : ∀ (a b bytes : List Nat), IsSdnvs bytes (a ++ b) →
    ∃ p q, bytes = p ++ q ∧ IsSdnvs p a ∧ IsSdnvs q b := by
  intro a
  induction a with
  | nil =>
    intro b bytes h
    exact ⟨[], bytes, rfl, rfl, h⟩
  | cons v a ih =>
    intro b bytes h
    obtain ⟨bs, tail, rfl, hbs, htail⟩ := h
    obtain ⟨p, q, rfl, hp, hq⟩ := ih b tail htail
    exact ⟨bs ++ p, q, by simp, ⟨bs, p, rfl, hbs, hp⟩, hq⟩

theorem IsSdnvs.values_nil {bytes : List Nat} (h : IsSdnvs bytes []) : bytes = [] := h

theorem drop_length_append (pre hi : List Nat) : (pre ++ hi).drop pre.length = hi := by
  simp

/-! ### The batch decode of the session id -/

theorem step_control_overlong (s : Ltp) (c : Nat) (pre vs hi rest : List Nat)
    (h1 : s.m_mainRxState = .READ_HEADER) (h2 : s.m_headerRxState = .READ_CONTROL_BYTE)
    (hc : c >>> 4 = 0) (hpre : IsSdnvs pre vs) (hn : vs.length < 2)
    (hhigh : AllContinue hi) (hlen : hi.length = 10)
    (h64 : (pre ++ (hi ++ rest)).length < 2 ^ 64) :
    ∃ s', HandleReceivedChars.step s c (pre ++ (hi ++ rest)) = .failure s' ∧
      s'.callbacks = s.callbacks := by
  have hd := array_overlong_lt vs pre hi rest 2 hpre hn hhigh hlen h64
  rw [HandleReceivedChars.step]
  simp only [h1, h2, hc, hd]
  exact ⟨_, rfl, rfl⟩

theorem step_control_partial (s : Ltp) (c : Nat) (pre vs hi : List Nat)
    (h1 : s.m_mainRxState = .READ_HEADER) (h2 : s.m_headerRxState = .READ_CONTROL_BYTE)
    (hc : c >>> 4 = 0) (hpre : IsSdnvs pre vs) (hn : vs.length < 2)
    (hhigh : AllContinue hi) (hlen : hi.length < 10)
    (h64 : (pre ++ hi).length < 2 ^ 64) :
    ∃ s', HandleReceivedChars.step s c (pre ++ hi) = .ok s' hi ∧ readsSdnv s' ∧
      s'.m_sdnvTempVec = [] ∧ s'.callbacks = s.callbacks := by
  have hd := array_partial_lt vs pre hi 2 hpre hn hhigh hlen h64 (by omega)
  rw [HandleReceivedChars.step]
  simp only [h1, h2, hc, hd, drop_length_append]
  refine ⟨_, rfl, ?_, rfl, rfl⟩
  rcases vs with _ | ⟨a, _ | ⟨b, vs⟩⟩
  · simp [readsSdnv, h1, LTP_HEADER_RX_STATE.fromValue]
  · simp [readsSdnv, h1, LTP_HEADER_RX_STATE.fromValue]
  · simp only [List.length_cons] at hn
    omega

/-! ### The batch decode of the fields of a data segment -/

theorem isCheckPoint_eq (flags : Nat) (h : flags ≤ 7) :
    decide (((1 <<< flags) % 2 ^ 16) &&& ((1 <<< 1) ||| (1 <<< 2) ||| (1 <<< 3)) ≠ 0)
      = decide (flags = 1 ∨ flags = 2 ∨ flags = 3) := by
  interval_cases flags <;> decide

theorem TryShortcutReadDataSegmentSdnvs_overlong (s : Ltp) (pre vs hi rest : List Nat)
    (hf : s.m_segmentTypeFlags ≤ 7) (hpre : IsSdnvs pre vs)
    (hn : vs.length <
      if s.m_segmentTypeFlags = 1 ∨ s.m_segmentTypeFlags = 2 ∨ s.m_segmentTypeFlags = 3
      then 5 else 3)
    (hhigh : AllContinue hi) (hlen : hi.length = 10)
    (h64 : (pre ++ (hi ++ rest)).length < 2 ^ 64) :
    ∃ s', TryShortcutReadDataSegmentSdnvs s (pre ++ (hi ++ rest)) = .failure s' ∧
      s'.callbacks = s.callbacks := by
  unfold TryShortcutReadDataSegmentSdnvs
  simp only [isCheckPoint_eq _ hf]
  by_cases hcp : s.m_segmentTypeFlags = 1 ∨ s.m_segmentTypeFlags = 2 ∨ s.m_segmentTypeFlags = 3
  · rw [if_pos hcp] at hn
    simp only [hcp, decide_True, if_true,
      array_overlong_lt vs pre hi rest 5 hpre hn hhigh hlen h64]
    exact ⟨_, rfl, rfl⟩
  · rw [if_neg hcp] at hn
    simp only [hcp, decide_False, Bool.false_eq_true, if_false,
      array_overlong_lt vs pre hi rest 3 hpre hn hhigh hlen h64, if_true]
    exact ⟨_, rfl, rfl⟩

theorem TryShortcutReadDataSegmentSdnvs_partial (s : Ltp) (pre vs hi : List Nat)
    (hf : s.m_segmentTypeFlags ≤ 7)
    (h1 : s.m_mainRxState = .READ_DATA_SEGMENT_CONTENT)
    (h2 : s.m_dataSegmentRxState = .READ_CLIENT_SERVICE_ID_SDNV)
    (h0 : s.m_sdnvTempVec = []) (hpre : IsSdnvs pre vs)
    (hn : vs.length <
      if s.m_segmentTypeFlags = 1 ∨ s.m_segmentTypeFlags = 2 ∨ s.m_segmentTypeFlags = 3
      then 5 else 3)
    (hhigh : AllContinue hi) (hlen : hi.length < 10)
    (h64 : (pre ++ hi).length < 2 ^ 64) :
    (∃ s', TryShortcutReadDataSegmentSdnvs s (pre ++ hi) = .failure s' ∧
      s'.callbacks = s.callbacks) ∨
    (∃ s', TryShortcutReadDataSegmentSdnvs s (pre ++ hi) = .ok s' hi ∧ readsSdnv s' ∧
      s'.m_sdnvTempVec = [] ∧ s'.callbacks = s.callbacks) := by
  unfold TryShortcutReadDataSegmentSdnvs
  simp only [isCheckPoint_eq _ hf]
  by_cases hcp : s.m_segmentTypeFlags = 1 ∨ s.m_segmentTypeFlags = 2 ∨ s.m_segmentTypeFlags = 3
  · rw [if_pos hcp] at hn
    simp only [hcp, decide_True, if_true,
      array_partial_lt vs pre hi 5 hpre hn hhigh hlen h64 (by omega), drop_length_append]
    rcases vs with _ | ⟨a, _ | ⟨b, _ | ⟨c, _ | ⟨d, _ | ⟨e, vs⟩⟩⟩⟩⟩
    · have := hpre.values_nil
      subst this
      right
      exact ⟨_, rfl, by simp [readsSdnv, h1, h2], h0, rfl⟩
    · right
      exact ⟨_, rfl, by simp [readsSdnv, h1, LTP_DATA_SEGMENT_RX_STATE.fromValue], h0, rfl⟩
    · right
      exact ⟨_, rfl, by simp [readsSdnv, h1, LTP_DATA_SEGMENT_RX_STATE.fromValue], h0, rfl⟩
    · by_cases hz : c = 0
      · left
        simp [storeDataSegmentSdnvs, hz]
      · right
        simp [storeDataSegmentSdnvs, hz, readsSdnv, h1, h0, LTP_DATA_SEGMENT_RX_STATE.fromValue]
    · by_cases hz : c = 0
      · left
        simp [storeDataSegmentSdnvs, hz]
      · right
        simp [storeDataSegmentSdnvs, hz, readsSdnv, h1, h0, LTP_DATA_SEGMENT_RX_STATE.fromValue]
    · simp only [List.length_cons] at hn
      omega
  · rw [if_neg hcp] at hn
    simp only [hcp, decide_False, Bool.false_eq_true, if_false,
      array_partial_lt vs pre hi 3 hpre hn hhigh hlen h64 (by omega), drop_length_append]
    rcases vs with _ | ⟨a, _ | ⟨b, _ | ⟨c, vs⟩⟩⟩
    · have := hpre.values_nil
      subst this
      right
      exact ⟨_, rfl, by simp [readsSdnv, h1, h2], h0, rfl⟩
    · right
      exact ⟨_, rfl, by simp [readsSdnv, h1, LTP_DATA_SEGMENT_RX_STATE.fromValue], h0, rfl⟩
    · right
      exact ⟨_, rfl, by simp [readsSdnv, h1, LTP_DATA_SEGMENT_RX_STATE.fromValue], h0, rfl⟩
    · simp only [List.length_cons] at hn
      omega

/-! ### The batch decode of the fields of a report segment -/

theorem TryShortcutReadReportSegmentSdnvs_overlong (s : Ltp) (pre vs hi rest : List Nat)
    (hpre : IsSdnvs pre vs)
    (hn : vs.length < if vs.length < 5 then 5 else 5 + toU32 ((vs.getD 4 0 <<< 1) % U64))
    (hhigh : AllContinue hi) (hlen : hi.length = 10)
    (h64 : (pre ++ (hi ++ rest)).length < 2 ^ 64) :
    ∃ s', TryShortcutReadReportSegmentSdnvs s (pre ++ (hi ++ rest)) = .failure s' ∧
      s'.callbacks = s.callbacks := by
  by_cases h5 : vs.length < 5
  · unfold TryShortcutReadReportSegmentSdnvs
    simp only [array_overlong_lt vs pre hi rest 5 hpre h5 hhigh hlen h64, if_true]
    exact ⟨_, rfl, rfl⟩
  · rw [if_neg h5] at hn
    obtain ⟨a, b, c, d, N, cl, rfl⟩ : ∃ a b c d N cl, vs = a :: b :: c :: d :: N :: cl := by
      rcases vs with _ | ⟨a, _ | ⟨b, _ | ⟨c, _ | ⟨d, _ | ⟨N, cl⟩⟩⟩⟩⟩ <;>
        simp only [List.length_cons, List.length_nil] at h5 <;> first | omega | exact ⟨_, _, _, _, _, _, rfl⟩
    simp only [List.getD_cons_succ, List.getD_cons_zero, List.length_cons] at hn
    obtain ⟨p, q, rfl, hp, hq⟩ := IsSdnvs.unappend [a, b, c, d, N] cl pre hpre
    have hd1 : SdnvDecodeArrayU64Classic (p ++ q ++ (hi ++ rest)) 5 (p ++ q ++ (hi ++ rest)).length
        = ⟨5, [a, b, c, d, N], p.length, false⟩ := by
      have := hp.decode_all (q ++ (hi ++ rest)) (by simpa using h64) (by simp)
      simpa using this
    have hN : N ≠ 0 := by
      intro h0
      rw [h0] at hn
      simp [toU32] at hn
      omega
    have hdrop : (p ++ q ++ (hi ++ rest)).drop p.length = q ++ (hi ++ rest) := by simp
    have hd2 := array_overlong_lt cl q hi rest (toU32 ((N <<< 1) % U64)) hq (by omega) hhigh hlen
      (by simp only [List.length_append] at h64 ⊢; omega)
    unfold TryShortcutReadReportSegmentSdnvs
    simp only [hd1, storeReportSegmentSdnvs, List.getD_cons_succ, List.getD_cons_zero, hdrop, hN,
      hd2]
    simp

theorem TryShortcutReadReportSegmentSdnvs_partial (s : Ltp) (pre vs hi : List Nat)
    (h1 : s.m_mainRxState = .READ_REPORT_SEGMENT_CONTENT) (h0 : s.m_sdnvTempVec = [])
    (hpre : IsSdnvs pre vs)
    (hn : vs.length < if vs.length < 5 then 5 else 5 + toU32 ((vs.getD 4 0 <<< 1) % U64))
    (hhigh : AllContinue hi) (hlen : hi.length < 10)
    (h64 : (pre ++ hi).length < 2 ^ 64) :
    (∃ s', TryShortcutReadReportSegmentSdnvs s (pre ++ hi) = .failure s' ∧
      s'.callbacks = s.callbacks) ∨
    (∃ s', TryShortcutReadReportSegmentSdnvs s (pre ++ hi) = .ok s' hi ∧ readsSdnv s' ∧
      s'.m_sdnvTempVec = [] ∧ s'.callbacks = s.callbacks) := by
  by_cases h5 : vs.length < 5
  · right
    unfold TryShortcutReadReportSegmentSdnvs
    simp only [array_partial_lt vs pre hi 5 hpre h5 hhigh hlen h64 (by omega), drop_length_append]
    rcases vs with _ | ⟨a, vs⟩
    · have := hpre.values_nil
      subst this
      exact ⟨_, rfl, by simp [readsSdnv, h1], h0, rfl⟩
    · simp only [List.length_cons] at h5
      simp only [List.length_cons, Nat.add_one_ne_zero, h5, if_true, if_false,
        Bool.false_eq_true]
      exact ⟨_, rfl, by simp [readsSdnv, h1], h0, rfl⟩
  · rw [if_neg h5] at hn
    obtain ⟨a, b, c, d, N, cl, rfl⟩ : ∃ a b c d N cl, vs = a :: b :: c :: d :: N :: cl := by
      rcases vs with _ | ⟨a, _ | ⟨b, _ | ⟨c, _ | ⟨d, _ | ⟨N, cl⟩⟩⟩⟩⟩ <;>
        simp only [List.length_cons, List.length_nil] at h5 <;> first | omega | exact ⟨_, _, _, _, _, _, rfl⟩
    simp only [List.getD_cons_succ, List.getD_cons_zero, List.length_cons] at hn
    obtain ⟨p, q, rfl, hp, hq⟩ := IsSdnvs.unappend [a, b, c, d, N] cl pre hpre
    have hd1 : SdnvDecodeArrayU64Classic (p ++ q ++ hi) 5 (p ++ q ++ hi).length
        = ⟨5, [a, b, c, d, N], p.length, false⟩ := by
      have := hp.decode_all (q ++ hi) (by simpa using h64) (by simp)
      simpa using this
    have hN : N ≠ 0 := by
      intro h0
      rw [h0] at hn
      simp [toU32] at hn
      omega
    have hdrop : (p ++ q ++ hi).drop p.length = q ++ hi := by simp
    have h32 : toU32 ((N <<< 1) % U64) < 2 ^ 32 := by
      unfold toU32
      exact Nat.mod_lt _ (by norm_num)
    have hd2 := array_partial_lt cl q hi (toU32 ((N <<< 1) % U64)) hq (by omega) hhigh hlen
      (by simp only [List.length_append] at h64 ⊢; omega) (by omega)
    have hne : ¬ toU32 ((N <<< 1) % U64) = cl.length := by omega
    unfold TryShortcutReadReportSegmentSdnvs
    simp only [hd1, storeReportSegmentSdnvs, List.getD_cons_succ, List.getD_cons_zero, hdrop, hN,
      hd2, drop_length_append, hne]
    simp only [Bool.false_eq_true, if_false, OfNat.ofNat_ne_zero, lt_self_iff_false]
    split
    · left
      exact ⟨_, rfl, rfl⟩
    · right
      exact ⟨_, rfl, by simp [readsSdnv, h1], h0, rfl⟩

theorem readsSdnv_tempVec (s : Ltp) (v : List Nat) (h : readsSdnv s) :
    readsSdnv { s with m_sdnvTempVec := v } := h

theorem ContinuesIn.of_ok {s s' : Ltp} {r : RxResult} {hi : List Nat}
    (h : r = .ok s' hi ∧ readsSdnv s' ∧ s'.m_sdnvTempVec = [] ∧ s'.callbacks = s.callbacks)
    (hhigh : AllContinue hi) (hlen : hi.length < 10) : ContinuesIn s r hi := by
  obtain ⟨hr, hs, h0, hcb⟩ := h
  have hrun := Run.sdnv_continuation hi s' hs hhigh (by rw [h0]; simp; omega)
  refine ⟨{ s' with m_sdnvTempVec := s'.m_sdnvTempVec ++ hi }, ?_,
    readsSdnv_tempVec s' _ hs, ?_, hcb⟩
  · rw [hr]
    show HandleReceivedChars s' hi = _
    exact hrun.call_all
  · show s'.m_sdnvTempVec ++ hi = hi
    rw [h0, List.nil_append]

theorem NextStateAfterHeaderExtensions_data_flags (s : Ltp) (rxVals : List Nat)
    (h : s.m_segmentTypeFlags ≤ 7 ∧ s.m_segmentTypeFlags ≠ 5 ∧ s.m_segmentTypeFlags ≠ 6) :
    NextStateAfterHeaderExtensions s rxVals
      = TryShortcutReadDataSegmentSdnvs
          { s with m_sdnvTempVec := []
                   m_dataSegmentRxState := .READ_CLIENT_SERVICE_ID_SDNV
                   m_mainRxState := .READ_DATA_SEGMENT_CONTENT } rxVals := by
  unfold NextStateAfterHeaderExtensions
  obtain ⟨h7, h5, h6⟩ := h
  have hd : ¬ s.m_segmentTypeFlags &&& 0xd = 0xd := by
    generalize s.m_segmentTypeFlags = f at *
    interval_cases f <;> decide
  have hu : ¬ (s.m_segmentTypeFlags = 5 ∨ s.m_segmentTypeFlags = 6 ∨ s.m_segmentTypeFlags = 10 ∨
      s.m_segmentTypeFlags = 11) := by omega
  rw [if_neg hd, if_neg hu, if_pos h7]

/-- Over-long SDNV fields that the parser refuses without a callback. The bytes
of `hi` all have the top bit set.

Byte by byte: in every state that reads an SDNV, when `m_sdnvTempVec` and `hi`
are together ten bytes of the field and a byte `b` follows, then however
`hi ++ b :: rest` is cut into calls, the calls before the one that holds `b`
return `true`, that call returns `false`, and no callback is made.

In the batch decoders (the rest of the call after the control byte, decoded as
the session id; the rest of the call handed to `NextStateAfterHeaderExtensions`
for a data segment or for a report segment, there with a reception-claim count
below `2 ^ 31` when the field is one of a reception claim), when the rest of the
call is the complete fields `fields` and then the field that does not end: with
ten bytes
`hi` of that field in the call, the call returns `false` without a callback;
with fewer than ten and the call at its end, no callback is made and either the
call returns `false` (an earlier field was refused) or it returns `true` and
leaves the parser in a state that reads an SDNV with `m_sdnvTempVec = hi`,
where the first part applies. -/
theorem overlong_sdnv_rejected (s : Ltp) (fields vs hi rest : List Nat) (b c : Nat)
    (hhigh : AllContinue hi) (hfields : IsSdnvs fields vs)
    (h64 : (fields ++ (hi ++ b :: rest)).length < 2 ^ 64) :
    (readsSdnv s → s.m_sdnvTempVec.length + hi.length = 10 →
      ∀ chunks : List (List Nat), chunks.flatten = hi ++ b :: rest →
        ∃ pre c1 c2 post, chunks = pre ++ (c1 ++ b :: c2) :: post ∧ pre.flatten ++ c1 = hi ∧
          RejectsAt s pre (c1 ++ b :: c2)) ∧
    (IsAtBeginningState s = true → c >>> 4 = 0 → vs.length < 2 →
      (hi.length = 10 →
        Rejected s (HandleReceivedChars.step s c (fields ++ (hi ++ rest)))) ∧
      (hi.length < 10 →
        ContinuesIn s (HandleReceivedChars.step s c (fields ++ hi)) hi)) ∧
    (s.m_segmentTypeFlags ≤ 7 ∧ s.m_segmentTypeFlags ≠ 5 ∧ s.m_segmentTypeFlags ≠ 6 →
      vs.length <
        (if s.m_segmentTypeFlags = 1 ∨ s.m_segmentTypeFlags = 2 ∨ s.m_segmentTypeFlags = 3
         then 5 else 3) →
      (hi.length = 10 →
        Rejected s (NextStateAfterHeaderExtensions s (fields ++ (hi ++ rest)))) ∧
      (hi.length < 10 →
        Rejected s (NextStateAfterHeaderExtensions s (fields ++ hi)) ∨
        ContinuesIn s (NextStateAfterHeaderExtensions s (fields ++ hi)) hi)) ∧
    (s.m_segmentTypeFlags = 8 →
      vs.length < 5 ∨ (vs.getD 4 0 < 2 ^ 31 ∧ vs.length < 5 + 2 * vs.getD 4 0) →
      (hi.length = 10 →
        Rejected s (NextStateAfterHeaderExtensions s (fields ++ (hi ++ rest)))) ∧
      (hi.length < 10 →
        Rejected s (NextStateAfterHeaderExtensions s (fields ++ hi)) ∨
        ContinuesIn s (NextStateAfterHeaderExtensions s (fields ++ hi)) hi)) := by
  have h64a : (fields ++ (hi ++ rest)).length < 2 ^ 64 := by
    simp only [List.length_append, List.length_cons] at h64 ⊢
    omega
  have h64b : (fields ++ hi).length < 2 ^ 64 := by
    simp only [List.length_append, List.length_cons] at h64 ⊢
    omega
  refine ⟨?_, ?_, ?_, ?_⟩
  · intro hs hlen chunks hch
    exact overlong_bytewise s hi b rest chunks hs hhigh hlen hch
  · intro hb hc hn
    have hs' : s.m_mainRxState = .READ_HEADER ∧ s.m_headerRxState = .READ_CONTROL_BYTE := by
      simpa [IsAtBeginningState] using hb
    constructor
    · intro hlen
      exact step_control_overlong s c fields vs hi rest hs'.1 hs'.2 hc hfields hn hhigh hlen h64a
    · intro hlen
      obtain ⟨s', h⟩ :=
        step_control_partial s c fields vs hi hs'.1 hs'.2 hc hfields hn hhigh hlen h64b
      exact ContinuesIn.of_ok h hhigh hlen
  · intro hfl hn
    constructor
    · intro hlen
      rw [NextStateAfterHeaderExtensions_data_flags s _ hfl]
      exact TryShortcutReadDataSegmentSdnvs_overlong _ fields vs hi rest hfl.1 hfields hn hhigh
        hlen h64a
    · intro hlen
      rw [NextStateAfterHeaderExtensions_data_flags s _ hfl]
      rcases TryShortcutReadDataSegmentSdnvs_partial
        { s with m_sdnvTempVec := []
                 m_dataSegmentRxState := .READ_CLIENT_SERVICE_ID_SDNV
                 m_mainRxState := .READ_DATA_SEGMENT_CONTENT }
        fields vs hi hfl.1 rfl rfl rfl hfields hn hhigh hlen h64b with h | ⟨s', h⟩
      · exact Or.inl h
      · exact Or.inr (ContinuesIn.of_ok h hhigh hlen)
  · intro hfl hn'
    have hn : vs.length
        < (if vs.length < 5 then 5 else 5 + toU32 ((vs.getD 4 0 <<< 1) % U64)) := by
      rcases hn' with h5 | ⟨hc, hlt⟩
      · rw [if_pos h5]
        exact h5
      · by_cases h5 : vs.length < 5
        · rw [if_pos h5]
          exact h5
        · rw [if_neg h5]
          have : toU32 ((vs.getD 4 0 <<< 1) % U64) = 2 * vs.getD 4 0 := by
            simp only [toU32, U64, Nat.shiftLeft_eq]
            omega
          omega
    constructor
    · intro hlen
      rw [NextStateAfterHeaderExtensions_report s _ hfl]
      exact TryShortcutReadReportSegmentSdnvs_overlong _ fields vs hi rest hfields hn hhigh hlen
        h64a
    · intro hlen
      rw [NextStateAfterHeaderExtensions_report s _ hfl]
      rcases TryShortcutReadReportSegmentSdnvs_partial
        { s with m_sdnvTempVec := []
                 m_reportSegmentRxState := .READ_REPORT_SERIAL_NUMBER_SDNV
                 m_mainRxState := .READ_REPORT_SEGMENT_CONTENT }
        fields vs hi rfl rfl hfields hn hhigh hlen h64b with h | ⟨s', h⟩
      · exact Or.inl h
      · exact Or.inr (ContinuesIn.of_ok h hhigh hlen)

theorem overlong_sdnv_rejected_examples :
    (∃ pre c1 c2 post,
        [[0x80, 0x80, 0x80], [0x80, 0x80, 0x80, 0x80, 0x80, 0x80, 0x80, 1, 2]]
          = pre ++ (c1 ++ 1 :: c2) :: post ∧
        pre.flatten ++ c1 = List.replicate 10 0x80 ∧
        RejectsAt (controlRead InitRx 0) pre (c1 ++ 1 :: c2)) ∧
    Rejected InitRx (HandleReceivedChars.step InitRx 0 ([5] ++ (List.replicate 10 0x80 ++ [2]))) ∧
    ContinuesIn InitRx (HandleReceivedChars.step InitRx 0 ([5] ++ [0x80, 0x80, 0x80]))
      [0x80, 0x80, 0x80] ∧
    Rejected (headerDone InitRx 0 1 2 0 [] [] 0 .READ_NUM_EXTENSIONS_BYTE)
      (NextStateAfterHeaderExtensions (headerDone InitRx 0 1 2 0 [] [] 0 .READ_NUM_EXTENSIONS_BYTE)
        ([5, 6] ++ (List.replicate 10 0x80 ++ [2]))) ∧
    Rejected (headerDone InitRx 8 1 2 0 [] [] 0 .READ_NUM_EXTENSIONS_BYTE)
      (NextStateAfterHeaderExtensions (headerDone InitRx 8 1 2 0 [] [] 0 .READ_NUM_EXTENSIONS_BYTE)
        ([1, 1, 1, 0, 1, 0] ++ (List.replicate 10 0x80 ++ [2]))) :=
  ⟨(overlong_sdnv_rejected (controlRead InitRx 0) [] [] (List.replicate 10 0x80) [2] 1 0
      (by decide) rfl (by decide)).1 (by decide) (by decide) _ rfl,
   ((overlong_sdnv_rejected InitRx [5] [5] (List.replicate 10 0x80) [2] 1 0
      (by decide) ⟨[5], [], rfl, by decide, rfl⟩ (by decide)).2.1
      (by decide) (by decide) (by decide)).1 (by decide),
   ((overlong_sdnv_rejected InitRx [5] [5] [0x80, 0x80, 0x80] [2] 1 0
      (by decide) ⟨[5], [], rfl, by decide, rfl⟩ (by decide)).2.1
      (by decide) (by decide) (by decide)).2 (by decide),
   ((overlong_sdnv_rejected (headerDone InitRx 0 1 2 0 [] [] 0 .READ_NUM_EXTENSIONS_BYTE)
      [5, 6] [5, 6] (List.replicate 10 0x80) [2] 1 0
      (by decide) ⟨[5], [6], rfl, by decide, [6], [], rfl, by decide, rfl⟩ (by decide)).2.2.1
      (by decide) (by decide)).1 (by decide),
   ((overlong_sdnv_rejected (headerDone InitRx 8 1 2 0 [] [] 0 .READ_NUM_EXTENSIONS_BYTE)
      [1, 1, 1, 0, 1, 0] [1, 1, 1, 0, 1, 0] (List.replicate 10 0x80) [2] 1 0
      (by decide)
      ⟨[1], [1, 1, 0, 1, 0], rfl, by decide, [1], [1, 0, 1, 0], rfl, by decide,
        [1], [0, 1, 0], rfl, by decide, [0], [1, 0], rfl, by decide,
        [1], [0], rfl, by decide, [0], [], rfl, by decide, rfl⟩
      (by decide)).2.2.2
      (by decide) (by decide)).1 (by decide)⟩

/-- C18 (over-long SDNV mid-parse) fails for the report segment
`08 01 01 00 01 01 01 00 88 80 80 80 00` (session `(1, 1)`, no extensions, report
serial number 1, checkpoint serial number 1, bounds 1 and 0, reception-claim
count `2 ^ 31`) followed by eleven bytes `80`: the offset of the first reception
claim does not end within ten bytes. Given to a fresh parser in one call,
`HandleReceivedChars` returns `false`, but it has made the report callback for
that segment, with an empty `receptionClaims`: twice the count is `0` as an
`unsigned int`, the batch path takes the report for complete, and the first byte
`80` is refused as the control byte of a new segment. Given one byte per call,
the 23 calls up to the tenth byte of the field return `true`, the call of the
eleventh byte returns `false`, and no callback is made. -/
theorem C18_callback_before_overlong_claim_field :
    AllContinue (List.replicate 11 0x80) ∧
    (HandleReceivedChars InitRx
      ([8, 1, 1, 0, 1, 1, 1, 0, 0x88, 0x80, 0x80, 0x80, 0x00] ++ List.replicate 11 0x80)).map
        (fun r => (r.1, r.2.callbacks))
      = some (false, [.ReportSegmentContentsRead ⟨1, 1⟩ ⟨1, 1, 1, 0, 2 ^ 31, []⟩ [] []]) ∧
    (feedChunks InitRx
      (([8, 1, 1, 0, 1, 1, 1, 0, 0x88, 0x80, 0x80, 0x80, 0x00] ++ List.replicate 11 0x80).map
        (fun b => [b]))).map (fun r => (r.1, r.2.callbacks))
      = some (List.replicate 23 true ++ [false], []) := by
  refine ⟨by decide, ?_, by decide⟩
  simp only [HandleReceivedChars, List.length_append, List.length_cons, List.length_nil,
    List.cons_append, List.nil_append, List.replicate, List.length_replicate]
  rw [HandleReceivedChars.loop,
    step_READ_CONTROL_BYTE InitRx 8 _ rfl rfl (by decide) 1 1 2
      (array_two_small 1 1 _ _ (by decide) (by decide) (by decide) (by decide))]
  simp only [List.drop_succ_cons, List.drop_zero]
  rw [HandleReceivedChars.loop, step_READ_NUM_EXTENSIONS_BYTE _ 0 _ rfl rfl (by decide),
    NextStateAfterHeaderExtensions_report _ _ rfl,
    TryShortcutReadReportSegmentSdnvs_truncated _ _ 1 1 1 0 (2 ^ 31) 9
      (array_report_fields _ _ (by decide) (by decide)) (by decide) (by decide) rfl]
  simp only [List.drop_succ_cons, List.drop_zero]
  rw [HandleReceivedChars.loop]
  rfl

/-! ### Session ids and segment directions -/

/-- C27 (session id order): `operator<` of `session_id_t` is the lexicographic
order on (sessionOriginatorEngineId, sessionNumber); it is irreflexive and
transitive; of `a < b`, `a == b`, `b < a` exactly one holds, for all `a` and
`b`; `operator==` is equality of the two members and `operator!=` its
negation. -/
theorem C27_session_id_order :
    (∀ a b : session_id_t, a.lt b = true ↔
      (a.sessionOriginatorEngineId < b.sessionOriginatorEngineId ∨
        (a.sessionOriginatorEngineId = b.sessionOriginatorEngineId ∧
          a.sessionNumber < b.sessionNumber))) ∧
    (∀ a : session_id_t, a.lt a = false) ∧
    (∀ a b c : session_id_t, a.lt b = true → b.lt c = true → a.lt c = true) ∧
    (∀ a b : session_id_t,
      (a.lt b = true ∧ a.eq b = false ∧ b.lt a = false) ∨
      (a.lt b = false ∧ a.eq b = true ∧ b.lt a = false) ∨
      (a.lt b = false ∧ a.eq b = false ∧ b.lt a = true)) ∧
    (∀ a b : session_id_t, a.eq b = true ↔ a = b) ∧
    (∀ a b : session_id_t, a.ne b = !a.eq b) := by
  have hlt : ∀ a b : session_id_t, a.lt b = true ↔
      (a.sessionOriginatorEngineId < b.sessionOriginatorEngineId ∨
        (a.sessionOriginatorEngineId = b.sessionOriginatorEngineId ∧
          a.sessionNumber < b.sessionNumber)) := by
    intro a b
    unfold session_id_t.lt
    split <;> simp <;> omega
  have heq : ∀ a b : session_id_t, a.eq b = true ↔
      (a.sessionOriginatorEngineId = b.sessionOriginatorEngineId ∧
        a.sessionNumber = b.sessionNumber) := by
    intro a b
    simp [session_id_t.eq]
  have hlt' : ∀ a b : session_id_t, a.lt b = false ↔
      ¬ (a.sessionOriginatorEngineId < b.sessionOriginatorEngineId ∨
        (a.sessionOriginatorEngineId = b.sessionOriginatorEngineId ∧
          a.sessionNumber < b.sessionNumber)) := by
    intro a b
    rw [← hlt, Bool.not_eq_true]
  have heq' : ∀ a b : session_id_t, a.eq b = false ↔
      ¬ (a.sessionOriginatorEngineId = b.sessionOriginatorEngineId ∧
        a.sessionNumber = b.sessionNumber) := by
    intro a b
    rw [← heq, Bool.not_eq_true]
  refine ⟨hlt, ?_, ?_, ?_, ?_, ?_⟩
  · intro a
    rw [hlt']
    omega
  · intro a b c hab hbc
    rw [hlt] at hab hbc ⊢
    omega
  · intro a b
    simp only [hlt, hlt', heq, heq']
    omega
  · intro a b
    rw [heq]
    cases a
    cases b
    simp
  · intro a b
    cases h : a.eq b
    · rw [heq'] at h
      simp only [session_id_t.ne, Bool.not_false, Bool.or_eq_true, decide_eq_true_eq]
      omega
    · rw [heq] at h
      simp [session_id_t.ne, h.1, h.2]

/-- C30 (amended), segment direction: for every type-flag value below 16,
`GetMessageDirectionFromSegmentFlags` returns `true` exactly when the value is
not 5, 6, 10 or 11, and writes `true` to `isSenderToReceiver` exactly for the
six data-segment types, `REPORT_ACK_SEGMENT`, `CANCEL_SEGMENT_FROM_BLOCK_SENDER`
and `CANCEL_ACK_SEGMENT_TO_BLOCK_RECEIVER`, hence `false` for `REPORT_SEGMENT`,
`CANCEL_SEGMENT_FROM_BLOCK_RECEIVER` and `CANCEL_ACK_SEGMENT_TO_BLOCK_SENDER`.
The branchless routine and the `switch` routine return the same value on all
16 flags, and leave the same `isSenderToReceiver` on the twelve flags for which
they return `true`; on 5, 6, 10 and 11 the `switch` routine leaves
`isSenderToReceiver` as it was before the call and the branchless routine
writes `false`. -/
theorem C30_segment_direction (f : Nat) (hf : f < 16) :
    ((GetMessageDirectionFromSegmentFlags f).1 = true ↔ (f ≠ 5 ∧ f ≠ 6 ∧ f ≠ 10 ∧ f ≠ 11)) ∧
    ((GetMessageDirectionFromSegmentFlags f).2 = true ↔
      (f = REDDATA ∨ f = REDDATA_CHECKPOINT ∨ f = REDDATA_CHECKPOINT_ENDOFREDPART ∨
        f = REDDATA_CHECKPOINT_ENDOFREDPART_ENDOFBLOCK ∨ f = GREENDATA ∨
        f = GREENDATA_ENDOFBLOCK ∨ f = REPORT_ACK_SEGMENT ∨
        f = CANCEL_SEGMENT_FROM_BLOCK_SENDER ∨ f = CANCEL_ACK_SEGMENT_TO_BLOCK_RECEIVER)) ∧
    ((f = REPORT_SEGMENT ∨ f = CANCEL_SEGMENT_FROM_BLOCK_RECEIVER ∨
        f = CANCEL_ACK_SEGMENT_TO_BLOCK_SENDER) →
      GetMessageDirectionFromSegmentFlags f = (true, false)) ∧
    (∀ before : Bool,
      (GetMessageDirectionFromSegmentFlags.switch f before).1
        = (GetMessageDirectionFromSegmentFlags f).1 ∧
      ((GetMessageDirectionFromSegmentFlags f).1 = true →
        GetMessageDirectionFromSegmentFlags.switch f before
          = GetMessageDirectionFromSegmentFlags f) ∧
      ((GetMessageDirectionFromSegmentFlags f).1 = false →
        GetMessageDirectionFromSegmentFlags.switch f before = (false, before) ∧
        GetMessageDirectionFromSegmentFlags f = (false, false))) := by
  interval_cases f <;> decide

/-- Witness of C30 (amended): the flag 13, `CANCEL_ACK_SEGMENT_TO_BLOCK_SENDER`. -/
theorem C30_witness :
    ((GetMessageDirectionFromSegmentFlags 13).1 = true ↔
      ((13 : Nat) ≠ 5 ∧ (13 : Nat) ≠ 6 ∧ (13 : Nat) ≠ 10 ∧ (13 : Nat) ≠ 11)) ∧
    ((GetMessageDirectionFromSegmentFlags 13).2 = true ↔
      (13 = REDDATA ∨ 13 = REDDATA_CHECKPOINT ∨ 13 = REDDATA_CHECKPOINT_ENDOFREDPART ∨
        13 = REDDATA_CHECKPOINT_ENDOFREDPART_ENDOFBLOCK ∨ 13 = GREENDATA ∨
        13 = GREENDATA_ENDOFBLOCK ∨ 13 = REPORT_ACK_SEGMENT ∨
        13 = CANCEL_SEGMENT_FROM_BLOCK_SENDER ∨ 13 = CANCEL_ACK_SEGMENT_TO_BLOCK_RECEIVER)) ∧
    ((13 = REPORT_SEGMENT ∨ 13 = CANCEL_SEGMENT_FROM_BLOCK_RECEIVER ∨
        13 = CANCEL_ACK_SEGMENT_TO_BLOCK_SENDER) →
      GetMessageDirectionFromSegmentFlags 13 = (true, false)) ∧
    (∀ before : Bool,
      (GetMessageDirectionFromSegmentFlags.switch 13 before).1
        = (GetMessageDirectionFromSegmentFlags 13).1 ∧
      ((GetMessageDirectionFromSegmentFlags 13).1 = true →
        GetMessageDirectionFromSegmentFlags.switch 13 before
          = GetMessageDirectionFromSegmentFlags 13) ∧
      ((GetMessageDirectionFromSegmentFlags 13).1 = false →
        GetMessageDirectionFromSegmentFlags.switch 13 before = (false, before) ∧
        GetMessageDirectionFromSegmentFlags 13 = (false, false))) :=
  C30_segment_direction 13 (by decide)

/-- Counterexample to C30 as stated: on the flag 5, which is no
`LTP_SEGMENT_TYPE_FLAGS` value, with `isSenderToReceiver` holding `true` before
the call, the `switch` routine returns `false` and leaves `true` there, while
the branchless routine returns `false` and writes `false`: the two routines do
not agree on this value. -/
theorem C30_switch_leaves_output_unwritten :
    (5 : Nat) < 16 ∧
    GetMessageDirectionFromSegmentFlags.switch 5 true = (false, true) ∧
    GetMessageDirectionFromSegmentFlags 5 = (false, false) ∧
    GetMessageDirectionFromSegmentFlags.switch 5 true ≠ GetMessageDirectionFromSegmentFlags 5 := by
  decide

/-! ### Callbacks and the beginning state -/

theorem deliversFrom_failure (s s' : Ltp) (h : s'.callbacks = s.callbacks) :
    (RxResult.failure s').deliversFrom s := h

theorem deliversFrom_quiet (s s' : Ltp) (rxVals : List Nat) (h : s'.callbacks = s.callbacks) :
    (RxResult.ok s' rxVals).deliversFrom s := Or.inl h

theorem deliversFrom_callback (s s' : Ltp) (rxVals : List Nat) (cb : Callback)
    (h : s'.callbacks = s.callbacks ++ [cb]) (hb : IsAtBeginningState s' = true) :
    (RxResult.ok s' rxVals).deliversFrom s := Or.inr ⟨⟨cb, h⟩, hb⟩

theorem deliversFrom_trailerOrCallback (s t : Ltp) (rxVals : List Nat) (callback : Ltp → Ltp)
    (cb : Callback) (ht : t.callbacks = s.callbacks)
    (hc : (callback t).callbacks = t.callbacks ++ [cb]) :
    (RxResult.ok (trailerOrCallback t callback) rxVals).deliversFrom s := by
  unfold trailerOrCallback
  split
  · exact Or.inl ht
  · exact Or.inr ⟨⟨cb, by rw [← ht]; exact hc⟩, rfl⟩

theorem TryShortcutReadDataSegmentSdnvs_delivers (s t : Ltp) (rxVals : List Nat)
    (ht : t.callbacks = s.callbacks) :
    (TryShortcutReadDataSegmentSdnvs t rxVals).deliversFrom s := by
  unfold TryShortcutReadDataSegmentSdnvs
  simp only []
  repeat' (first
    | split
    | exact deliversFrom_failure _ _ ht
    | exact deliversFrom_quiet _ _ _ ht)

theorem TryShortcutReadReportSegmentSdnvs_delivers (s t : Ltp) (rxVals : List Nat)
    (ht : t.callbacks = s.callbacks) :
    (TryShortcutReadReportSegmentSdnvs t rxVals).deliversFrom s := by
  unfold TryShortcutReadReportSegmentSdnvs
  simp only []
  repeat' (first
    | split
    | exact deliversFrom_failure _ _ ht
    | exact deliversFrom_quiet _ _ _ ht
    | exact deliversFrom_callback _ _ _ _ (by rw [← ht]; rfl) rfl)

theorem NextStateAfterHeaderExtensions_delivers (s t : Ltp) (rxVals : List Nat)
    (ht : t.callbacks = s.callbacks) :
    (NextStateAfterHeaderExtensions t rxVals).deliversFrom s := by
  unfold NextStateAfterHeaderExtensions
  repeat' (first
    | split
    | exact deliversFrom_failure _ _ ht
    | exact deliversFrom_quiet _ _ _ ht
    | exact deliversFrom_callback _ _ _ _ (by rw [← ht]; rfl) rfl
    | exact TryShortcutReadDataSegmentSdnvs_delivers _ _ _ ht
    | exact TryShortcutReadReportSegmentSdnvs_delivers _ _ _ ht)

theorem NextStateAfterTrailerExtensions_delivers (s t t' : Ltp)
    (ht : t.callbacks = s.callbacks) (h : NextStateAfterTrailerExtensions t = some t') :
    (∃ cb, t'.callbacks = s.callbacks ++ [cb]) ∧ IsAtBeginningState t' = true := by
  unfold NextStateAfterTrailerExtensions at h
  rw [← ht]
  split at h
  · cases h; exact ⟨⟨_, rfl⟩, rfl⟩
  · split at h
    · cases h
    · split at h
      · cases h; exact ⟨⟨_, rfl⟩, rfl⟩
      · split at h
        · cases h; exact ⟨⟨_, rfl⟩, rfl⟩
        · split at h
          · cases h; exact ⟨⟨_, rfl⟩, rfl⟩
          · cases h; exact ⟨⟨_, rfl⟩, rfl⟩

/-- An iteration of the loop of `HandleReceivedChars` makes at most one
callback, and after one the parser is in the beginning state. -/
theorem step_delivers (s : Ltp) (rxVal : Nat) (rxVals : List Nat) :
    (HandleReceivedChars.step s rxVal rxVals).deliversFrom s := by
  unfold HandleReceivedChars.step
  repeat' (first
    | split
    | exact deliversFrom_failure _ _ rfl
    | exact deliversFrom_quiet _ _ _ rfl
    | exact NextStateAfterHeaderExtensions_delivers _ _ _ rfl
    | exact deliversFrom_trailerOrCallback _ _ _ _ _ rfl rfl
    | dsimp only)
  all_goals
    rename_i heq
    refine Or.inr (NextStateAfterTrailerExtensions_delivers s _ _ ?_ heq)
    rfl

theorem deliversFrom_failure_grows {s s' : Ltp} (h : (RxResult.failure s').deliversFrom s) :
    s.callbacks <+: s'.callbacks := by
  have h' : s'.callbacks = s.callbacks := h
  rw [h']

theorem deliversFrom_ok_grows {s s' : Ltp} {rest : List Nat}
    (h : (RxResult.ok s' rest).deliversFrom s) : s.callbacks <+: s'.callbacks := by
  rcases h with h | ⟨⟨cb, h⟩, -⟩
  · rw [h]
  · rw [h]
    exact List.prefix_append _ _

/-- A call of `HandleReceivedChars` only appends to the log of callbacks. -/
theorem HandleReceivedChars_loop_callbacks (fuel : Nat) : ∀ (s : Ltp) (rxVals : List Nat)
    (ok : Bool) (s' : Ltp), HandleReceivedChars.loop fuel s rxVals = some (ok, s') →
    s.callbacks <+: s'.callbacks := by
  induction fuel with
  | zero =>
    intro s rxVals ok s' h
    cases rxVals with
    | nil =>
      simp only [HandleReceivedChars.loop, Option.some.injEq, Prod.mk.injEq] at h
      rw [← h.2]
    | cons b rest => simp [HandleReceivedChars.loop] at h
  | succ fuel ih =>
    intro s rxVals ok s' h
    cases rxVals with
    | nil =>
      simp only [HandleReceivedChars.loop, Option.some.injEq, Prod.mk.injEq] at h
      rw [← h.2]
    | cons b rest =>
      rw [HandleReceivedChars.loop] at h
      have hd := step_delivers s b rest
      cases hs : HandleReceivedChars.step s b rest with
      | failure s1 =>
        rw [hs] at h hd
        simp only [Option.some.injEq, Prod.mk.injEq] at h
        rw [← h.2]
        exact deliversFrom_failure_grows hd
      | ok s1 rest1 =>
        rw [hs] at h hd
        exact List.IsPrefix.trans (deliversFrom_ok_grows hd) (ih s1 rest1 ok s' h)

theorem HandleReceivedChars_callbacks (s s' : Ltp) (rxVals : List Nat) (ok : Bool)
    (h : HandleReceivedChars s rxVals = some (ok, s')) : s.callbacks <+: s'.callbacks :=
  HandleReceivedChars_loop_callbacks _ s rxVals ok s' h

theorem feedChunks_callbacks : ∀ (chunks : List (List Nat)) (s s' : Ltp) (oks : List Bool),
    feedChunks s chunks = some (oks, s') → s.callbacks <+: s'.callbacks := by
  intro chunks
  induction chunks with
  | nil =>
    intro s s' oks h
    simp only [feedChunks, Option.some.injEq, Prod.mk.injEq] at h
    rw [← h.2]
  | cons c chunks ih =>
    intro s s' oks h
    rw [feedChunks] at h
    cases hc : HandleReceivedChars s c with
    | none => rw [hc] at h; cases h
    | some r =>
      obtain ⟨ok, s1⟩ := r
      rw [hc] at h
      simp only [] at h
      cases hf : feedChunks s1 chunks with
      | none => rw [hf] at h; cases h
      | some r1 =>
        obtain ⟨oks1, s2⟩ := r1
        rw [hf] at h
        simp only [Option.some.injEq, Prod.mk.injEq] at h
        rw [← h.2]
        exact List.IsPrefix.trans (HandleReceivedChars_callbacks s s1 c ok hc) (ih s1 s2 oks1 hf)

/-- C24 (return to start): whatever state the parser is in and whatever bytes
a call holds, an iteration of the loop of `HandleReceivedChars` that goes on and
changes the log of callbacks has made exactly one callback and leaves the
parser in the beginning state (main state `READ_HEADER`, header state
`READ_CONTROL_BYTE`); an iteration that fails makes no callback. So when the
last iteration of a call (the one that leaves no byte) makes a callback, the
call returns `true` and `IsAtBeginningState()` holds after it. -/
theorem C24_return_to_start (s : Ltp) (rxVal : Nat) (rxVals : List Nat) :
    (∀ s' rest, HandleReceivedChars.step s rxVal rxVals = .ok s' rest →
      s'.callbacks ≠ s.callbacks →
      (∃ cb, s'.callbacks = s.callbacks ++ [cb]) ∧ IsAtBeginningState s' = true ∧
        s'.m_mainRxState = .READ_HEADER ∧ s'.m_headerRxState = .READ_CONTROL_BYTE) ∧
    (∀ s', HandleReceivedChars.step s rxVal rxVals = .failure s' →
      s'.callbacks = s.callbacks) ∧
    (∀ s', HandleReceivedChars.step s rxVal rxVals = .ok s' [] →
      s'.callbacks ≠ s.callbacks →
      HandleReceivedChars s (rxVal :: rxVals) = some (true, s') ∧
        IsAtBeginningState s' = true) := by
  have hd := step_delivers s rxVal rxVals
  refine ⟨?_, ?_, ?_⟩
  · intro s' rest hs hne
    rw [hs] at hd
    rcases hd with h | ⟨h, hb⟩
    · exact absurd h hne
    · refine ⟨h, hb, ?_⟩
      simpa [IsAtBeginningState] using hb
  · intro s' hs
    rw [hs] at hd
    exact hd
  · intro s' hs hne
    rw [hs] at hd
    rcases hd with h | ⟨-, hb⟩
    · exact absurd h hne
    · refine ⟨?_, hb⟩
      rw [HandleReceivedChars_cons, hs]
      rfl

theorem C24_witness :
    HandleReceivedChars
        { InitRx with m_mainRxState := .READ_CANCEL_SEGMENT_CONTENT_BYTE
                      m_segmentTypeFlags := 12
                      m_sessionId := ⟨1, 2⟩ } (3 :: [])
      = some (true,
          { InitRx with m_segmentTypeFlags := 12
                        m_sessionId := ⟨1, 2⟩
                        m_cancelSegment_reasonCode := 3
                        callbacks := [.CancelSegmentContentsRead ⟨1, 2⟩ 3 true [] []] }) ∧
    IsAtBeginningState
        { InitRx with m_segmentTypeFlags := 12
                      m_sessionId := ⟨1, 2⟩
                      m_cancelSegment_reasonCode := 3
                      callbacks := [.CancelSegmentContentsRead ⟨1, 2⟩ 3 true [] []] } = true :=
  (C24_return_to_start
      { InitRx with m_mainRxState := .READ_CANCEL_SEGMENT_CONTENT_BYTE
                    m_segmentTypeFlags := 12
                    m_sessionId := ⟨1, 2⟩ } 3 []).2.2 _ (by decide) (by decide)

/-! ### The trailer extensions -/

theorem Passes.trailer_tag (s : Ltp) (tag : Nat)
    (h1 : s.m_mainRxState = .READ_TRAILER)
    (h2 : s.m_trailerRxState = .READ_ONE_TRAILER_EXTENSION_TAG_BYTE) :
    Passes s tag { s with m_trailerExtensions := s.m_trailerExtensions ++ [⟨tag, []⟩]
                          m_sdnvTempVec := []
                          m_trailerRxState := .READ_ONE_TRAILER_EXTENSION_LENGTH_SDNV } := by
  intro rxVals
  rw [HandleReceivedChars.step]
  simp only [h1, h2]

theorem Passes.trailer_length_value (s : Ltp) (b len : Nat)
    (h1 : s.m_mainRxState = .READ_TRAILER)
    (h2 : s.m_trailerRxState = .READ_ONE_TRAILER_EXTENSION_LENGTH_SDNV)
    (h : IsSdnv (s.m_sdnvTempVec ++ [b]) len) (hlen : len ≠ 0) :
    Passes s b { s with m_sdnvTempVec := s.m_sdnvTempVec ++ [b]
                        m_currentTrailerExtensionLength := len
                        m_trailerRxState := .READ_ONE_TRAILER_EXTENSION_VALUE } := by
  intro rxVals
  rw [HandleReceivedChars.step]
  simp only [h1, h2, pushSdnvByte_last _ b len h, hlen, if_false]

theorem Passes.trailer_length_zero_more (s : Ltp) (b : Nat)
    (h1 : s.m_mainRxState = .READ_TRAILER)
    (h2 : s.m_trailerRxState = .READ_ONE_TRAILER_EXTENSION_LENGTH_SDNV)
    (h : IsSdnv (s.m_sdnvTempVec ++ [b]) 0)
    (hmore : s.m_trailerExtensions.length ≠ s.m_numTrailerExtensionTlvs) :
    Passes s b { s with m_sdnvTempVec := s.m_sdnvTempVec ++ [b]
                        m_currentTrailerExtensionLength := 0
                        m_trailerRxState := .READ_ONE_TRAILER_EXTENSION_TAG_BYTE } := by
  intro rxVals
  rw [HandleReceivedChars.step]
  simp only [h1, h2, pushSdnvByte_last _ b 0 h, hmore, if_true, if_false]

theorem step_trailer_length_zero_last (s t' : Ltp) (b : Nat) (rxVals : List Nat)
    (h1 : s.m_mainRxState = .READ_TRAILER)
    (h2 : s.m_trailerRxState = .READ_ONE_TRAILER_EXTENSION_LENGTH_SDNV)
    (h : IsSdnv (s.m_sdnvTempVec ++ [b]) 0)
    (hlast : s.m_trailerExtensions.length = s.m_numTrailerExtensionTlvs)
    (hnext : NextStateAfterTrailerExtensions
      { s with m_sdnvTempVec := s.m_sdnvTempVec ++ [b]
               m_currentTrailerExtensionLength := 0 } = some t') :
    HandleReceivedChars.step s b rxVals = .ok t' rxVals := by
  rw [HandleReceivedChars.step]
  simp only [h1, h2, pushSdnvByte_last _ b 0 h, hlast, if_true] at hnext ⊢
  rw [hnext]

theorem Passes.trailer_value_more (s : Ltp) (b tag : Nat) (done : ltp_extensions_t)
    (p : List Nat)
    (h1 : s.m_mainRxState = .READ_TRAILER)
    (h2 : s.m_trailerRxState = .READ_ONE_TRAILER_EXTENSION_VALUE)
    (he : s.m_trailerExtensions = done ++ [⟨tag, p⟩])
    (hlen : p.length + 1 ≠ s.m_currentTrailerExtensionLength) :
    Passes s b { s with m_trailerExtensions := done ++ [⟨tag, p ++ [b]⟩] } := by
  intro rxVals
  rw [HandleReceivedChars.step]
  simp only [h1, h2, he, pushToLastValueVec_append, getLastD_append_one, List.length_append,
    List.length_singleton, hlen, if_false]

theorem Passes.trailer_value_next (s : Ltp) (b tag : Nat) (done : ltp_extensions_t)
    (p : List Nat)
    (h1 : s.m_mainRxState = .READ_TRAILER)
    (h2 : s.m_trailerRxState = .READ_ONE_TRAILER_EXTENSION_VALUE)
    (he : s.m_trailerExtensions = done ++ [⟨tag, p⟩])
    (hlen : p.length + 1 = s.m_currentTrailerExtensionLength)
    (hmore : done.length + 1 ≠ s.m_numTrailerExtensionTlvs) :
    Passes s b { s with m_trailerExtensions := done ++ [⟨tag, p ++ [b]⟩]
                        m_trailerRxState := .READ_ONE_TRAILER_EXTENSION_TAG_BYTE } := by
  intro rxVals
  rw [HandleReceivedChars.step]
  simp only [h1, h2, he, pushToLastValueVec_append, getLastD_append_one, List.length_append,
    List.length_singleton, hlen, hmore, if_true, if_false]

theorem step_trailer_value_last (s t' : Ltp) (b tag : Nat) (done : ltp_extensions_t)
    (p : List Nat) (rxVals : List Nat)
    (h1 : s.m_mainRxState = .READ_TRAILER)
    (h2 : s.m_trailerRxState = .READ_ONE_TRAILER_EXTENSION_VALUE)
    (he : s.m_trailerExtensions = done ++ [⟨tag, p⟩])
    (hlen : p.length + 1 = s.m_currentTrailerExtensionLength)
    (hlast : done.length + 1 = s.m_numTrailerExtensionTlvs)
    (hnext : NextStateAfterTrailerExtensions
      { s with m_trailerExtensions := done ++ [⟨tag, p ++ [b]⟩] } = some t') :
    HandleReceivedChars.step s b rxVals = .ok t' rxVals := by
  rw [HandleReceivedChars.step]
  simp only [h1, h2, he, pushToLastValueVec_append, getLastD_append_one, List.length_append,
    List.length_singleton, hlen, hlast, if_true] at hnext ⊢
  rw [hnext]

theorem Run.trailer_value : ∀ (bs : List Nat) (s : Ltp) (tag : Nat) (done : ltp_extensions_t)
    (p : List Nat), s.m_mainRxState = .READ_TRAILER →
    s.m_trailerRxState = .READ_ONE_TRAILER_EXTENSION_VALUE →
    s.m_trailerExtensions = done ++ [⟨tag, p⟩] →
    p.length + bs.length < s.m_currentTrailerExtensionLength →
    Run s bs { s with m_trailerExtensions := done ++ [⟨tag, p ++ bs⟩] } := by
  intro bs
  induction bs with
  | nil =>
    intro s tag done p _ _ he _
    simp only [Run, List.append_nil, ← he]
  | cons b bs ih =>
    intro s tag done p h1 h2 he hlen
    simp only [List.length_cons] at hlen
    have hp := Passes.trailer_value_more s b tag done p h1 h2 he (by omega)
    have hr := ih { s with m_trailerExtensions := done ++ [⟨tag, p ++ [b]⟩] } tag done (p ++ [b])
      h1 h2 rfl (by simp only [List.length_append, List.length_singleton]; omega)
    simp only [List.append_assoc, List.singleton_append] at hr
    exact ⟨_, hp, hr⟩

/-- The trailer extensions, from the first tag byte to the byte before the last
one, are taken one by one without a callback; the last byte is the one on which
the parser calls `NextStateAfterTrailerExtensions` with all the extensions
stored. -/
theorem trailer_extensions_run : ∀ (exts : ltp_extensions_t) (bytes : List Nat) (t : Ltp)
    (done : ltp_extensions_t),
    IsExtensions bytes exts → exts ≠ [] → t.m_mainRxState = .READ_TRAILER →
    t.m_trailerRxState = .READ_ONE_TRAILER_EXTENSION_TAG_BYTE → t.m_trailerExtensions = done →
    done.length + exts.length = t.m_numTrailerExtensionTlvs →
    ∃ (init : List Nat) (last : Nat) (tv : List Nat) (len : Nat) (ts : LTP_TRAILER_RX_STATE)
      (spre : Ltp), bytes = init ++ [last] ∧ Run t init spre ∧
      (∀ t' rxVals, NextStateAfterTrailerExtensions
            { t with m_trailerExtensions := done ++ exts
                     m_sdnvTempVec := tv
                     m_currentTrailerExtensionLength := len
                     m_trailerRxState := ts } = some t' →
          HandleReceivedChars.step spre last rxVals = .ok t' rxVals) ∧
      spre.callbacks = t.callbacks := by
  intro exts
  induction exts with
  | nil => intro bytes t done _ hne; exact absurd rfl hne
  | cons e es ih =>
    intro bytes t done hb _ h1 h2 he hnum
    obtain ⟨L, rest, rfl, hL, hrest⟩ := hb
    obtain ⟨tag, value⟩ := e
    simp only [List.length_cons] at hnum
    simp only [] at hL
    obtain ⟨cont, l, rfl, -⟩ := hL.split
    have ptag := Passes.trailer_tag t tag h1 h2
    rw [he] at ptag
    have rcont := Run.sdnv_prefix
      { t with m_trailerExtensions := done ++ [⟨tag, []⟩]
               m_sdnvTempVec := []
               m_trailerRxState := .READ_ONE_TRAILER_EXTENSION_LENGTH_SDNV }
      (by simp [readsSdnv, h1]) rfl cont l _ hL
    rcases List.eq_nil_or_concat value with hv | ⟨p, q, hv⟩
    · -- an extension without value
      subst hv
      simp only [List.length_nil] at hL
      by_cases hes : es = []
      · subst hes
        simp only [IsExtensions] at hrest
        subst hrest
        refine ⟨tag :: cont, l, cont ++ [l], 0, .READ_ONE_TRAILER_EXTENSION_LENGTH_SDNV, _,
          by simp, (Run.one ptag).append rcont, ?_, rfl⟩
        intro t' rxVals hnext
        exact step_trailer_length_zero_last
          { t with m_trailerExtensions := done ++ [⟨tag, []⟩]
                   m_sdnvTempVec := cont
                   m_trailerRxState := .READ_ONE_TRAILER_EXTENSION_LENGTH_SDNV }
          t' l rxVals h1 rfl hL
          (by simp only [List.length_append, List.length_singleton, List.length_nil] at hnum ⊢
              omega) hnext
      · have hpos : 1 ≤ es.length := by
          cases es with
          | nil => exact absurd rfl hes
          | cons a as => simp
        have pl := Passes.trailer_length_zero_more
          { t with m_trailerExtensions := done ++ [⟨tag, []⟩]
                   m_sdnvTempVec := cont
                   m_trailerRxState := .READ_ONE_TRAILER_EXTENSION_LENGTH_SDNV }
          l h1 rfl hL
          (by simp only [List.length_append, List.length_singleton]; omega)
        obtain ⟨init', last', tv', len', ts', spre', hr', hrun', hfin', hcb'⟩ :=
          ih rest
            { t with m_trailerExtensions := done ++ [⟨tag, []⟩]
                     m_sdnvTempVec := cont ++ [l]
                     m_currentTrailerExtensionLength := 0
                     m_trailerRxState := .READ_ONE_TRAILER_EXTENSION_TAG_BYTE }
            (done ++ [⟨tag, []⟩]) hrest hes h1 rfl rfl
            (by simp only [List.length_append, List.length_singleton]; omega)
        refine ⟨tag :: (cont ++ [l]) ++ init', last', tv', len', ts', spre', by simp [hr'],
          (((Run.one ptag).append rcont).append (Run.one pl)).append hrun', ?_, hcb'⟩
        intro t' rxVals hnext
        refine hfin' t' rxVals ?_
        simpa only [List.append_assoc, List.singleton_append] using hnext
    · -- an extension with a value
      subst hv
      have hL' : IsSdnv (cont ++ [l]) (p ++ [q]).length := by
        simpa only [List.concat_eq_append] using hL
      have hlen0 : (p ++ [q]).length ≠ 0 := by simp
      have pl := Passes.trailer_length_value
        { t with m_trailerExtensions := done ++ [⟨tag, []⟩]
                 m_sdnvTempVec := cont
                 m_trailerRxState := .READ_ONE_TRAILER_EXTENSION_LENGTH_SDNV }
        l (p ++ [q]).length h1 rfl hL' hlen0
      have rval := Run.trailer_value p
        { t with m_trailerExtensions := done ++ [⟨tag, []⟩]
                 m_sdnvTempVec := cont ++ [l]
                 m_currentTrailerExtensionLength := (p ++ [q]).length
                 m_trailerRxState := .READ_ONE_TRAILER_EXTENSION_VALUE }
        tag done [] h1 rfl rfl (by simp)
      simp only [List.nil_append] at rval
      simp only [List.concat_eq_append] at hrest ⊢
      by_cases hes : es = []
      · subst hes
        simp only [IsExtensions] at hrest
        subst hrest
        refine ⟨tag :: (cont ++ [l]) ++ p, q, cont ++ [l], (p ++ [q]).length,
          .READ_ONE_TRAILER_EXTENSION_VALUE, _, by simp,
          (((Run.one ptag).append rcont).append (Run.one pl)).append rval, ?_, rfl⟩
        intro t' rxVals hnext
        exact step_trailer_value_last
          { t with m_trailerExtensions := done ++ [⟨tag, p⟩]
                   m_sdnvTempVec := cont ++ [l]
                   m_currentTrailerExtensionLength := (p ++ [q]).length
                   m_trailerRxState := .READ_ONE_TRAILER_EXTENSION_VALUE }
          t' q tag done p rxVals h1 rfl rfl (by simp)
          (by simp only [List.length_nil] at hnum ⊢; omega) hnext
      · have hpos : 1 ≤ es.length := by
          cases es with
          | nil => exact absurd rfl hes
          | cons a as => simp
        have pq := Passes.trailer_value_next
          { t with m_trailerExtensions := done ++ [⟨tag, p⟩]
                   m_sdnvTempVec := cont ++ [l]
                   m_currentTrailerExtensionLength := (p ++ [q]).length
                   m_trailerRxState := .READ_ONE_TRAILER_EXTENSION_VALUE }
          q tag done p h1 rfl rfl (by simp) (by simp only []; omega)
        obtain ⟨init', last', tv', len', ts', spre', hr', hrun', hfin', hcb'⟩ :=
          ih rest
            { t with m_trailerExtensions := done ++ [⟨tag, p ++ [q]⟩]
                     m_sdnvTempVec := cont ++ [l]
                     m_currentTrailerExtensionLength := (p ++ [q]).length
                     m_trailerRxState := .READ_ONE_TRAILER_EXTENSION_TAG_BYTE }
            (done ++ [⟨tag, p ++ [q]⟩]) hrest hes h1 rfl rfl
            (by simp only [List.length_append, List.length_singleton]; omega)
        refine ⟨[tag] ++ cont ++ [l] ++ p ++ [q] ++ init', last', tv', len', ts', spre',
          by simp [hr'],
          (((((Run.one ptag).append rcont).append (Run.one pl)).append rval).append
            (Run.one pq)).append hrun', ?_, hcb'⟩
        intro t' rxVals hnext
        refine hfin' t' rxVals ?_
        simpa only [List.append_assoc, List.singleton_append] using hnext

/-! ### Cancel-acknowledgement segments -/

theorem feedChunks_prefix_callbacks (s s' : Ltp) (xs ys : List (List Nat)) (oks : List Bool)
    (h : feedChunks s (xs ++ ys) = some (oks, s')) (hcb : s'.callbacks = s.callbacks) :
    ∃ oks1 sk, feedChunks s xs = some (oks1, sk) ∧ sk.callbacks = s.callbacks := by
  rw [feedChunks_append] at h
  cases hx : feedChunks s xs with
  | none => rw [hx] at h; cases h
  | some r =>
    obtain ⟨oks1, sk⟩ := r
    rw [hx] at h
    simp only [] at h
    cases hy : feedChunks sk ys with
    | none => rw [hy] at h; cases h
    | some r2 =>
      obtain ⟨oks2, s2⟩ := r2
      rw [hy] at h
      simp only [Option.map_some', Option.some.injEq, Prod.mk.injEq] at h
      have h2 : s2 = s' := h.2
      subst h2
      have p1 := feedChunks_callbacks xs s sk oks1 hx
      have p2 := feedChunks_callbacks ys sk s2 oks2 hy
      rw [hcb] at p2
      refine ⟨oks1, sk, rfl, ?_⟩
      exact (List.IsPrefix.eq_of_length p1 (Nat.le_antisymm p1.length_le p2.length_le)).symm

theorem cancel_ack_flags (f : Nat) (h : f = 13 ∨ f = 15) : f &&& 0xd = 0xd := by
  rcases h with h | h <;> rw [h] <;> decide

/-- A cancel-acknowledgement header without trailer extensions: the callback is
made by `NextStateAfterHeaderExtensions` itself. -/
theorem cancel_ack_no_trailer (t : Ltp) (rxVals : List Nat)
    (hf : t.m_segmentTypeFlags = 13 ∨ t.m_segmentTypeFlags = 15)
    (hnum : t.m_numTrailerExtensionTlvs = 0) :
    NextStateAfterHeaderExtensions t rxVals
      = .ok (SetBeginningState (callbackCancelAcknowledgementSegment t)) rxVals := by
  unfold NextStateAfterHeaderExtensions
  rw [if_pos (cancel_ack_flags _ hf), if_neg (by simp [hnum])]

/-- A cancel-acknowledgement header that announces trailer extensions: the
parser goes on to the first trailer tag byte. -/
theorem cancel_ack_to_trailer (t : Ltp) (rxVals : List Nat)
    (hf : t.m_segmentTypeFlags = 13 ∨ t.m_segmentTypeFlags = 15)
    (hnum : t.m_numTrailerExtensionTlvs ≠ 0) :
    NextStateAfterHeaderExtensions t rxVals
      = .ok { t with m_trailerRxState := .READ_ONE_TRAILER_EXTENSION_TAG_BYTE
                     m_mainRxState := .READ_TRAILER } rxVals := by
  unfold NextStateAfterHeaderExtensions
  rw [if_pos (cancel_ack_flags _ hf), if_pos hnum]

theorem cancel_ack_after_trailer (t : Ltp)
    (hf : t.m_segmentTypeFlags = 13 ∨ t.m_segmentTypeFlags = 15) :
    NextStateAfterTrailerExtensions t
      = some (SetBeginningState (callbackCancelAcknowledgementSegment t)) := by
  unfold NextStateAfterTrailerExtensions
  rw [if_pos (cancel_ack_flags _ hf)]

/-- From the moment the header of a cancel-acknowledgement is complete: the
bytes `T` of the trailer extensions, all but the last, are taken one by one
without a callback, and the last one makes the callback. -/
theorem cancel_ack_trailer_run (t : Ltp) (texts : ltp_extensions_t) (T : List Nat)
    (hf : t.m_segmentTypeFlags = 13 ∨ t.m_segmentTypeFlags = 15)
    (hnum : t.m_numTrailerExtensionTlvs = texts.length) (ht : t.m_trailerExtensions = [])
    (hT : IsExtensions T texts) (hne : texts ≠ []) :
    ∃ (init : List Nat) (last : Nat) (spre s1 : Ltp), T = init ++ [last] ∧
      Run { t with m_trailerRxState := .READ_ONE_TRAILER_EXTENSION_TAG_BYTE
                   m_mainRxState := .READ_TRAILER } init spre ∧
      spre.callbacks = t.callbacks ∧
      (∀ rxVals, HandleReceivedChars.step spre last rxVals = .ok s1 rxVals) ∧
      IsAtBeginningState s1 = true ∧
      s1.callbacks = t.callbacks ++ [.CancelAcknowledgementSegmentContentsRead t.m_sessionId
        (decide (t.m_segmentTypeFlags = 13)) t.m_headerExtensions texts] := by
  obtain ⟨init, last, tv, len, ts, spre, hb, hrun, hfin, hcb⟩ :=
    trailer_extensions_run texts T
      { t with m_trailerRxState := .READ_ONE_TRAILER_EXTENSION_TAG_BYTE
               m_mainRxState := .READ_TRAILER }
      [] hT hne rfl rfl ht (by simp only [List.length_nil, Nat.zero_add]; exact hnum.symm)
  refine ⟨init, last, spre, _, hb, hrun, hcb, fun rxVals => hfin _ rxVals
    (cancel_ack_after_trailer _ hf), rfl, ?_⟩
  simp only [SetBeginningState, callbackCancelAcknowledgementSegment, List.nil_append,
    CANCEL_ACK_SEGMENT_TO_BLOCK_SENDER]

theorem headerDone_flags (s : Ltp) (c e n x : Nat) (exts : ltp_extensions_t) (tv : List Nat)
    (len : Nat) (hs : LTP_HEADER_RX_STATE) (hc : c = 13 ∨ c = 15) :
    (headerDone s c e n x exts tv len hs).m_segmentTypeFlags = c := by
  show c &&& 0x0f = c
  rcases hc with h | h <;> rw [h] <;> decide

/-- A whole cancel-acknowledgement segment in one call, with whatever follows:
the callback is made after the last byte of the segment and the bytes that
follow are parsed from the beginning state. -/
theorem cancel_ack_one_call (s : Ltp) (c e n x : Nat) (E N H T tail : List Nat)
    (hexts texts : ltp_extensions_t)
    (h1 : s.m_mainRxState = .READ_HEADER) (h2 : s.m_headerRxState = .READ_CONTROL_BYTE)
    (hc : c = 13 ∨ c = 15) (hE : IsSdnv E e) (hN : IsSdnv N n)
    (hxh : x >>> 4 = hexts.length) (hxt : x &&& 0x0f = texts.length)
    (hH : IsExtensions H hexts) (hT : IsExtensions T texts)
    (h64 : (c :: (E ++ N ++ ([x] ++ H ++ T)) ++ tail).length < 2 ^ 64) :
    ∃ s1, HandleReceivedChars s (c :: (E ++ N ++ ([x] ++ H ++ T)) ++ tail)
        = HandleReceivedChars s1 tail ∧
      IsAtBeginningState s1 = true ∧
      s1.callbacks = s.callbacks ++ [.CancelAcknowledgementSegmentContentsRead ⟨e, n⟩
        (decide (c = 13)) hexts texts] := by
  have hc4 : c >>> 4 = 0 := by rcases hc with h | h <;> rw [h] <;> decide
  by_cases hne : texts = []
  · subst hne
    simp only [IsExtensions] at hT
    subst hT
    obtain ⟨tv', len', hs', hcall⟩ :=
      header_one_call s c e n x E N H tail hexts h1 h2 hc4 hE hN hxh hH
        (by simpa using h64)
    have hfl2 := headerDone_flags s c e n x hexts tv' len' hs' hc
    refine ⟨SetBeginningState (callbackCancelAcknowledgementSegment
      (headerDone s c e n x hexts tv' len' hs')), ?_, rfl, ?_⟩
    · have : c :: (E ++ N ++ ([x] ++ H ++ [])) ++ tail
          = c :: (E ++ N ++ ([x] ++ H ++ tail)) := by simp
      rw [this, hcall, cancel_ack_no_trailer _ tail (by rw [hfl2]; exact hc) hxt]
      rfl
    · simp only [SetBeginningState, callbackCancelAcknowledgementSegment, headerDone,
        CANCEL_ACK_SEGMENT_TO_BLOCK_SENDER]
      rcases hc with h | h <;> subst h <;> rfl
  · have hnum0 : texts.length ≠ 0 := by
      cases texts with
      | nil => exact absurd rfl hne
      | cons a as => simp
    obtain ⟨tv', len', hs', hcall⟩ :=
      header_one_call s c e n x E N H (T ++ tail) hexts h1 h2 hc4 hE hN hxh hH
        (by simpa using h64)
    have hfl2 := headerDone_flags s c e n x hexts tv' len' hs' hc
    have hfl2' : (headerDone s c e n x hexts tv' len' hs').m_segmentTypeFlags = 13 ∨
        (headerDone s c e n x hexts tv' len' hs').m_segmentTypeFlags = 15 := by
      rw [hfl2]; exact hc
    obtain ⟨tinit2, tlast2, tspre2, s2, htb2, htrun2, -, htfin2, hbeg2, hs2cb⟩ :=
      cancel_ack_trailer_run (headerDone s c e n x hexts tv' len' hs') texts T hfl2' hxt rfl
        hT hne
    refine ⟨s2, ?_, hbeg2, ?_⟩
    · have : c :: (E ++ N ++ ([x] ++ H ++ T)) ++ tail
          = c :: (E ++ N ++ ([x] ++ H ++ (T ++ tail))) := by simp
      rw [this, hcall,
        cancel_ack_to_trailer _ (T ++ tail) hfl2' (by rw [show (headerDone s c e n x hexts tv'
          len' hs').m_numTrailerExtensionTlvs = x &&& 0x0f from rfl, hxt]; exact hnum0)]
      show HandleReceivedChars _ (T ++ tail) = _
      rw [htb2, List.append_assoc, htrun2.call_append, List.singleton_append,
        HandleReceivedChars_cons, htfin2 tail]
      rfl
    · rw [hs2cb]
      have : decide ((headerDone s c e n x hexts tv' len' hs').m_segmentTypeFlags = 13)
          = decide (c = 13) := by rw [hfl2]
      rw [this]
      rfl


/-- C22 (cancel-acks have no body): a segment with version 0 and type flag 13 or
15 (control byte `c`), any two complete SDNVs `E`, `N` as session id, an
extension-count byte `x`, the header extensions `H` it announces in its high
nibble and the trailer extensions `T` it announces in its low nibble, given to a
parser at its beginning state. The bytes of the segment are `init ++ [last]`,
`last` being the last byte of the header when no trailer extension is announced
and the last byte of the last trailer extension otherwise. Given one byte per
call, every call returns `true`, no callback is made up to the byte before
`last`, and the call of `last` makes the cancel-acknowledgement callback (with
the session id, `isToSender` and the extensions read) and leaves the parser in
the beginning state. Given in one call with whatever follows, the callback is
made at the same place and the bytes that follow are parsed from the beginning
state, the first of them as a control byte. -/
theorem C22_cancel_ack_no_body (s : Ltp) (c e n x : Nat) (E N H T : List Nat)
    (hexts texts : ltp_extensions_t)
    (h1 : s.m_mainRxState = .READ_HEADER) (h2 : s.m_headerRxState = .READ_CONTROL_BYTE)
    (hc : c = 13 ∨ c = 15) (hE : IsSdnv E e) (hN : IsSdnv N n)
    (hxh : x >>> 4 = hexts.length) (hxt : x &&& 0x0f = texts.length)
    (hH : IsExtensions H hexts) (hT : IsExtensions T texts) :
    ∃ (init : List Nat) (last : Nat),
      c :: (E ++ N ++ ([x] ++ H ++ T)) = init ++ [last] ∧
      (∃ spre s1, feedChunks s (init.map (fun b => [b]))
            = some (List.replicate init.length true, spre) ∧
          spre.callbacks = s.callbacks ∧
          HandleReceivedChars spre [last] = some (true, s1) ∧
          IsAtBeginningState s1 = true ∧
          s1.callbacks = s.callbacks ++ [.CancelAcknowledgementSegmentContentsRead ⟨e, n⟩
            (decide (c = 13)) hexts texts]) ∧
      (∀ k, ∃ oks sk, feedChunks s ((init.take k).map (fun b => [b])) = some (oks, sk) ∧
          sk.callbacks = s.callbacks) ∧
      (∀ tail, (c :: (E ++ N ++ ([x] ++ H ++ T)) ++ tail).length < 2 ^ 64 →
        ∃ s1, HandleReceivedChars s (c :: (E ++ N ++ ([x] ++ H ++ T)) ++ tail)
            = HandleReceivedChars s1 tail ∧
          IsAtBeginningState s1 = true ∧
          s1.callbacks = s.callbacks ++ [.CancelAcknowledgementSegmentContentsRead ⟨e, n⟩
            (decide (c = 13)) hexts texts]) := by
  have hc4 : c >>> 4 = 0 := by rcases hc with h | h <;> rw [h] <;> decide
  obtain ⟨hinit, hlast, tv, len, hs, hspre, hhb, hhfeed, hhfin, hhcb⟩ :=
    header_one_byte_per_call s c e n x E N H hexts h1 h2 hc4 hE hN hxh hH
  have hfl := headerDone_flags s c e n x hexts tv len hs hc
  have hfl' : (headerDone s c e n x hexts tv len hs).m_segmentTypeFlags = 13 ∨
      (headerDone s c e n x hexts tv len hs).m_segmentTypeFlags = 15 := by rw [hfl]; exact hc
  by_cases hne : texts = []
  · -- no trailer extensions
    subst hne
    simp only [IsExtensions] at hT
    subst hT
    have hnum : (headerDone s c e n x hexts tv len hs).m_numTrailerExtensionTlvs = 0 := hxt
    refine ⟨hinit, hlast, by rw [List.append_nil]; exact hhb, ?_, ?_, ?_⟩
    · refine ⟨hspre, SetBeginningState (callbackCancelAcknowledgementSegment
        (headerDone s c e n x hexts tv len hs)), hhfeed, hhcb, ?_, rfl, ?_⟩
      · rw [HandleReceivedChars_cons, hhfin [], cancel_ack_no_trailer _ [] hfl' hnum]
        rfl
      · simp only [SetBeginningState, callbackCancelAcknowledgementSegment, headerDone,
          CANCEL_ACK_SEGMENT_TO_BLOCK_SENDER]
        rcases hc with h | h <;> subst h <;> rfl
    · intro k
      have hsplit : hinit.map (fun b => [b])
          = (hinit.take k).map (fun b => [b]) ++ (hinit.drop k).map (fun b => [b]) := by
        rw [← List.map_append, List.take_append_drop]
      rw [hsplit] at hhfeed
      exact feedChunks_prefix_callbacks s hspre _ _ _ hhfeed hhcb
    · intro tail h64
      exact cancel_ack_one_call s c e n x E N H [] tail hexts [] h1 h2 hc hE hN hxh hxt hH rfl h64
  · -- trailer extensions
    have hnum0 : texts.length ≠ 0 := by
      cases texts with
      | nil => exact absurd rfl hne
      | cons a as => simp
    obtain ⟨tinit, tlast, tspre, s1, htb, htrun, htcb, htfin, hbeg, hs1cb⟩ :=
      cancel_ack_trailer_run (headerDone s c e n x hexts tv len hs) texts T hfl' hxt rfl hT hne
    have hmid : HandleReceivedChars hspre [hlast]
        = some (true, { headerDone s c e n x hexts tv len hs with
            m_trailerRxState := .READ_ONE_TRAILER_EXTENSION_TAG_BYTE
            m_mainRxState := .READ_TRAILER }) := by
      rw [HandleReceivedChars_cons, hhfin [],
        cancel_ack_to_trailer _ [] hfl' (by rw [show (headerDone s c e n x hexts tv len
          hs).m_numTrailerExtensionTlvs = x &&& 0x0f from rfl, hxt]; exact hnum0)]
      rfl
    have hfeed_all : feedChunks s ((hinit ++ [hlast] ++ tinit).map (fun b => [b]))
        = some (List.replicate (hinit ++ [hlast] ++ tinit).length true, tspre) := by
      rw [List.map_append, List.map_append, feedChunks_append, feedChunks_append, hhfeed]
      simp only [List.map_cons, List.map_nil, feedChunks, hmid, Option.map_some']
      rw [htrun.feed_bytes]
      simp only [Option.map_some', List.length_append, List.length_singleton,
        List.replicate_add, List.replicate_one, List.append_assoc, List.singleton_append,
        List.length_cons, List.replicate_succ]
    have hcb_all : tspre.callbacks = s.callbacks := htcb
    refine ⟨hinit ++ [hlast] ++ tinit, tlast, ?_, ?_, ?_, ?_⟩
    · rw [htb, ← hhb]
      simp
    · refine ⟨tspre, s1, hfeed_all, hcb_all, ?_, hbeg, ?_⟩
      · rw [HandleReceivedChars_cons, htfin []]
        rfl
      · rw [hs1cb]
        have : decide ((headerDone s c e n x hexts tv len hs).m_segmentTypeFlags = 13)
            = decide (c = 13) := by rw [hfl]
        rw [this]
        rfl
    · intro k
      have hsplit : (hinit ++ [hlast] ++ tinit).map (fun b => [b])
          = ((hinit ++ [hlast] ++ tinit).take k).map (fun b => [b])
            ++ ((hinit ++ [hlast] ++ tinit).drop k).map (fun b => [b]) := by
        rw [← List.map_append, List.take_append_drop]
      rw [hsplit] at hfeed_all
      exact feedChunks_prefix_callbacks s tspre _ _ _ hfeed_all hcb_all
    · intro tail h64
      exact cancel_ack_one_call s c e n x E N H T tail hexts texts h1 h2 hc hE hN hxh hxt hH hT h64

theorem C22_witness :
    ∃ (init : List Nat) (last : Nat),
      13 :: ([1] ++ [2] ++ ([1] ++ [] ++ [7, 0])) = init ++ [last] ∧
      (∃ spre s1, feedChunks InitRx (init.map (fun b => [b]))
            = some (List.replicate init.length true, spre) ∧
          spre.callbacks = InitRx.callbacks ∧
          HandleReceivedChars spre [last] = some (true, s1) ∧
          IsAtBeginningState s1 = true ∧
          s1.callbacks = InitRx.callbacks ++ [.CancelAcknowledgementSegmentContentsRead ⟨1, 2⟩
            (decide (13 = 13)) [] [⟨7, []⟩]]) ∧
      (∀ k, ∃ oks sk, feedChunks InitRx ((init.take k).map (fun b => [b])) = some (oks, sk) ∧
          sk.callbacks = InitRx.callbacks) ∧
      (∀ tail, (13 :: ([1] ++ [2] ++ ([1] ++ [] ++ [7, 0])) ++ tail).length < 2 ^ 64 →
        ∃ s1, HandleReceivedChars InitRx (13 :: ([1] ++ [2] ++ ([1] ++ [] ++ [7, 0])) ++ tail)
            = HandleReceivedChars s1 tail ∧
          IsAtBeginningState s1 = true ∧
          s1.callbacks = InitRx.callbacks ++ [.CancelAcknowledgementSegmentContentsRead ⟨1, 2⟩
            (decide (13 = 13)) [] [⟨7, []⟩]]) :=
  C22_cancel_ack_no_body InitRx 13 1 2 1 [1] [2] [] [7, 0] [] [⟨7, []⟩] rfl rfl (Or.inl rfl)
    (by decide) (by decide) (by decide) (by decide) rfl ⟨[0], [], rfl, by decide, rfl⟩

/-! ### Extensions without a value -/

theorem TryShortcutReadDataSegmentSdnvs_nil (t : Ltp) :
    ∃ t', TryShortcutReadDataSegmentSdnvs t [] = .ok t' [] ∧
      t'.m_mainRxState = t.m_mainRxState ∧ t'.m_headerExtensions = t.m_headerExtensions ∧
      t'.callbacks = t.callbacks := by
  unfold TryShortcutReadDataSegmentSdnvs
  simp only [List.length_nil]
  split
  · rw [array_nil 4]
    exact ⟨_, rfl, rfl, rfl, rfl⟩
  · rw [array_nil 2]
    exact ⟨_, rfl, rfl, rfl, rfl⟩

/-- The header of a segment with defined type flags is complete and the call
ends there: the call does not fail, and the parser waits for the first byte of
the body; a cancel-acknowledgement, which has no body, goes on to its trailer
extensions or is delivered. -/
theorem NextStateAfterHeaderExtensions_nil (t : Ltp)
    (hdef : ¬ (t.m_segmentTypeFlags = 5 ∨ t.m_segmentTypeFlags = 6 ∨ t.m_segmentTypeFlags = 10 ∨
      t.m_segmentTypeFlags = 11)) :
    ∃ t', NextStateAfterHeaderExtensions t [] = .ok t' [] ∧
      t'.m_headerExtensions = t.m_headerExtensions ∧
      (t.m_segmentTypeFlags ≤ 7 → t'.m_mainRxState = .READ_DATA_SEGMENT_CONTENT) ∧
      (t.m_segmentTypeFlags = 8 → t'.m_mainRxState = .READ_REPORT_SEGMENT_CONTENT) ∧
      (t.m_segmentTypeFlags = 9 →
        t'.m_mainRxState = .READ_REPORT_ACKNOWLEDGEMENT_SEGMENT_CONTENT) ∧
      (t.m_segmentTypeFlags = 12 ∨ t.m_segmentTypeFlags = 14 →
        t'.m_mainRxState = .READ_CANCEL_SEGMENT_CONTENT_BYTE) ∧
      (t.m_segmentTypeFlags = 13 ∨ t.m_segmentTypeFlags = 15 →
        (t.m_numTrailerExtensionTlvs ≠ 0 → t'.m_mainRxState = .READ_TRAILER ∧
          t'.m_trailerRxState = .READ_ONE_TRAILER_EXTENSION_TAG_BYTE) ∧
        (t.m_numTrailerExtensionTlvs = 0 →
          t' = SetBeginningState (callbackCancelAcknowledgementSegment t))) := by
  unfold NextStateAfterHeaderExtensions
  by_cases hd : t.m_segmentTypeFlags &&& 0xd = 0xd
  · rw [if_pos hd]
    have h7 : ¬ t.m_segmentTypeFlags ≤ 7 := by
      intro h
      have := @Nat.and_le_left t.m_segmentTypeFlags 0xd
      omega
    have h8 : ¬ t.m_segmentTypeFlags = 8 := by intro h; rw [h] at hd; revert hd; decide
    have h9 : ¬ t.m_segmentTypeFlags = 9 := by intro h; rw [h] at hd; revert hd; decide
    have h12 : ¬ (t.m_segmentTypeFlags = 12 ∨ t.m_segmentTypeFlags = 14) := by
      intro h; rcases h with h | h <;> rw [h] at hd <;> revert hd <;> decide
    by_cases hn : t.m_numTrailerExtensionTlvs ≠ 0
    · rw [if_pos hn]
      exact ⟨_, rfl, rfl, fun h => absurd h h7, fun h => absurd h h8, fun h => absurd h h9,
        fun h => absurd h h12, fun _ => ⟨fun _ => ⟨rfl, rfl⟩, fun h => absurd h hn⟩⟩
    · rw [if_neg hn]
      exact ⟨_, rfl, rfl, fun h => absurd h h7, fun h => absurd h h8, fun h => absurd h h9,
        fun h => absurd h h12, fun _ => ⟨fun h => absurd h hn, fun _ => rfl⟩⟩
  · rw [if_neg hd, if_neg hdef]
    have h13 : ¬ (t.m_segmentTypeFlags = 13 ∨ t.m_segmentTypeFlags = 15) := by
      intro h; exact hd (by rcases h with h | h <;> rw [h] <;> decide)
    by_cases h7 : t.m_segmentTypeFlags ≤ 7
    · rw [if_pos h7]
      obtain ⟨t', hr, hm, hh, -⟩ := TryShortcutReadDataSegmentSdnvs_nil
        { t with m_sdnvTempVec := []
                 m_dataSegmentRxState := .READ_CLIENT_SERVICE_ID_SDNV
                 m_mainRxState := .READ_DATA_SEGMENT_CONTENT }
      exact ⟨t', hr, hh, fun _ => hm, fun h => by omega, fun h => by omega, fun h => by omega,
        fun h => absurd h h13⟩
    · rw [if_neg h7]
      by_cases h8 : t.m_segmentTypeFlags = 8
      · rw [if_pos h8]
        rw [TryShortcutReadReportSegmentSdnvs_nil]
        exact ⟨_, rfl, rfl, fun h => absurd h h7, fun _ => rfl, fun h => by omega,
          fun h => by omega, fun h => absurd h h13⟩
      · rw [if_neg h8]
        by_cases h9 : t.m_segmentTypeFlags = 9
        · rw [if_pos h9]
          exact ⟨_, rfl, rfl, fun h => absurd h h7, fun h => absurd h h8, fun _ => rfl,
            fun h => by omega, fun h => absurd h h13⟩
        · rw [if_neg h9]
          exact ⟨_, rfl, rfl, fun h => absurd h h7, fun h => absurd h h8, fun h => absurd h h9,
            fun _ => rfl, fun h => absurd h h13⟩

theorem NextStateAfterTrailerExtensions_defined (t : Ltp)
    (hdef : ¬ (t.m_segmentTypeFlags = 5 ∨ t.m_segmentTypeFlags = 6 ∨ t.m_segmentTypeFlags = 10 ∨
      t.m_segmentTypeFlags = 11)) :
    ∃ t', NextStateAfterTrailerExtensions t = some t' ∧
      t'.m_trailerExtensions = t.m_trailerExtensions := by
  unfold NextStateAfterTrailerExtensions
  by_cases hd : t.m_segmentTypeFlags &&& 0xd = 0xd
  · rw [if_pos hd]
    exact ⟨_, rfl, rfl⟩
  · rw [if_neg hd, if_neg hdef]
    split
    · exact ⟨_, rfl, rfl⟩
    · split
      · exact ⟨_, rfl, rfl⟩
      · split
        · exact ⟨_, rfl, rfl⟩
        · exact ⟨_, rfl, rfl⟩

/-- C23 (zero-length extensions): the parser `s` waits for the tag byte of a
header extension or of a trailer extension, and the bytes that come are a tag
byte and any complete SDNV `L` with the value 0. The parser takes them without
failing and stores the extension with the tag and an empty value. If the count
of extensions announced is not yet reached, it then waits for the next tag
byte. If the extension is the last header extension, the last byte of `L` is
the one on which the parser calls `NextStateAfterHeaderExtensions` with the
bytes that follow in the call; for defined type flags, when the call ends
there, it returns without failing and the parser waits for the first byte of
the body (a cancel-acknowledgement, which has no body, goes on to its trailer
or is delivered). If the extension is the last trailer extension of a segment
with defined type flags, the last byte of `L` completes the segment: the
callback is made and the parser is in the beginning state. -/
theorem C23_zero_length_extensions (s : Ltp) (tag : Nat) (L : List Nat) (hL : IsSdnv L 0) :
    (s.m_mainRxState = .READ_HEADER →
      s.m_headerRxState = .READ_ONE_HEADER_EXTENSION_TAG_BYTE →
      (s.m_headerExtensions.length + 1 < s.m_numHeaderExtensionTlvs →
        Run s (tag :: L)
          { headerTagRead s tag L with
              m_currentHeaderExtensionLength := 0
              m_headerRxState := .READ_ONE_HEADER_EXTENSION_TAG_BYTE }) ∧
      (s.m_headerExtensions.length + 1 = s.m_numHeaderExtensionTlvs →
        ∃ cont l, L = cont ++ [l] ∧ Run s (tag :: cont) (headerTagRead s tag cont) ∧
          (∀ rxVals, HandleReceivedChars.step (headerTagRead s tag cont) l rxVals
            = NextStateAfterHeaderExtensions
                { headerTagRead s tag L with m_currentHeaderExtensionLength := 0 } rxVals) ∧
          (¬ (s.m_segmentTypeFlags = 5 ∨ s.m_segmentTypeFlags = 6 ∨
              s.m_segmentTypeFlags = 10 ∨ s.m_segmentTypeFlags = 11) →
            ∃ t', HandleReceivedChars (headerTagRead s tag cont) [l] = some (true, t') ∧
              t'.m_headerExtensions = s.m_headerExtensions ++ [⟨tag, []⟩] ∧
              (s.m_segmentTypeFlags ≤ 7 → t'.m_mainRxState = .READ_DATA_SEGMENT_CONTENT) ∧
              (s.m_segmentTypeFlags = 8 → t'.m_mainRxState = .READ_REPORT_SEGMENT_CONTENT) ∧
              (s.m_segmentTypeFlags = 9 →
                t'.m_mainRxState = .READ_REPORT_ACKNOWLEDGEMENT_SEGMENT_CONTENT) ∧
              (s.m_segmentTypeFlags = 12 ∨ s.m_segmentTypeFlags = 14 →
                t'.m_mainRxState = .READ_CANCEL_SEGMENT_CONTENT_BYTE) ∧
              (s.m_segmentTypeFlags = 13 ∨ s.m_segmentTypeFlags = 15 →
                (s.m_numTrailerExtensionTlvs ≠ 0 → t'.m_mainRxState = .READ_TRAILER ∧
                  t'.m_trailerRxState = .READ_ONE_TRAILER_EXTENSION_TAG_BYTE) ∧
                (s.m_numTrailerExtensionTlvs = 0 →
                  IsAtBeginningState t' = true ∧
                  t'.callbacks = s.callbacks ++ [.CancelAcknowledgementSegmentContentsRead
                    s.m_sessionId (decide (s.m_segmentTypeFlags = 13))
                    (s.m_headerExtensions ++ [⟨tag, []⟩]) s.m_trailerExtensions]))))) ∧
    (s.m_mainRxState = .READ_TRAILER →
      s.m_trailerRxState = .READ_ONE_TRAILER_EXTENSION_TAG_BYTE →
      (s.m_trailerExtensions.length + 1 < s.m_numTrailerExtensionTlvs →
        Run s (tag :: L)
          { trailerTagRead s tag L with
              m_currentTrailerExtensionLength := 0
              m_trailerRxState := .READ_ONE_TRAILER_EXTENSION_TAG_BYTE }) ∧
      (s.m_trailerExtensions.length + 1 = s.m_numTrailerExtensionTlvs →
        ¬ (s.m_segmentTypeFlags = 5 ∨ s.m_segmentTypeFlags = 6 ∨
            s.m_segmentTypeFlags = 10 ∨ s.m_segmentTypeFlags = 11) →
        ∃ cont l t', L = cont ++ [l] ∧ Run s (tag :: cont) (trailerTagRead s tag cont) ∧
          (∀ rxVals, HandleReceivedChars.step (trailerTagRead s tag cont) l rxVals
            = .ok t' rxVals) ∧
          NextStateAfterTrailerExtensions
            { trailerTagRead s tag L with m_currentTrailerExtensionLength := 0 } = some t' ∧
          t'.m_trailerExtensions = s.m_trailerExtensions ++ [⟨tag, []⟩] ∧
          (∃ cb, t'.callbacks = s.callbacks ++ [cb]) ∧ IsAtBeginningState t' = true)) := by
  obtain ⟨cont, l, rfl, -⟩ := hL.split
  refine ⟨fun h1 h2 => ⟨fun hmore => ?_, fun hlast => ?_⟩,
    fun h1 h2 => ⟨fun hmore => ?_, fun hlast hdef => ?_⟩⟩
  · have ptag := Passes.header_tag s tag h1 h2
    have rcont := Run.sdnv_prefix (headerTagRead s tag []) (by simp [readsSdnv, headerTagRead, h1])
      rfl cont l 0 hL
    have pl := Passes.header_length_zero_more (headerTagRead s tag cont) l h1 rfl hL
      (by simp only [headerTagRead, List.length_append, List.length_singleton]; omega)
    exact ((Run.one ptag).append rcont).append (Run.one pl)
  · have ptag := Passes.header_tag s tag h1 h2
    have rcont := Run.sdnv_prefix (headerTagRead s tag []) (by simp [readsSdnv, headerTagRead, h1])
      rfl cont l 0 hL
    have hstep : ∀ rxVals, HandleReceivedChars.step (headerTagRead s tag cont) l rxVals
        = NextStateAfterHeaderExtensions
            { headerTagRead s tag (cont ++ [l]) with m_currentHeaderExtensionLength := 0 }
            rxVals := fun rxVals =>
      step_header_length_zero_last (headerTagRead s tag cont) l rxVals h1 rfl hL
        (by simp only [headerTagRead, List.length_append, List.length_singleton]; omega)
    refine ⟨cont, l, rfl, (Run.one ptag).append rcont, hstep, fun hdef => ?_⟩
    obtain ⟨t', hr, hh, c1, c2, c3, c4, c5⟩ := NextStateAfterHeaderExtensions_nil
      { headerTagRead s tag (cont ++ [l]) with m_currentHeaderExtensionLength := 0 } hdef
    refine ⟨t', ?_, hh, c1, c2, c3, c4, fun hf => ⟨(c5 hf).1, fun h0 => ?_⟩⟩
    · rw [HandleReceivedChars_cons, hstep [], hr]
      rfl
    · rw [(c5 hf).2 h0]
      exact ⟨rfl, rfl⟩
  · have ptag := Passes.trailer_tag s tag h1 h2
    have rcont := Run.sdnv_prefix (trailerTagRead s tag [])
      (by simp [readsSdnv, trailerTagRead, h1]) rfl cont l 0 hL
    have pl := Passes.trailer_length_zero_more (trailerTagRead s tag cont) l h1 rfl hL
      (by simp only [trailerTagRead, List.length_append, List.length_singleton]; omega)
    exact ((Run.one ptag).append rcont).append (Run.one pl)
  · have ptag := Passes.trailer_tag s tag h1 h2
    have rcont := Run.sdnv_prefix (trailerTagRead s tag [])
      (by simp [readsSdnv, trailerTagRead, h1]) rfl cont l 0 hL
    obtain ⟨t', hn, hte⟩ := NextStateAfterTrailerExtensions_defined
      { trailerTagRead s tag (cont ++ [l]) with m_currentTrailerExtensionLength := 0 } hdef
    have hd := NextStateAfterTrailerExtensions_delivers s
      { trailerTagRead s tag (cont ++ [l]) with m_currentTrailerExtensionLength := 0 } t' rfl hn
    refine ⟨cont, l, t', rfl, (Run.one ptag).append rcont, fun rxVals => ?_, hn, hte, hd.1, hd.2⟩
    exact step_trailer_length_zero_last (trailerTagRead s tag cont) t' l rxVals h1 rfl hL
      (by simp only [trailerTagRead, List.length_append, List.length_singleton]; omega) hn

theorem C23_witness :
    IsSdnv [0] 0 ∧
    Run { InitRx with m_headerRxState := .READ_ONE_HEADER_EXTENSION_TAG_BYTE
                      m_numHeaderExtensionTlvs := 2 } (7 :: [0])
      { headerTagRead { InitRx with m_headerRxState := .READ_ONE_HEADER_EXTENSION_TAG_BYTE
                                    m_numHeaderExtensionTlvs := 2 } 7 [0] with
          m_currentHeaderExtensionLength := 0
          m_headerRxState := .READ_ONE_HEADER_EXTENSION_TAG_BYTE } :=
  ⟨by decide,
    ((C23_zero_length_extensions
        { InitRx with m_headerRxState := .READ_ONE_HEADER_EXTENSION_TAG_BYTE
                      m_numHeaderExtensionTlvs := 2 } 7 [0] (by decide)).1 rfl rfl).1
      (by decide)⟩

/-! ### The cancel-acknowledgement generator and the parser -/

theorem IsExtensions.of_Serialize (extensions : ltp_extensions_t)
    (h : ∀ e ∈ extensions, e.valueVec.length < 2 ^ 64) :
    IsExtensions (ltp_extensions_t.Serialize extensions) extensions := by
  induction extensions with
  | nil => rfl
  | cons e es ih =>
    refine ⟨SdnvEncodeU64ClassicBufSize10 e.valueVec.length, ltp_extensions_t.Serialize es, ?_,
      IsSdnv.of_encode _ (h e (List.mem_cons_self _ _)),
      ih (fun x hx => h x (List.mem_cons_of_mem _ hx))⟩
    simp only [ltp_extensions_t.Serialize, ltp_extension_t.Serialize, List.cons_append,
      List.append_assoc]

theorem extension_counts_byte (a b : Nat) (ha : a < 16) (hb : b < 16) :
    toU8 ((toU8 a <<< 4) ||| toU8 b) >>> 4 = a ∧ toU8 ((toU8 a <<< 4) ||| toU8 b) &&& 0x0f = b := by
  have h1 : toU8 a = a := Nat.mod_eq_of_lt (by omega)
  have h2 : toU8 b = b := Nat.mod_eq_of_lt (by omega)
  have h3 : (a <<< 4) ||| b = 2 ^ 4 * a + b := by
    rw [Nat.shiftLeft_eq, Nat.mul_comm]
    exact (Nat.mul_add_lt_is_or (by omega) a).symm
  have h4 : toU8 (2 ^ 4 * a + b) = 2 ^ 4 * a + b := Nat.mod_eq_of_lt (by omega)
  rw [h1, h2, h3, h4, Nat.shiftRight_eq_div_pow,
    show (0x0f : Nat) = 2 ^ 4 - 1 from rfl, Nat.and_pow_two_sub_one_eq_mod]
  constructor <;> omega

/-- C21 (cancel-acknowledgement type flags), as the code has it: the type
flag 13 is `CANCEL_ACK_SEGMENT_TO_BLOCK_SENDER` and the type flag 15 is
`CANCEL_ACK_SEGMENT_TO_BLOCK_RECEIVER`. `GenerateCancelAcknowledgementSegmentLtpPacket`
writes the control byte 13 when `isToSender` is true and 15 when it is false.
The callback of the parser for a cancel-acknowledgement segment (type flag 13
or 15, any session id and extensions) reports `isToSender = true` exactly when
the type flag is 13. So the packet the generator writes for a session id that
fits 64 bits and at most 15 header and 15 trailer extensions is parsed from the
beginning state, in one call that returns `true`, into one callback with the
same session id, the same `isToSender` and the same extensions. -/
theorem C21_cancel_ack_type_flags (sessionId : session_id_t) (isToSender : Bool)
    (headerExtensions trailerExtensions : Option ltp_extensions_t) :
    CANCEL_ACK_SEGMENT_TO_BLOCK_SENDER = 13 ∧ CANCEL_ACK_SEGMENT_TO_BLOCK_RECEIVER = 15 ∧
    (GenerateCancelAcknowledgementSegmentLtpPacket sessionId isToSender headerExtensions
        trailerExtensions).head? = some (if isToSender then 13 else 15) ∧
    (∀ (s : Ltp) (c e n x : Nat) (E N H T : List Nat) (hexts texts : ltp_extensions_t),
      IsAtBeginningState s = true → c = 13 ∨ c = 15 → IsSdnv E e → IsSdnv N n →
      x >>> 4 = hexts.length → x &&& 0x0f = texts.length →
      IsExtensions H hexts → IsExtensions T texts →
      (c :: (E ++ N ++ ([x] ++ H ++ T))).length < 2 ^ 64 →
      ∃ s1, HandleReceivedChars s (c :: (E ++ N ++ ([x] ++ H ++ T))) = some (true, s1) ∧
        s1.callbacks = s.callbacks ++ [.CancelAcknowledgementSegmentContentsRead ⟨e, n⟩
          (decide (c = 13)) hexts texts]) ∧
    (∀ s : Ltp, IsAtBeginningState s = true →
      sessionId.sessionOriginatorEngineId < 2 ^ 64 → sessionId.sessionNumber < 2 ^ 64 →
      (headerExtensions.getD []).length < 16 → (trailerExtensions.getD []).length < 16 →
      (∀ e ∈ headerExtensions.getD [], e.valueVec.length < 2 ^ 64) →
      (∀ e ∈ trailerExtensions.getD [], e.valueVec.length < 2 ^ 64) →
      (GenerateCancelAcknowledgementSegmentLtpPacket sessionId isToSender headerExtensions
        trailerExtensions).length < 2 ^ 64 →
      ∃ s1, HandleReceivedChars s (GenerateCancelAcknowledgementSegmentLtpPacket sessionId
          isToSender headerExtensions trailerExtensions) = some (true, s1) ∧
        IsAtBeginningState s1 = true ∧
        s1.callbacks = s.callbacks ++ [.CancelAcknowledgementSegmentContentsRead sessionId
          isToSender (headerExtensions.getD []) (trailerExtensions.getD [])]) := by
  have hparse : ∀ (s : Ltp) (c e n x : Nat) (E N H T : List Nat) (hexts texts : ltp_extensions_t),
      IsAtBeginningState s = true → c = 13 ∨ c = 15 → IsSdnv E e → IsSdnv N n →
      x >>> 4 = hexts.length → x &&& 0x0f = texts.length →
      IsExtensions H hexts → IsExtensions T texts →
      (c :: (E ++ N ++ ([x] ++ H ++ T))).length < 2 ^ 64 →
      ∃ s1, HandleReceivedChars s (c :: (E ++ N ++ ([x] ++ H ++ T))) = some (true, s1) ∧
        IsAtBeginningState s1 = true ∧
        s1.callbacks = s.callbacks ++ [.CancelAcknowledgementSegmentContentsRead ⟨e, n⟩
          (decide (c = 13)) hexts texts] := by
    intro s c e n x E N H T hexts texts hb hc hE hN hxh hxt hH hT h64
    have hb' : s.m_mainRxState = .READ_HEADER ∧ s.m_headerRxState = .READ_CONTROL_BYTE := by
      simpa [IsAtBeginningState] using hb
    obtain ⟨s1, hcall, hbeg, hcb⟩ := cancel_ack_one_call s c e n x E N H T [] hexts texts
      hb'.1 hb'.2 hc hE hN hxh hxt hH hT (by simpa using h64)
    rw [List.append_nil, HandleReceivedChars_nil] at hcall
    exact ⟨s1, hcall, hbeg, hcb⟩
  refine ⟨rfl, rfl, ?_, ?_, ?_⟩
  · cases isToSender <;> rfl
  · intro s c e n x E N H T hexts texts hb hc hE hN hxh hxt hH hT h64
    obtain ⟨s1, h1, -, h3⟩ := hparse s c e n x E N H T hexts texts hb hc hE hN hxh hxt hH hT h64
    exact ⟨s1, h1, h3⟩
  · intro s hb he hn hh ht hhv htv h64
    obtain ⟨e, n⟩ := sessionId
    have hcnt := extension_counts_byte (headerExtensions.getD []).length
      (trailerExtensions.getD []).length hh ht
    have hgen : GenerateCancelAcknowledgementSegmentLtpPacket ⟨e, n⟩ isToSender headerExtensions
        trailerExtensions
        = (if isToSender then 13 else 15) ::
          (SdnvEncodeU64ClassicBufSize10 e ++ SdnvEncodeU64ClassicBufSize10 n ++
            ([toU8 ((toU8 (headerExtensions.getD []).length <<< 4) |||
                toU8 (trailerExtensions.getD []).length)] ++
              ltp_extensions_t.Serialize (headerExtensions.getD []) ++
              ltp_extensions_t.Serialize (trailerExtensions.getD []))) := by
      cases headerExtensions <;> cases trailerExtensions <;> cases isToSender <;>
        simp [GenerateCancelAcknowledgementSegmentLtpPacket, ltp_extensions_t.Serialize, toU8,
          CANCEL_ACK_SEGMENT_TO_BLOCK_SENDER, CANCEL_ACK_SEGMENT_TO_BLOCK_RECEIVER]
    rw [hgen] at h64 ⊢
    obtain ⟨s1, h1, h2, h3⟩ := hparse s (if isToSender then 13 else 15) e n _ _ _ _ _
      (headerExtensions.getD []) (trailerExtensions.getD []) hb
      (by cases isToSender <;> simp) (IsSdnv.of_encode e he) (IsSdnv.of_encode n hn)
      hcnt.1 hcnt.2 (IsExtensions.of_Serialize _ hhv) (IsExtensions.of_Serialize _ htv) h64
    refine ⟨s1, h1, h2, ?_⟩
    rw [h3]
    cases isToSender <;> rfl

theorem C21_witness :
    ∃ s1, HandleReceivedChars InitRx
        (GenerateCancelAcknowledgementSegmentLtpPacket ⟨1, 2⟩ true none (some [⟨7, [9]⟩]))
          = some (true, s1) ∧
      IsAtBeginningState s1 = true ∧
      s1.callbacks = InitRx.callbacks ++ [.CancelAcknowledgementSegmentContentsRead ⟨1, 2⟩
        true ((none : Option ltp_extensions_t).getD []) ((some [⟨7, [9]⟩]).getD [])] :=
  (C21_cancel_ack_type_flags ⟨1, 2⟩ true none (some [⟨7, [9]⟩])).2.2.2.2 InitRx rfl
    (by decide) (by decide) (by decide) (by decide) (by decide) (by decide) (by decide)

/-- C21, the claim as the specification has it, fails: with `isToSender` false
the generator writes the control byte 15, not 13, and with `isToSender` true it
writes 13, not 15; the parser reports `isToSender = false` for the segment with
type flag 15 and `isToSender = true` for the one with type flag 13. -/
theorem C21_flags_swapped :
    GenerateCancelAcknowledgementSegmentLtpPacket ⟨1, 2⟩ false none none = [15, 1, 2, 0] ∧
    (GenerateCancelAcknowledgementSegmentLtpPacket ⟨1, 2⟩ false none none).head? ≠ some 13 ∧
    GenerateCancelAcknowledgementSegmentLtpPacket ⟨1, 2⟩ true none none = [13, 1, 2, 0] ∧
    (GenerateCancelAcknowledgementSegmentLtpPacket ⟨1, 2⟩ true none none).head? ≠ some 15 ∧
    (HandleReceivedChars InitRx [15, 1, 2, 0]).map (fun r => (r.1, r.2.callbacks))
      = some (true, [.CancelAcknowledgementSegmentContentsRead ⟨1, 2⟩ false [] []]) ∧
    (HandleReceivedChars InitRx [13, 1, 2, 0]).map (fun r => (r.1, r.2.callbacks))
      = some (true, [.CancelAcknowledgementSegmentContentsRead ⟨1, 2⟩ true [] []]) := by
  decide

end Ltp

/-! ## Random serial numbers -/

namespace LtpRandomNumberGenerator

theorem and_mask_or_one (x M : Nat) (hM : M % 2 ^ 16 = 0) :
    (x &&& M) ||| 1 = (x &&& M) + 1 ∧ (x &&& M) % 2 ^ 16 = 0 ∧ x &&& M ≤ M := by
  have hlow : (x &&& M) % 2 ^ 16 = 0 := by
    rw [← Nat.and_pow_two_sub_one_eq_mod, Nat.and_assoc, Nat.and_pow_two_sub_one_eq_mod, hM,
      Nat.and_zero]
  refine ⟨?_, hlow, Nat.and_le_right⟩
  have hy : x &&& M = 2 ^ 16 * ((x &&& M) / 2 ^ 16) := by
    have := Nat.div_add_mod (x &&& M) (2 ^ 16)
    omega
  have h := Nat.mul_add_lt_is_or (show 1 < 2 ^ 16 by norm_num) ((x &&& M) / 2 ^ 16)
  rw [← hy] at h
  exact h.symm

/-- C28 (serial numbers are non-zero): whatever the clock, the random source
and `additionalRandomness` are, `GetRandomSerialNumber64` returns a 64-bit
value that is not 0, has bit 63 clear and has 1 in its low 16 bits, and
`GetRandomSerialNumber32` a 32-bit value that is not 0, has bit 31 clear and
has 1 in its low 16 bits; adding 1 to either up to `2^16 - 2` times, in its
width, never gives 0. -/
theorem C28_serial_numbers_nonzero (microsecondsSinceEpochRfc5050 random2 additionalRandomness : Nat) :
    (GetRandomSerialNumber64 microsecondsSinceEpochRfc5050 random2 additionalRandomness ≠ 0 ∧
      GetRandomSerialNumber64 microsecondsSinceEpochRfc5050 random2 additionalRandomness < 2 ^ 64 ∧
      GetRandomSerialNumber64 microsecondsSinceEpochRfc5050 random2 additionalRandomness
        / 2 ^ 63 % 2 = 0 ∧
      GetRandomSerialNumber64 microsecondsSinceEpochRfc5050 random2 additionalRandomness
        % 2 ^ 16 = 1 ∧
      ∀ k ≤ 2 ^ 16 - 2,
        (GetRandomSerialNumber64 microsecondsSinceEpochRfc5050 random2 additionalRandomness + k)
          % 2 ^ 64 ≠ 0) ∧
    (GetRandomSerialNumber32 microsecondsSinceEpochRfc5050 random2 additionalRandomness ≠ 0 ∧
      GetRandomSerialNumber32 microsecondsSinceEpochRfc5050 random2 additionalRandomness < 2 ^ 32 ∧
      GetRandomSerialNumber32 microsecondsSinceEpochRfc5050 random2 additionalRandomness
        / 2 ^ 31 % 2 = 0 ∧
      GetRandomSerialNumber32 microsecondsSinceEpochRfc5050 random2 additionalRandomness
        % 2 ^ 16 = 1 ∧
      ∀ k ≤ 2 ^ 16 - 2,
        (GetRandomSerialNumber32 microsecondsSinceEpochRfc5050 random2 additionalRandomness + k)
          % 2 ^ 32 ≠ 0) := by
  constructor
  · obtain ⟨h1, h2, h3⟩ := and_mask_or_one
      ((((microsecondsSinceEpochRfc5050 <<< 16) % U64) ^^^ random2) ^^^ additionalRandomness)
      0x7fffffffffff0000 (by norm_num)
    simp only [GetRandomSerialNumber64]
    rw [h1]
    refine ⟨by omega, by omega, by omega, by omega, ?_⟩
    intro k hk
    omega
  · obtain ⟨h1, h2, h3⟩ := and_mask_or_one
      ((((microsecondsSinceEpochRfc5050 <<< 16) % U64) ^^^ random2) ^^^ additionalRandomness)
      0x7fff0000 (by norm_num)
    simp only [GetRandomSerialNumber32, toU32]
    rw [h1]
    refine ⟨by omega, by omega, by omega, by omega, ?_⟩
    intro k hk
    omega

end LtpRandomNumberGenerator

/-! ### Fragment sets of a block received in order -/

namespace FragmentSet

theorem InsertFragment_next_byte (k : Nat) (hk : k < U64) :
    InsertFragment (match k with
      | 0 => []
      | j + 1 => [⟨0, j⟩]) ⟨k, k⟩ = some ([⟨0, k⟩], true) := by
  cases k with
  | zero => rfl
  | succ j =>
    have h1 : ¬ ((j + 1) % U64 < j + 1) := by rw [Nat.mod_eq_of_lt hk]; omega
    have h2 : ¬ j + 1 ≤ j := by omega
    simp [InsertFragment, InsertFragment.loop, set_insert, data_fragment_t.lt, h1, h2, set_erase]

theorem ContainsFragmentEntirely_whole (n : Nat) :
    ContainsFragmentEntirely [⟨0, n⟩] ⟨0, n⟩ = true := by
  simp [ContainsFragmentEntirely, set_find, set_lower_bound, data_fragment_t.lt]

theorem GetBoundsMinusFragments_whole (n : Nat) :
    GetBoundsMinusFragments ⟨0, n⟩ [⟨0, n⟩] [] = some [] := by
  simp [GetBoundsMinusFragments, InsertFragment, InsertFragment.loop, set_insert, RemoveFragment,
    RemoveFragment.loop, set_lower_bound, data_fragment_t.lt, set_erase]

end FragmentSet

/-! ### The two sessions of `DoTest`, step by step -/

namespace Test

theorem sender_next (t : Test) (data : List Nat) (k : Nat) (hk : k + 1 < data.length) :
    (t.senderAt data k).NextDataToSend 1 0
      = some (t.segmentAt data k, t.senderAt data (k + 1), []) := by
  have h1 : k < data.length := by omega
  have h2 : min 1 (data.length - k) = 1 := by omega
  have h3 : ¬ k + 1 = data.length := by omega
  simp [LtpSessionSender.NextDataToSend, senderAt, segmentAt, h1, h2, h3]

theorem sender_last (t : Test) (data : List Nat) (k : Nat) (hk : k + 1 = data.length) :
    (t.senderAt data k).NextDataToSend 1 0
      = some (t.segmentAt data k,
          { t.senderAt data (k + 1) with
              next_checkpoint_serial := t.engineSrc.random + 2
              checkpoint_timers := [t.engineSrc.random + 1]
              initial_transmission_completed := true },
          [.initial_transmission_completed t.sessionId]) := by
  have h1 : k < data.length := by omega
  have h2 : min 1 (data.length - k) = 1 := by omega
  simp [LtpSessionSender.NextDataToSend, senderAt, segmentAt, h1, h2, hk]

theorem take_succ_of_lt (data : List Nat) (k : Nat) :
    data.take k ++ (data.drop k).take 1 = data.take (k + 1) := by
  rw [List.take_add]

theorem writeRed_next (data : List Nat) (k : Nat) (hk : k < data.length) :
    LtpSessionReceiver.writeRed (data.take k) k ((data.drop k).take 1) = data.take (k + 1) := by
  have hl : (data.take k).length = k := by simp; omega
  have e1 : (data.take k).take k = data.take k := by simp
  have e2 : (data.take k).drop (k + ((data.drop k).take 1).length) = [] :=
    List.drop_eq_nil_of_le (by omega)
  unfold LtpSessionReceiver.writeRed
  rw [e1, e2, hl, Nat.sub_self, List.replicate_zero, List.append_nil, List.append_nil]
  exact take_succ_of_lt data k

theorem fragmentsAt_succ (k : Nat) : fragmentsAt (k + 1) = [⟨0, k⟩] := rfl

theorem length_take_one (data : List Nat) (k : Nat) (hk : k < data.length) :
    ((data.drop k).take 1).length = 1 := by
  simp; omega

theorem receiver_next (t : Test) (data : List Nat) (k : Nat) (hk : k + 1 < data.length)
    (hmax : data.length ≤ t.engineDest.max_red_rx_bytes_per_session) (h64 : data.length ≤ U64) :
    (t.receiverAt data k).DataSegmentReceivedCallback Ltp.REDDATA ((data.drop k).take 1)
        { clientServiceId := CLIENT_SERVICE_ID_DEST, offset := k
          length := ((data.drop k).take 1).length, tmpCheckpointSerialNumber := 0
          tmpReportSerialNumber := 0, checkpointSerialNumber := false
          reportSerialNumber := false }
      = (t.receiverAt data (k + 1), [], []) := by
  have hlen := length_take_one data k (by omega)
  have hfrag := FragmentSet.InsertFragment_next_byte k (by omega)
  have hfrag' : FragmentSet.InsertFragment (fragmentsAt k) ⟨k, k⟩ = some ([⟨0, k⟩], true) := by
    cases k <;> exact hfrag
  have hw := writeRed_next data k (by omega)
  have hb : ¬ t.engineDest.max_red_rx_bytes_per_session < k + 1 := by omega
  simp [LtpSessionReceiver.DataSegmentReceivedCallback, receiverAt, LtpSessionReceiver.create,
    hlen, hfrag', hw, hb, Ltp.REDDATA, Ltp.GREENDATA, Ltp.GREENDATA_ENDOFBLOCK,
    Ltp.REDDATA_CHECKPOINT, Ltp.REDDATA_CHECKPOINT_ENDOFREDPART,
    Ltp.REDDATA_CHECKPOINT_ENDOFREDPART_ENDOFBLOCK, LtpSessionReceiver.deliverAndClose,
    LtpSessionReceiver.redPartFullyReceived, fragmentsAt_succ]

theorem receptionClaims_whole (k : Nat) :
    LtpSessionReceiver.receptionClaims [⟨0, k⟩] 0 (k + 1) = [⟨0, k + 1⟩] := by
  simp [LtpSessionReceiver.receptionClaims]

theorem runsOfClaims_one (maxReceptionClaims : Nat) (h : 1 ≤ maxReceptionClaims)
    (c : Ltp.reception_claim_t) :
    LtpSessionReceiver.runsOfClaims maxReceptionClaims 1 [c] = [[c]] := by
  simp [LtpSessionReceiver.runsOfClaims, h]

theorem receiver_last (t : Test) (data : List Nat) (k : Nat) (hk : k + 1 = data.length)
    (hmax : data.length ≤ t.engineDest.max_red_rx_bytes_per_session) (h64 : data.length ≤ U64)
    (hclaims : 1 ≤ t.engineDest.max_reception_claims_per_report) :
    (t.receiverAt data k).DataSegmentReceivedCallback
        Ltp.REDDATA_CHECKPOINT_ENDOFREDPART_ENDOFBLOCK ((data.drop k).take 1)
        { clientServiceId := CLIENT_SERVICE_ID_DEST, offset := k
          length := ((data.drop k).take 1).length
          tmpCheckpointSerialNumber := t.engineSrc.random + 1
          tmpReportSerialNumber := 0, checkpointSerialNumber := true
          reportSerialNumber := true }
      = ({ t.receiverAt data (k + 1) with
            m_mapAllReportSegmentsSent := [t.reportOf data]
            m_itLastPrimaryReportSegmentSent := some (t.reportOf data)
            m_checkpointSerialNumbersReceivedSet := [t.engineSrc.random + 1]
            m_reportSerialNumberActiveTimersList := [t.engineDest.random]
            m_nextReportSegmentReportSerialNumber := t.engineDest.random + 1
            m_lengthOfRedPart := some data.length
            m_didRedPartReceptionCallback := true
            m_didNotifyForDeletion := true
            m_receivedEobFromGreenOrRed := true },
          [.ReportSegmentContentsRead t.sessionId (t.reportOf data) [] []],
          [.red_part_reception t.sessionId data data.length CLIENT_SERVICE_ID_DEST true]) := by
  have hlen := length_take_one data k (by omega)
  have hfrag := FragmentSet.InsertFragment_next_byte k (by omega)
  have hfrag' : FragmentSet.InsertFragment (fragmentsAt k) ⟨k, k⟩ = some ([⟨0, k⟩], true) := by
    cases k <;> exact hfrag
  have hw := writeRed_next data k (by omega)
  have hb : ¬ t.engineDest.max_red_rx_bytes_per_session < k + 1 := by omega
  have htake : data.take (k + 1) = data := List.take_of_length_le (by omega)
  simp [LtpSessionReceiver.DataSegmentReceivedCallback, receiverAt, LtpSessionReceiver.create,
    hlen, hfrag', hw, hb, Ltp.GREENDATA, Ltp.GREENDATA_ENDOFBLOCK,
    Ltp.REDDATA_CHECKPOINT, Ltp.REDDATA_CHECKPOINT_ENDOFREDPART,
    Ltp.REDDATA_CHECKPOINT_ENDOFREDPART_ENDOFBLOCK, LtpSessionReceiver.deliverAndClose,
    LtpSessionReceiver.redPartFullyReceived, fragmentsAt_succ,
    LtpSessionReceiver.HandleGenerateAndSendReportSegment, receptionClaims_whole,
    runsOfClaims_one _ hclaims, FragmentSet.ContainsFragmentEntirely_whole, reportOf, htake,
    ← hk, List.enum]

theorem missingRanges_reportOf (t : Test) (data : List Nat) (hne : data ≠ []) :
    LtpSessionSender.missingRanges (t.reportOf data) = [] := by
  obtain ⟨k, hk⟩ : ∃ k, data.length = k + 1 :=
    ⟨data.length - 1, by have := List.length_pos.mpr hne; omega⟩
  have hins : FragmentSet.InsertFragment [] ⟨0, k⟩ = some ([⟨0, k⟩], true) := rfl
  simp [LtpSessionSender.missingRanges, LtpSessionSender.acknowledgedRanges, reportOf, hk, hins,
    FragmentSet.GetBoundsMinusFragments_whole]

theorem sender_report (t : Test) (data : List Nat) (hne : data ≠ []) :
    LtpSessionSender.ReportSegmentReceivedCallback
        { t.senderAt data data.length with
            next_checkpoint_serial := t.engineSrc.random + 2
            checkpoint_timers := [t.engineSrc.random + 1]
            initial_transmission_completed := true } 1 (t.reportOf data)
      = ({ t.senderAt data data.length with
            next_checkpoint_serial := t.engineSrc.random + 2
            initial_transmission_completed := true
            reports_processed := [t.engineDest.random]
            deletion_requested := true },
          [.ReportAcknowledgementSegmentContentsRead t.sessionId t.engineDest.random [] []],
          [.transmission_session_completed t.sessionId]) := by
  have hm := missingRanges_reportOf t data hne
  simp only [reportOf] at hm
  simp [LtpSessionSender.ReportSegmentReceivedCallback, hm, senderAt, reportOf,
    LtpSessionSender.resendSegments]

theorem receiver_ack (t : Test) (data : List Nat) (hne : data ≠ []) :
    LtpSessionReceiver.ReportAcknowledgementSegmentReceivedCallback
        { t.receiverAt data data.length with
            m_mapAllReportSegmentsSent := [t.reportOf data]
            m_itLastPrimaryReportSegmentSent := some (t.reportOf data)
            m_checkpointSerialNumbersReceivedSet := [t.engineSrc.random + 1]
            m_reportSerialNumberActiveTimersList := [t.engineDest.random]
            m_nextReportSegmentReportSerialNumber := t.engineDest.random + 1
            m_lengthOfRedPart := some data.length
            m_didRedPartReceptionCallback := true
            m_didNotifyForDeletion := true
            m_receivedEobFromGreenOrRed := true } t.engineDest.random
      = ({ t.receiverAt data data.length with
            m_mapAllReportSegmentsSent := [t.reportOf data]
            m_itLastPrimaryReportSegmentSent := some (t.reportOf data)
            m_checkpointSerialNumbersReceivedSet := [t.engineSrc.random + 1]
            m_reportSerialNumberActiveTimersList := []
            m_nextReportSegmentReportSerialNumber := t.engineDest.random + 1
            m_lengthOfRedPart := some data.length
            m_didRedPartReceptionCallback := true
            m_didNotifyForDeletion := true
            m_receivedEobFromGreenOrRed := true }, []) := by
  obtain ⟨k, hk⟩ : ∃ k, data.length = k + 1 :=
    ⟨data.length - 1, by have := List.length_pos.mpr hne; omega⟩
  simp [LtpSessionReceiver.ReportAcknowledgementSegmentReceivedCallback, reportOf, receiverAt,
    LtpSessionReceiver.create, LtpSessionReceiver.redPartFullyReceived, hk, fragmentsAt_succ,
    FragmentSet.ContainsFragmentEntirely_whole]

end Test

/-! ### The two engines of `DoTest`, call by call -/

namespace Test

theorem src_next (t : Test) (data : List Nat) (k : Nat) (hk : k + 1 < data.length)
    (hmtu : t.engineSrc.mtu_bytes = 1) (notices : List Notice) :
    (t.srcWith [t.senderAt data k] [] notices).GetNextPacketToSend
      = (some (t.segmentAt data k), t.srcWith [t.senderAt data (k + 1)] [] notices) := by
  have hs := sender_next t data k hk
  have hd : (t.senderAt data (k + 1)).deletion_requested = false := rfl
  simp [LtpEngine.GetNextPacketToSend, srcWith, LtpEngine.nextDataOfSenders, hmtu, hs,
    LtpEngine.destroyClosedSessions, hd]

theorem src_last (t : Test) (data : List Nat) (k : Nat) (hk : k + 1 = data.length)
    (hmtu : t.engineSrc.mtu_bytes = 1) (notices : List Notice) :
    (t.srcWith [t.senderAt data k] [] notices).GetNextPacketToSend
      = (some (t.segmentAt data k),
          t.srcWith [{ t.senderAt data (k + 1) with
              next_checkpoint_serial := t.engineSrc.random + 2
              checkpoint_timers := [t.engineSrc.random + 1]
              initial_transmission_completed := true }] []
            (notices ++ [.initial_transmission_completed t.sessionId])) := by
  have hs := sender_last t data k hk
  simp only [LtpEngine.GetNextPacketToSend, srcWith, LtpEngine.nextDataOfSenders, hmtu, hs]
  simp [LtpEngine.destroyClosedSessions, senderAt]

theorem src_report (t : Test) (data : List Nat) (hne : data ≠ [])
    (hmtu : t.engineSrc.mtu_bytes = 1) (notices : List Notice) :
    (t.srcWith [{ t.senderAt data data.length with
        next_checkpoint_serial := t.engineSrc.random + 2
        checkpoint_timers := [t.engineSrc.random + 1]
        initial_transmission_completed := true }] [] notices).PacketIn
        (.ReportSegmentContentsRead t.sessionId (t.reportOf data) [] [])
      = t.srcWith [] [.ReportAcknowledgementSegmentContentsRead t.sessionId t.engineDest.random [] []]
          (notices ++ [.transmission_session_completed t.sessionId]) := by
  have hs := sender_report t data hne
  have hf : (t.srcWith [{ t.senderAt data data.length with
        next_checkpoint_serial := t.engineSrc.random + 2
        checkpoint_timers := [t.engineSrc.random + 1]
        initial_transmission_completed := true }] [] notices).findSender t.sessionId
      = some { t.senderAt data data.length with
        next_checkpoint_serial := t.engineSrc.random + 2
        checkpoint_timers := [t.engineSrc.random + 1]
        initial_transmission_completed := true } := by
    simp [LtpEngine.findSender, srcWith, senderAt]
  have hm : (t.srcWith [{ t.senderAt data data.length with
        next_checkpoint_serial := t.engineSrc.random + 2
        checkpoint_timers := [t.engineSrc.random + 1]
        initial_transmission_completed := true }] [] notices).mtu_bytes = t.engineSrc.mtu_bytes := rfl
  simp only [LtpEngine.PacketIn, hf, hm, hmtu, hs]
  simp [LtpEngine.destroyClosedSessions, LtpEngine.putSender, srcWith, senderAt, hmtu]

theorem src_ack (t : Test) (segment : Ltp.Callback) (notices : List Notice) :
    (t.srcWith [] [segment] notices).GetNextPacketToSend
      = (some segment, t.srcWith [] [] notices) := by
  simp [LtpEngine.GetNextPacketToSend, srcWith, LtpEngine.destroyClosedSessions]

theorem src_idle (t : Test) (notices : List Notice) :
    (t.srcWith [] [] notices).GetNextPacketToSend = (none, t.srcWith [] [] notices) := by
  simp [LtpEngine.GetNextPacketToSend, srcWith, LtpEngine.destroyClosedSessions,
    LtpEngine.nextDataOfSenders]

theorem dest_idle (t : Test) (data : List Nat) (k : Nat) :
    (t.destAt data k).GetNextPacketToSend = (none, t.destAt data k) := by
  cases k with
  | zero =>
    simp [destAt, Reset, LtpEngine.Reset, LtpEngine.SetCheckpointEveryNthDataPacketForSenders,
      LtpEngine.GetNextPacketToSend, LtpEngine.destroyClosedSessions, LtpEngine.nextDataOfSenders]
  | succ k =>
    simp [destAt, destWith, receiverAt, LtpSessionReceiver.create,
      LtpEngine.GetNextPacketToSend, LtpEngine.destroyClosedSessions, LtpEngine.nextDataOfSenders]

theorem dest_data (t : Test) (data : List Nat) (k : Nat) (segmentTypeFlags : Nat)
    (bytes : List Nat) (m : Ltp.data_segment_metadata_t) (hm : m.clientServiceId = CLIENT_SERVICE_ID_DEST)
    (r : LtpSessionReceiver) (sent : List Ltp.Callback) (notices : List Notice)
    (hr : (t.receiverAt data k).DataSegmentReceivedCallback segmentTypeFlags bytes m
      = (r, sent, notices))
    (hid : r.M_SESSION_ID = t.sessionId) :
    (t.destAt data k).PacketIn (.DataSegmentContentsRead segmentTypeFlags t.sessionId bytes m [] [])
      = LtpEngine.destroyClosedSessions
          (t.destWith [r] sent [] (.session_start t.sessionId :: notices)) := by
  cases k with
  | zero =>
    have hc : LtpSessionReceiver.create t.sessionId m.clientServiceId
        t.engineDest.max_reception_claims_per_report t.engineDest.max_red_rx_bytes_per_session
        t.engineDest.random = t.receiverAt data 0 := by
      simp [receiverAt, LtpSessionReceiver.create, fragmentsAt, hm]
    simp only [LtpEngine.PacketIn, destAt, Reset, LtpEngine.Reset,
      LtpEngine.SetCheckpointEveryNthDataPacketForSenders, LtpEngine.findReceiver, List.find?_nil,
      List.not_mem_nil, hc, hr, if_false]
    simp [LtpEngine.putReceiver, LtpEngine.findReceiver, destWith]
  | succ j =>
    have hf : (t.destWith [t.receiverAt data (j + 1)] [] [] [.session_start t.sessionId]).findReceiver
        t.sessionId = some (t.receiverAt data (j + 1)) := by
      simp [LtpEngine.findReceiver, destWith, receiverAt, LtpSessionReceiver.create]
    simp only [LtpEngine.PacketIn, destAt, hf, hr]
    simp [LtpEngine.putReceiver, LtpEngine.findReceiver, destWith, hid, receiverAt,
      LtpSessionReceiver.create]

theorem dest_next (t : Test) (data : List Nat) (k : Nat) (hk : k + 1 < data.length)
    (hmax : data.length ≤ t.engineDest.max_red_rx_bytes_per_session) (h64 : data.length ≤ U64) :
    (t.destAt data k).PacketIn (t.segmentAt data k) = t.destAt data (k + 1) := by
  have hr := receiver_next t data k hk hmax h64
  have hflag : ¬ k + 1 = data.length := by omega
  have h := dest_data t data k _ _ _ rfl _ _ _ hr rfl
  simp only [segmentAt, dataSegment, if_neg hflag, Option.getD_none, Option.isSome_none]
  rw [h]
  simp [LtpEngine.destroyClosedSessions, destAt, destWith, receiverAt, LtpSessionReceiver.create]

theorem dest_last (t : Test) (data : List Nat) (k : Nat) (hk : k + 1 = data.length)
    (hmax : data.length ≤ t.engineDest.max_red_rx_bytes_per_session) (h64 : data.length ≤ U64)
    (hclaims : 1 ≤ t.engineDest.max_reception_claims_per_report) :
    (t.destAt data k).PacketIn (t.segmentAt data k)
      = t.destWith [{ t.receiverAt data data.length with
            m_mapAllReportSegmentsSent := [t.reportOf data]
            m_itLastPrimaryReportSegmentSent := some (t.reportOf data)
            m_checkpointSerialNumbersReceivedSet := [t.engineSrc.random + 1]
            m_reportSerialNumberActiveTimersList := [t.engineDest.random]
            m_nextReportSegmentReportSerialNumber := t.engineDest.random + 1
            m_lengthOfRedPart := some data.length
            m_didRedPartReceptionCallback := true
            m_didNotifyForDeletion := true
            m_receivedEobFromGreenOrRed := true }]
          [.ReportSegmentContentsRead t.sessionId (t.reportOf data) [] []] []
          [.session_start t.sessionId,
            .red_part_reception t.sessionId data data.length CLIENT_SERVICE_ID_DEST true] := by
  have hr := receiver_last t data k hk hmax h64 hclaims
  have h := dest_data t data k _ _ _ rfl _ _ _ hr rfl
  simp only [segmentAt, dataSegment, if_pos hk, Option.getD_some, Option.isSome_some]
  rw [h, hk]
  simp [LtpEngine.destroyClosedSessions, destWith, receiverAt, LtpSessionReceiver.create,
    LtpSessionReceiver.GetNumActiveTimers]

theorem dest_report (t : Test) (receivers : List LtpSessionReceiver) (segment : Ltp.Callback)
    (notices : List Notice)
    (h : ∀ r ∈ receivers, r.GetNumActiveTimers ≠ 0) :
    (t.destWith receivers [segment] [] notices).GetNextPacketToSend
      = (some segment, t.destWith receivers [] [] notices) := by
  have hfil : receivers.filter
      (fun r => !(r.m_didNotifyForDeletion && decide (r.GetNumActiveTimers = 0))) = receivers := by
    rw [List.filter_eq_self]
    intro r hr
    simp [h r hr]
  have hfil2 : receivers.filter
      (fun r => r.m_didNotifyForDeletion && decide (r.GetNumActiveTimers = 0)) = [] := by
    rw [List.filter_eq_nil_iff]
    intro r hr
    simp [h r hr]
  simp only [LtpEngine.GetNextPacketToSend, destWith, LtpEngine.destroyClosedSessions, hfil, hfil2]
  simp

theorem dest_ack (t : Test) (data : List Nat) (hne : data ≠ []) (notices : List Notice) :
    (t.destWith [{ t.receiverAt data data.length with
            m_mapAllReportSegmentsSent := [t.reportOf data]
            m_itLastPrimaryReportSegmentSent := some (t.reportOf data)
            m_checkpointSerialNumbersReceivedSet := [t.engineSrc.random + 1]
            m_reportSerialNumberActiveTimersList := [t.engineDest.random]
            m_nextReportSegmentReportSerialNumber := t.engineDest.random + 1
            m_lengthOfRedPart := some data.length
            m_didRedPartReceptionCallback := true
            m_didNotifyForDeletion := true
            m_receivedEobFromGreenOrRed := true }] [] [] notices).PacketIn
        (.ReportAcknowledgementSegmentContentsRead t.sessionId t.engineDest.random [] [])
      = t.destWith [] []
          ([t.sessionId].drop
            (1 - t.engineDest.rx_session_number_recreation_preventer_history_size)) notices := by
  have hr := receiver_ack t data hne
  have hf : (t.destWith [{ t.receiverAt data data.length with
            m_mapAllReportSegmentsSent := [t.reportOf data]
            m_itLastPrimaryReportSegmentSent := some (t.reportOf data)
            m_checkpointSerialNumbersReceivedSet := [t.engineSrc.random + 1]
            m_reportSerialNumberActiveTimersList := [t.engineDest.random]
            m_nextReportSegmentReportSerialNumber := t.engineDest.random + 1
            m_lengthOfRedPart := some data.length
            m_didRedPartReceptionCallback := true
            m_didNotifyForDeletion := true
            m_receivedEobFromGreenOrRed := true }] [] [] notices).findReceiver t.sessionId
      = some { t.receiverAt data data.length with
            m_mapAllReportSegmentsSent := [t.reportOf data]
            m_itLastPrimaryReportSegmentSent := some (t.reportOf data)
            m_checkpointSerialNumbersReceivedSet := [t.engineSrc.random + 1]
            m_reportSerialNumberActiveTimersList := [t.engineDest.random]
            m_nextReportSegmentReportSerialNumber := t.engineDest.random + 1
            m_lengthOfRedPart := some data.length
            m_didRedPartReceptionCallback := true
            m_didNotifyForDeletion := true
            m_receivedEobFromGreenOrRed := true } := by
    simp [LtpEngine.findReceiver, destWith, receiverAt, LtpSessionReceiver.create]
  simp only [LtpEngine.PacketIn, hf, hr]
  simp [LtpEngine.destroyClosedSessions, LtpEngine.putReceiver, LtpEngine.findReceiver, destWith,
    receiverAt, LtpSessionReceiver.create, LtpSessionReceiver.GetNumActiveTimers]

theorem dest_closed_idle (t : Test) (notices : List Notice) :
    (t.destWith [] []
        ([t.sessionId].drop (1 - t.engineDest.rx_session_number_recreation_preventer_history_size))
        notices).GetNextPacketToSend
      = (none, t.destWith [] []
          ([t.sessionId].drop
            (1 - t.engineDest.rx_session_number_recreation_preventer_history_size)) notices) := by
  by_cases h0 : t.engineDest.rx_session_number_recreation_preventer_history_size = 0
  · simp [LtpEngine.GetNextPacketToSend, destWith, LtpEngine.destroyClosedSessions,
      LtpEngine.nextDataOfSenders, h0]
  · have h1 : 1 - t.engineDest.rx_session_number_recreation_preventer_history_size = 0 := by omega
    simp [LtpEngine.GetNextPacketToSend, destWith, LtpEngine.destroyClosedSessions,
      LtpEngine.nextDataOfSenders, h1]

end Test

/-! ### The exchange of `DoTest` -/

namespace Test

theorem ExchangeData_next (t : Test) (data : List Nat) (k : Nat) (hk : k + 1 < data.length)
    (hmtu : t.engineSrc.mtu_bytes = 1)
    (hmax : data.length ≤ t.engineDest.max_red_rx_bytes_per_session) (h64 : data.length ≤ U64) :
    (t.stateAt data k).ExchangeData = (true, t.stateAt data (k + 1)) := by
  simp only [ExchangeData, SendData, stateAt, src_next t data k hk hmtu,
    dest_next t data k hk hmax h64, dest_idle, List.range_succ, List.map_append, List.map_cons,
    List.map_nil]
  simp

/-- The test after the exchange of `DoTest`: both engines without session and
with nothing to send, `N + 1` packets from the sender, one from the
receiver. -/
theorem exchange_end (t : Test) (data : List Nat) (k : Nat) (hk : k + 1 = data.length)
    (hmtu : t.engineSrc.mtu_bytes = 1)
    (hmax : data.length ≤ t.engineDest.max_red_rx_bytes_per_session) (h64 : data.length ≤ U64)
    (hclaims : 1 ≤ t.engineDest.max_reception_claims_per_report) (fuel : Nat) :
    exchangeAll (fuel + 3) (t.stateAt data k)
      = some
          { engineSrc := t.srcWith [] []
              [.session_start t.sessionId, .initial_transmission_completed t.sessionId,
                .transmission_session_completed t.sessionId]
            engineDest := t.destWith [] []
              ([t.sessionId].drop
                (1 - t.engineDest.rx_session_number_recreation_preventer_history_size))
              [.session_start t.sessionId,
                .red_part_reception t.sessionId data data.length CLIENT_SERVICE_ID_DEST true]
            numSrcToDestDataExchanged := data.length + 1
            numDestToSrcDataExchanged := 1
            srcToDest := (List.range data.length).map (t.segmentAt data) ++
              [.ReportAcknowledgementSegmentContentsRead t.sessionId t.engineDest.random [] []]
            destToSrc := [.ReportSegmentContentsRead t.sessionId (t.reportOf data) [] []] } := by
  have hne : data ≠ [] := by intro h; rw [h] at hk; simp at hk
  have hsl := src_last t data k hk hmtu [.session_start t.sessionId]
  rw [hk] at hsl
  have hdl := dest_last t data k hk hmax h64 hclaims
  have hdr := dest_report t [{ t.receiverAt data data.length with
            m_mapAllReportSegmentsSent := [t.reportOf data]
            m_itLastPrimaryReportSegmentSent := some (t.reportOf data)
            m_checkpointSerialNumbersReceivedSet := [t.engineSrc.random + 1]
            m_reportSerialNumberActiveTimersList := [t.engineDest.random]
            m_nextReportSegmentReportSerialNumber := t.engineDest.random + 1
            m_lengthOfRedPart := some data.length
            m_didRedPartReceptionCallback := true
            m_didNotifyForDeletion := true
            m_receivedEobFromGreenOrRed := true }]
    (.ReportSegmentContentsRead t.sessionId (t.reportOf data) [] [])
    [.session_start t.sessionId,
      .red_part_reception t.sessionId data data.length CLIENT_SERVICE_ID_DEST true]
    (by simp [LtpSessionReceiver.GetNumActiveTimers])
  have hsr := src_report t data hne hmtu
    ([.session_start t.sessionId] ++ [.initial_transmission_completed t.sessionId])
  have hda := dest_ack t data hne [.session_start t.sessionId,
      .red_part_reception t.sessionId data data.length CLIENT_SERVICE_ID_DEST true]
  have e1 : (t.stateAt data k).ExchangeData
      = (true,
          { engineSrc := t.srcWith []
              [.ReportAcknowledgementSegmentContentsRead t.sessionId t.engineDest.random [] []]
              [.session_start t.sessionId, .initial_transmission_completed t.sessionId,
                .transmission_session_completed t.sessionId]
            engineDest := t.destWith [{ t.receiverAt data data.length with
                m_mapAllReportSegmentsSent := [t.reportOf data]
                m_itLastPrimaryReportSegmentSent := some (t.reportOf data)
                m_checkpointSerialNumbersReceivedSet := [t.engineSrc.random + 1]
                m_reportSerialNumberActiveTimersList := [t.engineDest.random]
                m_nextReportSegmentReportSerialNumber := t.engineDest.random + 1
                m_lengthOfRedPart := some data.length
                m_didRedPartReceptionCallback := true
                m_didNotifyForDeletion := true
                m_receivedEobFromGreenOrRed := true }] [] []
              [.session_start t.sessionId,
                .red_part_reception t.sessionId data data.length CLIENT_SERVICE_ID_DEST true]
            numSrcToDestDataExchanged := data.length
            numDestToSrcDataExchanged := 1
            srcToDest := (List.range data.length).map (t.segmentAt data)
            destToSrc := [.ReportSegmentContentsRead t.sessionId (t.reportOf data) [] []] }) := by
    simp only [ExchangeData, SendData, stateAt, hsl, hdl, hdr, hsr]
    simp [← hk, List.range_succ]
  rw [exchangeAll, e1]
  simp only []
  rw [exchangeAll]
  simp only [ExchangeData, SendData, src_ack, hda, dest_closed_idle]
  simp only [Bool.or_false, Bool.toNat_true, Bool.toNat_false, Option.toList, List.append_nil,
    Nat.add_zero]
  rw [exchangeAll]
  simp only [ExchangeData, SendData, src_idle, dest_closed_idle]
  simp

theorem exchange_to_last (t : Test) (data : List Nat)
    (hmtu : t.engineSrc.mtu_bytes = 1)
    (hmax : data.length ≤ t.engineDest.max_red_rx_bytes_per_session) (h64 : data.length ≤ U64) :
    ∀ (j fuel k : Nat), k + j + 1 = data.length →
      exchangeAll (fuel + j) (t.stateAt data k) = exchangeAll fuel (t.stateAt data (k + j)) := by
  intro j
  induction j with
  | zero => intro fuel k _; rfl
  | succ j ih =>
    intro fuel k hk
    rw [← Nat.add_assoc, exchangeAll, ExchangeData_next t data k (by omega) hmtu hmax h64]
    simp only []
    rw [ih fuel (k + 1) (by omega)]
    congr 2
    omega

theorem DoTest_start (fuel : Nat) (t : Test) (data : List Nat) :
    DoTest fuel t data = exchangeAll fuel (t.stateAt data 0) := by
  simp [DoTest, stateAt, Reset, LtpEngine.Reset, LtpEngine.SetCheckpointEveryNthDataPacketForSenders,
    LtpEngine.TransmissionRequest, srcWith, senderAt, destAt, sessionId]

end Test

/-! ### Loss-free red transfer -/

namespace Test

/-- C29 (amended), loss-free red transfer: for every non-empty block of `N`
bytes, `N` not above the limit of red bytes per session of the receiving
engine, sent entirely as red data with a 1-byte MTU, periodic checkpoints
disabled (`DoTest` resets both engines so) and no packet lost, the exchange of
`DoTest` ends (within `N + 2` calls of `ExchangeData`) after exactly `N + 1`
sender-to-receiver packets (the `N` data segments of one byte, the last one
the end-of-block checkpoint, then one report-acknowledgement) and exactly one
receiver-to-sender packet (one report claiming the whole block); the red-part
reception callback fires exactly once with exactly the `N` bytes sent,
session-start fires once on each side, initial-transmission-completed and
transmission-session-completed fire once each, no cancellation callback and no
green callback fires, and afterwards neither engine has an active sender or
receiver. -/
theorem C29_loss_free_red_transfer (t : Test) (data : List Nat) (fuel : Nat)
    (hne : data ≠ []) (hmtu : t.engineSrc.mtu_bytes = 1)
    (hmax : data.length ≤ t.engineDest.max_red_rx_bytes_per_session)
    (hclaims : 1 ≤ t.engineDest.max_reception_claims_per_report)
    (h64 : data.length < 2 ^ 64) (hfuel : data.length + 2 ≤ fuel) :
    ∃ t' : Test, DoTest fuel t data = some t' ∧
      t'.numSrcToDestDataExchanged = data.length + 1 ∧
      t'.numDestToSrcDataExchanged = 1 ∧
      t'.srcToDest = (List.range data.length).map (t.segmentAt data) ++
        [.ReportAcknowledgementSegmentContentsRead t.sessionId t.engineDest.random [] []] ∧
      t'.destToSrc = [.ReportSegmentContentsRead t.sessionId (t.reportOf data) [] []] ∧
      t'.engineDest.notices =
        [.session_start t.sessionId,
          .red_part_reception t.sessionId data data.length CLIENT_SERVICE_ID_DEST true] ∧
      t'.engineSrc.notices =
        [.session_start t.sessionId, .initial_transmission_completed t.sessionId,
          .transmission_session_completed t.sessionId] ∧
      t'.numRedPartReceptionCallbacks = 1 ∧
      t'.numSessionStartSenderCallbacks = 1 ∧
      t'.numSessionStartReceiverCallbacks = 1 ∧
      t'.numInitialTransmissionCompletedCallbacks = 1 ∧
      t'.numTransmissionSessionCompletedCallbacks = 1 ∧
      t'.numReceptionSessionCancelledCallbacks = 0 ∧
      t'.numTransmissionSessionCancelledCallbacks = 0 ∧
      t'.numGreenPartReceptionCallbacks = 0 ∧
      t'.NoActiveSendersAndReceivers := by
  have hU : data.length ≤ U64 := by
    have : U64 = 2 ^ 64 := by decide
    omega
  have hpos : 0 < data.length := List.length_pos.mpr hne
  obtain ⟨f, hf⟩ : ∃ f, fuel = f + 3 + (data.length - 1) := ⟨fuel - data.length - 2, by omega⟩
  have h1 := exchange_to_last t data hmtu hmax hU (data.length - 1) (f + 3) 0 (by omega)
  have h2 := exchange_end t data (0 + (data.length - 1)) (by omega) hmtu hmax hU hclaims f
  refine ⟨_, by rw [DoTest_start, hf, h1, h2], rfl, rfl, rfl, rfl, rfl, rfl, ?_⟩
  simp [numRedPartReceptionCallbacks, numSessionStartSenderCallbacks,
    numSessionStartReceiverCallbacks, numInitialTransmissionCompletedCallbacks,
    numTransmissionSessionCompletedCallbacks, numReceptionSessionCancelledCallbacks,
    numTransmissionSessionCancelledCallbacks, numGreenPartReceptionCallbacks,
    NoActiveSendersAndReceivers, LtpEngine.NumActiveSenders, LtpEngine.NumActiveReceivers,
    srcWith, destWith]

/-- Witness of C29 (amended): the block of 44 bytes of `Test::DoTest()`
between the engines of the test, which take 50 red bytes per session: 45
packets from the sender, one from the receiver, the red part delivered once
with the 44 bytes. -/
theorem C29_witness :
    ∃ t' : Test, DoTest 46 init DESIRED_RED_DATA_TO_SEND = some t' ∧
      t'.numSrcToDestDataExchanged = 45 ∧ t'.numDestToSrcDataExchanged = 1 ∧
      t'.engineDest.notices =
        [.session_start ⟨100, 1⟩,
          .red_part_reception ⟨100, 1⟩ DESIRED_RED_DATA_TO_SEND 44 300 true] ∧
      t'.numRedPartReceptionCallbacks = 1 :=
  let ⟨t', h, h1, h2, _, _, h3, _, h4, _⟩ :=
    C29_loss_free_red_transfer init DESIRED_RED_DATA_TO_SEND 46 (by decide) rfl
      (by decide) (by decide) (by decide) (by decide)
  ⟨t', h, h1, h2, h3, h4⟩

/-- Counterexample to C29 as stated: the block of 56 bytes of
`Test::DoTestTooMuchRedData()`, sent entirely red with a 1-byte MTU, periodic
checkpoints disabled and nothing lost, between the engines of the test, which
take 50 red bytes per session. The exchange ends after 52 packets from the
sender (51 data segments, none of them the end-of-block checkpoint, and one
cancel-acknowledgement) and one from the receiver (a cancel segment, no
report); the red-part reception callback never fires, neither do
initial-transmission-completed and transmission-session-completed, and both
cancellation callbacks fire once with the reason `SYSTEM_CANCELLED`. -/
theorem C29_block_above_red_limit :
    ∃ t' : Test, DoTest 53 init DESIRED_TOO_MUCH_RED_DATA_TO_SEND = some t' ∧
      DESIRED_TOO_MUCH_RED_DATA_TO_SEND.length = 56 ∧
      t'.numSrcToDestDataExchanged = 52 ∧
      t'.numDestToSrcDataExchanged = 1 ∧
      t'.destToSrc = [.CancelSegmentContentsRead ⟨100, 1⟩ SYSTEM_CANCELLED false [] []] ∧
      t'.numRedPartReceptionCallbacks = 0 ∧
      t'.numSessionStartSenderCallbacks = 1 ∧
      t'.numSessionStartReceiverCallbacks = 1 ∧
      t'.numInitialTransmissionCompletedCallbacks = 0 ∧
      t'.numTransmissionSessionCompletedCallbacks = 0 ∧
      t'.numReceptionSessionCancelledCallbacks = 1 ∧
      t'.numTransmissionSessionCancelledCallbacks = 1 ∧
      t'.engineDest.notices =
        [.session_start ⟨100, 1⟩, .reception_session_cancelled ⟨100, 1⟩ SYSTEM_CANCELLED] ∧
      t'.engineSrc.notices =
        [.session_start ⟨100, 1⟩, .transmission_session_cancelled ⟨100, 1⟩ SYSTEM_CANCELLED] ∧
      t'.NoActiveSendersAndReceivers :=
  ⟨_, rfl, by decide⟩

end Test

/-! ## The 32-bit codec -/

theorem loop32_run (cont : List Nat) (hcont : ∀ b ∈ cont, b / 128 % 2 = 1) (last : Nat)
    (hlast : last / 128 % 2 = 0) (rest : List Nat) :
    ∀ (pre : List Nat) (iters r : Nat), cont.length < iters →
      SdnvDecodeU32Classic.loop (pre ++ (cont ++ last :: rest)) iters (pre.length + 1) r =
        if pre.length + cont.length + 1 = 5 ∧ (pre ++ (cont ++ last :: rest)).getD 0 0 > 0x8f then
          ⟨.DECODE_FAILURE_INVALID_SDNV_RETURN_VALUE, 0⟩
        else ⟨.value (accum32 r (cont ++ [last])), pre.length + cont.length + 1⟩ := by
  induction cont with
  | nil =>
    intro pre iters r hlt
    obtain ⟨k, rfl⟩ : ∃ k, iters = k + 1 := ⟨iters - 1, by simp at hlt; omega⟩
    rw [SdnvDecodeU32Classic.loop]
    simp only [List.nil_append, Nat.add_sub_cancel, getD_append_cons, byte_and_7f, byte_and_80,
      Nat.shiftLeft_eq, if_pos hlast, List.length_nil, Nat.add_zero]
    simp [accum32]
  | cons b cont ih =>
    intro pre iters r hlt
    obtain ⟨k, rfl⟩ : ∃ k, iters = k + 1 := ⟨iters - 1, by simp at hlt; omega⟩
    rw [SdnvDecodeU32Classic.loop]
    have hb : ¬ (b / 128 % 2 = 0) := by
      have := hcont b (List.mem_cons_self _ _); omega
    simp only [List.cons_append, Nat.add_sub_cancel, getD_append_cons, byte_and_7f, byte_and_80,
      Nat.shiftLeft_eq, if_neg hb]
    have hih := ih (fun x hx => hcont x (List.mem_cons_of_mem _ hx)) (pre ++ [b]) k
      ((r * 2 ^ 7 % 2 ^ 32 + b % 128) % 2 ^ 32) (by simp at hlt; omega)
    have e1 : pre ++ [b] ++ (cont ++ last :: rest) = pre ++ b :: (cont ++ last :: rest) := by simp
    have e2 : (pre ++ [b]).length = pre.length + 1 := by simp
    rw [e1, e2] at hih
    rw [hih]
    have e3 : pre.length + 1 + cont.length + 1 = pre.length + (b :: cont).length + 1 := by
      simp; omega
    rw [e3]
    rfl

theorem accum32_contGroups (v : Nat) (hv : v < 2 ^ 32) :
    ∀ k, accum32 (v / 2 ^ (7 * (k + 1))) (contGroups v k ++ [v % 128]) = v := by
  intro k
  induction k with
  | zero =>
    simp only [contGroups, List.nil_append, accum32, List.foldl]
    omega
  | succ k ih =>
    have hstep : (v / 2 ^ (7 * (k + 1 + 1)) * 128 % 2 ^ 32 +
        (v / 2 ^ (7 * (k + 1)) % 128 + 128) % 128) % 2 ^ 32 = v / 2 ^ (7 * (k + 1)) := by
      have e : v / 2 ^ (7 * (k + 1 + 1)) = v / 2 ^ (7 * (k + 1)) / 128 := by
        rw [Nat.div_div_eq_div_mul, show 7 * (k + 1 + 1) = 7 * (k + 1) + 7 by ring, pow_add]
        norm_num
      have hle : v / 2 ^ (7 * (k + 1)) ≤ v := Nat.div_le_self _ _
      rw [e]
      omega
    have hunf : accum32 (v / 2 ^ (7 * (k + 1 + 1))) (contGroups v (k + 1) ++ [v % 128]) =
        accum32 ((v / 2 ^ (7 * (k + 1 + 1)) * 128 % 2 ^ 32 +
          (v / 2 ^ (7 * (k + 1)) % 128 + 128) % 128) % 2 ^ 32) (contGroups v k ++ [v % 128]) := by
      simp [accum32, contGroups]
    rw [hunf, hstep, ih]

theorem encode32_shape (v bufferSize : Nat) (hv : v < 2 ^ 32) (hbuf : 5 ≤ bufferSize) :
    ∃ k, k ≤ 4 ∧ SdnvEncodeU32Classic v bufferSize = contGroups v k ++ [v % 128] ∧
      v < 2 ^ (7 * (k + 1)) := by
  unfold SdnvEncodeU32Classic
  simp only [SDNV32_MAX_1_BYTE, SDNV32_MAX_2_BYTE, SDNV32_MAX_3_BYTE, SDNV32_MAX_4_BYTE,
    sdnvContByte_eq, sdnvLastByte_eq, Nat.shiftLeft_eq]
  by_cases h1 : v ≤ 1 * 2 ^ 7 - 1
  · rw [if_pos h1, if_neg (by omega)]; exact ⟨0, by omega, by simp [contGroups], by omega⟩
  rw [if_neg h1]
  by_cases h2 : v ≤ 1 * 2 ^ 14 - 1
  · rw [if_pos h2, if_neg (by omega)]; exact ⟨1, by omega, by simp [contGroups], by omega⟩
  rw [if_neg h2]
  by_cases h3 : v ≤ 1 * 2 ^ 21 - 1
  · rw [if_pos h3, if_neg (by omega)]; exact ⟨2, by omega, by simp [contGroups], by omega⟩
  rw [if_neg h3]
  by_cases h4 : v ≤ 1 * 2 ^ 28 - 1
  · rw [if_pos h4, if_neg (by omega)]; exact ⟨3, by omega, by simp [contGroups], by omega⟩
  rw [if_neg h4, if_neg (by omega)]
  exact ⟨4, by omega, by simp [contGroups], by omega⟩

theorem encode32_eq_encode64 (v bufferSize32 bufferSize64 : Nat) (hv : v < 2 ^ 32)
    (h32 : 5 ≤ bufferSize32) (h64 : 5 ≤ bufferSize64) :
    SdnvEncodeU32Classic v bufferSize32 = SdnvEncodeU64Classic v bufferSize64 := by
  unfold SdnvEncodeU32Classic SdnvEncodeU64Classic
  simp only [SDNV32_MAX_1_BYTE, SDNV32_MAX_2_BYTE, SDNV32_MAX_3_BYTE, SDNV32_MAX_4_BYTE,
    SDNV64_MAX_1_BYTE, SDNV64_MAX_2_BYTE, SDNV64_MAX_3_BYTE, SDNV64_MAX_4_BYTE,
    SDNV64_MAX_5_BYTE, Nat.shiftLeft_eq]
  by_cases h1 : v ≤ 1 * 2 ^ 7 - 1
  · rw [if_pos h1, if_pos h1, if_neg (by omega), if_neg (by omega)]
  rw [if_neg h1, if_neg h1]
  by_cases h2 : v ≤ 1 * 2 ^ 14 - 1
  · rw [if_pos h2, if_pos h2, if_neg (by omega), if_neg (by omega)]
  rw [if_neg h2, if_neg h2]
  by_cases h3 : v ≤ 1 * 2 ^ 21 - 1
  · rw [if_pos h3, if_pos h3, if_neg (by omega), if_neg (by omega)]
  rw [if_neg h3, if_neg h3]
  by_cases h4 : v ≤ 1 * 2 ^ 28 - 1
  · rw [if_pos h4, if_pos h4, if_neg (by omega), if_neg (by omega)]
  rw [if_neg h4, if_neg h4, if_neg (by omega), if_pos (by omega), if_neg (by omega)]

/-- C31 (32-bit SDNV round trip): for every 32-bit unsigned value `v`,
`SdnvEncodeU32Classic` with a buffer of at least 5 bytes writes `n` bytes,
`1 <= n <= 5`, that are identical to the bytes `SdnvEncodeU64Classic` writes for
the same numeric value (with a buffer of at least 5 bytes too), and
`SdnvDecodeU32Classic` applied to them, whatever follows them in a buffer that
holds them, returns `v` with `numBytes = n`; `SdnvDecodeU32Classic` reports an
invalid SDNV for every 5-byte encoding (four bytes with the top bit set, a fifth
with it clear, in a buffer of at least 5 bytes) whose first byte is greater than
`0x8f`. -/
theorem C31_sdnv32_round_trip (v : Nat) (hv : v < 2 ^ 32) (bufferSize32 bufferSize64 : Nat)
    (h32 : 5 ≤ bufferSize32) (h64 : 5 ≤ bufferSize64) :
    (1 ≤ (SdnvEncodeU32Classic v bufferSize32).length ∧
      (SdnvEncodeU32Classic v bufferSize32).length ≤ 5) ∧
    SdnvEncodeU32Classic v bufferSize32 = SdnvEncodeU64Classic v bufferSize64 ∧
    (∀ (rest : List Nat) (bufferSize : Nat),
      (SdnvEncodeU32Classic v bufferSize32).length ≤ bufferSize →
      SdnvDecodeU32Classic (SdnvEncodeU32Classic v bufferSize32 ++ rest) bufferSize
        = ⟨.value v, (SdnvEncodeU32Classic v bufferSize32).length⟩) ∧
    (∀ (b0 b1 b2 b3 b4 : Nat) (rest : List Nat) (bufferSize : Nat), 5 ≤ bufferSize →
      b0 &&& 0x80 ≠ 0 → b1 &&& 0x80 ≠ 0 → b2 &&& 0x80 ≠ 0 → b3 &&& 0x80 ≠ 0 →
      b4 &&& 0x80 = 0 → b0 > 0x8f →
      SdnvDecodeU32Classic (b0 :: b1 :: b2 :: b3 :: b4 :: rest) bufferSize
        = ⟨.DECODE_FAILURE_INVALID_SDNV_RETURN_VALUE, 0⟩) := by
  obtain ⟨k, hk, hshape, hlt⟩ := encode32_shape v bufferSize32 hv h32
  refine ⟨?_, encode32_eq_encode64 v bufferSize32 bufferSize64 hv h32 h64, ?_, ?_⟩
  · rw [hshape]
    simp only [List.length_append, contGroups_length, List.length_singleton]
    omega
  · intro rest bufferSize hsz
    rw [hshape] at hsz ⊢
    simp only [List.length_append, contGroups_length, List.length_singleton] at hsz ⊢
    unfold SdnvDecodeU32Classic
    have hrun := loop32_run (contGroups v k) (contGroups_high v k) (v % 128) (by omega) rest []
      (min 5 bufferSize) 0 (by rw [contGroups_length]; omega)
    simp only [List.nil_append, List.length_nil, Nat.zero_add, contGroups_length] at hrun
    have e : contGroups v k ++ [v % 128] ++ rest = contGroups v k ++ v % 128 :: rest := by simp
    rw [e, hrun]
    have hacc := accum32_contGroups v hv k
    rw [Nat.div_eq_of_lt hlt] at hacc
    rw [hacc]
    have hfirst : ¬ (k + 1 = 5 ∧ (contGroups v k ++ v % 128 :: rest).getD 0 0 > 0x8f) := by
      rintro ⟨hk5, hgt⟩
      have hk' : k = 4 := by omega
      subst hk'
      simp only [contGroups, List.cons_append, List.getD_cons_zero] at hgt
      omega
    rw [if_neg hfirst]
  · intro b0 b1 b2 b3 b4 rest bufferSize hbuf h0 h1 h2 h3 h4 hgt
    unfold SdnvDecodeU32Classic
    have hcont : ∀ b ∈ [b0, b1, b2, b3], b / 128 % 2 = 1 := by
      intro b hb
      simp only [List.mem_cons, List.mem_singleton, List.not_mem_nil, or_false] at hb
      rcases hb with rfl | rfl | rfl | rfl
      · exact high_bit_set _ h0
      · exact high_bit_set _ h1
      · exact high_bit_set _ h2
      · exact high_bit_set _ h3
    have hrun := loop32_run [b0, b1, b2, b3] hcont b4 ((byte_and_80 b4).mp h4) rest []
      (min 5 bufferSize) 0 (by simp; omega)
    simp only [List.nil_append, List.length_nil, Nat.zero_add, List.cons_append,
      List.length_cons, List.getD_cons_zero] at hrun
    rw [hrun, if_pos ⟨trivial, hgt⟩]

/-- Witness of C31: the value 300 with buffers of 5 bytes. -/
theorem C31_witness :
    (1 ≤ (SdnvEncodeU32Classic 300 5).length ∧ (SdnvEncodeU32Classic 300 5).length ≤ 5) ∧
    SdnvEncodeU32Classic 300 5 = SdnvEncodeU64Classic 300 5 ∧
    SdnvDecodeU32Classic (SdnvEncodeU32Classic 300 5 ++ [7]) 3
      = ⟨.value 300, (SdnvEncodeU32Classic 300 5).length⟩ :=
  let h := C31_sdnv32_round_trip 300 (by decide) 5 5 (by decide) (by decide)
  ⟨h.1, h.2.1, h.2.2.1 [7] 3 (by decide)⟩

/-! ## The comparators of fragments -/

namespace FragmentSet

theorem overlaps_iff (a b : data_fragment_t) :
    a.overlaps b ↔ a.beginIndex ≤ a.endIndex ∧ b.beginIndex ≤ b.endIndex ∧
      b.beginIndex ≤ a.endIndex ∧ a.beginIndex ≤ b.endIndex := by
  constructor
  · rintro ⟨x, ⟨h1, h2⟩, h3, h4⟩
    exact ⟨by omega, by omega, by omega, by omega⟩
  · rintro ⟨h1, h2, h3, h4⟩
    exact ⟨max a.beginIndex b.beginIndex, ⟨by omega, by omega⟩, by omega, by omega⟩

theorem before_iff (a b : data_fragment_t) : a.before b ↔ a.endIndex + 1 < b.beginIndex := by
  constructor
  · rintro ⟨x, h1, h2⟩
    omega
  · intro h
    exact ⟨a.endIndex + 1, by omega, h⟩

/-- C36 (amended), fragment comparator: for all fragments `a` and `b` over
64-bit indices with `beginIndex <= endIndex <= 2^64 - 2`,
`data_fragment_t::operator<` returns true for `(a, b)` exactly when `a` lies
entirely before `b` with at least one uncovered index between them, and
`SimulateSetKeyFind(a, b)` returns true exactly when `a` and `b` overlap or
abut; consequently, on any family of such fragments that pairwise neither
overlap nor abut, `operator<` is a strict weak ordering: irreflexive,
asymmetric, transitive, and with incomparability (which is equality there)
transitive. -/
theorem C36_fragment_comparator :
    (∀ a b : data_fragment_t, a.inRange → b.inRange → (a.lt b = true ↔ a.before b)) ∧
    (∀ a b : data_fragment_t, a.inRange → b.inRange →
      (a.SimulateSetKeyFind b = true ↔ (a.overlaps b ∨ a.abuts b))) ∧
    (∀ family : List data_fragment_t, (∀ f ∈ family, f.inRange) →
      (∀ a ∈ family, ∀ b ∈ family, a ≠ b → ¬ (a.overlaps b ∨ a.abuts b)) →
      (∀ a ∈ family, a.lt a = false) ∧
      (∀ a ∈ family, ∀ b ∈ family, a.lt b = true → b.lt a = false) ∧
      (∀ a ∈ family, ∀ b ∈ family, ∀ c ∈ family, a.lt b = true → b.lt c = true →
        a.lt c = true) ∧
      (∀ a ∈ family, ∀ b ∈ family, (a.lt b = false ∧ b.lt a = false ↔ a = b)) ∧
      (∀ a ∈ family, ∀ b ∈ family, ∀ c ∈ family, a.lt b = false ∧ b.lt a = false →
        b.lt c = false ∧ c.lt b = false → a.lt c = false ∧ c.lt a = false)) := by
  have hlt : ∀ a b : data_fragment_t, a.inRange → (a.lt b = true ↔ a.endIndex + 1 < b.beginIndex) :=
    fun a b ha => lt_of_inRange a b ha.2
  have hlf : ∀ a b : data_fragment_t, a.inRange →
      (a.lt b = false ↔ b.beginIndex ≤ a.endIndex + 1) := by
    intro a b ha
    rw [← Bool.not_eq_true, hlt a b ha]
    omega
  have hsim : ∀ a b : data_fragment_t, a.inRange → b.inRange →
      (a.lt b = false ∧ b.lt a = false ↔ (a.overlaps b ∨ a.abuts b)) := by
    intro a b ha hb
    rw [hlf a b ha, hlf b a hb, overlaps_iff]
    unfold data_fragment_t.abuts
    have h1 := ha.1
    have h2 := hb.1
    omega
  refine ⟨fun a b ha _ => (hlt a b ha).trans (before_iff a b).symm, ?_, ?_⟩
  · intro a b ha hb
    rw [← hsim a b ha hb]
    simp [data_fragment_t.SimulateSetKeyFind]
  · intro family hin hsep
    have heq : ∀ a ∈ family, ∀ b ∈ family, (a.lt b = false ∧ b.lt a = false ↔ a = b) := by
      intro a ha b hb
      constructor
      · intro h
        by_contra hne
        exact hsep a ha b hb hne ((hsim a b (hin a ha) (hin b hb)).mp h)
      · rintro rfl
        have := (hlf a a (hin a ha)).mpr (by have := (hin a ha).1; omega)
        exact ⟨this, this⟩
    refine ⟨?_, ?_, ?_, heq, ?_⟩
    · intro a ha
      exact (hlf a a (hin a ha)).mpr (by have := (hin a ha).1; omega)
    · intro a ha b hb hab
      rw [hlt a b (hin a ha)] at hab
      rw [hlf b a (hin b hb)]
      have := (hin a ha).1
      have := (hin b hb).1
      omega
    · intro a ha b hb c hc hab hbc
      rw [hlt a b (hin a ha)] at hab
      rw [hlt b c (hin b hb)] at hbc
      rw [hlt a c (hin a ha)]
      have := (hin b hb).1
      omega
    · intro a ha b hb c hc hab hbc
      have e1 := (heq a ha b hb).mp hab
      have e2 := (heq b hb c hc).mp hbc
      subst e1
      subst e2
      exact hab

/-- Counterexample to C36 as stated: `a = [0, 2^64 - 1]` and `b = [5, 10]` are
fragments over 64-bit indices with `beginIndex <= endIndex`; `a` covers `b`,
yet `operator<` returns true for `(a, b)` (the sum `endIndex + 1` wraps to 0)
and `SimulateSetKeyFind(a, b)` returns false. -/
theorem C36_range_ending_at_max :
    (⟨0, 2 ^ 64 - 1⟩ : data_fragment_t).beginIndex ≤ (⟨0, 2 ^ 64 - 1⟩ : data_fragment_t).endIndex ∧
    (⟨0, 2 ^ 64 - 1⟩ : data_fragment_t).endIndex < 2 ^ 64 ∧
    (⟨5, 10⟩ : data_fragment_t).beginIndex ≤ (⟨5, 10⟩ : data_fragment_t).endIndex ∧
    (⟨0, 2 ^ 64 - 1⟩ : data_fragment_t).lt ⟨5, 10⟩ = true ∧
    ¬ (⟨0, 2 ^ 64 - 1⟩ : data_fragment_t).before ⟨5, 10⟩ ∧
    (⟨0, 2 ^ 64 - 1⟩ : data_fragment_t).overlaps ⟨5, 10⟩ ∧
    (⟨0, 2 ^ 64 - 1⟩ : data_fragment_t).SimulateSetKeyFind ⟨5, 10⟩ = false := by
  refine ⟨by decide, by decide, by decide, by decide, ?_, ?_, by decide⟩
  · rw [before_iff]
    decide
  · rw [overlaps_iff]
    decide

/-! ## `DoesNotContainFragmentEntirely` -/

theorem setNoOverlapAllowAbut_find_none : ∀ (s : List data_fragment_t) (key : data_fragment_t),
    (∀ e ∈ s, e.beginIndex ≤ e.endIndex) →
    s.Pairwise (fun a b => a.endIndex + 1 < b.beginIndex) →
    (setNoOverlapAllowAbut_find s key = none ↔
      ∀ e ∈ s, e.endIndex < key.beginIndex ∨ key.endIndex < e.beginIndex) := by
  intro s key
  induction s with
  | nil => intro _ _; simp [setNoOverlapAllowAbut_find]
  | cons e rest ih =>
    intro hle hpair
    have hrest := ih (fun f hf => hle f (List.mem_cons_of_mem _ hf)) (List.pairwise_cons.mp hpair).2
    have hafter := (List.pairwise_cons.mp hpair).1
    have he := hle e (List.mem_cons_self _ _)
    by_cases h1 : e.endIndex < key.beginIndex
    · have : setNoOverlapAllowAbut_find (e :: rest) key = setNoOverlapAllowAbut_find rest key := by
        simp [setNoOverlapAllowAbut_find, data_fragment_no_overlap_allow_abut_t.lt, h1]
      rw [this, hrest]
      simp [h1]
    · have hfind : setNoOverlapAllowAbut_find (e :: rest) key
          = if key.endIndex < e.beginIndex then none else some e := by
        simp [setNoOverlapAllowAbut_find, data_fragment_no_overlap_allow_abut_t.lt, h1]
      rw [hfind]
      by_cases h2 : key.endIndex < e.beginIndex
      · rw [if_pos h2]
        simp only [true_iff]
        intro f hf
        rcases List.mem_cons.mp hf with rfl | hf
        · exact Or.inr h2
        · have := hafter f hf
          exact Or.inr (by omega)
      · rw [if_neg h2]
        simp only [reduceCtorEq, false_iff]
        intro hall
        rcases hall e (List.mem_cons_self _ _) with h | h
        · exact h1 h
        · exact h2 h

theorem ContainsFragmentEntirely_covered (s : List data_fragment_t) (key : data_fragment_t)
    (h : ContainsFragmentEntirely s key = true) :
    ∀ x, key.covers x → covers s x := by
  unfold ContainsFragmentEntirely at h
  cases hf : set_find s key with
  | none => rw [hf] at h; simp at h
  | some res =>
    rw [hf] at h
    simp only [ge_iff_le, decide_eq_true_eq] at h
    intro x hx
    exact ⟨res, set_find_mem s key res hf, by unfold data_fragment_t.covers at hx ⊢; omega⟩

/-- C38 (disjointness query): for every fragment set `S` satisfying the
invariant and every range `r` with `r.beginIndex <= r.endIndex`,
`DoesNotContainFragmentEntirely(S, r)` returns true if and only if no stored
range shares a byte index with `r` (a stored range that merely abuts `r` does
not count); so for a range `r` that is only partly covered by `S` both
`DoesNotContainFragmentEntirely` and `ContainsFragmentEntirely` return
false. -/
theorem C38_does_not_contain (S : List data_fragment_t) (hS : Invariant S)
    (r : data_fragment_t) (hr : r.beginIndex ≤ r.endIndex) :
    (DoesNotContainFragmentEntirely S r = true ↔ ∀ e ∈ S, ¬ e.overlaps r) ∧
    (∀ e ∈ S, e.abuts r → ¬ e.overlaps r) ∧
    ((∃ x, r.covers x ∧ covers S x) → (∃ x, r.covers x ∧ ¬ covers S x) →
      DoesNotContainFragmentEntirely S r = false ∧ ContainsFragmentEntirely S r = false) := by
  have hle : ∀ e ∈ S, e.beginIndex ≤ e.endIndex := fun e he => (hS.1 e he).1
  have hnone := setNoOverlapAllowAbut_find_none S r hle hS.pairwise
  have hiff : DoesNotContainFragmentEntirely S r = true ↔ ∀ e ∈ S, ¬ e.overlaps r := by
    unfold DoesNotContainFragmentEntirely
    rw [Option.isNone_iff_eq_none, hnone]
    refine forall_congr' (fun e => forall_congr' (fun he => ?_))
    rw [overlaps_iff]
    have := hle e he
    omega
  refine ⟨hiff, ?_, ?_⟩
  · intro e he hab
    rw [overlaps_iff]
    unfold data_fragment_t.abuts at hab
    have := hle e he
    omega
  · rintro ⟨x, hx, e, he, hex⟩ ⟨y, hy, hny⟩
    constructor
    · rw [← Bool.not_eq_true, hiff]
      intro hall
      exact hall e he ⟨x, hex, hx⟩
    · rw [← Bool.not_eq_true]
      intro hc
      exact hny (ContainsFragmentEntirely_covered S r hc y hy)

/-- Witness of C38: the set `{[0,4], [10,20]}` and the range `[5, 12]`, which
abuts the first stored range and overlaps the second. -/
theorem C38_witness :
    (DoesNotContainFragmentEntirely [⟨0, 4⟩, ⟨10, 20⟩] ⟨5, 12⟩ = true ↔
      ∀ e ∈ ([⟨0, 4⟩, ⟨10, 20⟩] : List data_fragment_t), ¬ e.overlaps ⟨5, 12⟩) ∧
    (∀ e ∈ ([⟨0, 4⟩, ⟨10, 20⟩] : List data_fragment_t), e.abuts ⟨5, 12⟩ → ¬ e.overlaps ⟨5, 12⟩) ∧
    ((∃ x, (⟨5, 12⟩ : data_fragment_t).covers x ∧ covers [⟨0, 4⟩, ⟨10, 20⟩] x) →
      (∃ x, (⟨5, 12⟩ : data_fragment_t).covers x ∧ ¬ covers [⟨0, 4⟩, ⟨10, 20⟩] x) →
      DoesNotContainFragmentEntirely [⟨0, 4⟩, ⟨10, 20⟩] ⟨5, 12⟩ = false ∧
        ContainsFragmentEntirely [⟨0, 4⟩, ⟨10, 20⟩] ⟨5, 12⟩ = false) :=
  C38_does_not_contain [⟨0, 4⟩, ⟨10, 20⟩] (by decide) ⟨5, 12⟩ (by decide)

end FragmentSet

/-! ## Random session numbers -/

namespace LtpRandomNumberGenerator

theorem masked_or_parts (x M e inc k : Nat) (hM : M % 2 ^ 16 = 0) (hMk : M < 2 ^ k)
    (hk : 16 ≤ k) (hinc : inc < 2 ^ 16) :
    ((x &&& M) ||| (e * 2 ^ k)) ||| inc = (x &&& M) + e * 2 ^ k + inc ∧
      (x &&& M) % 2 ^ 16 = 0 ∧ x &&& M ≤ M := by
  have hlow : (x &&& M) % 2 ^ 16 = 0 := by
    rw [← Nat.and_pow_two_sub_one_eq_mod, Nat.and_assoc, Nat.and_pow_two_sub_one_eq_mod, hM,
      Nat.and_zero]
  have hle : x &&& M ≤ M := Nat.and_le_right
  refine ⟨?_, hlow, hle⟩
  have h1 : 2 ^ k * e + (x &&& M) = 2 ^ k * e ||| (x &&& M) :=
    Nat.mul_add_lt_is_or (by omega) e
  have h1' : (x &&& M) ||| (e * 2 ^ k) = (x &&& M) + e * 2 ^ k := by
    rw [Nat.or_comm, Nat.mul_comm e, ← h1]
    omega
  rw [h1']
  have hdiv : 2 ^ 16 ∣ (x &&& M) + e * 2 ^ k := by
    refine Nat.dvd_add (Nat.dvd_of_mod_eq_zero hlow) ?_
    exact Dvd.dvd.mul_left (pow_dvd_pow 2 hk) e
  obtain ⟨q, hq⟩ := hdiv
  rw [hq]
  exact (Nat.mul_add_lt_is_or hinc q).symm

theorem shift_engine_index (e k : Nat) (he : e < 256) (hk : k + 8 ≤ 64) :
    (e <<< k) % U64 = e * 2 ^ k := by
  rw [Nat.shiftLeft_eq]
  apply Nat.mod_eq_of_lt
  have h1 : e * 2 ^ k < 256 * 2 ^ k := Nat.mul_lt_mul_of_pos_right he (by positivity)
  have h2 : 256 * 2 ^ k ≤ U64 := by
    have : (256 : Nat) * 2 ^ k = 2 ^ (k + 8) := by rw [pow_add]; norm_num; ring
    rw [this]
    exact Nat.pow_le_pow_right (by norm_num) hk
  omega

theorem GetRandomSession64_eq (g : LtpRandomNumberGenerator)
    (microsecondsSinceEpochRfc5050 random2 additionalRandomness : Nat)
    (he : g.m_engineIndex < 256)
    (hinc : g.m_birthdayParadoxPreventer_incrementalPart_U16 < 2 ^ 16) :
    ∃ y, y % 2 ^ 16 = 0 ∧ y ≤ 0x007fffffffff0000 ∧
      (g.GetRandomSession64 microsecondsSinceEpochRfc5050 random2 additionalRandomness).1
        = y + g.m_engineIndex * 2 ^ 56 + g.m_birthdayParadoxPreventer_incrementalPart_U16 := by
  obtain ⟨h1, h2, h3⟩ := masked_or_parts
    ((((microsecondsSinceEpochRfc5050 <<< 16) % U64) ^^^ random2) ^^^ additionalRandomness)
    0x007fffffffff0000 g.m_engineIndex g.m_birthdayParadoxPreventer_incrementalPart_U16 56
    (by norm_num) (by norm_num) (by norm_num) hinc
  refine ⟨_, h2, h3, ?_⟩
  simp only [GetRandomSession64, shift_engine_index _ 56 he (by norm_num)]
  exact h1

theorem GetRandomSession32_eq (g : LtpRandomNumberGenerator)
    (microsecondsSinceEpochRfc5050 random2 additionalRandomness32Bit : Nat)
    (he : g.m_engineIndex < 256)
    (hinc : g.m_birthdayParadoxPreventer_incrementalPart_U16 < 2 ^ 16) :
    ∃ y, y % 2 ^ 16 = 0 ∧ y ≤ 0x007f0000 ∧
      (g.GetRandomSession32 microsecondsSinceEpochRfc5050 random2 additionalRandomness32Bit).1
        = y + g.m_engineIndex * 2 ^ 24 + g.m_birthdayParadoxPreventer_incrementalPart_U16 := by
  obtain ⟨h1, h2, h3⟩ := masked_or_parts
    ((((microsecondsSinceEpochRfc5050 <<< 16) % U64) ^^^ random2) ^^^
      ((additionalRandomness32Bit <<< 16) % U64))
    0x007f0000 g.m_engineIndex g.m_birthdayParadoxPreventer_incrementalPart_U16 24
    (by norm_num) (by norm_num) (by norm_num) hinc
  refine ⟨_, h2, h3, ?_⟩
  simp only [GetRandomSession32, shift_engine_index _ 24 he (by norm_num), toU32]
  rw [h1]
  apply Nat.mod_eq_of_lt
  omega

theorem GetPingSession64_eq (g : LtpRandomNumberGenerator) (he : g.m_engineIndex < 256) :
    g.GetPingSession64 = g.m_engineIndex * 2 ^ 56 + 0xffffffffffffff := by
  simp only [GetPingSession64, shift_engine_index _ 56 he (by norm_num)]
  rw [Nat.or_comm, Nat.mul_comm]
  exact (Nat.mul_add_lt_is_or (by norm_num) g.m_engineIndex).symm

theorem GetPingSession32_eq (g : LtpRandomNumberGenerator) (he : g.m_engineIndex < 256) :
    g.GetPingSession32 = g.m_engineIndex * 2 ^ 24 + 0xffffff := by
  simp only [GetPingSession32, shift_engine_index _ 24 he (by norm_num), toU32]
  rw [Nat.or_comm, Nat.mul_comm]
  rw [← Nat.mul_add_lt_is_or (by norm_num) g.m_engineIndex]
  apply Nat.mod_eq_of_lt
  omega

theorem GetEngineIndexFromRandomSessionNumber_eq (x : Nat) :
    GetEngineIndexFromRandomSessionNumber x
      = if x / 2 ^ 56 % 256 = 0 then x / 2 ^ 24 % 256 else x / 2 ^ 56 % 256 := by
  simp only [GetEngineIndexFromRandomSessionNumber, toU8, Nat.shiftRight_eq_div_pow]
  by_cases h : x / 2 ^ 56 % 256 = 0
  · simp only [h, decide_True, if_true, Nat.mul_one, Nat.add_zero]
    omega
  · simp only [h, decide_False, Bool.false_eq_true, if_false, Nat.mul_zero, Nat.zero_add]
    omega

/-- C40 (amended), engine index recovery: for every engine index `e` in
`0..255`, every clock value and every additionalRandomness,
`GetEngineIndexFromRandomSessionNumber` applied to the session number returned
by `GetRandomSession32` (zero-extended to 64 bits) or by `GetPingSession32` of
a generator whose engine index is `e` returns `e`; applied to the session
number returned by `GetRandomSession64` or by `GetPingSession64` it returns `e`
when `e` is in `1..255`. -/
theorem C40_engine_index_recovery (g : LtpRandomNumberGenerator)
    (he : g.m_engineIndex < 256)
    (hinc : g.m_birthdayParadoxPreventer_incrementalPart_U16 < 2 ^ 16)
    (microsecondsSinceEpochRfc5050 random2 additionalRandomness : Nat) :
    (1 ≤ g.m_engineIndex →
      GetEngineIndexFromRandomSessionNumber
        (g.GetRandomSession64 microsecondsSinceEpochRfc5050 random2 additionalRandomness).1
          = g.m_engineIndex) ∧
    GetEngineIndexFromRandomSessionNumber
      (g.GetRandomSession32 microsecondsSinceEpochRfc5050 random2 additionalRandomness).1
        = g.m_engineIndex ∧
    (1 ≤ g.m_engineIndex →
      GetEngineIndexFromRandomSessionNumber g.GetPingSession64 = g.m_engineIndex) ∧
    GetEngineIndexFromRandomSessionNumber g.GetPingSession32 = g.m_engineIndex := by
  obtain ⟨y, hy1, hy2, h64⟩ := GetRandomSession64_eq g microsecondsSinceEpochRfc5050 random2
    additionalRandomness he hinc
  obtain ⟨z, hz1, hz2, h32⟩ := GetRandomSession32_eq g microsecondsSinceEpochRfc5050 random2
    additionalRandomness he hinc
  simp only [GetEngineIndexFromRandomSessionNumber_eq, h64, h32, GetPingSession64_eq g he,
    GetPingSession32_eq g he]
  refine ⟨fun h1 => ?_, ?_, fun h1 => ?_, ?_⟩
  · split <;> omega
  · split <;> omega
  · split <;> omega
  · split <;> omega

/-- Witness of C40 (amended): a new generator with engine index 1. -/
theorem C40_witness :
    (1 ≤ (create 1).m_engineIndex →
      GetEngineIndexFromRandomSessionNumber ((create 1).GetRandomSession64 12345 0 678).1
        = (create 1).m_engineIndex) ∧
    GetEngineIndexFromRandomSessionNumber ((create 1).GetRandomSession32 12345 0 678).1
      = (create 1).m_engineIndex ∧
    (1 ≤ (create 1).m_engineIndex →
      GetEngineIndexFromRandomSessionNumber (create 1).GetPingSession64
        = (create 1).m_engineIndex) ∧
    GetEngineIndexFromRandomSessionNumber (create 1).GetPingSession32
      = (create 1).m_engineIndex :=
  C40_engine_index_recovery (create 1) (by decide) (by decide) 12345 0 678

/-- Counterexample to C40 as stated: a generator whose engine index is 0. With
the clock at `2^8` microseconds the 64-bit session number is `2^24 + 1`, from
which `GetEngineIndexFromRandomSessionNumber` returns 1; from the 64-bit ping
session number it returns 255. -/
theorem C40_engine_index_zero :
    (create 0).m_engineIndex = 0 ∧
    ((create 0).GetRandomSession64 (2 ^ 8) 0 0).1 = 2 ^ 24 + 1 ∧
    GetEngineIndexFromRandomSessionNumber ((create 0).GetRandomSession64 (2 ^ 8) 0 0).1 = 1 ∧
    (create 0).GetPingSession64 = 0xffffffffffffff ∧
    GetEngineIndexFromRandomSessionNumber (create 0).GetPingSession64 = 255 := by
  decide

end LtpRandomNumberGenerator


namespace LtpRandomNumberGenerator

theorem nextIncrementalPart_eq (inc : Nat) (h1 : 1 ≤ inc) (h2 : inc ≤ 65535) :
    nextIncrementalPart inc = if inc = 65535 then 1 else inc + 1 := by
  unfold nextIncrementalPart
  by_cases h : inc = 65535
  · subst h
    decide
  · rw [if_neg h]
    have e : (inc + 1) % 2 ^ 16 = inc + 1 := Nat.mod_eq_of_lt (by omega)
    simp only [e]
    rw [if_neg (by omega)]
    omega

theorem SessionCall.run_spec (g : LtpRandomNumberGenerator) (call : SessionCall)
    (he : g.m_engineIndex < 256)
    (h1 : 1 ≤ g.m_birthdayParadoxPreventer_incrementalPart_U16)
    (h2 : g.m_birthdayParadoxPreventer_incrementalPart_U16 ≤ 65535) :
    (call.run g).1 % 2 ^ 16 = g.m_birthdayParadoxPreventer_incrementalPart_U16 ∧
    (call.run g).2.m_engineIndex = g.m_engineIndex ∧
    (call.run g).2.m_birthdayParadoxPreventer_incrementalPart_U16
      = (if g.m_birthdayParadoxPreventer_incrementalPart_U16 = 65535 then 1
          else g.m_birthdayParadoxPreventer_incrementalPart_U16 + 1) := by
  cases call with
  | session64 m r a =>
    obtain ⟨y, hy1, hy2, h⟩ := GetRandomSession64_eq g m r a he (by omega)
    refine ⟨?_, rfl, ?_⟩
    · simp only [SessionCall.run, h]
      omega
    · simp only [SessionCall.run, GetRandomSession64]
      exact nextIncrementalPart_eq _ h1 h2
  | session32 m r a =>
    obtain ⟨y, hy1, hy2, h⟩ := GetRandomSession32_eq g m r a he (by omega)
    refine ⟨?_, rfl, ?_⟩
    · simp only [SessionCall.run, h]
      omega
    · simp only [SessionCall.run, GetRandomSession32]
      exact nextIncrementalPart_eq _ h1 h2

theorem sessionNumbers_state : ∀ (calls : List SessionCall) (g : LtpRandomNumberGenerator),
    g.m_engineIndex < 256 → 1 ≤ g.m_birthdayParadoxPreventer_incrementalPart_U16 →
    g.m_birthdayParadoxPreventer_incrementalPart_U16 ≤ 65535 →
    (sessionNumbers g calls).2.m_engineIndex = g.m_engineIndex ∧
    1 ≤ (sessionNumbers g calls).2.m_birthdayParadoxPreventer_incrementalPart_U16 ∧
    (sessionNumbers g calls).2.m_birthdayParadoxPreventer_incrementalPart_U16 ≤ 65535 := by
  intro calls
  induction calls with
  | nil => intro g _ h1 h2; exact ⟨rfl, h1, h2⟩
  | cons call calls ih =>
    intro g he h1 h2
    obtain ⟨-, e1, e2⟩ := call.run_spec g he h1 h2
    have := ih (call.run g).2 (by rw [e1]; exact he) (by rw [e2]; split <;> omega)
      (by rw [e2]; split <;> omega)
    simp only [sessionNumbers]
    rw [e1] at this
    exact this

theorem sessionNumbers_low : ∀ (calls : List SessionCall) (g : LtpRandomNumberGenerator),
    g.m_engineIndex < 256 → 1 ≤ g.m_birthdayParadoxPreventer_incrementalPart_U16 →
    g.m_birthdayParadoxPreventer_incrementalPart_U16 ≤ 65535 →
    (sessionNumbers g calls).1.map (fun x => x % 2 ^ 16)
      = (List.range calls.length).map
          (fun j => (g.m_birthdayParadoxPreventer_incrementalPart_U16 - 1 + j) % 65535 + 1) := by
  intro calls
  induction calls with
  | nil => intro g _ _ _; rfl
  | cons call calls ih =>
    intro g he h1 h2
    obtain ⟨e0, e1, e2⟩ := call.run_spec g he h1 h2
    have hih := ih (call.run g).2 (by rw [e1]; exact he) (by rw [e2]; split <;> omega)
      (by rw [e2]; split <;> omega)
    simp only [sessionNumbers, List.map_cons, List.length_cons, List.range_succ_eq_map,
      List.map_map]
    rw [hih, e0, e2]
    refine congrArg₂ _ (by omega) ?_
    apply List.map_congr_left
    intro j _
    simp only [Function.comp]
    split <;> omega

/-- C39 (session numbers do not repeat): in a generator made by the constructor
and used for any calls of `GetRandomSession64` and `GetRandomSession32`, the
16-bit incremental part is never 0: it is between 1 and 65535 and a call replaces
it by the next value of the cycle 1, 2, ..., 65535, 1, ...; every returned
session number has its low 16 bits equal to the incremental part before the
call, bit 55 (bit 23 for a 32-bit number) clear and the engine index in bits
63..56 (31..24); hence any 65535 consecutive session numbers of the generator
are non-zero and pairwise distinct, for all clock values and all
additionalRandomness inputs. -/
theorem C39_session_numbers_do_not_repeat (engineIndex : Nat) (he : engineIndex < 256)
    (history calls : List SessionCall) :
    (1 ≤ (sessionNumbers (create engineIndex) history).2.m_birthdayParadoxPreventer_incrementalPart_U16
      ∧ (sessionNumbers (create engineIndex) history).2.m_birthdayParadoxPreventer_incrementalPart_U16
        ≤ 65535 ∧
      (sessionNumbers (create engineIndex) history).2.m_engineIndex = engineIndex) ∧
    (create engineIndex).m_birthdayParadoxPreventer_incrementalPart_U16 = 1 ∧
    (∀ call : SessionCall,
      (call.run (sessionNumbers (create engineIndex) history).2).2.m_birthdayParadoxPreventer_incrementalPart_U16
        = (if (sessionNumbers (create engineIndex)
              history).2.m_birthdayParadoxPreventer_incrementalPart_U16 = 65535 then 1
            else (sessionNumbers (create engineIndex)
              history).2.m_birthdayParadoxPreventer_incrementalPart_U16 + 1) ∧
      (call.run (sessionNumbers (create engineIndex) history).2).1 % 2 ^ 16
        = (sessionNumbers (create engineIndex)
            history).2.m_birthdayParadoxPreventer_incrementalPart_U16) ∧
    (∀ microsecondsSinceEpochRfc5050 random2 additionalRandomness : Nat,
      ((sessionNumbers (create engineIndex) history).2.GetRandomSession64
          microsecondsSinceEpochRfc5050 random2 additionalRandomness).1 < 2 ^ 64 ∧
      ((sessionNumbers (create engineIndex) history).2.GetRandomSession64
          microsecondsSinceEpochRfc5050 random2 additionalRandomness).1 / 2 ^ 55 % 2 = 0 ∧
      ((sessionNumbers (create engineIndex) history).2.GetRandomSession64
          microsecondsSinceEpochRfc5050 random2 additionalRandomness).1 / 2 ^ 56 = engineIndex) ∧
    (∀ microsecondsSinceEpochRfc5050 random2 additionalRandomness32Bit : Nat,
      ((sessionNumbers (create engineIndex) history).2.GetRandomSession32
          microsecondsSinceEpochRfc5050 random2 additionalRandomness32Bit).1 < 2 ^ 32 ∧
      ((sessionNumbers (create engineIndex) history).2.GetRandomSession32
          microsecondsSinceEpochRfc5050 random2 additionalRandomness32Bit).1 / 2 ^ 23 % 2 = 0 ∧
      ((sessionNumbers (create engineIndex) history).2.GetRandomSession32
          microsecondsSinceEpochRfc5050 random2 additionalRandomness32Bit).1 / 2 ^ 24
        = engineIndex) ∧
    (calls.length ≤ 65535 →
      (sessionNumbers (sessionNumbers (create engineIndex) history).2 calls).1.Nodup ∧
      ∀ x ∈ (sessionNumbers (sessionNumbers (create engineIndex) history).2 calls).1, x ≠ 0) := by
  obtain ⟨hidx, h1, h2⟩ := sessionNumbers_state history (create engineIndex) he
    (Nat.le_refl 1) (by simp [create])
  have hidx' : (sessionNumbers (create engineIndex) history).2.m_engineIndex = engineIndex := hidx
  generalize (sessionNumbers (create engineIndex) history).2 = g at hidx' h1 h2 ⊢
  have heg : g.m_engineIndex < 256 := by rw [hidx']; exact he
  refine ⟨⟨h1, h2, hidx'⟩, rfl, ?_, ?_, ?_, ?_⟩
  · intro call
    obtain ⟨e0, -, e2⟩ := call.run_spec g heg h1 h2
    exact ⟨e2, e0⟩
  · intro m r a
    obtain ⟨y, hy1, hy2, h⟩ := GetRandomSession64_eq g m r a heg (by omega)
    rw [h, hidx']
    refine ⟨by omega, by omega, by omega⟩
  · intro m r a
    obtain ⟨y, hy1, hy2, h⟩ := GetRandomSession32_eq g m r a heg (by omega)
    rw [h, hidx']
    refine ⟨by omega, by omega, by omega⟩
  · intro hlen
    have hlow := sessionNumbers_low calls g heg h1 h2
    have hnd : ((sessionNumbers g calls).1.map (fun x => x % 2 ^ 16)).Nodup := by
      rw [hlow]
      refine List.Nodup.map_on ?_ (List.nodup_range _)
      intro i hi j hj hij
      rw [List.mem_range] at hi hj
      omega
    refine ⟨List.Nodup.of_map _ hnd, ?_⟩
    intro x hx h0
    have hmem : x % 2 ^ 16 ∈ (sessionNumbers g calls).1.map (fun x => x % 2 ^ 16) :=
      List.mem_map_of_mem _ hx
    rw [hlow, List.mem_map] at hmem
    obtain ⟨j, -, hj⟩ := hmem
    rw [h0] at hj
    omega

/-- Witness of C39: a generator with engine index 3 after one call of
`GetRandomSession64`, and the next two calls. -/
theorem C39_witness :
    (1 ≤ (sessionNumbers (create 3) [.session64 1 2 3]).2.m_birthdayParadoxPreventer_incrementalPart_U16
      ∧ (sessionNumbers (create 3) [.session64 1 2 3]).2.m_birthdayParadoxPreventer_incrementalPart_U16
        ≤ 65535 ∧
      (sessionNumbers (create 3) [.session64 1 2 3]).2.m_engineIndex = 3) ∧
    (sessionNumbers (sessionNumbers (create 3) [.session64 1 2 3]).2
      [.session32 4 5 6, .session64 7 8 9]).1.Nodup :=
  let h := C39_session_numbers_do_not_repeat 3 (by decide) [.session64 1 2 3]
    [.session32 4 5 6, .session64 7 8 9]
  ⟨h.1, (h.2.2.2.2.2 (by decide)).1⟩

end LtpRandomNumberGenerator

/-! ### Data segments: the fields before the client service data -/

namespace Ltp

theorem array_loop_cases : ∀ (k : Nat) (input : List Nat) (n taken : Nat) (stored : List Nat),
    (SdnvDecodeArrayU64Classic.loop k input n taken stored).decodeErrorDetected = true ∨
    ((SdnvDecodeArrayU64Classic.loop k input n taken stored).decodeErrorDetected = false ∧
      ∃ more : List Nat, more.length ≤ k ∧
        (SdnvDecodeArrayU64Classic.loop k input n taken stored).decodedValues = stored ++ more ∧
        (SdnvDecodeArrayU64Classic.loop k input n taken stored).numDecoded
          = toU32 (stored ++ more).length) := by
  intro k
  induction k with
  | zero =>
    intro input n taken stored
    right
    exact ⟨rfl, [], le_refl _, by simp [SdnvDecodeArrayU64Classic.loop],
      by simp [SdnvDecodeArrayU64Classic.loop]⟩
  | succ k ih =>
    intro input n taken stored
    rw [SdnvDecodeArrayU64Classic.loop]
    by_cases h0 : (SdnvDecodeU64Classic input n).numBytes = 0
    · rw [if_pos h0]
      by_cases hinv : (SdnvDecodeU64Classic input n).ret = .DECODE_FAILURE_INVALID_SDNV_RETURN_VALUE
      · rw [if_pos hinv]
        left
        rfl
      · rw [if_neg hinv]
        right
        exact ⟨rfl, [], Nat.zero_le _, by simp, by simp⟩
    · rw [if_neg h0]
      cases hr : (SdnvDecodeU64Classic input n).ret with
      | value v =>
        simp only []
        rcases ih (input.drop (SdnvDecodeU64Classic input n).numBytes)
          ((n + U64 - (SdnvDecodeU64Classic input n).numBytes) % U64)
          (taken + (SdnvDecodeU64Classic input n).numBytes) (stored ++ [v]) with h | ⟨h1, more, h2, h3, h4⟩
        · left; exact h
        · right
          refine ⟨h1, v :: more, by simp; omega, ?_, ?_⟩
          · rw [h3]; simp
          · rw [h4]; simp
      | DECODE_FAILURE_INVALID_SDNV_RETURN_VALUE =>
        right
        exact ⟨rfl, [], Nat.zero_le _, by simp, by simp⟩
      | DECODE_FAILURE_NOT_ENOUGH_ENCODED_BYTES_RETURN_VALUE =>
        right
        exact ⟨rfl, [], Nat.zero_le _, by simp, by simp⟩

theorem array_prefix_cases (vs pre rest : List Nat) (n : Nat) (hpre : IsSdnvs pre vs)
    (hn : vs.length ≤ n) (h64 : (pre ++ rest).length < 2 ^ 64) :
    (SdnvDecodeArrayU64Classic (pre ++ rest) n (pre ++ rest).length).decodeErrorDetected = true ∨
    ((SdnvDecodeArrayU64Classic (pre ++ rest) n (pre ++ rest).length).decodeErrorDetected = false ∧
      ∃ more : List Nat, more.length ≤ n - vs.length ∧
        (SdnvDecodeArrayU64Classic (pre ++ rest) n (pre ++ rest).length).decodedValues
          = vs ++ more ∧
        (SdnvDecodeArrayU64Classic (pre ++ rest) n (pre ++ rest).length).numDecoded
          = toU32 (vs ++ more).length) := by
  obtain ⟨k, rfl⟩ : ∃ k, n = vs.length + k := ⟨n - vs.length, by omega⟩
  unfold SdnvDecodeArrayU64Classic
  rw [IsSdnvs.decode_array vs pre hpre k rest (pre ++ rest).length 0 []
    (by simp) h64]
  have := array_loop_cases k rest ((pre ++ rest).length - pre.length) (0 + pre.length) ([] ++ vs)
  simpa using this

theorem TryShortcutReadDataSegmentSdnvs_length_zero (s : Ltp) (pre rest : List Nat)
    (csid off : Nat) (hf : s.m_segmentTypeFlags ≤ 7) (hpre : IsSdnvs pre [csid, off, 0])
    (h64 : (pre ++ rest).length < 2 ^ 64) :
    ∃ s', TryShortcutReadDataSegmentSdnvs s (pre ++ rest) = .failure s' ∧
      s'.callbacks = s.callbacks := by
  unfold TryShortcutReadDataSegmentSdnvs
  simp only [isCheckPoint_eq _ hf]
  have hcases : ∀ n, 3 ≤ n → n ≤ 5 →
      (SdnvDecodeArrayU64Classic (pre ++ rest) n (pre ++ rest).length).decodeErrorDetected = true ∨
      ((SdnvDecodeArrayU64Classic (pre ++ rest) n (pre ++ rest).length).decodeErrorDetected = false ∧
        (SdnvDecodeArrayU64Classic (pre ++ rest) n (pre ++ rest).length).decodedValues.getD 2 7 = 0 ∧
        3 ≤ (SdnvDecodeArrayU64Classic (pre ++ rest) n (pre ++ rest).length).numDecoded) := by
    intro n h3 h5
    rcases array_prefix_cases [csid, off, 0] pre rest n hpre (by simpa using h3) h64 with
      h | ⟨h1, more, h2, h3', h4⟩
    · left; exact h
    · right
      refine ⟨h1, by rw [h3']; rfl, ?_⟩
      rw [h4]
      simp only [List.length_append, List.length_cons, List.length_nil, toU32] at h2 ⊢
      omega
  by_cases hcp : s.m_segmentTypeFlags = 1 ∨ s.m_segmentTypeFlags = 2 ∨ s.m_segmentTypeFlags = 3
  · simp only [hcp, decide_True, if_true]
    rcases hcases 5 (by omega) (by omega) with h | ⟨h1, h2, h3'⟩
    · rw [if_pos h]
      exact ⟨_, rfl, rfl⟩
    · have hlen : (storeDataSegmentSdnvs s.m_dataSegmentMetadata
          (SdnvDecodeArrayU64Classic (pre ++ rest) 5 (pre ++ rest).length).decodedValues).length
            = 0 := by
        rcases array_prefix_cases [csid, off, 0] pre rest 5 hpre (by simp) h64 with
          h | ⟨_, more, _, hv, _⟩
        · rw [h] at h1; exact absurd h1 (by simp)
        · rw [hv]; simp [storeDataSegmentSdnvs]
      rw [if_neg (by rw [h1]; simp), if_neg (by omega), if_pos h3', if_pos hlen]
      exact ⟨_, rfl, rfl⟩
  · simp only [hcp, decide_False, Bool.false_eq_true, if_false]
    rcases hcases 3 (by omega) (by omega) with h | ⟨h1, h2, h3'⟩
    · rw [if_pos h]
      exact ⟨_, rfl, rfl⟩
    · have hlen : (storeDataSegmentSdnvs s.m_dataSegmentMetadata
          (SdnvDecodeArrayU64Classic (pre ++ rest) 3 (pre ++ rest).length).decodedValues).length
            = 0 := by
        rcases array_prefix_cases [csid, off, 0] pre rest 3 hpre (by simp) h64 with
          h | ⟨_, more, _, hv, _⟩
        · rw [h] at h1; exact absurd h1 (by simp)
        · rw [hv]; simp [storeDataSegmentSdnvs]
      rw [if_neg (by rw [h1]; simp), if_neg (by omega), if_pos h3', if_pos hlen]
      exact ⟨_, rfl, rfl⟩

theorem TryShortcutReadDataSegmentSdnvs_empty (s : Ltp) :
    TryShortcutReadDataSegmentSdnvs s [] = .ok s [] := by
  unfold TryShortcutReadDataSegmentSdnvs
  simp only [List.length_nil]
  split
  · rw [array_nil 4]
    simp only [storeDataSegmentSdnvs, List.getD_nil]
    rfl
  · rw [array_nil 2]
    simp only [storeDataSegmentSdnvs, List.getD_nil]
    rfl

theorem Passes.data_client_service_id (s : Ltp) (b v : Nat)
    (h1 : s.m_mainRxState = .READ_DATA_SEGMENT_CONTENT)
    (h2 : s.m_dataSegmentRxState = .READ_CLIENT_SERVICE_ID_SDNV)
    (h : IsSdnv (s.m_sdnvTempVec ++ [b]) v) :
    Passes s b { s with m_dataSegmentMetadata :=
                          { s.m_dataSegmentMetadata with clientServiceId := v }
                        m_sdnvTempVec := []
                        m_dataSegmentRxState := .READ_OFFSET_SDNV } := by
  intro rxVals
  rw [HandleReceivedChars.step]
  simp only [h1, h2, pushSdnvByte_last _ b v h]

theorem Passes.data_offset (s : Ltp) (b v : Nat)
    (h1 : s.m_mainRxState = .READ_DATA_SEGMENT_CONTENT)
    (h2 : s.m_dataSegmentRxState = .READ_OFFSET_SDNV)
    (h : IsSdnv (s.m_sdnvTempVec ++ [b]) v) :
    Passes s b { s with m_dataSegmentMetadata := { s.m_dataSegmentMetadata with offset := v }
                        m_sdnvTempVec := []
                        m_dataSegmentRxState := .READ_LENGTH_SDNV } := by
  intro rxVals
  rw [HandleReceivedChars.step]
  simp only [h1, h2, pushSdnvByte_last _ b v h]

theorem step_data_length_zero (s : Ltp) (b : Nat) (rxVals : List Nat)
    (h1 : s.m_mainRxState = .READ_DATA_SEGMENT_CONTENT)
    (h2 : s.m_dataSegmentRxState = .READ_LENGTH_SDNV)
    (h : IsSdnv (s.m_sdnvTempVec ++ [b]) 0) :
    HandleReceivedChars.step s b rxVals
      = .failure { s with m_sdnvTempVec := s.m_sdnvTempVec ++ [b]
                          m_dataSegmentMetadata :=
                            { s.m_dataSegmentMetadata with length := 0 } } := by
  rw [HandleReceivedChars.step]
  simp only [h1, h2, pushSdnvByte_last _ b 0 h, if_true]

/-- The two SDNVs before the length of a data segment, read byte by byte. -/
theorem Run.data_fields (s : Ltp) (F : List Nat) (csid off : Nat)
    (h1 : s.m_mainRxState = .READ_DATA_SEGMENT_CONTENT)
    (h2 : s.m_dataSegmentRxState = .READ_CLIENT_SERVICE_ID_SDNV)
    (h0 : s.m_sdnvTempVec = []) (hF : IsSdnvs F [csid, off]) :
    Run s F { s with m_dataSegmentMetadata :=
                       { s.m_dataSegmentMetadata with clientServiceId := csid
                                                      offset := off }
                     m_sdnvTempVec := []
                     m_dataSegmentRxState := .READ_LENGTH_SDNV } := by
  obtain ⟨F1, r1, rfl, hF1, F2, r2, rfl, hF2, hnil⟩ := hF
  simp only [IsSdnvs] at hnil
  subst hnil
  obtain ⟨c1, l1, rfl, -⟩ := hF1.split
  obtain ⟨c2, l2, rfl, -⟩ := hF2.split
  have a1 := Run.sdnv_prefix s (by simp [readsSdnv, h1, h2]) h0 c1 l1 csid hF1
  have p1 := Passes.data_client_service_id { s with m_sdnvTempVec := c1 } l1 csid h1 h2 hF1
  have a2 := Run.sdnv_prefix
    { s with m_dataSegmentMetadata := { s.m_dataSegmentMetadata with clientServiceId := csid }
             m_sdnvTempVec := []
             m_dataSegmentRxState := .READ_OFFSET_SDNV }
    (by simp [readsSdnv, h1]) rfl c2 l2 off hF2
  have p2 := Passes.data_offset
    { s with m_dataSegmentMetadata := { s.m_dataSegmentMetadata with clientServiceId := csid }
             m_sdnvTempVec := c2
             m_dataSegmentRxState := .READ_OFFSET_SDNV }
    l2 off h1 rfl hF2
  have hall := (((a1.append (Run.one p1)).append a2).append (Run.one p2))
  simpa only [List.append_assoc, List.append_nil] using hall

/-- C34 (empty data segments): a data segment (version 0, type flags 0, 1, 2,
3, 4 or 7) with any session id, any well-formed header extensions, any two
SDNVs as client service id and offset, and a length SDNV that decodes to 0.
Given to a parser at its beginning state in one call (the batch fast path
decodes the fields), with whatever follows, the call returns false and no
callback is made. Given one byte per call (every field is read by the state
machine), every call returns true until the last byte of the length, on which
the call returns false; no callback is made. -/
theorem C34_empty_data_segment_rejected (s : Ltp) (flags e n x csid off : Nat)
    (E N H F Z rest : List Nat) (exts : ltp_extensions_t)
    (hs : IsAtBeginningState s = true)
    (hflags : flags = 0 ∨ flags = 1 ∨ flags = 2 ∨ flags = 3 ∨ flags = 4 ∨ flags = 7)
    (hE : IsSdnv E e) (hN : IsSdnv N n) (hx : x >>> 4 = exts.length)
    (hH : IsExtensions H exts) (hF : IsSdnvs F [csid, off]) (hZ : IsSdnv Z 0)
    (h64 : (flags :: (E ++ N ++ ([x] ++ H ++ (F ++ Z ++ rest)))).length < 2 ^ 64) :
    (∃ s', HandleReceivedChars s (flags :: (E ++ N ++ ([x] ++ H ++ (F ++ Z ++ rest))))
        = some (false, s') ∧
      s'.callbacks = s.callbacks) ∧
    (∃ s', feedChunks s ((flags :: (E ++ N ++ ([x] ++ H)) ++ (F ++ Z)).map (fun b => [b]))
        = some (List.replicate (E.length + N.length + H.length + F.length + Z.length + 1) true
            ++ [false], s') ∧
      s'.callbacks = s.callbacks) := by
  have hs' : s.m_mainRxState = .READ_HEADER ∧ s.m_headerRxState = .READ_CONTROL_BYTE := by
    simpa [IsAtBeginningState] using hs
  have hc : flags >>> 4 = 0 := by
    rcases hflags with h | h | h | h | h | h <;> subst h <;> decide
  have hfl : flags &&& 0x0f ≤ 7 ∧ flags &&& 0x0f ≠ 5 ∧ flags &&& 0x0f ≠ 6 := by
    rcases hflags with h | h | h | h | h | h <;> subst h <;> decide
  have hdat : ∀ tv len hst rxVals,
      NextStateAfterHeaderExtensions (headerDone s flags e n x exts tv len hst) rxVals
        = TryShortcutReadDataSegmentSdnvs
            { headerDone s flags e n x exts tv len hst with
                m_sdnvTempVec := []
                m_dataSegmentRxState := .READ_CLIENT_SERVICE_ID_SDNV
                m_mainRxState := .READ_DATA_SEGMENT_CONTENT } rxVals := by
    intro tv len hst rxVals
    exact NextStateAfterHeaderExtensions_data_flags _ rxVals hfl
  constructor
  · obtain ⟨tv, len, hst, hw⟩ :=
      header_one_call s flags e n x E N H (F ++ Z ++ rest) exts hs'.1 hs'.2 hc hE hN hx hH h64
    have hFZ : IsSdnvs (F ++ Z) ([csid, off] ++ [0]) :=
      IsSdnvs.concat _ _ _ _ hF (IsSdnvs.single hZ)
    obtain ⟨s', hfail, hcb⟩ := TryShortcutReadDataSegmentSdnvs_length_zero
      { headerDone s flags e n x exts tv len hst with
          m_sdnvTempVec := []
          m_dataSegmentRxState := .READ_CLIENT_SERVICE_ID_SDNV
          m_mainRxState := .READ_DATA_SEGMENT_CONTENT }
      (F ++ Z) rest csid off hfl.1 hFZ
      (by simp only [List.length_cons, List.length_append] at h64 ⊢; omega)
    rw [hw, hdat, hfail]
    exact ⟨s', rfl, hcb⟩
  · obtain ⟨init, last, tv, len, hst, spre, hb, hfeed, hfin, -⟩ :=
      header_one_byte_per_call s flags e n x E N H exts hs'.1 hs'.2 hc hE hN hx hH
    have hlen : init.length = E.length + N.length + H.length + 1 := by
      have := congrArg List.length hb
      simp only [List.length_cons, List.length_append, List.length_singleton,
        List.length_nil] at this
      omega
    obtain ⟨Zc, z, rfl, -⟩ := hZ.split
    have hhead := feedChunks_snoc s spre init last _ hfeed
    rw [hfin, hdat, TryShortcutReadDataSegmentSdnvs_empty] at hhead
    have hF' := Run.data_fields
      { headerDone s flags e n x exts tv len hst with
          m_sdnvTempVec := []
          m_dataSegmentRxState := .READ_CLIENT_SERVICE_ID_SDNV
          m_mainRxState := .READ_DATA_SEGMENT_CONTENT }
      F csid off rfl rfl rfl hF
    have hZc := Run.sdnv_prefix
      { headerDone s flags e n x exts tv len hst with
          m_dataSegmentMetadata :=
            { (headerDone s flags e n x exts tv len hst).m_dataSegmentMetadata with
                clientServiceId := csid
                offset := off }
          m_sdnvTempVec := []
          m_dataSegmentRxState := .READ_LENGTH_SDNV
          m_mainRxState := .READ_DATA_SEGMENT_CONTENT }
      (by simp [readsSdnv]) rfl Zc z 0 hZ
    have hrun := (hF'.append hZc).feed_bytes
    have hbody := feedChunks_snoc _ _ (F ++ Zc) z _ hrun
    rw [step_data_length_zero _ z [] rfl rfl hZ] at hbody
    simp only [RxResult.finish, HandleReceivedChars_nil, Option.map_some'] at hhead hbody
    have hall := feed_bytes_append s _ _ (init ++ [last]) (F ++ Zc ++ [z]) _ _ hhead hbody
    have hoks : List.replicate init.length true ++ [true]
          ++ (List.replicate (F ++ Zc).length true ++ [false])
        = List.replicate (E.length + N.length + H.length + F.length + (Zc ++ [z]).length + 1) true
          ++ [false] := by
      rw [← List.replicate_succ', ← List.append_assoc, ← List.replicate_add, hlen]
      simp only [List.length_append, List.length_singleton]
      congr 2
      omega
    rw [hb, ← List.append_assoc F Zc [z], hall, hoks]
    exact ⟨_, rfl, rfl⟩

theorem C34_witness :
    (∃ s', HandleReceivedChars InitRx
          (3 :: ([1] ++ [2] ++ ([0] ++ [] ++ ([5, 0] ++ [0x80, 0] ++ [3, 4]))))
        = some (false, s') ∧
      s'.callbacks = InitRx.callbacks) ∧
    (∃ s', feedChunks InitRx
          ((3 :: ([1] ++ [2] ++ ([0] ++ [])) ++ ([5, 0] ++ [0x80, 0])).map (fun b => [b]))
        = some (List.replicate
              ([1].length + [2].length + ([] : List Nat).length + [5, 0].length
                + [0x80, 0].length + 1) true
            ++ [false], s') ∧
      s'.callbacks = InitRx.callbacks) :=
  C34_empty_data_segment_rejected InitRx 3 1 2 0 5 0 [1] [2] [] [5, 0] [0x80, 0] [3, 4] []
    (by decide) (by decide) (by decide) (by decide) (by decide) rfl
    ⟨[5], [0], rfl, by decide, [0], [], rfl, by decide, rfl⟩
    (by decide) (by decide)

end Ltp

/-! ### The data segment generator and the parser -/

namespace Ltp

/-- The batch decode of the fields of a data segment whose fields are all in
the call: the parser goes on with the client service data. -/
theorem TryShortcutReadDataSegmentSdnvs_whole (s : Ltp) (M payload : List Nat)
    (csid off len cp rp : Nat) (hf : s.m_segmentTypeFlags ≤ 7) (hlen : len ≠ 0)
    (hM : IsSdnvs M
      (if s.m_segmentTypeFlags = 1 ∨ s.m_segmentTypeFlags = 2 ∨ s.m_segmentTypeFlags = 3
        then [csid, off, len, cp, rp] else [csid, off, len]))
    (h64 : (M ++ payload).length < 2 ^ 64) :
    TryShortcutReadDataSegmentSdnvs s (M ++ payload)
      = .ok { s with
          m_dataSegmentMetadata :=
            if s.m_segmentTypeFlags = 1 ∨ s.m_segmentTypeFlags = 2 ∨ s.m_segmentTypeFlags = 3
            then ⟨csid, off, len, cp, rp, true, true⟩
            else ⟨csid, off, len, s.m_dataSegmentMetadata.tmpCheckpointSerialNumber,
              s.m_dataSegmentMetadata.tmpReportSerialNumber, false, false⟩
          m_dataSegmentRxState := .READ_CLIENT_SERVICE_DATA
          m_dataSegment_clientServiceData := [] } payload := by
  unfold TryShortcutReadDataSegmentSdnvs
  simp only [isCheckPoint_eq _ hf]
  by_cases hcp : s.m_segmentTypeFlags = 1 ∨ s.m_segmentTypeFlags = 2 ∨ s.m_segmentTypeFlags = 3
  · rw [if_pos hcp] at hM
    have hd := hM.decode_all payload h64 (by simp)
    simp only [List.length_cons, List.length_nil, Nat.zero_add, Nat.reduceAdd] at hd
    simp only [hcp, decide_True, if_true, hd, storeDataSegmentSdnvs, List.getD_cons_zero,
      List.getD_cons_succ, Bool.false_eq_true, if_false, Nat.reduceEqDiff, ge_iff_le,
      Nat.reduceLeDiff, hlen, List.drop_left, LTP_DATA_SEGMENT_RX_STATE.fromValue]
  · rw [if_neg hcp] at hM
    have hd := hM.decode_all payload h64 (by simp)
    simp only [List.length_cons, List.length_nil, Nat.zero_add, Nat.reduceAdd] at hd
    simp only [hcp, decide_False, Bool.false_eq_true, if_false, hd, storeDataSegmentSdnvs,
      List.getD_cons_zero, List.getD_cons_succ, List.getD_nil, Nat.reduceEqDiff, ge_iff_le,
      Nat.reduceLeDiff, le_refl, if_true, hlen, List.drop_left]

/-- The client service data of a data segment without trailer extensions, all
in the call: the callback is made with these bytes and the parser returns to
its beginning state. -/
theorem client_service_data_call (s : Ltp) (payload : List Nat)
    (h1 : s.m_mainRxState = .READ_DATA_SEGMENT_CONTENT)
    (h2 : s.m_dataSegmentRxState = .READ_CLIENT_SERVICE_DATA)
    (h3 : s.m_dataSegment_clientServiceData = [])
    (h4 : s.m_numTrailerExtensionTlvs = 0)
    (hlen : payload.length = s.m_dataSegmentMetadata.length)
    (hpos : 1 ≤ s.m_dataSegmentMetadata.length)
    (h64 : s.m_dataSegmentMetadata.length < 2 ^ 64) :
    HandleReceivedChars s payload
      = some (true, SetBeginningState (callbackDataSegment
          { s with m_dataSegment_clientServiceData := payload })) := by
  rcases s with ⟨tv, main, hd, tr, ds, rs, fl, sid, nh, nt, he, te, chl, ctl, md, data, rep, ra,
    cr, cbs⟩
  simp only at h1 h2 h3 h4 hlen hpos h64
  subst h1 h2 h3 h4
  rcases payload with _ | ⟨p0, rest⟩
  · simp only [List.length_nil] at hlen
    omega
  rw [HandleReceivedChars_cons, HandleReceivedChars.step]
  simp only [List.nil_append, List.length_singleton]
  by_cases hone : 1 = md.length
  · have hrest : rest = [] := by
      simp only [List.length_cons] at hlen
      exact List.length_eq_zero.mp (by omega)
    subst hrest
    rw [if_pos hone]
    simp only [RxResult.finish, HandleReceivedChars_nil, trailerOrCallback, ne_eq,
      not_true_eq_false, if_false]
  · rw [if_neg hone]
    simp only [List.length_cons] at hlen
    obtain ⟨mid, last, rfl⟩ : ∃ mid last, rest = mid ++ [last] := by
      rcases List.eq_nil_or_concat rest with h | ⟨mid, last, h⟩
      · subst h
        simp only [List.length_nil] at hlen
        omega
      · exact ⟨mid, last, by simpa using h⟩
    have hmid : mid.length + 2 = md.length := by
      simp only [List.length_append, List.length_singleton] at hlen
      omega
    have hb : min (mid ++ [last]).length (((md.length + U64 - 1) % U64 + U64 - 1) % U64)
        = mid.length := by
      simp only [List.length_append, List.length_singleton, U64] at h64 ⊢
      omega
    have hlast : ∀ d, d = p0 :: mid →
        HandleReceivedChars.step
          { m_sdnvTempVec := tv, m_mainRxState := .READ_DATA_SEGMENT_CONTENT, m_headerRxState := hd
            m_trailerRxState := tr, m_dataSegmentRxState := .READ_CLIENT_SERVICE_DATA
            m_reportSegmentRxState := rs, m_segmentTypeFlags := fl, m_sessionId := sid
            m_numHeaderExtensionTlvs := nh, m_numTrailerExtensionTlvs := 0
            m_headerExtensions := he, m_trailerExtensions := te
            m_currentHeaderExtensionLength := chl, m_currentTrailerExtensionLength := ctl
            m_dataSegmentMetadata := md, m_dataSegment_clientServiceData := d
            m_reportSegment := rep, m_reportAcknowledgementSegment_reportSerialNumber := ra
            m_cancelSegment_reasonCode := cr, callbacks := cbs } last []
        = .ok (SetBeginningState (callbackDataSegment
          { m_sdnvTempVec := tv, m_mainRxState := .READ_DATA_SEGMENT_CONTENT, m_headerRxState := hd
            m_trailerRxState := tr, m_dataSegmentRxState := .READ_CLIENT_SERVICE_DATA
            m_reportSegmentRxState := rs, m_segmentTypeFlags := fl, m_sessionId := sid
            m_numHeaderExtensionTlvs := nh, m_numTrailerExtensionTlvs := 0
            m_headerExtensions := he, m_trailerExtensions := te
            m_currentHeaderExtensionLength := chl, m_currentTrailerExtensionLength := ctl
            m_dataSegmentMetadata := md
            m_dataSegment_clientServiceData := p0 :: (mid ++ [last])
            m_reportSegment := rep, m_reportAcknowledgementSegment_reportSerialNumber := ra
            m_cancelSegment_reasonCode := cr, callbacks := cbs })) [] := by
      intro d hdd
      subst hdd
      rw [HandleReceivedChars.step]
      simp only []
      rw [if_pos (by simp only [List.length_append, List.length_cons, List.length_singleton,
        List.length_nil]; omega)]
      simp only [trailerOrCallback, ne_eq, not_true_eq_false, if_false, List.cons_append]
    simp only [hb, List.take_left, List.drop_left]
    by_cases hz : mid.length = 0
    · have : mid = [] := List.length_eq_zero.mp hz
      subst this
      simp only [List.length_nil, ne_eq, not_true_eq_false, if_false, RxResult.finish,
        List.nil_append]
      rw [HandleReceivedChars_cons, hlast _ rfl]
      rfl
    · simp only [ne_eq, hz, not_false_eq_true, if_true, RxResult.finish]
      rw [HandleReceivedChars_cons, hlast _ (by simp)]
      rfl

/-- C33 (data segment round trip): for a type flag in 0, 1, 2, 3, 4, 7, a
session id, metadata with a length of at least 1 whose two serial-number
pointers are set exactly for the checkpoint types 1, 2, 3, a payload of
`length` bytes and at most 15 header extensions (all values fitting 64 bits,
no trailer extensions), the bytes of `GenerateLtpHeaderPlusDataSegmentMetadata`
followed by the payload, given in one call to a parser at its beginning state
(a freshly initialised one is), make the call return true, add exactly one
callback, the data-segment callback with the same type flags, session id,
payload, client service id, offset, length, header extensions, no trailer
extensions, and for the checkpoint types the two serial numbers (for the other
types both pointers are null), and leave the parser at its beginning state. -/
theorem C33_data_segment_round_trip (s : Ltp) (dataSegmentTypeFlags : Nat)
    (sessionId : session_id_t) (dataSegmentMetadata : data_segment_metadata_t)
    (checkpointSerialNumberPointee reportSerialNumberPointee : Nat)
    (headerExtensions : Option ltp_extensions_t) (payload : List Nat)
    (hs : IsAtBeginningState s = true)
    (hflags : dataSegmentTypeFlags = 0 ∨ dataSegmentTypeFlags = 1 ∨ dataSegmentTypeFlags = 2 ∨
      dataSegmentTypeFlags = 3 ∨ dataSegmentTypeFlags = 4 ∨ dataSegmentTypeFlags = 7)
    (hsid : sessionId.sessionOriginatorEngineId < 2 ^ 64 ∧ sessionId.sessionNumber < 2 ^ 64)
    (hmd : dataSegmentMetadata.clientServiceId < 2 ^ 64 ∧ dataSegmentMetadata.offset < 2 ^ 64 ∧
      dataSegmentMetadata.length < 2 ^ 64)
    (hptr : checkpointSerialNumberPointee < 2 ^ 64 ∧ reportSerialNumberPointee < 2 ^ 64)
    (hlen : 1 ≤ dataSegmentMetadata.length)
    (hpay : payload.length = dataSegmentMetadata.length)
    (hcp : dataSegmentMetadata.checkpointSerialNumber
      = decide (dataSegmentTypeFlags = 1 ∨ dataSegmentTypeFlags = 2 ∨ dataSegmentTypeFlags = 3))
    (hrp : dataSegmentMetadata.reportSerialNumber
      = decide (dataSegmentTypeFlags = 1 ∨ dataSegmentTypeFlags = 2 ∨ dataSegmentTypeFlags = 3))
    (hh : (headerExtensions.getD []).length ≤ 15 ∧
      ∀ e ∈ headerExtensions.getD [], e.valueVec.length < 2 ^ 64)
    (h64 : (GenerateLtpHeaderPlusDataSegmentMetadata dataSegmentTypeFlags sessionId
      dataSegmentMetadata checkpointSerialNumberPointee reportSerialNumberPointee
      headerExtensions 0 ++ payload).length < 2 ^ 64) :
    ∃ s1, HandleReceivedChars s (GenerateLtpHeaderPlusDataSegmentMetadata dataSegmentTypeFlags
        sessionId dataSegmentMetadata checkpointSerialNumberPointee reportSerialNumberPointee
        headerExtensions 0 ++ payload) = some (true, s1) ∧
      IsAtBeginningState s1 = true ∧
      s1.callbacks = s.callbacks ++ [.DataSegmentContentsRead dataSegmentTypeFlags sessionId
        payload
        (if dataSegmentTypeFlags = 1 ∨ dataSegmentTypeFlags = 2 ∨ dataSegmentTypeFlags = 3 then
          ⟨dataSegmentMetadata.clientServiceId, dataSegmentMetadata.offset,
            dataSegmentMetadata.length, checkpointSerialNumberPointee,
            reportSerialNumberPointee, true, true⟩
        else
          ⟨dataSegmentMetadata.clientServiceId, dataSegmentMetadata.offset,
            dataSegmentMetadata.length, s.m_dataSegmentMetadata.tmpCheckpointSerialNumber,
            s.m_dataSegmentMetadata.tmpReportSerialNumber, false, false⟩)
        (headerExtensions.getD []) []] := by
  obtain ⟨e, n⟩ := sessionId
  obtain ⟨csid, off, len, tcp, trp, cpp, rpp⟩ := dataSegmentMetadata
  simp only at hsid hmd hlen hpay hcp hrp
  subst hcp hrp
  have hs' : s.m_mainRxState = .READ_HEADER ∧ s.m_headerRxState = .READ_CONTROL_BYTE := by
    simpa [IsAtBeginningState] using hs
  have hc : dataSegmentTypeFlags >>> 4 = 0 := by
    rcases hflags with h | h | h | h | h | h <;> subst h <;> decide
  have hand : dataSegmentTypeFlags &&& 0x0f = dataSegmentTypeFlags := by
    rcases hflags with h | h | h | h | h | h <;> subst h <;> decide
  have hfl : dataSegmentTypeFlags ≤ 7 ∧ dataSegmentTypeFlags ≠ 5 ∧ dataSegmentTypeFlags ≠ 6 := by
    omega
  have hcnt := extension_counts_byte (headerExtensions.getD []).length 0 (by omega) (by omega)
  have hgen : GenerateLtpHeaderPlusDataSegmentMetadata dataSegmentTypeFlags ⟨e, n⟩
        ⟨csid, off, len, tcp, trp,
          decide (dataSegmentTypeFlags = 1 ∨ dataSegmentTypeFlags = 2 ∨ dataSegmentTypeFlags = 3),
          decide (dataSegmentTypeFlags = 1 ∨ dataSegmentTypeFlags = 2 ∨ dataSegmentTypeFlags = 3)⟩
        checkpointSerialNumberPointee reportSerialNumberPointee headerExtensions 0 ++ payload
      = dataSegmentTypeFlags ::
          (SdnvEncodeU64ClassicBufSize10 e ++ SdnvEncodeU64ClassicBufSize10 n ++
            ([toU8 ((toU8 (headerExtensions.getD []).length <<< 4) ||| toU8 0)] ++
              ltp_extensions_t.Serialize (headerExtensions.getD []) ++
              ((SdnvEncodeU64ClassicBufSize10 csid ++ SdnvEncodeU64ClassicBufSize10 off ++
                SdnvEncodeU64ClassicBufSize10 len ++
                (if dataSegmentTypeFlags = 1 ∨ dataSegmentTypeFlags = 2 ∨
                    dataSegmentTypeFlags = 3 then
                  SdnvEncodeU64ClassicBufSize10 checkpointSerialNumberPointee ++
                    SdnvEncodeU64ClassicBufSize10 reportSerialNumberPointee
                else [])) ++ payload))) := by
    have h8 : toU8 dataSegmentTypeFlags = dataSegmentTypeFlags := Nat.mod_eq_of_lt (by omega)
    have h0 : toU8 0 = 0 := rfl
    cases headerExtensions <;>
      simp [GenerateLtpHeaderPlusDataSegmentMetadata, data_segment_metadata_t.Serialize,
        session_id_t.Serialize, ltp_extensions_t.Serialize, h8, h0]
  rw [hgen] at h64 ⊢
  obtain ⟨tv, hlen', hst, hw⟩ := header_one_call s dataSegmentTypeFlags e n _ _ _ _ _
    (headerExtensions.getD []) hs'.1 hs'.2 hc (IsSdnv.of_encode e hsid.1)
    (IsSdnv.of_encode n hsid.2) hcnt.1 (IsExtensions.of_Serialize _ hh.2) h64
  have hM : IsSdnvs
      (SdnvEncodeU64ClassicBufSize10 csid ++ SdnvEncodeU64ClassicBufSize10 off ++
        SdnvEncodeU64ClassicBufSize10 len ++
        (if dataSegmentTypeFlags = 1 ∨ dataSegmentTypeFlags = 2 ∨ dataSegmentTypeFlags = 3 then
          SdnvEncodeU64ClassicBufSize10 checkpointSerialNumberPointee ++
            SdnvEncodeU64ClassicBufSize10 reportSerialNumberPointee
        else []))
      (if dataSegmentTypeFlags = 1 ∨ dataSegmentTypeFlags = 2 ∨ dataSegmentTypeFlags = 3
        then [csid, off, len, checkpointSerialNumberPointee, reportSerialNumberPointee]
        else [csid, off, len]) := by
    have h3 : IsSdnvs (SdnvEncodeU64ClassicBufSize10 csid ++ SdnvEncodeU64ClassicBufSize10 off ++
        SdnvEncodeU64ClassicBufSize10 len) ([csid, off] ++ [len]) :=
      IsSdnvs.concat _ _ _ _ (IsSdnvs.two (IsSdnv.of_encode csid hmd.1)
        (IsSdnv.of_encode off hmd.2.1)) (IsSdnvs.single (IsSdnv.of_encode len hmd.2.2))
    by_cases hcpt : dataSegmentTypeFlags = 1 ∨ dataSegmentTypeFlags = 2 ∨ dataSegmentTypeFlags = 3
    · rw [if_pos hcpt, if_pos hcpt]
      exact IsSdnvs.concat _ _ _ _ h3 (IsSdnvs.two
        (IsSdnv.of_encode _ hptr.1) (IsSdnv.of_encode _ hptr.2))
    · rw [if_neg hcpt, if_neg hcpt, List.append_nil]
      exact h3
  have hnext := NextStateAfterHeaderExtensions_data_flags
    (headerDone s dataSegmentTypeFlags e n
      (toU8 ((toU8 (headerExtensions.getD []).length <<< 4) ||| toU8 0))
      (headerExtensions.getD []) tv hlen' hst)
    ((SdnvEncodeU64ClassicBufSize10 csid ++ SdnvEncodeU64ClassicBufSize10 off ++
        SdnvEncodeU64ClassicBufSize10 len ++
        (if dataSegmentTypeFlags = 1 ∨ dataSegmentTypeFlags = 2 ∨ dataSegmentTypeFlags = 3 then
          SdnvEncodeU64ClassicBufSize10 checkpointSerialNumberPointee ++
            SdnvEncodeU64ClassicBufSize10 reportSerialNumberPointee
        else [])) ++ payload)
    (by simp only [headerDone, hand]; exact hfl)
  have hwhole := TryShortcutReadDataSegmentSdnvs_whole
    { headerDone s dataSegmentTypeFlags e n
        (toU8 ((toU8 (headerExtensions.getD []).length <<< 4) ||| toU8 0))
        (headerExtensions.getD []) tv hlen' hst with
      m_sdnvTempVec := []
      m_dataSegmentRxState := .READ_CLIENT_SERVICE_ID_SDNV
      m_mainRxState := .READ_DATA_SEGMENT_CONTENT }
    _ payload csid off len checkpointSerialNumberPointee reportSerialNumberPointee
    (by simp only [headerDone, hand]; exact hfl.1) (by omega)
    (by simp only [headerDone, hand]; exact hM)
    (by simp only [List.length_cons, List.length_append] at h64 ⊢; omega)
  rw [hw, hnext, hwhole, RxResult.finish]
  rw [client_service_data_call _ payload rfl rfl rfl (by simp only [headerDone]; exact hcnt.2)
    (by
      simp only [headerDone, hand]
      split <;> exact hpay)
    (by
      simp only [headerDone, hand]
      split <;> exact hlen)
    (by
      simp only [headerDone, hand]
      split <;> exact hmd.2.2)]
  refine ⟨_, rfl, rfl, ?_⟩
  simp only [SetBeginningState, callbackDataSegment, headerDone, hand]

theorem C33_witness :
    ∃ s1, HandleReceivedChars InitRx (GenerateLtpHeaderPlusDataSegmentMetadata 3 ⟨1, 2⟩
        ⟨4, 0, 3, 0, 0, true, true⟩ 5 6 (some [⟨7, [9]⟩]) 0 ++ [10, 11, 12]) = some (true, s1) ∧
      IsAtBeginningState s1 = true ∧
      s1.callbacks = InitRx.callbacks ++ [.DataSegmentContentsRead 3 ⟨1, 2⟩ [10, 11, 12]
        (if (3 : Nat) = 1 ∨ (3 : Nat) = 2 ∨ (3 : Nat) = 3 then
          ⟨(⟨4, 0, 3, 0, 0, true, true⟩ : data_segment_metadata_t).clientServiceId,
            (⟨4, 0, 3, 0, 0, true, true⟩ : data_segment_metadata_t).offset,
            (⟨4, 0, 3, 0, 0, true, true⟩ : data_segment_metadata_t).length, 5, 6, true, true⟩
        else
          ⟨(⟨4, 0, 3, 0, 0, true, true⟩ : data_segment_metadata_t).clientServiceId,
            (⟨4, 0, 3, 0, 0, true, true⟩ : data_segment_metadata_t).offset,
            (⟨4, 0, 3, 0, 0, true, true⟩ : data_segment_metadata_t).length,
            InitRx.m_dataSegmentMetadata.tmpCheckpointSerialNumber,
            InitRx.m_dataSegmentMetadata.tmpReportSerialNumber, false, false⟩)
        ((some [⟨7, [9]⟩] : Option ltp_extensions_t).getD []) []] :=
  C33_data_segment_round_trip InitRx 3 ⟨1, 2⟩ ⟨4, 0, 3, 0, 0, true, true⟩ 5 6 (some [⟨7, [9]⟩])
    [10, 11, 12] rfl (by decide) (by decide) (by decide) (by decide) (by decide) rfl rfl rfl
    (by decide) (by decide)

end Ltp

/-! ### The report segment generator and the parser -/

namespace Ltp

theorem claimSdnvValues_length (claims : List reception_claim_t) :
    (claimSdnvValues claims).length = 2 * claims.length := by
  induction claims with
  | nil => rfl
  | cons c cs ih => simp only [claimSdnvValues, List.length_cons, ih]; omega

theorem IsSdnvs.of_claims (claims : List reception_claim_t)
    (h : ∀ c ∈ claims, c.offset < 2 ^ 64 ∧ c.length < 2 ^ 64) :
    IsSdnvs (serializeReceptionClaims claims) (claimSdnvValues claims) := by
  induction claims with
  | nil => rfl
  | cons c cs ih =>
    have hc := h c (List.mem_cons_self _ _)
    have := IsSdnvs.concat _ _ _ _
      (IsSdnvs.two (IsSdnv.of_encode c.offset hc.1) (IsSdnv.of_encode c.length hc.2))
      (ih (fun x hx => h x (List.mem_cons_of_mem _ hx)))
    simpa only [serializeReceptionClaims, reception_claim_t.Serialize, claimSdnvValues,
      List.cons_append, List.nil_append] using this

theorem storeClaimSdnvs_replicate (claims : List reception_claim_t) :
    storeClaimSdnvs (List.replicate claims.length ⟨0, 0⟩) (claimSdnvValues claims) = claims := by
  induction claims with
  | nil => rfl
  | cons c cs ih =>
    simp only [List.length_cons, List.replicate_succ, claimSdnvValues, storeClaimSdnvs, ih]

theorem resizeClaims_nil (n : Nat) : resizeClaims [] n = List.replicate n ⟨0, 0⟩ := by
  simp [resizeClaims]

theorem resizeClaims_length (claims : List reception_claim_t) :
    resizeClaims claims claims.length = claims := by
  simp [resizeClaims]

/-- The batch decode of the fields of a report segment whose fields and claims
are all in the call: the report is complete, and the parser goes on to the
trailer extensions or makes the callback. -/
theorem TryShortcutReadReportSegmentSdnvs_whole (s : Ltp) (F C rest : List Nat)
    (rsn csn ub lb : Nat) (claims : List reception_claim_t)
    (hF : IsSdnvs F [rsn, csn, ub, lb, claims.length])
    (hC : IsSdnvs C (claimSdnvValues claims))
    (hne : claims.length ≠ 0) (hcnt : claims.length < 2 ^ 31)
    (hpos : ∀ c ∈ claims, c.length ≠ 0)
    (h64 : (F ++ (C ++ rest)).length < 2 ^ 64) :
    TryShortcutReadReportSegmentSdnvs s (F ++ (C ++ rest))
      = .ok (trailerOrCallback
          { s with m_reportSegment := ⟨rsn, csn, ub, lb, claims.length, claims⟩
                   m_reportSegmentRxState := .READ_ONE_RECEPTION_CLAIM_OFFSET_SDNV }
          callbackReportSegment) rest := by
  have hd := hF.decode_all (C ++ rest) h64 (by simp)
  simp only [List.length_cons, List.length_nil, Nat.zero_add, Nat.reduceAdd] at hd
  have hc := hC.decode_all rest
    (by simp only [List.length_append] at h64 ⊢; omega)
    (by rw [claimSdnvValues_length]; omega)
  rw [claimSdnvValues_length] at hc
  have hnum : toU32 ((claims.length <<< 1) % U64) = 2 * claims.length := by
    simp only [toU32, U64, Nat.shiftLeft_eq]
    omega
  have hand : (2 * claims.length) &&& 1 = 0 := by
    rw [Nat.and_one_is_mod]; omega
  have hshr1 : (2 * claims.length + 1) >>> 1 = claims.length := by
    rw [Nat.shiftRight_eq_div_pow]; omega
  have hshr : (2 * claims.length) >>> 1 = claims.length := by
    rw [Nat.shiftRight_eq_div_pow]; omega
  have hany : (claims.take claims.length).any (fun c => decide (c.length = 0)) = false := by
    rw [List.take_length, List.any_eq_false]
    intro c hcm
    simpa using hpos c hcm
  unfold TryShortcutReadReportSegmentSdnvs
  simp only [hd, storeReportSegmentSdnvs, List.getD_cons_zero, List.getD_cons_succ,
    List.drop_left, hnum, hc, resizeClaims_nil, storeClaimSdnvs_replicate, hand, hshr1, hshr,
    resizeClaims_length, hany, Bool.false_eq_true, if_false, hne, Nat.lt_irrefl,
    Nat.reduceEqDiff, if_true, LTP_REPORT_SEGMENT_RX_STATE.fromValue, Nat.add_zero,
    trailerOrCallback]

theorem report_after_trailer (t : Ltp) (hf : t.m_segmentTypeFlags = 8) :
    NextStateAfterTrailerExtensions t = some (SetBeginningState (callbackReportSegment t)) := by
  unfold NextStateAfterTrailerExtensions
  have h8 : (8 : Nat) &&& 0xd ≠ 0xd := by decide
  simp [hf, h8]

/-- A whole report segment in one call, from the beginning state: the call
returns true, the report callback is made with the fields, the claims and the
extensions read, and the parser is back at its beginning state. -/
theorem report_one_call (s : Ltp) (e n x rsn csn ub lb : Nat) (E N H F C T : List Nat)
    (claims : List reception_claim_t) (hexts texts : ltp_extensions_t)
    (h1 : s.m_mainRxState = .READ_HEADER) (h2 : s.m_headerRxState = .READ_CONTROL_BYTE)
    (hE : IsSdnv E e) (hN : IsSdnv N n)
    (hxh : x >>> 4 = hexts.length) (hxt : x &&& 0x0f = texts.length)
    (hH : IsExtensions H hexts) (hT : IsExtensions T texts)
    (hF : IsSdnvs F [rsn, csn, ub, lb, claims.length])
    (hC : IsSdnvs C (claimSdnvValues claims))
    (hne : claims.length ≠ 0) (hcnt : claims.length < 2 ^ 31)
    (hpos : ∀ c ∈ claims, c.length ≠ 0)
    (h64 : (8 :: (E ++ N ++ ([x] ++ H ++ (F ++ (C ++ T))))).length < 2 ^ 64) :
    ∃ s1, HandleReceivedChars s (8 :: (E ++ N ++ ([x] ++ H ++ (F ++ (C ++ T)))))
        = some (true, s1) ∧
      IsAtBeginningState s1 = true ∧
      s1.callbacks = s.callbacks ++ [.ReportSegmentContentsRead ⟨e, n⟩
        ⟨rsn, csn, ub, lb, claims.length, claims⟩ hexts texts] := by
  have hc : (8 : Nat) >>> 4 = 0 := by decide
  obtain ⟨tv, len, hst, hw⟩ :=
    header_one_call s 8 e n x E N H (F ++ (C ++ T)) hexts h1 h2 hc hE hN hxh hH h64
  have hwhole := TryShortcutReadReportSegmentSdnvs_whole
    { headerDone s 8 e n x hexts tv len hst with
        m_sdnvTempVec := []
        m_reportSegmentRxState := .READ_REPORT_SERIAL_NUMBER_SDNV
        m_mainRxState := .READ_REPORT_SEGMENT_CONTENT }
    F C T rsn csn ub lb claims hF hC hne hcnt hpos
    (by simp only [List.length_cons, List.length_append] at h64 ⊢; omega)
  rw [hw, NextStateAfterHeaderExtensions_report _ _ rfl, hwhole, RxResult.finish]
  by_cases hte : texts = []
  · subst hte
    simp only [IsExtensions] at hT
    subst hT
    have hnt : ¬ (x &&& 0x0f ≠ 0) := by
      rw [hxt]
      simp
    refine ⟨_, HandleReceivedChars_nil _, ?_, ?_⟩
    · simp only [trailerOrCallback, headerDone, hnt, if_false]
      rfl
    · simp only [trailerOrCallback, headerDone, hnt, if_false, SetBeginningState,
        callbackReportSegment]
  · have hnum0 : texts.length ≠ 0 := by
      cases texts with
      | nil => exact absurd rfl hte
      | cons a as => simp
    have hnt : x &&& 0x0f ≠ 0 := by
      rw [hxt]
      exact hnum0
    obtain ⟨init, last, tv2, len2, ts2, spre, hb, hrun, hfin, -⟩ :=
      trailer_extensions_run texts T
        { headerDone s 8 e n x hexts tv len hst with
            m_sdnvTempVec := []
            m_reportSegment := ⟨rsn, csn, ub, lb, claims.length, claims⟩
            m_reportSegmentRxState := .READ_ONE_RECEPTION_CLAIM_OFFSET_SDNV
            m_mainRxState := .READ_TRAILER
            m_trailerRxState := .READ_ONE_TRAILER_EXTENSION_TAG_BYTE }
        [] hT hte rfl rfl rfl
        (by simp only [List.length_nil, Nat.zero_add, headerDone]; exact hxt.symm)
    have hstate : trailerOrCallback
        { headerDone s 8 e n x hexts tv len hst with
            m_sdnvTempVec := []
            m_reportSegmentRxState := .READ_ONE_RECEPTION_CLAIM_OFFSET_SDNV
            m_mainRxState := .READ_REPORT_SEGMENT_CONTENT
            m_reportSegment := ⟨rsn, csn, ub, lb, claims.length, claims⟩ }
        callbackReportSegment
        = { headerDone s 8 e n x hexts tv len hst with
            m_sdnvTempVec := []
            m_reportSegment := ⟨rsn, csn, ub, lb, claims.length, claims⟩
            m_reportSegmentRxState := .READ_ONE_RECEPTION_CLAIM_OFFSET_SDNV
            m_mainRxState := .READ_TRAILER
            m_trailerRxState := .READ_ONE_TRAILER_EXTENSION_TAG_BYTE } := by
      simp only [trailerOrCallback, headerDone]
      rw [if_pos hnt]
    obtain ⟨s1, hstep, hbeg, hcb⟩ : ∃ s1, HandleReceivedChars.step spre last [] = .ok s1 [] ∧
        IsAtBeginningState s1 = true ∧
        s1.callbacks = s.callbacks ++ [.ReportSegmentContentsRead ⟨e, n⟩
          ⟨rsn, csn, ub, lb, claims.length, claims⟩ hexts texts] :=
      ⟨_, hfin _ [] (report_after_trailer _ rfl), rfl,
        by simp only [SetBeginningState, callbackReportSegment, headerDone, List.nil_append]⟩
    refine ⟨s1, ?_, hbeg, hcb⟩
    rw [hstate, hb, ← List.append_nil (init ++ [last]), List.append_assoc, hrun.call_append,
      List.singleton_append, HandleReceivedChars_cons, hstep]
    rfl

/-- C32 (report segment round trip): for a session id and a report whose
fields fit 64 bits, with at least one and fewer than 2^31 reception claims each
of length at least 1, and at most 15 header and 15 trailer extensions (all
values fitting 64 bits), the bytes of `GenerateReportSegmentLtpPacket`, given
in one call to a parser at its beginning state (a freshly initialised one is),
make the call return true, add exactly one callback, the report callback with
the same session id, report serial number, checkpoint serial number, upper
bound, lower bound, claims (the count that is delivered is the number of
claims) and header and trailer extensions, and leave the parser at its beginning
state. -/
theorem C32_report_segment_round_trip (s : Ltp) (sessionId : session_id_t)
    (reportSegmentStruct : report_segment_t)
    (headerExtensions trailerExtensions : Option ltp_extensions_t)
    (hs : IsAtBeginningState s = true)
    (hsid : sessionId.sessionOriginatorEngineId < 2 ^ 64 ∧ sessionId.sessionNumber < 2 ^ 64)
    (hrep : reportSegmentStruct.reportSerialNumber < 2 ^ 64 ∧
      reportSegmentStruct.checkpointSerialNumber < 2 ^ 64 ∧
      reportSegmentStruct.upperBound < 2 ^ 64 ∧ reportSegmentStruct.lowerBound < 2 ^ 64)
    (hcount : 1 ≤ reportSegmentStruct.receptionClaims.length ∧
      reportSegmentStruct.receptionClaims.length < 2 ^ 31)
    (hclaims : ∀ c ∈ reportSegmentStruct.receptionClaims,
      c.offset < 2 ^ 64 ∧ 1 ≤ c.length ∧ c.length < 2 ^ 64)
    (hh : (headerExtensions.getD []).length ≤ 15 ∧
      ∀ e ∈ headerExtensions.getD [], e.valueVec.length < 2 ^ 64)
    (ht : (trailerExtensions.getD []).length ≤ 15 ∧
      ∀ e ∈ trailerExtensions.getD [], e.valueVec.length < 2 ^ 64)
    (h64 : (GenerateReportSegmentLtpPacket sessionId reportSegmentStruct headerExtensions
      trailerExtensions).length < 2 ^ 64) :
    ∃ s1, HandleReceivedChars s (GenerateReportSegmentLtpPacket sessionId reportSegmentStruct
        headerExtensions trailerExtensions) = some (true, s1) ∧
      IsAtBeginningState s1 = true ∧
      s1.callbacks = s.callbacks ++ [.ReportSegmentContentsRead sessionId
        { reportSegmentStruct with
          tmpReceptionClaimCount := reportSegmentStruct.receptionClaims.length }
        (headerExtensions.getD []) (trailerExtensions.getD [])] := by
  obtain ⟨e, n⟩ := sessionId
  obtain ⟨rsn, csn, ub, lb, tmp, claims⟩ := reportSegmentStruct
  simp only at hsid hrep hcount hclaims
  have hs' : s.m_mainRxState = .READ_HEADER ∧ s.m_headerRxState = .READ_CONTROL_BYTE := by
    simpa [IsAtBeginningState] using hs
  have hcnt := extension_counts_byte (headerExtensions.getD []).length
    (trailerExtensions.getD []).length (by omega) (by omega)
  have hgen : GenerateReportSegmentLtpPacket ⟨e, n⟩ ⟨rsn, csn, ub, lb, tmp, claims⟩
        headerExtensions trailerExtensions
      = 8 ::
          (SdnvEncodeU64ClassicBufSize10 e ++ SdnvEncodeU64ClassicBufSize10 n ++
            ([toU8 ((toU8 (headerExtensions.getD []).length <<< 4) |||
                toU8 (trailerExtensions.getD []).length)] ++
              ltp_extensions_t.Serialize (headerExtensions.getD []) ++
              ((SdnvEncodeU64ClassicBufSize10 rsn ++ SdnvEncodeU64ClassicBufSize10 csn ++
                SdnvEncodeU64ClassicBufSize10 ub ++ SdnvEncodeU64ClassicBufSize10 lb ++
                SdnvEncodeU64ClassicBufSize10 claims.length) ++
                (serializeReceptionClaims claims ++
                  ltp_extensions_t.Serialize (trailerExtensions.getD []))))) := by
    have h0 : toU8 0 = 0 := rfl
    have h8 : toU8 REPORT_SEGMENT = 8 := rfl
    cases headerExtensions <;> cases trailerExtensions <;>
      simp [GenerateReportSegmentLtpPacket, report_segment_t.Serialize,
        session_id_t.Serialize, ltp_extensions_t.Serialize, h8, h0]
  rw [hgen] at h64 ⊢
  have hF : IsSdnvs
      (SdnvEncodeU64ClassicBufSize10 rsn ++ SdnvEncodeU64ClassicBufSize10 csn ++
        SdnvEncodeU64ClassicBufSize10 ub ++ SdnvEncodeU64ClassicBufSize10 lb ++
        SdnvEncodeU64ClassicBufSize10 claims.length)
      [rsn, csn, ub, lb, claims.length] := by
    have h2 := IsSdnvs.concat _ _ _ _
      (IsSdnvs.two (IsSdnv.of_encode rsn hrep.1) (IsSdnv.of_encode csn hrep.2.1))
      (IsSdnvs.two (IsSdnv.of_encode ub hrep.2.2.1) (IsSdnv.of_encode lb hrep.2.2.2))
    have h3 := IsSdnvs.concat _ _ _ _ h2
      (IsSdnvs.single (IsSdnv.of_encode claims.length (by omega)))
    simpa only [List.append_assoc, List.cons_append, List.nil_append] using h3
  obtain ⟨s1, hcall, hbeg, hcb⟩ := report_one_call s e n _ rsn csn ub lb _ _ _ _ _ _ claims
    (headerExtensions.getD []) (trailerExtensions.getD []) hs'.1 hs'.2
    (IsSdnv.of_encode e hsid.1) (IsSdnv.of_encode n hsid.2) hcnt.1 hcnt.2
    (IsExtensions.of_Serialize _ hh.2) (IsExtensions.of_Serialize _ ht.2) hF
    (IsSdnvs.of_claims claims (fun c hc => ⟨(hclaims c hc).1, (hclaims c hc).2.2⟩))
    (by omega) hcount.2 (fun c hc => by have := (hclaims c hc).2.1; omega) h64
  exact ⟨s1, hcall, hbeg, hcb⟩

theorem C32_witness :
    ∃ s1, HandleReceivedChars InitRx (GenerateReportSegmentLtpPacket ⟨1, 2⟩
        ⟨3, 4, 300, 0, 0, [⟨0, 100⟩, ⟨200, 100⟩]⟩ (some [⟨7, [9]⟩]) (some [⟨8, []⟩]))
          = some (true, s1) ∧
      IsAtBeginningState s1 = true ∧
      s1.callbacks = InitRx.callbacks ++ [.ReportSegmentContentsRead ⟨1, 2⟩
        { (⟨3, 4, 300, 0, 0, [⟨0, 100⟩, ⟨200, 100⟩]⟩ : report_segment_t) with
          tmpReceptionClaimCount :=
            (⟨3, 4, 300, 0, 0, [⟨0, 100⟩, ⟨200, 100⟩]⟩ : report_segment_t).receptionClaims.length }
        ((some [⟨7, [9]⟩] : Option ltp_extensions_t).getD [])
        ((some [⟨8, []⟩] : Option ltp_extensions_t).getD [])] :=
  C32_report_segment_round_trip InitRx ⟨1, 2⟩ ⟨3, 4, 300, 0, 0, [⟨0, 100⟩, ⟨200, 100⟩]⟩
    (some [⟨7, [9]⟩]) (some [⟨8, []⟩]) rfl (by decide) (by decide) (by decide) (by decide)
    (by decide) (by decide) (by decide)

end Ltp

/-! ## The decoder is exact -/

theorem loop_exact (input : List Nat) :
    ∀ (iters byteCount result v n : Nat), 1 ≤ byteCount →
      SdnvDecodeU64Classic.loop input iters byteCount result = ⟨.value v, n⟩ →
      byteCount ≤ n ∧ n < byteCount + iters ∧
      (∀ i, byteCount - 1 ≤ i → i < n - 1 → input.getD i 0 &&& 0x80 ≠ 0) ∧
      input.getD (n - 1) 0 &&& 0x80 = 0 ∧ ¬ (n = 10 ∧ input.getD 0 0 > 0x81) ∧
      v = accum result
        ((List.range' (byteCount - 1) (n + 1 - byteCount)).map (fun i => input.getD i 0)) := by
  intro iters
  induction iters with
  | zero =>
    intro byteCount result v n _ h
    rw [SdnvDecodeU64Classic.loop] at h
    split at h <;> simp at h
  | succ iters ih =>
    intro byteCount result v n hbc h
    rw [SdnvDecodeU64Classic.loop] at h
    by_cases hlast : input.getD (byteCount - 1) 0 &&& 0x80 = 0
    · rw [if_pos hlast] at h
      by_cases hinv : byteCount = 10 ∧ input.getD 0 0 > 0x81
      · rw [if_pos hinv] at h
        simp at h
      · rw [if_neg hinv] at h
        simp only [SdnvDecodeResult.mk.injEq, SdnvDecodeReturn.value.injEq] at h
        obtain ⟨hv, hn⟩ := h
        subst hn
        refine ⟨le_refl _, by omega, fun i h1 h2 => by omega, hlast, hinv, ?_⟩
        rw [← hv]
        have e : byteCount + 1 - byteCount = 1 := by omega
        rw [e]
        simp [accum, Nat.shiftLeft_eq, byte_and_7f]
    · rw [if_neg hlast] at h
      obtain ⟨h1, h2, h3, h4, h5, h6⟩ := ih (byteCount + 1) _ v n (by omega) h
      refine ⟨by omega, by omega, ?_, h4, h5, ?_⟩
      · intro i hi1 hi2
        by_cases hi : i = byteCount - 1
        · subst hi
          exact hlast
        · exact h3 i (by omega) hi2
      · rw [h6]
        have e1 : n + 1 - byteCount = (n + 1 - (byteCount + 1)) + 1 := by omega
        have e2 : byteCount + 1 - 1 = byteCount - 1 + 1 := by omega
        rw [e1, List.range'_succ, e2]
        simp [accum, Nat.shiftLeft_eq, byte_and_7f]

theorem map_getD_range' (input : List Nat) : ∀ n, n ≤ input.length →
    (List.range' 0 n).map (fun i => input.getD i 0) = input.take n := by
  intro n hn
  apply List.ext_getElem
  · simp [hn]
  · intro i h1 h2
    simp only [List.length_map, List.length_range'] at h1
    simp only [List.getElem_map, List.getElem_range', Nat.zero_add, Nat.one_mul,
      List.getElem_take]
    rw [List.getD_eq_getElem _ _ (by omega)]

theorem accum_mod (bs : List Nat) : ∀ r, r < U64 →
    accum r bs = (r * 128 ^ bs.length + sdnvGroupsValue bs) % U64 := by
  induction bs with
  | nil =>
    intro r hr
    simp only [accum, List.foldl_nil, List.length_nil, pow_zero, Nat.mul_one, sdnvGroupsValue,
      Nat.add_zero]
    exact (Nat.mod_eq_of_lt hr).symm
  | cons b bs ih =>
    intro r hr
    have hstep : accum r (b :: bs) = accum ((r * 128 % U64 + b % 128) % U64) bs := rfl
    rw [hstep, ih _ (Nat.mod_lt _ (by decide))]
    simp only [sdnvGroupsValue, List.length_cons, byte_and_7f, pow_succ]
    have h1 : ((r * 128 % U64 + b % 128) % U64 * 128 ^ bs.length + sdnvGroupsValue bs) % U64
        = ((r * 128 + b % 128) * 128 ^ bs.length + sdnvGroupsValue bs) % U64 := by
      apply Nat.ModEq.add_right
      apply Nat.ModEq.mul_right
      have : (r * 128 % U64 + b % 128) % U64 = (r * 128 + b % 128) % U64 := by
        rw [Nat.add_mod, Nat.mod_mod, ← Nat.add_mod]
      rw [this]
      exact Nat.mod_modEq _ _
    rw [h1]
    congr 1
    ring

theorem sdnvGroupsValue_lt (bs : List Nat) : sdnvGroupsValue bs < 128 ^ bs.length := by
  induction bs with
  | nil => simp [sdnvGroupsValue]
  | cons b bs ih =>
    simp only [sdnvGroupsValue, List.length_cons, byte_and_7f, pow_succ]
    have hb : b % 128 ≤ 127 := by omega
    have : b % 128 * 128 ^ bs.length ≤ 127 * 128 ^ bs.length := Nat.mul_le_mul_right _ hb
    omega

theorem accum_replicate_0x80 (k : Nat) : accum 0 (List.replicate k 0x80) = 0 := by
  induction k with
  | zero => rfl
  | succ k ih =>
    rw [List.replicate_succ', accum, List.foldl_append]
    change (accum 0 (List.replicate k 0x80) * 128 % U64 + 0x80 % 128) % U64 = 0
    rw [ih]
    decide

/-- C35 (decode is exact): for every byte buffer on which `SdnvDecodeU64Classic`
succeeds with value `v` and `numBytes = n`, `n` is between 1 and 10 and at most
`bufferSize`, bytes `0 .. n-2` have the high bit set and byte `n-1` has it
clear, and `v` is the sum over `i < n` of `(byte[i] AND 0x7f) * 128^(n-1-i)`
computed over the natural numbers: the accumulation never wraps modulo `2^64`.
Non-minimal encodings with leading `0x80` bytes are accepted: up to nine bytes
`0x80` followed by a byte `b < 128` decode to `b`. -/
theorem C35_decode_is_exact (inputEncoded : List Nat) (bufferSize v n : Nat)
    (hbuf : bufferSize ≤ inputEncoded.length)
    (h : SdnvDecodeU64Classic inputEncoded bufferSize = ⟨.value v, n⟩) :
    (1 ≤ n ∧ n ≤ 10 ∧ n ≤ bufferSize) ∧
    (∀ i < n - 1, inputEncoded.getD i 0 &&& 0x80 ≠ 0) ∧
    inputEncoded.getD (n - 1) 0 &&& 0x80 = 0 ∧
    v = sdnvGroupsValue (inputEncoded.take n) ∧
    v < 2 ^ 64 ∧
    (∀ k ≤ 9, ∀ b < 128,
      SdnvDecodeU64Classic (List.replicate k 0x80 ++ [b]) (k + 1) = ⟨.value b, k + 1⟩) := by
  unfold SdnvDecodeU64Classic at h
  obtain ⟨h1, h2, h3, h4, h5, h6⟩ := loop_exact inputEncoded _ 1 0 v n (le_refl 1) h
  have hn10 : n ≤ 10 := by omega
  have hnb : n ≤ bufferSize := by omega
  simp only [Nat.sub_self, Nat.add_sub_cancel] at h6
  rw [map_getD_range' inputEncoded n (by omega), accum_mod _ 0 (by decide)] at h6
  simp only [Nat.zero_mul, Nat.zero_add] at h6
  have hlen : (inputEncoded.take n).length = n := by
    rw [List.length_take]; omega
  have hlt : sdnvGroupsValue (inputEncoded.take n) < U64 := by
    have hb := sdnvGroupsValue_lt (inputEncoded.take n)
    rw [hlen] at hb
    by_cases h10 : n = 10
    · subst h10
      have hfirst : inputEncoded.getD 0 0 ≤ 0x81 := by
        by_contra hc
        exact h5 ⟨rfl, by omega⟩
      have hhigh := h3 0 (by omega) (by omega)
      have hhigh' := high_bit_set _ hhigh
      obtain ⟨b0, tl, htl⟩ : ∃ b0 tl, inputEncoded.take 10 = b0 :: tl := by
        cases hc : inputEncoded.take 10 with
        | nil => rw [hc] at hlen; simp at hlen
        | cons b0 tl => exact ⟨b0, tl, rfl⟩
      have hb0 : b0 = inputEncoded.getD 0 0 := by
        cases hin : inputEncoded with
        | nil => rw [hin] at htl; simp at htl
        | cons a rest =>
          rw [hin] at htl
          simp only [List.take_succ_cons, List.cons.injEq] at htl
          simp [htl.1]
      have htlen : tl.length = 9 := by
        have := congrArg List.length htl
        rw [hlen] at this
        simpa using this.symm
      rw [htl]
      simp only [sdnvGroupsValue, byte_and_7f, htlen]
      have htb := sdnvGroupsValue_lt tl
      rw [htlen] at htb
      have hg : b0 % 128 ≤ 1 := by rw [hb0]; omega
      have : b0 % 128 * 128 ^ 9 ≤ 1 * 128 ^ 9 := Nat.mul_le_mul_right _ hg
      have e : U64 = 2 * 128 ^ 9 := by decide
      omega
    · have : (128 : Nat) ^ n ≤ 128 ^ 9 := Nat.pow_le_pow_right (by norm_num) (by omega)
      have e : (128 : Nat) ^ 9 < U64 := by decide
      omega
  rw [Nat.mod_eq_of_lt hlt] at h6
  refine ⟨⟨h1, hn10, hnb⟩, fun i hi => h3 i (by omega) hi, h4, h6, ?_, ?_⟩
  · rw [h6]; exact hlt
  · intro k hk b hb
    have hcont : ∀ x ∈ List.replicate k 0x80, x / 128 % 2 = 1 := by
      intro x hx
      rw [List.eq_of_mem_replicate hx]
    have hfirst : ¬ ((List.replicate k 0x80).length + 1 = 10 ∧
        (List.replicate k 0x80 ++ [b]).getD 0 0 > 0x81) := by
      rintro ⟨hk9, hgt⟩
      simp only [List.length_replicate] at hk9
      have : k = 9 := by omega
      subst this
      simp [List.replicate] at hgt
    have hsd := Ltp.IsSdnv.of_parts (List.replicate k 0x80) b hcont (by omega)
      (by simp; omega) hfirst
    have hacc : accum 0 (List.replicate k 0x80 ++ [b]) = b := by
      rw [accum, List.foldl_append]
      change (accum 0 (List.replicate k 0x80) * 128 % U64 + b % 128) % U64 = b
      rw [accum_replicate_0x80]
      simp only [Nat.zero_mul, Nat.zero_mod, Nat.zero_add, U64]
      omega
    rw [hacc] at hsd
    have := hsd.decode_single [] (k + 1) (by simp)
    simpa using this

/-- Witness of C35: the ten bytes of the encoding of `2^64 - 1`, and a decode
of two bytes in a buffer of three. -/
theorem C35_witness :
    ((1 ≤ 2 ∧ 2 ≤ 10 ∧ 2 ≤ 3) ∧
    (∀ i < 2 - 1, [0x82, 0x2c, 0x85].getD i 0 &&& 0x80 ≠ 0) ∧
    [0x82, 0x2c, 0x85].getD (2 - 1) 0 &&& 0x80 = 0 ∧
    300 = sdnvGroupsValue ([0x82, 0x2c, 0x85].take 2)) ∧
    2 ^ 64 - 1 = sdnvGroupsValue
      ([0x81, 0xff, 0xff, 0xff, 0xff, 0xff, 0xff, 0xff, 0xff, 0x7f].take 10) :=
  let h := C35_decode_is_exact [0x82, 0x2c, 0x85] 3 300 2 (by decide) (by decide)
  let g := C35_decode_is_exact [0x81, 0xff, 0xff, 0xff, 0xff, 0xff, 0xff, 0xff, 0xff, 0x7f] 10
    (2 ^ 64 - 1) 10 (by decide) (by decide)
  ⟨⟨h.1, h.2.1, h.2.2.1, h.2.2.2.1⟩, g.2.2.2.1⟩

/-! ## Serialization stays inside its buffer -/

namespace Ltp

theorem encode10_length_le (v : Nat) : (SdnvEncodeU64ClassicBufSize10 v).length ≤ 10 := by
  unfold SdnvEncodeU64ClassicBufSize10
  simp only
  repeat' split
  all_goals simp

theorem serializeReceptionClaims_length_le (claims : List reception_claim_t) :
    (serializeReceptionClaims claims).length ≤ 20 * claims.length := by
  induction claims with
  | nil => simp [serializeReceptionClaims]
  | cons c claims ih =>
    simp only [serializeReceptionClaims, reception_claim_t.Serialize, List.length_append,
      List.length_cons]
    have h1 := encode10_length_le c.offset
    have h2 := encode10_length_le c.length
    omega

theorem report_Serialize_length_le (r : report_segment_t) :
    r.Serialize.length ≤ 50 + 20 * r.receptionClaims.length := by
  simp only [report_segment_t.Serialize, List.length_append]
  have h1 := encode10_length_le r.reportSerialNumber
  have h2 := encode10_length_le r.checkpointSerialNumber
  have h3 := encode10_length_le r.upperBound
  have h4 := encode10_length_le r.lowerBound
  have h5 := encode10_length_le r.receptionClaims.length
  have h6 := serializeReceptionClaims_length_le r.receptionClaims
  omega

theorem extensions_Serialize_length_le (extensions : ltp_extensions_t) :
    (ltp_extensions_t.Serialize extensions).length
      ≤ 11 * extensions.length + (extensions.map (fun e => e.valueVec.length)).sum := by
  induction extensions with
  | nil => simp [ltp_extensions_t.Serialize]
  | cons e extensions ih =>
    simp only [ltp_extensions_t.Serialize, ltp_extension_t.Serialize, List.length_append,
      List.length_cons, List.map_cons, List.sum_cons]
    have h1 := encode10_length_le e.valueVec.length
    omega

theorem foldl_sizes (l : ltp_extensions_t) : ∀ a, a < U64 →
    l.foldl (fun maximumBytesRequired it => (maximumBytesRequired + it.valueVec.length) % U64) a
      = (a + (l.map (fun e => e.valueVec.length)).sum) % U64 := by
  induction l with
  | nil => intro a ha; simp [Nat.mod_eq_of_lt ha]
  | cons e l ih =>
    intro a ha
    simp only [List.foldl_cons, List.map_cons, List.sum_cons]
    rw [ih _ (Nat.mod_lt _ (by decide))]
    rw [Nat.add_mod, Nat.mod_mod, ← Nat.add_mod, Nat.add_assoc]

theorem extensions_GetMaximum_eq (extensions : ltp_extensions_t)
    (h : 11 * extensions.length + (extensions.map (fun e => e.valueVec.length)).sum < 2 ^ 64) :
    ltp_extensions_t.GetMaximumDataRequiredForSerialization extensions
      = 11 * extensions.length + (extensions.map (fun e => e.valueVec.length)).sum := by
  unfold ltp_extensions_t.GetMaximumDataRequiredForSerialization
  rw [foldl_sizes _ _ (Nat.mod_lt _ (by decide))]
  simp only [U64]
  omega

theorem maxBytesRequiredForExtensions_eq (extensions : Option ltp_extensions_t)
    (h : extensionsBound extensions < 2 ^ 64) :
    maxBytesRequiredForExtensions extensions = extensionsBound extensions := by
  cases extensions with
  | none => rfl
  | some e => exact extensions_GetMaximum_eq e h

theorem metadata_Serialize_length_le (m : data_segment_metadata_t) (cp rp : Nat) :
    (m.Serialize cp rp).length ≤ m.GetMaximumDataRequiredForSerialization ∧
    m.GetMaximumDataRequiredForSerialization
      = (if m.checkpointSerialNumber = true ∧ m.reportSerialNumber = true then 50 else 30) := by
  have h1 := encode10_length_le m.clientServiceId
  have h2 := encode10_length_le m.offset
  have h3 := encode10_length_le m.length
  have h4 := encode10_length_le cp
  have h5 := encode10_length_le rp
  simp only [data_segment_metadata_t.Serialize,
    data_segment_metadata_t.GetMaximumDataRequiredForSerialization, toU8, List.length_append]
  by_cases hb : m.checkpointSerialNumber = true ∧ m.reportSerialNumber = true
  · simp only [if_pos hb, List.length_append]
    exact ⟨by omega, by norm_num⟩
  · simp only [if_neg hb, List.length_nil]
    exact ⟨by omega, by norm_num⟩

theorem resizeStoreResize_fits (size : Nat) (written : List Nat) (h : written.length ≤ size) :
    resizeStoreResize size written = some written := by
  simp [resizeStoreResize, h]

theorem report_GetMaximum_eq (r : report_segment_t)
    (h : 50 + 20 * r.receptionClaims.length < 2 ^ 64) :
    r.GetMaximumDataRequiredForSerialization = 50 + 20 * r.receptionClaims.length := by
  simp only [report_segment_t.GetMaximumDataRequiredForSerialization, U64]
  omega

/-- C37 (serialization stays inside its buffer): for every report segment `r`,
`report_segment_t::Serialize` writes at most `50 + 20 * (number of claims)`
bytes, which is `r.GetMaximumDataRequiredForSerialization()`; for every
extension list, `ltp_extensions_t::Serialize` writes at most
`11 * (number of extensions) + (total value bytes)`, which is its
`GetMaximumDataRequiredForSerialization()`; for every data-segment metadata,
`Serialize` writes at most its `GetMaximumDataRequiredForSerialization()`, 30
bytes, or 50 when both serial numbers are present; hence each of the five
`Ltp::Generate...` functions stores no byte beyond the size to which it resized
its output vector, and the vector it leaves holds exactly the bytes stored, its
length being their number. The maxima are those of sizes that `uint64_t`
holds. -/
theorem C37_serialization_within_buffer :
    (∀ r : report_segment_t,
      r.Serialize.length ≤ 50 + 20 * r.receptionClaims.length ∧
      (50 + 20 * r.receptionClaims.length < 2 ^ 64 →
        r.GetMaximumDataRequiredForSerialization = 50 + 20 * r.receptionClaims.length)) ∧
    (∀ extensions : ltp_extensions_t,
      (ltp_extensions_t.Serialize extensions).length
        ≤ 11 * extensions.length + (extensions.map (fun e => e.valueVec.length)).sum ∧
      (11 * extensions.length + (extensions.map (fun e => e.valueVec.length)).sum < 2 ^ 64 →
        ltp_extensions_t.GetMaximumDataRequiredForSerialization extensions
          = 11 * extensions.length + (extensions.map (fun e => e.valueVec.length)).sum)) ∧
    (∀ (m : data_segment_metadata_t) (checkpointSerialNumberPointee reportSerialNumberPointee : Nat),
      (m.Serialize checkpointSerialNumberPointee reportSerialNumberPointee).length
        ≤ m.GetMaximumDataRequiredForSerialization ∧
      m.GetMaximumDataRequiredForSerialization
        = (if m.checkpointSerialNumber = true ∧ m.reportSerialNumber = true then 50 else 30)) ∧
    (∀ (dataSegmentTypeFlags : Nat) (sessionId : session_id_t) (m : data_segment_metadata_t)
      (checkpointSerialNumberPointee reportSerialNumberPointee : Nat)
      (headerExtensions : Option ltp_extensions_t) (numTrailerExtensions : Nat),
      22 + 50 + extensionsBound headerExtensions < 2 ^ 64 →
      (GenerateLtpHeaderPlusDataSegmentMetadata dataSegmentTypeFlags sessionId m
          checkpointSerialNumberPointee reportSerialNumberPointee headerExtensions
          numTrailerExtensions).length
        ≤ GenerateLtpHeaderPlusDataSegmentMetadata.resize m headerExtensions ∧
      resizeStoreResize (GenerateLtpHeaderPlusDataSegmentMetadata.resize m headerExtensions)
          (GenerateLtpHeaderPlusDataSegmentMetadata dataSegmentTypeFlags sessionId m
            checkpointSerialNumberPointee reportSerialNumberPointee headerExtensions
            numTrailerExtensions)
        = some (GenerateLtpHeaderPlusDataSegmentMetadata dataSegmentTypeFlags sessionId m
            checkpointSerialNumberPointee reportSerialNumberPointee headerExtensions
            numTrailerExtensions)) ∧
    (∀ (sessionId : session_id_t) (r : report_segment_t)
      (headerExtensions trailerExtensions : Option ltp_extensions_t),
      22 + (50 + 20 * r.receptionClaims.length) + extensionsBound headerExtensions
        + extensionsBound trailerExtensions < 2 ^ 64 →
      (GenerateReportSegmentLtpPacket sessionId r headerExtensions trailerExtensions).length
        ≤ GenerateReportSegmentLtpPacket.resize r headerExtensions trailerExtensions ∧
      resizeStoreResize (GenerateReportSegmentLtpPacket.resize r headerExtensions trailerExtensions)
          (GenerateReportSegmentLtpPacket sessionId r headerExtensions trailerExtensions)
        = some (GenerateReportSegmentLtpPacket sessionId r headerExtensions trailerExtensions)) ∧
    (∀ (sessionId : session_id_t) (reportSerialNumberBeingAcknowledged : Nat)
      (headerExtensions trailerExtensions : Option ltp_extensions_t),
      32 + extensionsBound headerExtensions + extensionsBound trailerExtensions < 2 ^ 64 →
      (GenerateReportAcknowledgementSegmentLtpPacket sessionId
          reportSerialNumberBeingAcknowledged headerExtensions trailerExtensions).length
        ≤ GenerateReportAcknowledgementSegmentLtpPacket.resize headerExtensions
            trailerExtensions ∧
      resizeStoreResize
          (GenerateReportAcknowledgementSegmentLtpPacket.resize headerExtensions trailerExtensions)
          (GenerateReportAcknowledgementSegmentLtpPacket sessionId
            reportSerialNumberBeingAcknowledged headerExtensions trailerExtensions)
        = some (GenerateReportAcknowledgementSegmentLtpPacket sessionId
            reportSerialNumberBeingAcknowledged headerExtensions trailerExtensions)) ∧
    (∀ (sessionId : session_id_t) (reasonCode : Nat) (isFromSender : Bool)
      (headerExtensions trailerExtensions : Option ltp_extensions_t),
      23 + extensionsBound headerExtensions + extensionsBound trailerExtensions < 2 ^ 64 →
      (GenerateCancelSegmentLtpPacket sessionId reasonCode isFromSender headerExtensions
          trailerExtensions).length
        ≤ GenerateCancelSegmentLtpPacket.resize headerExtensions trailerExtensions ∧
      resizeStoreResize (GenerateCancelSegmentLtpPacket.resize headerExtensions trailerExtensions)
          (GenerateCancelSegmentLtpPacket sessionId reasonCode isFromSender headerExtensions
            trailerExtensions)
        = some (GenerateCancelSegmentLtpPacket sessionId reasonCode isFromSender headerExtensions
            trailerExtensions)) ∧
    (∀ (sessionId : session_id_t) (isToSender : Bool)
      (headerExtensions trailerExtensions : Option ltp_extensions_t),
      22 + extensionsBound headerExtensions + extensionsBound trailerExtensions < 2 ^ 64 →
      (GenerateCancelAcknowledgementSegmentLtpPacket sessionId isToSender headerExtensions
          trailerExtensions).length
        ≤ GenerateCancelAcknowledgementSegmentLtpPacket.resize headerExtensions
            trailerExtensions ∧
      resizeStoreResize
          (GenerateCancelAcknowledgementSegmentLtpPacket.resize headerExtensions trailerExtensions)
          (GenerateCancelAcknowledgementSegmentLtpPacket sessionId isToSender headerExtensions
            trailerExtensions)
        = some (GenerateCancelAcknowledgementSegmentLtpPacket sessionId isToSender
            headerExtensions trailerExtensions)) := by
  refine ⟨fun r => ⟨report_Serialize_length_le r, report_GetMaximum_eq r⟩,
    fun e => ⟨extensions_Serialize_length_le e, extensions_GetMaximum_eq e⟩,
    fun m cp rp => metadata_Serialize_length_le m cp rp, ?_, ?_, ?_, ?_, ?_⟩
  · intro flags sid m cp rp H nt hfit
    have hle : (GenerateLtpHeaderPlusDataSegmentMetadata flags sid m cp rp H nt).length
        ≤ GenerateLtpHeaderPlusDataSegmentMetadata.resize m H := by
      have hm := metadata_Serialize_length_le m cp rp
      have h1 := encode10_length_le sid.sessionOriginatorEngineId
      have h2 := encode10_length_le sid.sessionNumber
      have hmax : m.GetMaximumDataRequiredForSerialization ≤ 50 := by
        rw [hm.2]; split <;> omega
      have hm1 := hm.1
      rw [GenerateLtpHeaderPlusDataSegmentMetadata.resize,
        maxBytesRequiredForExtensions_eq H (by omega)]
      rcases H with _ | h
      · simp only [GenerateLtpHeaderPlusDataSegmentMetadata, session_id_t.Serialize,
          List.length_append, List.length_singleton, List.length_nil, extensionsBound,
          Option.getD_none, List.map_nil, List.sum_nil, U64] at hfit ⊢
        omega
      · have hh := extensions_Serialize_length_le h
        simp only [GenerateLtpHeaderPlusDataSegmentMetadata, session_id_t.Serialize,
          List.length_append, List.length_singleton, extensionsBound,
          Option.getD_some, U64] at hfit ⊢
        omega
    exact ⟨hle, resizeStoreResize_fits _ _ hle⟩
  · intro sid r H T hfit
    have hle : (GenerateReportSegmentLtpPacket sid r H T).length
        ≤ GenerateReportSegmentLtpPacket.resize r H T := by
      have hr := report_Serialize_length_le r
      have h1 := encode10_length_le sid.sessionOriginatorEngineId
      have h2 := encode10_length_le sid.sessionNumber
      rw [GenerateReportSegmentLtpPacket.resize,
        maxBytesRequiredForExtensions_eq H (by omega),
        maxBytesRequiredForExtensions_eq T (by omega), report_GetMaximum_eq r (by omega)]
      rcases H with _ | h <;> rcases T with _ | t <;>
        simp only [GenerateReportSegmentLtpPacket, session_id_t.Serialize, List.length_append, List.length_singleton,
          List.length_nil, extensionsBound, Option.getD_none, Option.getD_some, List.map_nil,
          List.sum_nil, U64] at hfit ⊢ <;>
        first
          | omega
          | (have ht := extensions_Serialize_length_le t; omega)
          | (have hh := extensions_Serialize_length_le h; omega)
          | (have hh := extensions_Serialize_length_le h
             have ht := extensions_Serialize_length_le t
             omega)
    exact ⟨hle, resizeStoreResize_fits _ _ hle⟩
  · intro sid rsn H T hfit
    have hle : (GenerateReportAcknowledgementSegmentLtpPacket sid rsn H T).length
        ≤ GenerateReportAcknowledgementSegmentLtpPacket.resize H T := by
      have h1 := encode10_length_le sid.sessionOriginatorEngineId
      have h2 := encode10_length_le sid.sessionNumber
      have h3 := encode10_length_le rsn
      rw [GenerateReportAcknowledgementSegmentLtpPacket.resize,
        maxBytesRequiredForExtensions_eq H (by omega),
        maxBytesRequiredForExtensions_eq T (by omega)]
      rcases H with _ | h <;> rcases T with _ | t <;>
        simp only [GenerateReportAcknowledgementSegmentLtpPacket, List.length_append, List.length_singleton,
          List.length_nil, extensionsBound, Option.getD_none, Option.getD_some, List.map_nil,
          List.sum_nil, U64] at hfit ⊢ <;>
        first
          | omega
          | (have ht := extensions_Serialize_length_le t; omega)
          | (have hh := extensions_Serialize_length_le h; omega)
          | (have hh := extensions_Serialize_length_le h
             have ht := extensions_Serialize_length_le t
             omega)
    exact ⟨hle, resizeStoreResize_fits _ _ hle⟩
  · intro sid reason isFromSender H T hfit
    have hle : (GenerateCancelSegmentLtpPacket sid reason isFromSender H T).length
        ≤ GenerateCancelSegmentLtpPacket.resize H T := by
      have h1 := encode10_length_le sid.sessionOriginatorEngineId
      have h2 := encode10_length_le sid.sessionNumber
      rw [GenerateCancelSegmentLtpPacket.resize,
        maxBytesRequiredForExtensions_eq H (by omega),
        maxBytesRequiredForExtensions_eq T (by omega)]
      rcases H with _ | h <;> rcases T with _ | t <;>
        simp only [GenerateCancelSegmentLtpPacket, List.length_append, List.length_singleton,
          List.length_nil, extensionsBound, Option.getD_none, Option.getD_some, List.map_nil,
          List.sum_nil, U64] at hfit ⊢ <;>
        first
          | omega
          | (have ht := extensions_Serialize_length_le t; omega)
          | (have hh := extensions_Serialize_length_le h; omega)
          | (have hh := extensions_Serialize_length_le h
             have ht := extensions_Serialize_length_le t
             omega)
    exact ⟨hle, resizeStoreResize_fits _ _ hle⟩
  · intro sid isToSender H T hfit
    have hle : (GenerateCancelAcknowledgementSegmentLtpPacket sid isToSender H T).length
        ≤ GenerateCancelAcknowledgementSegmentLtpPacket.resize H T := by
      have h1 := encode10_length_le sid.sessionOriginatorEngineId
      have h2 := encode10_length_le sid.sessionNumber
      rw [GenerateCancelAcknowledgementSegmentLtpPacket.resize,
        maxBytesRequiredForExtensions_eq H (by omega),
        maxBytesRequiredForExtensions_eq T (by omega)]
      rcases H with _ | h <;> rcases T with _ | t <;>
        simp only [GenerateCancelAcknowledgementSegmentLtpPacket, List.length_append, List.length_singleton,
          List.length_nil, extensionsBound, Option.getD_none, Option.getD_some, List.map_nil,
          List.sum_nil, U64] at hfit ⊢ <;>
        first
          | omega
          | (have ht := extensions_Serialize_length_le t; omega)
          | (have hh := extensions_Serialize_length_le h; omega)
          | (have hh := extensions_Serialize_length_le h
             have ht := extensions_Serialize_length_le t
             omega)
    exact ⟨hle, resizeStoreResize_fits _ _ hle⟩

end Ltp

end HDTN
